import Mathlib

/-!
# bcli: a shallow embedding of the parameter / parsing engine

The development follows `include/bcli/bcli.hpp`.

Modelling conventions

* `std::string` is a list of characters (`Str`).
* Every object held through a `std::shared_ptr` (`Param`, `ParamGroup`,
  `Command`) lives in a store of the parser state and is addressed by a
  natural-number handle; the stores are total maps, a handle that was never
  allocated reads a default-constructed object.
* A C++ function that mutates its object and may throw returns the pair
  `(Except BCliError result, new state)`: the state component is the state at
  the moment of the `throw` when the first component is an error.
* `std::function` callbacks supplied by the user (checkers, setters, trigger
  callbacks) are values of the state.  A checker returns its tuple or throws
  (the library's own `check::f::range` throws through `throw_if_false`); a
  setter or a trigger callback returns normally or throws.  A setter may
  write into a variable of the caller that it has captured by reference: the
  content of that variable is kept in a field next to the setter, and so are
  the arguments the setter has been invoked with.
* `std::unordered_map<std::string, T>` is an association list in which
  `insert` never replaces an existing key.
-/

namespace bc

/-- Model of `std::string`. -/
abbrev Str := List Char

/-! ## Exceptions -/

namespace ex

/-- Exit codes carried by every error (`enum ExitCodes`). -/
inductive ExitCodes where
  | Sucess
  | Failure
  | ImplError
  | UsageError
  | UnknownError
  deriving DecidableEq, Repr, Inhabited

/-- Base error class `BCliError`: category name, message, exit code. -/
structure BCliError where
  name : Str
  msg : Str
  code : ExitCodes
  deriving DecidableEq, Repr, Inhabited

def InvalidParamError (msg : Str) : BCliError :=
  ⟨"InvalidParamError".toList, msg, ExitCodes.ImplError⟩

def UnknownParamError (msg : Str) : BCliError :=
  ⟨"UnknownParamError".toList, msg, ExitCodes.ImplError⟩

def UnknownGroupError (msg : Str) : BCliError :=
  ⟨"UnknownGroupError".toList, msg, ExitCodes.ImplError⟩

def CmdModeError (msg : Str) : BCliError :=
  ⟨"CmdModeError".toList, msg, ExitCodes.ImplError⟩

def AlreadyExistsError (msg : Str) : BCliError :=
  ⟨"AlreadyExistsError".toList, msg, ExitCodes.ImplError⟩

def FileNotFoundError (msg : Str) : BCliError :=
  ⟨"FileNotFoundError".toList, msg, ExitCodes.UsageError⟩

def DirNotFoundError (msg : Str) : BCliError :=
  ⟨"DirNotFoundError".toList, msg, ExitCodes.UsageError⟩

def CheckFailedError (msg : Str) : BCliError :=
  ⟨"CheckFailedError".toList, msg, ExitCodes.UsageError⟩

def MissingValueError (msg : Str) : BCliError :=
  ⟨"MissingValueError".toList, msg, ExitCodes.UsageError⟩

def UnknownCmdError (msg : Str) : BCliError :=
  ⟨"UnknownCmdError".toList, msg, ExitCodes.UsageError⟩

def RequiredParamError (msg : Str) : BCliError :=
  ⟨"RequiredParamError".toList, msg, ExitCodes.UsageError⟩

def IncompatibleError (msg : Str) : BCliError :=
  ⟨"IncompatibleError".toList, msg, ExitCodes.UsageError⟩

def BannedError (msg : Str) : BCliError :=
  ⟨"BannedError".toList, msg, ExitCodes.UsageError⟩

def DependsError (msg : Str) : BCliError :=
  ⟨"DependsError".toList, msg, ExitCodes.UsageError⟩

def PositionalsError (msg : Str) : BCliError :=
  ⟨"PositionalsError".toList, msg, ExitCodes.UsageError⟩

def LexicalCastError (msg : Str) : BCliError :=
  ⟨"LexicalCastError".toList, msg, ExitCodes.Failure⟩

/-- The error thrown by `parse` after help / version has been shown and by
`ExHandler::check`: `BCliError("", "", Failure)`. -/
def silentFailure : BCliError := ⟨[], [], ExitCodes.Failure⟩

/-- State of the process-wide singleton `ExHandler`: the queue
`m_exceptions` of declaration-time errors. -/
abbrev ExHandler := List BCliError

/-- `ExHandler::push`. -/
def ExHandler.push (h : ExHandler) (e : BCliError) : ExHandler := h ++ [e]

/-- `ExHandler::check`: throws `BCliError("", "", Failure)` when the queue is
not empty (after printing every queued error); the queue itself is left as
it is. -/
def ExHandler.check (h : ExHandler) : Except BCliError Unit :=
  if !h.isEmpty then .error silentFailure else .ok ()

/-- `ExHandler::clear`. -/
def ExHandler.clear (_h : ExHandler) : ExHandler := []

/-- `ExHandler::throw_last`: removes the last queued error and throws it;
does nothing on an empty queue. -/
def ExHandler.throw_last (h : ExHandler) : Except BCliError Unit × ExHandler :=
  match h.getLast? with
  | some e => (.error e, h.dropLast)
  | none => (.ok (), h)

end ex

open ex

/-! ## Utilities -/

namespace utils

/-- `startswith(s, p)`. -/
def startswith : Str → Str → Bool
  | _, [] => true
  | [], _ :: _ => false
  | c :: s, d :: p => c == d && startswith s p

/-- `endswith(s, p)`: `std::equal` over the reversed ranges. -/
def endswith (s p : Str) : Bool := startswith s.reverse p.reverse

/-- `ltrim(s, v)`: drop the leading characters that belong to `v`
(`find_first_not_of` then `substr`). -/
def ltrim : Str → Str → Str
  | [], _ => []
  | c :: s, v => if v.contains c then ltrim s v else c :: s

/-- `split2(s)`: the two halves of a string (of even length). -/
def split2 (s : Str) : Str × Str := (s.take (s.length / 2), s.drop (s.length / 2))

/-- `wrap(s, bounds)`. -/
def wrap (s bounds : Str) : Str := (split2 bounds).1 ++ s ++ (split2 bounds).2

/-- Stands for the `std::out_of_range` that `std::string::substr` throws when
the position is past the end of the string; it is not a `BCliError`. -/
def substr_out_of_range : BCliError :=
  ⟨"std::out_of_range".toList, "basic_string::substr".toList, ExitCodes.UnknownError⟩

/-- `s.substr(pos, n)`: throws when `pos > s.size()`, and otherwise gives at
most `n` characters from position `pos`. -/
def substr (s : Str) (pos n : Nat) : Except BCliError Str :=
  if pos > s.length then .error substr_out_of_range else .ok ((s.drop pos).take n)

/-- The difference `a - b` of two `size_t` values (64 bits): it wraps around
when `b` exceeds `a`. -/
def size_t_sub (a b : Nat) : Nat :=
  if b ≤ a then a - b else (a + 2 ^ 64 - b % 2 ^ 64) % 2 ^ 64

/-- `unwrap(s, size)`: `s.substr(size, s.size() - 2*size)`. -/
def unwrap (s : Str) (size : Nat) : Except BCliError Str :=
  substr s size (size_t_sub s.length (2 * size))

/-- The number of bytes of a string (UTF-8), which is what `size()` counts:
the default flag symbol of the configuration takes three bytes. -/
def size (s : Str) : Nat := (s.map Char.utf8Size).sum

/-- Conversion of a `size_t` value to `int` (32 bits, two's complement). -/
def int_of_size_t (n : Nat) : Int :=
  if n % 2 ^ 32 < 2 ^ 31 then ((n % 2 ^ 32 : Nat) : Int)
  else ((n % 2 ^ 32 : Nat) : Int) - 2 ^ 32

/-- Stands for the `std::length_error` that the constructor
`std::string(n, c)` throws when `n` exceeds `max_size()`; it is not a
`BCliError`. -/
def sp_length_error : BCliError :=
  ⟨"std::length_error".toList, "basic_string::_M_create".toList, ExitCodes.UnknownError⟩

/-- `sp(n)`: `std::string(n, ' ')`.  The constructor takes a `size_t`: a
negative `n` is converted to a count above `max_size()`, and the constructor
throws. -/
def sp (n : Int) : Except BCliError Str :=
  if n < 0 then .error sp_length_error else .ok (List.replicate n.toNat ' ')

/-- Loop of `split`: `cur` holds, reversed, the characters `std::getline` has
extracted for the field being read.  At the end of the stream a field is
produced only when at least one character was extracted. -/
def splitLoop (delim : Char) : Str → Str → List Str
  | [], cur => if cur.isEmpty then [] else [cur.reverse]
  | c :: s, cur =>
    if c = delim then cur.reverse :: splitLoop delim s []
    else splitLoop delim s (c :: cur)

/-- `split(s, delim)` (identity formatter). -/
def split (s : Str) (delim : Char) : List Str := splitLoop delim s []

/-- `join(v, delim)` (identity formatter): the delimiter follows every
element but the last. -/
def join : List Str → Str → Str
  | [], _ => []
  | [x], _ => x
  | x :: y :: r, delim => x ++ delim ++ join (y :: r) delim

/-- `is_long_param(p)`: `p.rfind("--", 0) == 0`. -/
def is_long_param (p : Str) : Bool := startswith p "--".toList

/-- `is_short_param(p)`. -/
def is_short_param (p : Str) : Bool :=
  if is_long_param p then false else startswith p "-".toList

/-- `is_param(p)`. -/
def is_param (p : Str) : Bool := is_short_param p || is_long_param p

/-- `trim_param(p)`: `ltrim(p, "-")`. -/
def trim_param (p : Str) : Str := ltrim p "-".toList

/-- `format_error(p, v, m)`. -/
def format_error (p v m : Str) : Str :=
  "[".toList ++ p ++ " ".toList ++ v ++ "]".toList ++ " ~ ".toList ++ m

end utils

/-! ## Checkers, callbacks, configuration -/

namespace check

/-- `checker_ret_t`. -/
abbrev checker_ret_t := Bool × Str

/-- `checker_fn_t`: takes an identifier and a value, returns its tuple or
throws. -/
abbrev checker_fn_t := Str → Str → Except BCliError checker_ret_t

/-- `throw_if_false`. -/
def throw_if_false (rc : checker_ret_t) : Except BCliError Unit :=
  if !rc.1 then .error (CheckFailedError rc.2) else .ok ()

/-- `always_true`. -/
def always_true : checker_fn_t := fun _ _ => .ok (true, "A true checker.".toList)

/-- The loop of `is_number` over the characters of the value: `is` after the
loop, `neg` being the flag of the same name. -/
def is_number_loop : Bool → Str → Bool
  | _, [] => true
  | neg, c :: v =>
    if !neg && c == '-' then is_number_loop true v
    else if !c.isDigit && c != '.' then false
    else is_number_loop neg v

/-- `is_number`. -/
def is_number : checker_fn_t := fun p v =>
  .ok (if v.isEmpty then false else is_number_loop false v,
    utils.format_error p v "Not a number!".toList)

/-- Stands for the `std::invalid_argument` that `std::stoi` throws when no
conversion can be performed; it is not a `BCliError`. -/
def stoi_invalid_argument : BCliError :=
  ⟨"std::invalid_argument".toList, "stoi".toList, ExitCodes.UnknownError⟩

/-- Stands for the `std::out_of_range` that `std::stoi` throws when the
converted value does not fit an `int`; it is not a `BCliError`. -/
def stoi_out_of_range : BCliError :=
  ⟨"std::out_of_range".toList, "stoi".toList, ExitCodes.UnknownError⟩

/-- `isspace` in the "C" locale: the space and the control characters 9
to 13. -/
def isspace (c : Char) : Bool :=
  c.toNat = 32 || (9 ≤ c.toNat && c.toNat ≤ 13)

/-- `std::stoi(v)` (base 10, 32-bit `int`): leading white space is skipped,
then an optional sign and the longest run of decimal digits are read; what
follows the digits is ignored. -/
def stoi (v : Str) : Except BCliError Int :=
  let s := v.dropWhile isspace
  let signed : Bool × Str :=
    match s with
    | '-' :: r => (true, r)
    | '+' :: r => (false, r)
    | _ => (false, s)
  let ds := signed.2.takeWhile Char.isDigit
  if ds.isEmpty then .error stoi_invalid_argument
  else
    let n : Nat := ds.foldl (fun a c => 10 * a + (c.toNat - 48)) 0
    let val : Int := if signed.1 then -(n : Int) else (n : Int)
    if val < -2147483648 ∨ 2147483647 < val then .error stoi_out_of_range else .ok val

/-- `std::to_string` on an `int`. -/
def int_to_string (n : Int) : Str := (toString n).toList

namespace f

/-- The factory `check::f::range<int>(start, end)`; `last` is the parameter
`end` of the source. -/
def range (start last : Int) : checker_fn_t := fun p v =>
  match is_number p v with
  | .error e => .error e
  | .ok rc =>
    match throw_if_false rc with
    | .error e => .error e
    | .ok () =>
      match stoi v with
      | .error e => .error e
      | .ok value =>
        .ok (decide (value ≥ start) && decide (value ≤ last),
          utils.format_error p v
            ("Not in range [".toList ++ int_to_string start ++ ",".toList ++
              int_to_string last ++ "].".toList))

end f

end check

namespace config

/-- The configuration singleton `Config` with its default member values. -/
structure Config where
  m_help : Bool := true
  m_verbose : Bool := true
  m_debug : Bool := true
  m_version : Bool := true
  m_default_grp : Str := "global".toList
  m_flag_symbol : Str := "⚑".toList
  m_default_meta : Str := "?".toList

/-- `Config::has_common`. -/
def Config.has_common (c : Config) : Bool :=
  c.m_help || c.m_verbose || c.m_debug || c.m_version

end config

/-- The sentinel value of a flag that has been set. -/
def FLAG_VALUE : Str := "BCLI_FSET".toList

/-- `enum Action`. -/
inductive Action where
  | Nothing
  | ShowHelp
  | ShowVersion
  deriving DecidableEq, Repr, Inhabited

/-! ## Param -/

namespace param

open check

/-- `setter_fn_t`, a `std::function<void(const std::string&)>`.  A call
returns normally or throws (`call`).  The function object may have captured
by reference an `int` variable of the caller, as the one `get_setter<int>`
returns has: `store var in` is the content of that variable after the call
with the argument `in`, `var` being its content before the call.  A function
object that writes to no such variable leaves it as it is. -/
structure setter_fn_t where
  call : Str → Except BCliError Unit
  store : Int → Str → Int := fun var _ => var

instance : CoeFun setter_fn_t (fun _ => Str → Except BCliError Unit) := ⟨setter_fn_t.call⟩

/-- `callback_fn_t`: returns normally or throws. -/
abbrev callback_fn_t := Unit → Except BCliError Unit

/-- `help_fn_t`. -/
abbrev help_fn_t := Unit → Str

/-- A dependency / ban rule `std::tuple<checker_fn_t, param_t, checker_fn_t>`:
self checker, handle of the other parameter, optional checker of the other
parameter (an empty `std::function` is `none`). -/
abbrev rule_t := checker_fn_t × Nat × Option checker_fn_t

/-- `utils::lexical_cast<int>(src)` on a string (mode `from_str`): the
extraction `ss >> ret` skips leading white space and reads an optional sign
and the longest run of decimal digits, as `std::stoi` does; it fails, and
`LexicalCastError` is thrown, when there is no digit or the value does not
fit an `int`.  The name `typeid(int).name()` is taken to be "i". -/
def lexical_cast_int (src : Str) : Except BCliError Int :=
  match check.stoi src with
  | .ok n => .ok n
  | .error _ =>
    .error (LexicalCastError
      ("Unable to cast \"".toList ++ src ++ "\" to ".toList ++ "i".toList))

/-- `get_setter<int>(var)`: the function object captures `var` by reference,
and its body is the assignment `var = utils::lexical_cast<int>(in)`.  The
cast throws before the assignment when it fails, which leaves `var` as it
is; otherwise `var` receives the integer the argument casts to. -/
def get_setter_int : setter_fn_t where
  call := fun s =>
    match lexical_cast_int s with
    | .ok _ => .ok ()
    | .error e => .error e
  store := fun var s =>
    match lexical_cast_int s with
    | .ok n => n
    | .error _ => var

/-- Class `Param`.  The members are those of the source, with their default
member initialisers; `m_meta` is initialised from the configuration by the
constructor.  `setter_trace`, `setter_var` and `callback_trace` are not
members of the source: they record the arguments `c_setter` has been called
with, in order, the content of the `int` variable of the caller that
`c_setter` has captured by reference (of no use when it has captured none),
and the number of calls of `c_callback`. -/
structure Param where
  m_raw_name : Str := []
  m_str_value : Str := []
  m_help : Str := []
  m_default : Str := []
  m_short : Str := []
  m_long : Str := []
  m_meta : Str := []
  m_action : Action := Action.Nothing
  m_depends_on : List rule_t := []
  m_banned : List rule_t := []
  m_has_default : Bool := false
  m_has_valid_value : Bool := false
  m_has_pname : Bool := false
  m_is_set : Bool := false
  m_is_flag : Bool := false
  m_as_default : Bool := false
  m_hidden : Bool := false
  c_setter : Option setter_fn_t := none
  c_checker : Option checker_fn_t := none
  c_checkers : List checker_fn_t := []
  c_callback : Option callback_fn_t := none
  m_callback_trigger : Bool := false
  setter_trace : List Str := []
  callback_trace : Nat := 0
  setter_var : Int := 0

instance : Inhabited Param := ⟨{}⟩

namespace Param

/-- `Param::idx`. -/
def idx (p : Param) : Str × Str := (p.m_short, p.m_long)

/-- `Param::raw`. -/
def raw (p : Param) : Str := p.m_raw_name

/-- `Param::def`. -/
def «def» (p : Param) (default_value : Str) : Param :=
  { p with m_default := default_value, m_str_value := default_value, m_has_default := true }

/-- `Param::checker`. -/
def checker (p : Param) (checker_callback : checker_fn_t) (exh : ExHandler) :
    Param × ExHandler :=
  let exh1 :=
    if p.m_is_flag then
      exh.push (IncompatibleError
        (utils.wrap p.m_raw_name "[]".toList ++ "~ A flag cannot have a checker.".toList))
    else exh
  ({ p with c_checkers := p.c_checkers ++ [checker_callback] }, exh1)

/-- `Param::setter_c` (and the `setter_fn_t` specialisation of `setter`). -/
def setter_c (p : Param) (setter_callback : setter_fn_t) : Param :=
  { p with c_setter := some setter_callback }

/-- `Param::callback`. -/
def callback (p : Param) (cb : callback_fn_t) : Param :=
  { p with c_callback := some cb, m_callback_trigger := true }

/-- `Param::depends_on`. -/
def depends_on (p : Param) (checker : checker_fn_t) (d : Nat)
    (pchecker : Option checker_fn_t) : Param :=
  { p with m_depends_on := p.m_depends_on ++ [(checker, d, pchecker)] }

/-- `Param::banned`. -/
def banned (p : Param) (checker : checker_fn_t) (d : Nat)
    (pchecker : Option checker_fn_t) : Param :=
  { p with m_banned := p.m_banned ++ [(checker, d, pchecker)] }

/-- `Param::as_flag`.  The test is on the member `c_checker`. -/
def as_flag (p : Param) (exh : ExHandler) : Param × ExHandler :=
  let exh1 :=
    if p.c_checker.isSome then
      exh.push (IncompatibleError
        (utils.wrap p.m_raw_name "[]".toList ++
          "~ A param with checker cannot be a flag.".toList))
    else exh
  ({ p with m_is_flag := true, m_has_default := true }, exh1)

/-- `Param::meta`. -/
def «meta» (p : Param) (m : Str) : Param := { p with m_meta := m }

/-- `Param::action`. -/
def action (p : Param) (a : Action) : Param := { p with m_action := a }

/-- `Param::hide`. -/
def hide (p : Param) : Param := { p with m_hidden := true }

/-- `Param::value`. -/
def value (p : Param) : Str := p.m_str_value

/-- `Param::get_def`. -/
def get_def (p : Param) : Str := p.m_default

/-- `Param::is_set`. -/
def is_set (p : Param) : Bool := p.m_is_set

/-- `Param::as<bool>`: the branch `std::is_same_v<T, bool>` returns
`m_is_set`. -/
def as_bool (p : Param) : Bool := p.m_is_set

/-- `Param::get_dependency`. -/
def get_dependency (p : Param) : List rule_t := p.m_depends_on

/-- `Param::get_banned`. -/
def get_banned (p : Param) : List rule_t := p.m_banned

/-- `Param::is_required`. -/
def is_required (p : Param) : Bool := !p.m_has_default

/-- `Param::set`. -/
def set (p : Param) : Param := { p with m_is_set := true, m_str_value := FLAG_VALUE }

/-- `Param::get_action`. -/
def get_action (p : Param) : Action := p.m_action

/-- `Param::is_flag`. -/
def is_flag (p : Param) : Bool := p.m_is_flag

/-- `Param::sp`: the short name after one dash, empty without a short name. -/
def sp (p : Param) : Str := if p.m_short.isEmpty then p.m_short else "-".toList ++ p.m_short

/-- `Param::lp`: the long name after two dashes, empty without a long name. -/
def lp (p : Param) : Str := if p.m_long.isEmpty then p.m_long else "--".toList ++ p.m_long

/-- `Param::hidden`. -/
def hidden (p : Param) : Bool := p.m_hidden

/-- Body of the constructor loop over `split(name, '/')`. -/
def ctorLoop (name : Str) : List Str → Param → ExHandler → Param × ExHandler
  | [], p, exh => (p, exh)
  | v :: vs, p, exh =>
    if utils.is_short_param v then
      ctorLoop name vs { p with m_short := utils.trim_param v, m_has_pname := true } exh
    else if utils.is_long_param v then
      ctorLoop name vs { p with m_long := utils.trim_param v, m_has_pname := true } exh
    else
      ctorLoop name vs { p with m_has_pname := true }
        (exh.push (InvalidParamError
          (name ++ " -> ".toList ++ utils.wrap v ['"', '"'] ++
            " is neither a valid short nor a valid long param".toList)))

/-- Constructor `Param(name, help, setter, checker)`. -/
def ctor (conf : config.Config) (name help : Str) (setter : Option setter_fn_t)
    (checker : Option checker_fn_t) (exh : ExHandler) : Param × ExHandler :=
  let p0 : Param :=
    { m_raw_name := name, m_help := help, c_setter := setter, m_meta := conf.m_default_meta }
  let r := ctorLoop name (utils.split name '/') p0 exh
  match checker with
  | some c => ({ r.1 with c_checkers := r.1.c_checkers ++ [c] }, r.2)
  | none => r

/-- The loop over `c_checkers` in `process`: the first checker that returns
false throws `CheckFailedError` with its message. -/
def run_checkers (raw value : Str) : List checker_fn_t → Except BCliError Unit
  | [] => .ok ()
  | cc :: rest =>
    match cc raw value with
    | .error e => .error e
    | .ok (res, msg) =>
      if !res then .error (CheckFailedError msg) else run_checkers raw value rest

/-- Last statement of `process`: the trigger callback. -/
def fire_callback (p : Param) : Except BCliError Unit × Param :=
  match p.c_callback with
  | some cb =>
    if p.m_callback_trigger && !p.m_as_default then
      (cb (), { p with callback_trace := p.callback_trace + 1 })
    else (.ok (), p)
  | none => (.ok (), p)

/-- `Param::process`. -/
def process (p : Param) (value : Str) : Except BCliError Unit × Param :=
  let p1 := { p with m_str_value := value }
  match (if !p1.c_checkers.isEmpty then
           run_checkers p1.m_raw_name p1.m_str_value p1.c_checkers else .ok ()) with
  | .error e => (.error e, p1)
  | .ok () =>
    let p2 := if !p1.c_checkers.isEmpty then { p1 with m_has_valid_value := true } else p1
    let p3 := { p2 with m_is_set := true }
    match p3.c_setter with
    | some f =>
      let p4 := { p3 with setter_trace := p3.setter_trace ++ [value],
                          setter_var := f.store p3.setter_var value }
      match f value with
      | .error e => (.error e, p4)
      | .ok () => fire_callback p4
    | none => fire_callback p3

/-- `Param::process_def`. -/
def process_def (p : Param) : Except BCliError Unit × Param :=
  let p1 := { p with m_as_default := true }
  process p1 p1.m_str_value

end Param

/-- `param::make`. -/
def make (conf : config.Config) (name help : Str) (setter : Option setter_fn_t)
    (checker : Option checker_fn_t) (exh : ExHandler) : Param × ExHandler :=
  Param.ctor conf name help setter checker exh

end param

/-! ## Maps -/

/-- Model of `std::unordered_map<std::string, T>`. -/
abbrev UMap (α : Type) := List (Str × α)

namespace UMap

/-- `count(k)`: 1 when the key is present, 0 otherwise. -/
def count {α : Type} (m : UMap α) (k : Str) : Nat :=
  if m.any (fun e => e.1 == k) then 1 else 0

/-- `find(k)` / `at(k)`: the mapped value of a present key, `none` exactly
when `count(k) == 0`. -/
def find {α : Type} : UMap α → Str → Option α
  | [], _ => none
  | e :: m, k => if e.1 == k then some e.2 else find m k

/-- `insert({k, v})`: no effect when the key is already present. -/
def insert {α : Type} (m : UMap α) (k : Str) (v : α) : UMap α :=
  if count m k > 0 then m else m ++ [(k, v)]

end UMap

/-! ## ParamGroup -/

namespace param

/-- Class `ParamGroup`; `m_params` and `m_order` hold handles of `Param`
objects. -/
structure ParamGroup where
  m_name : Str := []
  m_desc : Str := []
  m_params : UMap Nat := []
  m_order : List Nat := []
  m_nbp : Nat := 0

instance : Inhabited ParamGroup := ⟨{}⟩

namespace ParamGroup

/-- `ParamGroup::exists`. -/
def «exists» (g : ParamGroup) (pname : Str) : Bool :=
  UMap.count g.m_params (utils.trim_param pname) > 0

/-- `ParamGroup::get`. -/
def get (g : ParamGroup) (pname : Str) : Except BCliError Nat :=
  match UMap.find g.m_params pname with
  | some h => .ok h
  | none => .error (UnknownParamError (pname ++ "doesn't exist in group ".toList ++ g.m_name))

/-- `ParamGroup::name`. -/
def name (g : ParamGroup) : Str := g.m_name

/-- `ParamGroup::empty`. -/
def empty (g : ParamGroup) : Bool := g.m_order.length == 0

/-- `ParamGroup::already_exists`, for the parameter `p`. -/
def already_exists (g : ParamGroup) (p : Param) (sp lp : Str) (exh : ExHandler) :
    ExHandler :=
  if UMap.count g.m_params sp > 0 || UMap.count g.m_params lp > 0 then
    exh.push (AlreadyExistsError (p.raw ++ " already exists in group ".toList ++ g.m_name))
  else exh

/-- `ParamGroup::add`: `h` is the handle of the parameter, `p` the object
it designates. -/
def add (g : ParamGroup) (h : Nat) (p : Param) (exh : ExHandler) :
    ParamGroup × ExHandler :=
  let sp := p.idx.1
  let lp := p.idx.2
  let exh1 := already_exists g p sp lp exh
  let g1 := if !sp.isEmpty then { g with m_params := UMap.insert g.m_params sp h } else g
  let g2 := if !lp.isEmpty then { g1 with m_params := UMap.insert g1.m_params lp h } else g1
  ({ g2 with m_nbp := g2.m_nbp + 1, m_order := g2.m_order ++ [h] }, exh1)

/-- `ParamGroup::padding`: the sizes of the longest short form and of the
longest long form among the parameters of the group, hidden ones included.
The caller receives them as `int`, which leaves a size below `2^31` as it
is. -/
def padding (g : ParamGroup) (params : Nat → Param) : Nat × Nat :=
  g.m_order.foldl
    (fun (m : Nat × Nat) h =>
      (if utils.size (params h).sp < m.1 then m.1 else utils.size (params h).sp,
       if utils.size (params h).lp < m.2 then m.2 else utils.size (params h).lp))
    (0, 0)

/-- Loop of `ParamGroup::get_help` over `m_order`, as far as it returns or
throws.  A hidden parameter is skipped.  For a parameter without long name
the second column is the padding `utils::sp(maxl - fl.size())`, where `fl`
is a space and the flag symbol for a flag and is empty otherwise: the
difference is computed in `size_t`, where it wraps around when `maxl` is
the smaller, and passed as an `int`.  The other paddings of a line,
`utils::sp(4)` and `utils::sp(maxs)`, are built from a count that is not
negative and return. -/
def get_helpLoop (params : Nat → Param) (fsymb : Str) (maxl : Nat) :
    List Nat → Except BCliError Unit
  | [] => .ok ()
  | h :: rest =>
    if (params h).hidden then get_helpLoop params fsymb maxl rest
    else
      let fl : Str := if (params h).is_flag then " ".toList ++ fsymb else []
      if !(params h).lp.isEmpty then get_helpLoop params fsymb maxl rest
      else
        match utils.sp (utils.int_of_size_t (utils.size_t_sub maxl (utils.size fl))) with
        | .error e => .error e
        | .ok _ => get_helpLoop params fsymb maxl rest

/-- `ParamGroup::get_help`, as far as it returns or throws (the text of the
help is not modelled): the function builds one line for each parameter of
`m_order` that is not hidden, and throws what `utils::sp` throws. -/
def get_help (g : ParamGroup) (params : Nat → Param) (fsymb : Str) : Except BCliError Unit :=
  get_helpLoop params fsymb (g.padding params).2 g.m_order

end ParamGroup

/-- `param::make_group`. -/
def make_group (name desc : Str) : ParamGroup := { m_name := name, m_desc := desc }

/-! ## Command -/

/-- Class `Command`; `m_groups`, `m_order` and `m_current_group` hold handles
of `ParamGroup` objects (`m_current_group` is null until the first `add`).
The member `m_def_group`, an extra group object no function reads, is left
out.  `psetter_trace` and `psetter_var` are not members of the source: they
record the arguments `c_psetter` has been called with and the content of the
`int` variable of the caller that `c_psetter` has captured by reference (of
no use when it has captured none). -/
structure Command where
  m_name : Str := []
  m_desc : Str := []
  m_help : Option help_fn_t := none
  m_current_group : Option Nat := none
  m_def_use : Bool := false
  m_nb_pos : Nat := 0
  m_groups : UMap Nat := []
  m_order : List Nat := []
  m_positionals : List Str := []
  m_help_pos : Str := []
  m_usage_pos : Str := []
  m_e_pos : Nat := 0
  m_l_pos : Nat := 0
  m_u_pos : Nat := 0
  m_checkp : Bool := false
  m_bmode : Bool := false
  c_pchecker : Option check.checker_fn_t := none
  c_psetter : Option setter_fn_t := none
  psetter_trace : List Str := []
  psetter_var : Int := 0

instance : Inhabited Command := ⟨{}⟩

/-- `std::to_string` on an unsigned integer. -/
def to_string (n : Nat) : Str := (Nat.repr n).toList

namespace Command

/-- `Command::set_help`. -/
def set_help (c : Command) (help : Option help_fn_t) : Command := { c with m_help := help }

/-- `Command::get_positionals`. -/
def get_positionals (c : Command) : List Str := c.m_positionals

/-- `Command::set_positionals_help`. -/
def set_positionals_help (c : Command) (usage help : Str) : Command :=
  { c with m_usage_pos := usage, m_help_pos := help }

/-- `Command::set_positionals`. -/
def set_positionals (c : Command) (nb : Nat) (usage help : Str) : Command :=
  { c with m_e_pos := nb, m_usage_pos := usage, m_help_pos := help, m_checkp := true }

/-- `Command::set_positional_bounds`. -/
def set_positional_bounds (c : Command) (min max : Nat) (usage help : Str) : Command :=
  { c with m_l_pos := min, m_u_pos := max, m_usage_pos := usage, m_help_pos := help,
           m_checkp := true, m_bmode := true }

/-- `Command::positionals_checker`. -/
def positionals_checker (c : Command) (checker : check.checker_fn_t) : Command :=
  { c with c_pchecker := some checker }

/-- `Command::positionals_setter`. -/
def positionals_setter (c : Command) (setter : setter_fn_t) : Command :=
  { c with c_psetter := some setter }

/-- `Command::name`. -/
def name (c : Command) : Str := c.m_name

/-- `Command::desc`. -/
def desc (c : Command) : Str := c.m_desc

/-- The loop of `check_positionals` over the positionals, `i` being the
index of the first one of the list. -/
def pcheckLoop (pc : check.checker_fn_t) : Nat → List Str →
    Except BCliError (Bool × Str)
  | _, [] => .ok (true, [])
  | i, p :: ps =>
    match pc ("positionals".toList ++ utils.wrap (to_string i) "[]".toList) p with
    | .error e => .error e
    | .ok (res, msg) => if !res then .ok (res, msg) else pcheckLoop pc (i + 1) ps

/-- `Command::check_positionals`. -/
def check_positionals (c : Command) : Except BCliError (Bool × Str) :=
  let checker_part : Except BCliError (Bool × Str) :=
    match c.c_pchecker with
    | some pc => pcheckLoop pc 0 c.m_positionals
    | none => .ok (true, [])
  if c.m_checkp then
    if c.m_bmode then
      if c.m_positionals.length < c.m_l_pos then
        .ok (false, "requires at least ".toList ++ to_string c.m_l_pos ++
          " positionals.".toList)
      else if c.m_positionals.length > c.m_u_pos then
        .ok (false, "requires at most ".toList ++ to_string c.m_u_pos ++
          " positionals.".toList)
      else checker_part
    else
      .ok (c.m_positionals.length == c.m_e_pos,
        "number of positionals must be ".toList ++ to_string c.m_e_pos)
  else checker_part

/-- `Command::push_positionals`. -/
def push_positionals (c : Command) (arg : Str) : Except BCliError Unit × Command :=
  let c1 := { c with m_positionals := c.m_positionals ++ [arg], m_nb_pos := c.m_nb_pos + 1 }
  match c1.c_psetter with
  | some f =>
    (f arg, { c1 with psetter_trace := c1.psetter_trace ++ [arg],
                      psetter_var := f.store c1.psetter_var arg })
  | none => (.ok (), c1)

/-- `Command::add`: `h` is the handle of the group, `pg` the object it
designates. -/
def add (c : Command) (h : Nat) (pg : ParamGroup) (exh : ExHandler) :
    Command × ExHandler :=
  if UMap.count c.m_groups pg.name > 0 then
    (c, exh.push (AlreadyExistsError
      (pg.name ++ "group already exists in command ".toList ++ c.m_name)))
  else
    ({ c with m_groups := UMap.insert c.m_groups pg.name h, m_order := c.m_order ++ [h],
              m_current_group := some h }, exh)

/-- `Command::get`. -/
def get (c : Command) (name : Str) : Except BCliError Nat :=
  match UMap.find c.m_groups name with
  | none => .error (UnknownGroupError (name ++ "doesn't exist in command ".toList ++ c.m_name))
  | some h => .ok h

/-- Loop of `Command::get_help` over the groups of `m_order`: the help of
every group that is not empty. -/
def get_helpLoop (groups : Nat → ParamGroup) (params : Nat → Param) (fsymb : Str) :
    List Nat → Except BCliError Unit
  | [] => .ok ()
  | g :: gs =>
    if !(groups g).empty then
      match (groups g).get_help params fsymb with
      | .error e => .error e
      | .ok () => get_helpLoop groups params fsymb gs
    else get_helpLoop groups params fsymb gs

/-- `Command::get_help(main_name, version, cmd_mode)`, as far as it returns
or throws (the text of the help is not modelled); `groups` and `params` are
the stores the handles refer to, `fsymb` the flag symbol of the
configuration.  A help function set by the user replaces the text.
Otherwise the header, the description, the usage line (`get_usage`) and the
help of the positionals are built from the three arguments and the members
of the command, with the paddings `utils::sp(2)` and `utils::sp(pad + 3)`, of
a count that is not negative; the section of the options is the help of the
groups that are not empty, in the order of `m_order`. -/
def get_help (c : Command) (groups : Nat → ParamGroup) (params : Nat → Param) (fsymb : Str)
    (_main_name _version : Str) (_cmd_mode : Bool) : Except BCliError Unit :=
  if c.m_help.isSome then .ok () else get_helpLoop groups params fsymb c.m_order

end Command

/-- `param::make_cmd`. -/
def make_cmd (name desc : Str) (help : Option help_fn_t) : Command :=
  { m_name := name, m_desc := desc, m_help := help }

/-- Class `Commands`; `m_cmds` and `m_order` hold handles of `Command`
objects. -/
structure Commands where
  m_name : Str := []
  m_desc : Str := []
  m_version : Str := []
  m_cmds : UMap Nat := []
  m_order : List Nat := []
  m_help : Option help_fn_t := none

namespace Commands

/-- `Commands::set_help`. -/
def set_help (c : Commands) (help : Option help_fn_t) : Commands := { c with m_help := help }

/-- `Commands::get`: `m_cmds.at(name)`. -/
def get (c : Commands) (name : Str) : Option Nat := UMap.find c.m_cmds name

/-- `Commands::exists`. -/
def «exists» (c : Commands) (name : Str) : Bool := UMap.count c.m_cmds name > 0

/-- `Commands::add`: `h` is the handle of the command named `name`. -/
def add (c : Commands) (name : Str) (h : Nat) : Commands :=
  { c with m_cmds := UMap.insert c.m_cmds name h, m_order := c.m_order ++ [h] }

/-- Stands for the undefined behaviour of dereferencing the end iterator
that `std::max_element` returns on an empty range; it is not a
`BCliError`. -/
def end_deref : BCliError := ⟨"end iterator".toList, [], ExitCodes.UnknownError⟩

/-- `Commands::get_help`, as far as it returns or throws (the text of the
help is not modelled).  A help function set by the user replaces the text.
Otherwise the width of the first column is the size of the longest command
name, read through `*std::max_element(m_order.begin(), m_order.end(), ...)`,
which dereferences the end iterator when no command is registered. -/
def get_help (c : Commands) : Except BCliError Unit :=
  if c.m_help.isSome then .ok ()
  else if c.m_order.isEmpty then .error end_deref
  else .ok ()

end Commands

/-- `param::make_cmds`. -/
def make_cmds (name desc version : Str) : Commands :=
  { m_name := name, m_desc := desc, m_version := version }

end param

/-! ## Parser -/

/-- What the parser writes on the diagnostic stream; the text of a help
message is not modelled. -/
inductive Output where
  | queued (e : BCliError)
  | help (cmd : Nat)
  | help_cmds
  | version
  deriving DecidableEq, Repr

open param in
/-- Class `Parser<Mode>` together with the objects it reaches: `params`,
`groups` and `commands` are the stores of the shared `Param`, `ParamGroup`
and `Command` objects, `nparams`, `ngroups`, `ncommands` the next free
handles.  `conf` and `exh` are the process-wide singletons `Config` and
`ExHandler`, `cerr` the diagnostic stream.  The other fields are the members
of the class (`m_impl_exceptions` and `m_usage_exceptions`, never used, are
left out). -/
structure Parser where
  params : Nat → Param := fun _ => {}
  groups : Nat → ParamGroup := fun _ => {}
  commands : Nat → Command := fun _ => {}
  nparams : Nat := 0
  ngroups : Nat := 0
  ncommands : Nat := 0
  conf : config.Config := {}
  exh : ExHandler := []
  cerr : List Output := []
  m_name : Str := []
  m_desc : Str := []
  m_version : Str := []
  m_authors : Str := []
  m_current_group : Nat := 0
  m_current_cmd : Nat := 0
  m_cmds : Commands := {}
  m_current : Str := []
  m_is_param : Bool := false
  m_last_is_flag : Bool := false
  m_is_cmd_mode : Bool := false
  m_bypass : Bool := false

/-- Write `v` at handle `i` of a store. -/
def store {α : Type} (f : Nat → α) (i : Nat) (v : α) : Nat → α :=
  fun j => if j = i then v else f j

namespace utils

open param in
/-- `format_depend_errors(p, d, msg)`. -/
def format_depend_errors (p d : Param) (msg : Str) : Str :=
  p.raw ++ " ".toList ++ p.value ++ " depends on ".toList ++ d.raw ++
    " ~ ".toList ++ "Check returns -> ".toList ++ msg

open param in
/-- `format_banned_errors(p, d, msg)`. -/
def format_banned_errors (p d : Param) (msg : Str) : Str :=
  p.raw ++ " ".toList ++ p.value ++ " is banned with ".toList ++ d.raw ++ " ".toList ++
    d.value ++ " ~ ".toList ++ "Check returns -> ".toList ++ msg

end utils

namespace Parser

open param

/-- The groups of the current command, in order (`*m_current_cmd`). -/
def cur_groups (P : Parser) : List Nat := (P.commands P.m_current_cmd).m_order

/-- Loop of `pexists` over the groups. -/
def pexistsLoop (P : Parser) (pname : Str) : List Nat → Bool
  | [] => false
  | g :: gs => if (P.groups g).exists pname then true else pexistsLoop P pname gs

/-- `Parser::pexists`. -/
def pexists (P : Parser) (pname : Str) : Bool := pexistsLoop P pname P.cur_groups

/-- Loop of `getp` / `get_current_param` over the groups: the handle found in
the first group where the name exists, `none` for `nullptr`.  Both callers
pass a trimmed name, for which `get` does not throw in a group where the
name exists (`group_get_of_exists`). -/
def getpLoop (P : Parser) (pname : Str) : List Nat → Option Nat
  | [] => none
  | g :: gs =>
    if (P.groups g).exists pname then
      match (P.groups g).get pname with
      | .ok h => some h
      | .error _ => none
    else getpLoop P pname gs

/-- `Parser::getp`. -/
def getp (P : Parser) (pname : Str) : Option Nat :=
  getpLoop P (utils.trim_param pname) P.cur_groups

/-- `Parser::get_current_param`. -/
def get_current_param (P : Parser) (p : Str) : Option Nat :=
  getpLoop P (utils.trim_param p) P.cur_groups

/-- `Parser::get_positionals`. -/
def get_positionals (P : Parser) : List Str := (P.commands P.m_current_cmd).get_positionals

/-- `Parser::show_help`: the help is rendered, then written; nothing is
written when the rendering throws. -/
def show_help (P : Parser) : Except BCliError Unit × Parser :=
  if !P.m_is_cmd_mode || P.m_bypass then
    match (P.commands P.m_current_cmd).get_help P.groups P.params P.conf.m_flag_symbol
        P.m_name P.m_version P.m_bypass with
    | .error e => (.error e, P)
    | .ok () => (.ok (), { P with cerr := P.cerr ++ [Output.help P.m_current_cmd] })
  else
    match P.m_cmds.get_help with
    | .error e => (.error e, P)
    | .ok () => (.ok (), { P with cerr := P.cerr ++ [Output.help_cmds] })

/-- The error `parse` throws after `show_help`: the error of the rendering
when it throws, the silent failure `BCliError("", "", Failure)` when the
help has been written. -/
def help_stop (P : Parser) : BCliError :=
  match (P.show_help).1 with
  | .ok () => silentFailure
  | .error e => e

/-- `Parser::show_version`. -/
def show_version (P : Parser) : Parser := { P with cerr := P.cerr ++ [Output.version] }

/-- The error standing for the undefined behaviour of dereferencing the null
pointer `get_current_param` returns for a name no group knows. -/
def nullDeref : BCliError := ⟨"nullptr".toList, [], ExitCodes.UnknownError⟩

/-- `Parser::process_arg`. -/
def process_arg (P : Parser) (arg : Str) : Except BCliError Action × Parser :=
  if utils.is_param arg then
    if !P.pexists arg then
      (.error (InvalidParamError ("Unknown param: ".toList ++ arg ++ ".".toList)), P)
    else if P.m_is_param then
      (.error (MissingValueError (P.m_current ++ "needs a value.".toList)), P)
    else
      let P1 := { P with m_current := arg, m_is_param := true }
      match P1.get_current_param P1.m_current with
      | none => (.error nullDeref, P1)
      | some cp =>
        if (P1.params cp).is_flag then
          let P2 := { P1 with m_is_param := false, m_last_is_flag := true }
          let P3 := { P2 with params := store P2.params cp (P2.params cp).set }
          let r := (P3.params cp).process FLAG_VALUE
          let P4 := { P3 with params := store P3.params cp r.2 }
          match r.1 with
          | .error e => (.error e, P4)
          | .ok () =>
            if (P4.params cp).get_action ≠ Action.Nothing then
              (.ok (P4.params cp).get_action, P4)
            else (.ok Action.Nothing, P4)
        else
          if (P1.params cp).get_action ≠ Action.Nothing then
            (.ok (P1.params cp).get_action, P1)
          else (.ok Action.Nothing, P1)
  else if !P.m_is_param then
    let r := (P.commands P.m_current_cmd).push_positionals arg
    let P1 := { P with commands := store P.commands P.m_current_cmd r.2 }
    match r.1 with
    | .error e => (.error e, P1)
    | .ok () => (.ok Action.Nothing, P1)
  else
    let unwrapping : Except BCliError Str :=
      if utils.startswith arg "[-".toList && utils.endswith arg "]".toList then
        utils.unwrap arg 1
      else .ok arg
    match unwrapping with
    | .error e => (.error e, P)
    | .ok parg =>
      match P.get_current_param P.m_current with
      | none => (.error nullDeref, P)
      | some cp =>
        let r := (P.params cp).process parg
        let P1 := { P with params := store P.params cp r.2 }
        match r.1 with
        | .error e => (.error e, P1)
        | .ok () => (.ok Action.Nothing, { P1 with m_is_param := false })

/-- One dependency rule of the parameter `p`, as evaluated by the first inner
loop of `check_consistency`. -/
def check_depends (P : Parser) (p : Nat) (rule : rule_t) : Except BCliError Unit :=
  match rule.1 (P.params p).raw (P.params p).value with
  | .error e => .error e
  | .ok (res, msg) =>
    match rule.2.2 with
    | none =>
      if res then
        if !(P.params rule.2.1).is_set then
          .error (DependsError
            (utils.format_depend_errors (P.params p) (P.params rule.2.1) msg))
        else .ok ()
      else .ok ()
    | some dc =>
      match dc (P.params rule.2.1).raw (P.params rule.2.1).value with
      | .error e => .error e
      | .ok (dres, dmsg) =>
        if res then
          if !dres then
            .error (DependsError
              (utils.format_depend_errors (P.params p) (P.params rule.2.1) dmsg))
          else .ok ()
        else .ok ()

/-- One ban rule of the parameter `p`, as evaluated by the second inner loop
of `check_consistency`. -/
def check_banned (P : Parser) (p : Nat) (rule : rule_t) : Except BCliError Unit :=
  match rule.1 (P.params p).raw (P.params p).value with
  | .error e => .error e
  | .ok (res, msg) =>
    match rule.2.2 with
    | none =>
      if res then
        if (P.params rule.2.1).is_set then
          .error (BannedError
            (utils.format_banned_errors (P.params p) (P.params rule.2.1) msg))
        else .ok ()
      else .ok ()
    | some dc =>
      match dc (P.params rule.2.1).raw (P.params rule.2.1).value with
      | .error e => .error e
      | .ok (dres, dmsg) =>
        if res then
          if dres then
            .error (BannedError
              (utils.format_banned_errors (P.params p) (P.params rule.2.1) dmsg))
          else .ok ()
        else .ok ()

/-- A loop over rules that stops at the first one that throws. -/
def rulesLoop (f : rule_t → Except BCliError Unit) : List rule_t → Except BCliError Unit
  | [] => .ok ()
  | r :: rs =>
    match f r with
    | .error e => .error e
    | .ok () => rulesLoop f rs

/-- Body of the loop of `check_consistency` over the parameters of a group,
for the parameter of handle `p`. -/
def check_param (P : Parser) (p : Nat) : Except BCliError Unit × Parser :=
  if (P.params p).is_required && !(P.params p).is_set then
    (.error (RequiredParamError ((P.params p).raw ++ " is required.".toList)), P)
  else
    let r : Except BCliError Unit × Parser :=
      if !(P.params p).is_flag && !(P.params p).get_def.isEmpty then
        let q := (P.params p).process_def
        (q.1, { P with params := store P.params p q.2 })
      else (.ok (), P)
    match r.1 with
    | .error e => (.error e, r.2)
    | .ok () =>
      match rulesLoop (r.2.check_depends p) (r.2.params p).get_dependency with
      | .error e => (.error e, r.2)
      | .ok () =>
        match rulesLoop (r.2.check_banned p) (r.2.params p).get_banned with
        | .error e => (.error e, r.2)
        | .ok () => (.ok (), r.2)

/-- Loop of `check_consistency` over the parameters of one group. -/
def check_params (P : Parser) : List Nat → Except BCliError Unit × Parser
  | [] => (.ok (), P)
  | p :: ps =>
    match P.check_param p with
    | (.error e, P1) => (.error e, P1)
    | (.ok (), P1) => check_params P1 ps

/-- Loop of `check_consistency` over the groups of the current command. -/
def check_groups (P : Parser) : List Nat → Except BCliError Unit × Parser
  | [] => (.ok (), P)
  | g :: gs =>
    match P.check_params (P.groups g).m_order with
    | (.error e, P1) => (.error e, P1)
    | (.ok (), P1) => check_groups P1 gs

/-- `Parser::check_consistency`. -/
def check_consistency (P : Parser) : Except BCliError Unit × Parser :=
  match P.check_groups P.cur_groups with
  | (.error e, P1) => (.error e, P1)
  | (.ok (), P1) =>
    match (P1.commands P1.m_current_cmd).check_positionals with
    | .error e => (.error e, P1)
    | .ok (res, msg) =>
      if !res then (.error (PositionalsError msg), P1) else (.ok (), P1)

/-- The loop of `parse` over `argv[1..]`. -/
def scan (P : Parser) : List Str → Except BCliError Unit × Parser
  | [] => (.ok (), P)
  | a :: rest =>
    match P.process_arg a with
    | (.error e, P1) => (.error e, P1)
    | (.ok Action.ShowHelp, P1) =>
      match P1.show_help with
      | (.error e, P2) => (.error e, P2)
      | (.ok (), P2) => (.error silentFailure, P2)
    | (.ok Action.ShowVersion, P1) => (.error silentFailure, P1.show_version)
    | (.ok Action.Nothing, P1) => scan P1 rest

/-- The branch `!m_is_cmd_mode || m_bypass` of `parse`, on the tokens
`argv[1..]`. -/
def parse_args (P : Parser) (args : List Str) : Except BCliError Unit × Parser :=
  match P.scan args with
  | (.error e, P1) => (.error e, P1)
  | (.ok (), P1) =>
    if P1.m_is_param then
      (.error (MissingValueError (P1.m_current ++ " needs a value.".toList)), P1)
    else P1.check_consistency

/-- `ExHandler::get().check()` as called by `parse`: every queued error is
printed before the throw. -/
def exh_check (P : Parser) : Except BCliError Unit × Parser :=
  match P.exh.check with
  | .error e => (.error e, { P with cerr := P.cerr ++ P.exh.map Output.queued })
  | .ok () => (.ok (), P)

/-- `Parser::parse(argc, argv)`; `argv` is the whole vector, program name
included. -/
def parse (P : Parser) : List Str → Except BCliError Unit × Parser
  | [] =>
    match P.exh_check with
    | (.error e, P0) => (.error e, P0)
    | (.ok (), P0) =>
      if !P0.m_is_cmd_mode || P0.m_bypass then P0.parse_args []
      else
        match P0.show_help with
        | (.error e, P1) => (.error e, P1)
        | (.ok (), P1) => (.error silentFailure, P1)
  | _ :: args =>
    match P.exh_check with
    | (.error e, P0) => (.error e, P0)
    | (.ok (), P0) =>
      if !P0.m_is_cmd_mode || P0.m_bypass then P0.parse_args args
      else
        match args with
        | [] =>
          match P0.show_help with
          | (.error e, P1) => (.error e, P1)
          | (.ok (), P1) => (.error silentFailure, P1)
        | a1 :: _ =>
          if P0.m_cmds.exists a1 then
            match P0.m_cmds.get a1 with
            | none => (.error nullDeref, P0)
            | some c => parse { P0 with m_current_cmd := c, m_bypass := true } args
          else
            (.error (UnknownCmdError
              ("Unknown command: ".toList ++ a1 ++ ", ".toList ++ "choices -> ".toList ++
                utils.wrap
                  (utils.join (P0.m_cmds.m_order.map (fun c => (P0.commands c).name))
                    "|".toList)
                  "[]".toList)), P0)

/-! ### Declaration interface

A method called through a `param_t`, `pgroup_t` or `cmd_t` acts on the object
of that handle in the store. -/

/-- Constructor of `Parser<Mode>`, in a process whose singletons are `conf`
and `exh`: the default group and the command are created by the member
initialisers, the body adds the group to the command. -/
def ctor (conf : config.Config) (exh : ExHandler) (name desc version authors : Str) :
    Parser :=
  let g := make_group conf.m_default_grp "global parameters".toList
  let r := (make_cmd name desc none).add 0 g exh
  { groups := store (fun _ => {}) 0 g
    commands := store (fun _ => {}) 0 r.1
    ngroups := 1
    ncommands := 1
    conf := conf
    exh := r.2
    m_name := name
    m_desc := desc
    m_version := version
    m_authors := authors
    m_current_group := 0
    m_current_cmd := 0
    m_cmds := make_cmds name desc version }

/-- `ParamGroup::add_param` on the group of handle `g`: returns the handle of
the new parameter. -/
def group_add_param (P : Parser) (g : Nat) (name help : Str) : Nat × Parser :=
  let r := make P.conf name help none none P.exh
  let a := (P.groups g).add P.nparams r.1 r.2
  (P.nparams, { P with params := store P.params P.nparams r.1
                       nparams := P.nparams + 1
                       groups := store P.groups g a.1
                       exh := a.2 })

/-- `Parser::add_param`. -/
def add_param (P : Parser) (name help : Str) : Nat × Parser :=
  P.group_add_param P.m_current_group name help

/-- `Command::add` on the command of handle `c`, for the group of handle `g`. -/
def cmd_add (P : Parser) (c g : Nat) : Parser :=
  let r := (P.commands c).add g (P.groups g) P.exh
  { P with commands := store P.commands c r.1, exh := r.2 }

/-- `Command::add_group` on the command of handle `c`. -/
def cmd_add_group (P : Parser) (c : Nat) (name desc : Str) : Nat × Parser :=
  let P1 := { P with groups := store P.groups P.ngroups (make_group name desc)
                     ngroups := P.ngroups + 1 }
  (P.ngroups, P1.cmd_add c P.ngroups)

/-- A method of `Param` without access to the singletons, called on the
parameter of handle `h`. -/
def on_param (P : Parser) (h : Nat) (f : Param → Param) : Parser :=
  { P with params := store P.params h (f (P.params h)) }

/-- `p->def(default_value)`. -/
def param_def (P : Parser) (h : Nat) (default_value : Str) : Parser :=
  P.on_param h (fun p => p.def default_value)

/-- `p->setter_c(f)`. -/
def param_setter_c (P : Parser) (h : Nat) (f : setter_fn_t) : Parser :=
  P.on_param h (fun p => p.setter_c f)

/-- `p->callback(cb)`. -/
def param_callback (P : Parser) (h : Nat) (cb : callback_fn_t) : Parser :=
  P.on_param h (fun p => p.callback cb)

/-- `p->depends_on(checker, d, pchecker)`. -/
def param_depends_on (P : Parser) (h : Nat) (checker : check.checker_fn_t) (d : Nat)
    (pchecker : Option check.checker_fn_t) : Parser :=
  P.on_param h (fun p => p.depends_on checker d pchecker)

/-- `p->banned(checker, d, pchecker)`. -/
def param_banned (P : Parser) (h : Nat) (checker : check.checker_fn_t) (d : Nat)
    (pchecker : Option check.checker_fn_t) : Parser :=
  P.on_param h (fun p => p.banned checker d pchecker)

/-- `p->action(a)`. -/
def param_action (P : Parser) (h : Nat) (a : Action) : Parser :=
  P.on_param h (fun p => p.action a)

/-- `p->checker(c)`. -/
def param_checker (P : Parser) (h : Nat) (c : check.checker_fn_t) : Parser :=
  let r := (P.params h).checker c P.exh
  { P with params := store P.params h r.1, exh := r.2 }

/-- `p->as_flag()`. -/
def param_as_flag (P : Parser) (h : Nat) : Parser :=
  let r := (P.params h).as_flag P.exh
  { P with params := store P.params h r.1, exh := r.2 }

/-- `Command::add_common` on the command of handle `c`: the handle of the
new group, `none` for `nullptr`. -/
def cmd_add_common (P : Parser) (c : Nat) (name : Str) : Option Nat × Parser :=
  if P.conf.has_common then
    let r := P.cmd_add_group c name []
    let grp := r.1
    let P1 :=
      if r.2.conf.m_help then
        let a := r.2.group_add_param grp "-h/--help".toList "Show this message and exit.".toList
        (a.2.param_as_flag a.1).param_action a.1 Action.ShowHelp
      else r.2
    let P2 :=
      if P1.conf.m_verbose then
        let a := P1.group_add_param grp "-v/--verbose".toList "Verbose mode.".toList
        a.2.param_as_flag a.1
      else P1
    let P3 :=
      if P2.conf.m_debug then
        let a := P2.group_add_param grp "-d/--debug".toList "Debug mode.".toList
        a.2.param_as_flag a.1
      else P2
    let P4 :=
      if P3.conf.m_version then
        let a := P3.group_add_param grp "--version".toList "Show version and exit.".toList
        (a.2.param_as_flag a.1).param_action a.1 Action.ShowVersion
      else P3
    (some grp, P4)
  else (none, P)

/-- `Parser::add_group` (mode 0). -/
def add_group (P : Parser) (name desc : Str) : Except BCliError Nat × Parser :=
  match (P.commands P.m_current_cmd).get (P.groups P.m_current_group).name with
  | .error e => (.error e, P)
  | .ok g0 =>
    let P1 := if P.m_current_group ≠ g0 then P.cmd_add P.m_current_cmd P.m_current_group else P
    let P2 := { P1 with groups := store P1.groups P1.ngroups (make_group name desc)
                        ngroups := P1.ngroups + 1
                        m_current_group := P1.ngroups }
    (.ok P1.ngroups, P2.cmd_add P2.m_current_cmd P1.ngroups)

/-- `Parser::add_common` (mode 0). -/
def add_common (P : Parser) (name : Str) : Except BCliError Nat × Parser :=
  let r := P.cmd_add_common P.m_current_cmd name
  match (r.2.commands r.2.m_current_cmd).get name with
  | .error e => (.error e, r.2)
  | .ok g => (.ok g, { r.2 with m_current_group := g })

/-- `Parser::add_command` (mode 1): returns the handle of the new command. -/
def add_command (P : Parser) (name desc : Str) (help : Option help_fn_t) : Nat × Parser :=
  let c := P.ncommands
  let g := P.ngroups
  let P1 := { P with commands := store P.commands c (make_cmd name desc help)
                     ncommands := c + 1
                     m_current_cmd := c
                     groups := store P.groups g (make_group P.conf.m_default_grp [])
                     ngroups := g + 1 }
  let P2 := P1.cmd_add c g
  (c, { P2 with m_cmds := P2.m_cmds.add (P2.commands c).name c, m_is_cmd_mode := true })

/-- `Command::add_param` on the command of handle `c`: adds to the command's
current group (`none` when that pointer is null). -/
def cmd_add_param (P : Parser) (c : Nat) (name help : Str) : Option Nat × Parser :=
  match (P.commands c).m_current_group with
  | none => (none, P)
  | some g => let r := P.group_add_param g name help; (some r.1, r.2)

/-- A method of `Command` without access to the singletons, called on the
command of handle `c`. -/
def on_cmd (P : Parser) (c : Nat) (f : Command → Command) : Parser :=
  { P with commands := store P.commands c (f (P.commands c)) }

/-- `Parser::set_positionals` (mode 0). -/
def set_positionals (P : Parser) (nb : Nat) (usage help : Str) : Parser :=
  P.on_cmd P.m_current_cmd (fun c => c.set_positionals nb usage help)

/-- `Parser::set_positional_bounds` (mode 0). -/
def set_positional_bounds (P : Parser) (min max : Nat) (usage help : Str) : Parser :=
  P.on_cmd P.m_current_cmd (fun c => c.set_positional_bounds min max usage help)

/-- `Parser::positionals_checker` (mode 0). -/
def positionals_checker (P : Parser) (checker : check.checker_fn_t) : Parser :=
  P.on_cmd P.m_current_cmd (fun c => c.positionals_checker checker)

end Parser

/-! ## Scenarios used by the concrete checks -/

namespace Scenario

open Parser

/-- The parser of `TEST(Parser, simple)`: the value parameters `-p` (long name
`--param`) and `-t`, and the flag `-f`, declared in a process with a default configuration and an empty
`ExHandler`. -/
def simple : Parser :=
  let P0 := Parser.ctor {} [] "test".toList "test".toList "test".toList "test".toList
  let a := P0.add_param "-p/--param".toList "help".toList
  let b := a.2.add_param "-t".toList "help".toList
  let c := b.2.add_param "-f".toList "help".toList
  c.2.param_as_flag c.1

/-- The tokens `argv[1..]` of `TEST(Parser, simple)`. -/
def simple_args : List Str :=
  ["-p".toList, "10".toList, "pos1".toList, "-t".toList, "strvalue".toList,
   "-f".toList, "pos2".toList, "pos3".toList]

/-- A flag `-f`, then a parameter `-d` (long name `--dep`) with the default "1"
that depends on `-f` being set, whatever its own value (self checker
`always_true`, no checker for the other parameter). -/
def dep_flag : Parser :=
  let P0 := Parser.ctor {} [] "ex".toList "ex desc".toList "v0.0.1".toList []
  let f := P0.add_param "-f".toList "flag help".toList
  let P1 := f.2.param_as_flag f.1
  let d := P1.add_param "-d/--dep".toList "dep help".toList
  (d.2.param_depends_on d.1 check.always_true f.1 none).param_def d.1 "1".toList

/-- The parser `dep_flag` with one more parameter, `-r`, declared last and
without default. -/
def dep_then_required : Parser :=
  (dep_flag.add_param "-r".toList "required help".toList).2

/-- One parameter `-n` with the checker `is_number` and the default "abc". -/
def checked_default : Parser :=
  let P0 := Parser.ctor {} [] "ex".toList "ex desc".toList "v0.0.1".toList []
  let n := P0.add_param "-n".toList "number help".toList
  (n.2.param_checker n.1 check.is_number).param_def n.1 "abc".toList

/-- One parameter `-o` with a setter that always returns, declared with the
default `d`. -/
def with_default (d : Str) : Parser :=
  let P0 := Parser.ctor {} [] "ex".toList "ex desc".toList "v0.0.1".toList []
  let o := P0.add_param "-o".toList "output help".toList
  (o.2.param_setter_c o.1 { call := fun _ => .ok () }).param_def o.1 d

/-- The checker `c` of example `04_bcli_deps_bans`: true when the value is
"15". -/
def ex04_c : check.checker_fn_t := fun s v =>
  .ok (v == "15".toList, s ++ " should not be equal to 15.".toList)

/-- The parser of example `04_bcli_deps_bans`: `-p` (long name `--param`,
handle 0); `-d` (long name `--dep`, handle 1) with the default "120", which
depends on `-p` through the checkers `range(10, 100)` and `range(120, 140)`;
`-b` (long name `--ban`, handle 2) with the default "9", banned with `-p`
through `range(10, 100)` and `c`; then the common group. -/
def ex04 : Parser :=
  let P0 := Parser.ctor {} [] "ex04".toList "ex04 desc".toList "v0.0.1".toList "J. Doe".toList
  let p := P0.add_param "-p/--param".toList "param help".toList
  let d := p.2.add_param "-d/--dep".toList "dep help".toList
  let P1 := (d.2.param_depends_on d.1 (check.f.range 10 100) p.1
    (some (check.f.range 120 140))).param_def d.1 "120".toList
  let b := P1.add_param "-b/--ban".toList "ban help".toList
  let P2 := (b.2.param_banned b.1 (check.f.range 10 100) p.1
    (some ex04_c)).param_def b.1 "9".toList
  (P2.add_common "common".toList).2

/-- First parser of `TEST(Parser, multiple)`: the command `cmd1` (handle 1)
with the positional bounds [1, 5] and the parameter `-p`, then the command
`cmd2` (handle 2). -/
def multiple_bounds : Parser :=
  let P0 := Parser.ctor {} [] "test".toList "test".toList "test".toList "test".toList
  let c1 := P0.add_command "cmd1".toList "cmd1 desc".toList none
  let P1 := c1.2.on_cmd c1.1
    (fun c => c.set_positional_bounds 1 5 "Usage pos".toList "Help pos".toList)
  let p := P1.cmd_add_param c1.1 "-p/--param".toList "help".toList
  (p.2.add_command "cmd2".toList "cmd2 desc".toList none).2

/-- Second parser of `TEST(Parser, multiple)`: the commands `cmd1` (handle 1)
and `cmd2` (handle 2), each with its own parameter `-p` (handles 0 and 1). -/
def multiple : Parser :=
  let P0 := Parser.ctor {} [] "test".toList "test".toList "test".toList "test".toList
  let c1 := P0.add_command "cmd1".toList "cmd1 desc".toList none
  let p1 := c1.2.cmd_add_param c1.1 "-p/--param".toList "help".toList
  let c2 := p1.2.add_command "cmd2".toList "cmd2 desc".toList none
  (c2.2.cmd_add_param c2.1 "-p/--param".toList "help".toList).2

/-- The parser of example `06_bcli_multiple`: the commands `merge` and
`split`, each with the parameter `-f` and the common group. -/
def ex06 : Parser :=
  let P0 := Parser.ctor {} [] "ex06".toList "ex06 desc".toList "v0.0.1".toList "J. Doe".toList
  let m := P0.add_command "merge".toList "A merge command".toList none
  let f1 := m.2.cmd_add_param m.1 "-f/--file".toList "path to file".toList
  let P1 := (f1.2.cmd_add_common m.1 "common".toList).2
  let s := P1.add_command "split".toList "A split command".toList none
  let f2 := s.2.cmd_add_param s.1 "-f/--file".toList "path to file".toList
  (f2.2.cmd_add_common s.1 "common".toList).2

/-- A required parameter `-r` and an exact positional count of 2. -/
def exact_count_required : Parser :=
  let P0 := Parser.ctor {} [] "ex".toList "ex desc".toList "v0.0.1".toList []
  (P0.add_param "-r".toList "required help".toList).2.set_positionals 2
    "usage".toList "help".toList

/-- The positional bounds [1, 2] and the positional checker `is_number`. -/
def bounds_checked : Parser :=
  let P0 := Parser.ctor {} [] "ex".toList "ex desc".toList "v0.0.1".toList []
  (P0.set_positional_bounds 1 2 "usage".toList "help".toList).positionals_checker
    check.is_number

/-- An exact positional count of 1 and the positional checker `is_number`. -/
def exact_checked : Parser :=
  let P0 := Parser.ctor {} [] "ex".toList "ex desc".toList "v0.0.1".toList []
  (P0.set_positionals 1 "usage".toList "help".toList).positionals_checker check.is_number

/-- The positional checker `is_number` and no constraint on the count. -/
def positionals_checked : Parser :=
  let P0 := Parser.ctor {} [] "ex".toList "ex desc".toList "v0.0.1".toList []
  P0.positionals_checker check.is_number

/-- First command line of the second block of `TEST(Parser, multiple)`
(`argv2`). -/
def multiple_argv2 : List Str :=
  ["cmd".toList, "cmd2".toList, "-p".toList, "42".toList, "pos1".toList, "pos2".toList,
   "pos3".toList]

/-- Second command line of the second block of `TEST(Parser, multiple)`
(`argv`). -/
def multiple_argv : List Str :=
  ["cmd".toList, "cmd1".toList, "-p".toList, "10".toList, "pos1".toList, "pos2".toList,
   "pos3".toList]

/-- The declarations of `TEST(param, param_group)` up to the first check, on
a parser: `-p` with the long name `--param`, then `-p` with the long name
`--other`. -/
def duplicate_short : Parser :=
  let P0 := Parser.ctor {} [] "test".toList "test".toList "test".toList "test".toList
  ((P0.add_param "-p/--param".toList "make test".toList).2.add_param
    "-p/--other".toList "make test".toList).2

/-- The declarations of `TEST(param, param_group)`: those of `duplicate_short`,
then `-o` with the long name `--param`. -/
def duplicate_long : Parser :=
  (duplicate_short.add_param "-o/--param".toList "make test".toList).2

/-- A parameter `-f` that is given the checker `is_number` and then made a
flag. -/
def checker_then_flag : Parser :=
  let P0 := Parser.ctor {} [] "ex".toList "ex desc".toList "v0.0.1".toList []
  let f := P0.add_param "-f".toList "flag help".toList
  (f.2.param_checker f.1 check.is_number).param_as_flag f.1

/-- A parameter `-f` that is made a flag and then given the checker
`is_number`. -/
def flag_then_checker : Parser :=
  let P0 := Parser.ctor {} [] "ex".toList "ex desc".toList "v0.0.1".toList []
  let f := P0.add_param "-f".toList "flag help".toList
  (f.2.param_as_flag f.1).param_checker f.1 check.is_number

/-- The parameter `-s` with the checker `is_number`. -/
def checked_size : Parser :=
  let P0 := Parser.ctor {} [] "ex".toList "ex desc".toList "v0.0.1".toList []
  let s := P0.add_param "-s".toList "size help".toList
  s.2.param_checker s.1 check.is_number

/-- The parameter `-s` with the checkers `range(10, 100)` and, after it, the
checker `c` of example `04_bcli_deps_bans`. -/
def range_then_custom : Parser :=
  let P0 := Parser.ctor {} [] "ex".toList "ex desc".toList "v0.0.1".toList []
  let s := P0.add_param "-s".toList "size help".toList
  (s.2.param_checker s.1 (check.f.range 10 100)).param_checker s.1 ex04_c

/-- The parameter `-s` with the checker `is_number`, a trigger callback that
returns, and the default "20". -/
def with_callback : Parser :=
  let P0 := Parser.ctor {} [] "ex".toList "ex desc".toList "v0.0.1".toList []
  let s := P0.add_param "-s".toList "size help".toList
  ((s.2.param_checker s.1 check.is_number).param_callback s.1 (fun _ => .ok ())).param_def s.1
    "20".toList

/-- A required parameter `-r` and a flag of short name `-h` and long name
`--help` with the action `ShowHelp` and the setter `get_setter` makes from an
`int` variable. -/
def help_with_setter : Parser :=
  let P0 := Parser.ctor {} [] "ex".toList "ex desc".toList "v0.0.1".toList []
  let r := P0.add_param "-r".toList "required help".toList
  let h := r.2.add_param "-h/--help".toList "help".toList
  ((h.2.param_as_flag h.1).param_action h.1 Action.ShowHelp).param_setter_c h.1 param.get_setter_int

/-- A correctly declared parser, with the one parameter `-x`, declared in a
process whose `ExHandler` queue holds `exh`. -/
def declared_after (exh : ExHandler) : Parser :=
  let P0 := Parser.ctor {} exh "ex".toList "ex desc".toList "v0.0.1".toList []
  (P0.add_param "-x".toList "x help".toList).2

/-- The parameter `-d` with the default "1", declared first, then the
parameter `-a`, which depends on `-d` being set, whatever its own value (self
checker `always_true`, no checker for the other parameter). -/
def default_declared_before : Parser :=
  let P0 := Parser.ctor {} [] "ex".toList "ex desc".toList "v0.0.1".toList []
  let d := P0.add_param "-d".toList "d help".toList
  let a := (d.2.param_def d.1 "1".toList).add_param "-a".toList "a help".toList
  a.2.param_depends_on a.1 check.always_true d.1 none

/-- The same two parameters declared in the other order: `-a`, which depends
on `-d` being set, then `-d` with the default "1". -/
def default_declared_after : Parser :=
  let P0 := Parser.ctor {} [] "ex".toList "ex desc".toList "v0.0.1".toList []
  let a := P0.add_param "-a".toList "a help".toList
  let d := a.2.add_param "-d".toList "d help".toList
  (d.2.param_depends_on a.1 check.always_true d.1 none).param_def d.1 "1".toList

/-- A parser with the flag `-f`, which has no long name, in the default
group, and the common group, whose help flag has the short name `-h` and the
long name `--help`. -/
def short_flag : Parser :=
  let P0 := Parser.ctor {} [] "ex".toList "ex desc".toList "v0.0.1".toList []
  let f := P0.add_param "-f".toList "flag help".toList
  ((f.2.param_as_flag f.1).add_common "common".toList).2

end Scenario

/-! ## Auxiliary definitions for the statements -/

namespace param

/-- The two objects have the same configuration: they differ at most in the
members `process`, `process_def` and `set` write (`m_str_value`,
`m_has_valid_value`, `m_is_set`, `m_as_default`) and in the traces. -/
structure Param.SameConf (p q : Param) : Prop where
  raw_name : q.m_raw_name = p.m_raw_name
  help : q.m_help = p.m_help
  default : q.m_default = p.m_default
  short : q.m_short = p.m_short
  long : q.m_long = p.m_long
  action : q.m_action = p.m_action
  depends_on : q.m_depends_on = p.m_depends_on
  banned : q.m_banned = p.m_banned
  has_default : q.m_has_default = p.m_has_default
  is_flag : q.m_is_flag = p.m_is_flag
  setter : q.c_setter = p.c_setter
  checkers : q.c_checkers = p.c_checkers
  callback : q.c_callback = p.c_callback
  callback_trigger : q.m_callback_trigger = p.m_callback_trigger

namespace Param

/-- The content of the variable the setter has captured, after a call of
the setter with `v` (as it was without a setter). -/
def stored (p : Param) (v : Str) : Int :=
  match p.c_setter with
  | some f => f.store p.setter_var v
  | none => p.setter_var

/-- The object `process(value)` leaves when no checker fails, after the
setter has been called (`called`) or when there is no setter. -/
def processed (p : Param) (v : Str) (called : Bool) : Param :=
  { p with m_str_value := v
           m_has_valid_value := if p.c_checkers.isEmpty then p.m_has_valid_value else true
           m_is_set := true
           setter_trace := if called then p.setter_trace ++ [v] else p.setter_trace
           setter_var := if called then p.stored v else p.setter_var }

end Param

end param

namespace Parser

open param

/-- The declaration is the same in both states: same groups, same current
command and mode, same group list in every command, same configuration of
every parameter. -/
structure SameDecl (P Q : Parser) : Prop where
  groups : Q.groups = P.groups
  current_cmd : Q.m_current_cmd = P.m_current_cmd
  order : ∀ c, (Q.commands c).m_order = (P.commands c).m_order
  conf : ∀ h, Param.SameConf (P.params h) (Q.params h)
  cmd_mode : Q.m_is_cmd_mode = P.m_is_cmd_mode
  bypass : Q.m_bypass = P.m_bypass
  exh : Q.exh = P.exh
  cmds : Q.m_cmds = P.m_cmds

/-- The value a token is stored as when it is consumed as a value: the token
without its first and last character when it starts with "[-" and ends with
"]" (what `unwrap(arg, 1)` returns there, `unwrap_bracketed`), the token
itself otherwise. -/
def unwrapped (arg : Str) : Str :=
  if utils.startswith arg "[-".toList && utils.endswith arg "]".toList then
    (arg.drop 1).take (arg.length - 2)
  else arg

/-- The token `t` is a parameter token that takes the next token as its
value: it looks like a parameter and names a declared parameter that is not
a flag. -/
def takesValue (P : Parser) (t : Str) : Bool :=
  utils.is_param t &&
    (match P.get_current_param t with
      | some cp => !(P.params cp).is_flag
      | none => false)

/-- Whether a token is consumed as the value of the token right before it
(`none` when it is the first one). -/
def consumedAfter (P : Parser) : Option Str → Bool
  | none => false
  | some t => takesValue P t

/-- The tokens of `toks` that do not look like a parameter and are not
consumed as the value of the value-parameter right before them, in their
order; `prev` is the token before the first one. -/
def positional_tokens_from (P : Parser) (prev : Option Str) (toks : List Str) : List Str :=
  ((toks.zip (prev :: toks.map some)).filter
    (fun x => !utils.is_param x.1 && !consumedAfter P x.2)).map Prod.fst

/-- The tokens of a command line that do not look like a parameter and are
not consumed as the value of the value-parameter right before them. -/
def positional_tokens (P : Parser) (toks : List Str) : List Str :=
  positional_tokens_from P none toks

/-- The two states differ at most in the parameter store, where every
parameter keeps its configuration and its value, stays set if it was set,
and has had its setter called some more times. -/
structure ParamsOnly (P Q : Parser) : Prop where
  eq : ∃ f, Q = { P with params := f }
  conf : ∀ h, Param.SameConf (P.params h) (Q.params h)
  value : ∀ h, (Q.params h).m_str_value = (P.params h).m_str_value
  set_mono : ∀ h, (P.params h).m_is_set = true → (Q.params h).m_is_set = true
  trace_mono : ∀ h, ∃ l, (Q.params h).setter_trace = (P.params h).setter_trace ++ l

/-- The object of the parameter `cp` is `x`, and `cp` is not the parameter a
value is awaited for. -/
def HoldsParam (P0 : Parser) (cp : Nat) (x : Param) (Q : Parser) : Prop :=
  SameDecl P0 Q ∧ Q.params cp = x ∧
    (Q.m_is_param = true → P0.get_current_param Q.m_current ≠ some cp)

/-- The parameters `check_consistency` visits, in the order it visits them:
those of the groups `gs`, group after group. -/
def params_in_order (P : Parser) : List Nat → List Nat
  | [] => []
  | g :: gs => (P.groups g).m_order ++ params_in_order P gs

/-- The `else if` of the loop body of `check_consistency`, for a parameter
that passed the test of the `if`: `process_def` on a parameter that is not a
flag and has a non-empty default. -/
def default_step (P : Parser) (p : Nat) : Except BCliError Unit × Parser :=
  if !(P.params p).is_flag && !(P.params p).get_def.isEmpty then
    ((P.params p).process_def.1,
      { P with params := store P.params p (P.params p).process_def.2 })
  else (.ok (), P)

/-- The state `parse` goes on with, in multi-command mode, once it has
selected the command of handle `c`. -/
def select (P : Parser) (c : Nat) : Parser :=
  { P with m_current_cmd := c, m_bypass := true }

/-- The state `P` with the two mode members replaced. -/
def with_mode (P : Parser) (m b : Bool) : Parser :=
  { P with m_is_cmd_mode := m, m_bypass := b }

/-- The parser taken as a simple-mode parser whose command is the command
of handle `c`. -/
def as_single (P : Parser) (c : Nat) : Parser :=
  { P with m_current_cmd := c, m_is_cmd_mode := false, m_bypass := false }

/-- Follows the spec: "single-command scanning against that Command using the
remaining tokens", followed by the consistency pass, that is, the parse of a
simple-mode parser whose command is `c`, on the remaining tokens `toks`. -/
def single_command_parse (P : Parser) (c : Nat) (prog : Str) (toks : List Str) :
    Except BCliError Unit × Parser :=
  (as_single P c).parse (prog :: toks)

/-- Follows the spec: a value "corresponds to a number" when it is made of an
optional single leading '-', then decimal digits with at most one '.', with
at least one digit. -/
def number_form (v : Str) : Bool :=
  let body : Str := if v.head? = some '-' then v.tail else v
  body.all (fun c => c.isDigit || c == '.') && decide (body.count '.' ≤ 1) &&
    body.any Char.isDigit

/-- When a value is awaited, the parameter that awaits it is not a flag. -/
def AwaitsValueParam (P : Parser) : Prop :=
  P.m_is_param = true →
    ∀ c, P.get_current_param P.m_current = some c → (P.params c).m_is_flag = false

/-- The flag of handle `cp` holds the sentinel. -/
def FlagSet (cp : Nat) (P : Parser) : Prop :=
  (P.params cp).m_is_flag = true ∧ (P.params cp).m_is_set = true ∧
    (P.params cp).m_str_value = FLAG_VALUE

end Parser

/-- The error a result carries, if any. -/
def thrown {α : Type} : Except BCliError α → Option BCliError
  | .error e => some e
  | .ok _ => none

/-! ## Lemmas on the utilities and on `Param` -/

namespace utils

theorem ltrim_idem (s v : Str) : ltrim (ltrim s v) v = ltrim s v := by
  induction s with
  | nil => rfl
  | cons c s ih =>
    by_cases h : v.contains c = true
    · simp only [ltrim, h, if_true, ih]
    · simp only [ltrim, h, if_false, Bool.false_eq_true]

theorem trim_param_idem (s : Str) : trim_param (trim_param s) = trim_param s :=
  ltrim_idem s _

theorem is_param_cons (c : Char) (s : Str) : is_param (c :: s) = (c == '-') := by
  cases s with
  | nil =>
    by_cases h : c = '-' <;> simp [is_param, is_short_param, is_long_param, startswith, h]
  | cons d s =>
    by_cases h : c = '-' <;> by_cases h2 : d = '-' <;>
      simp [is_param, is_short_param, is_long_param, startswith, h, h2]

theorem is_param_nil : is_param [] = false := by
  simp [is_param, is_short_param, is_long_param, startswith]

/-- A token looks like a parameter exactly when it starts with a dash. -/
theorem is_param_iff (s : Str) : is_param s = true ↔ startswith s ['-'] = true := by
  cases s with
  | nil => simp [is_param_nil, startswith]
  | cons c s => simp [is_param_cons, startswith]

end utils

namespace UMap

theorem find_isSome {α : Type} (m : UMap α) (k : Str) :
    (find m k).isSome = m.any (fun e => e.1 == k) := by
  induction m with
  | nil => rfl
  | cons e m ih =>
    by_cases h : (e.1 == k) = true
    · simp only [find, h, if_true, List.any_cons, Bool.true_or, Option.isSome_some]
    · simp only [find, h, if_false, List.any_cons, Bool.false_or, ih, Bool.false_eq_true]

theorem count_pos_iff {α : Type} (m : UMap α) (k : Str) :
    count m k > 0 ↔ (find m k).isSome = true := by
  rw [find_isSome]
  unfold count
  split
  · rename_i h
    exact ⟨fun _ => h, fun _ => Nat.one_pos⟩
  · rename_i h
    exact ⟨fun h0 => absurd h0 (Nat.lt_irrefl 0), fun h1 => absurd h1 h⟩

end UMap

namespace param

namespace Param

theorem sameConf_refl (p : Param) : SameConf p p := by
  constructor <;> rfl

theorem sameConf_trans {p q r : Param} (h1 : SameConf p q) (h2 : SameConf q r) :
    SameConf p r := by
  constructor
  · exact h2.raw_name.trans h1.raw_name
  · exact h2.help.trans h1.help
  · exact h2.default.trans h1.default
  · exact h2.short.trans h1.short
  · exact h2.long.trans h1.long
  · exact h2.action.trans h1.action
  · exact h2.depends_on.trans h1.depends_on
  · exact h2.banned.trans h1.banned
  · exact h2.has_default.trans h1.has_default
  · exact h2.is_flag.trans h1.is_flag
  · exact h2.setter.trans h1.setter
  · exact h2.checkers.trans h1.checkers
  · exact h2.callback.trans h1.callback
  · exact h2.callback_trigger.trans h1.callback_trigger

theorem set_sameConf (p : Param) : SameConf p p.set := by
  constructor <;> rfl

theorem fire_callback_sameConf (p : Param) : SameConf p (fire_callback p).2 := by
  unfold fire_callback
  split
  · split
    · constructor <;> rfl
    · exact sameConf_refl p
  · exact sameConf_refl p

theorem fire_callback_str_value (p : Param) :
    (fire_callback p).2.m_str_value = p.m_str_value := by
  unfold fire_callback
  split
  · split <;> rfl
  · rfl

theorem fire_callback_is_set (p : Param) :
    (fire_callback p).2.m_is_set = p.m_is_set := by
  unfold fire_callback
  split
  · split <;> rfl
  · rfl

theorem fire_callback_setter_trace (p : Param) :
    (fire_callback p).2.setter_trace = p.setter_trace := by
  unfold fire_callback
  split
  · split <;> rfl
  · rfl

/-- `process` in one piece. -/
theorem process_eq (p : Param) (v : Str) :
    p.process v =
      match run_checkers p.m_raw_name v p.c_checkers with
      | .error e => (.error e, { p with m_str_value := v })
      | .ok () =>
        match p.c_setter with
        | some f =>
          match f v with
          | .error e => (.error e, processed p v true)
          | .ok () => fire_callback (processed p v true)
        | none => fire_callback (processed p v false) := by
  unfold process processed stored
  cases hs : p.c_setter with
  | none =>
    cases hc : p.c_checkers with
    | nil =>
      simp only [hs, hc, List.isEmpty_nil, Bool.not_true, Bool.false_eq_true, if_false,
        run_checkers, if_true]
    | cons c cs =>
      simp only [hs, hc, List.isEmpty_cons, Bool.not_false, if_true, Bool.false_eq_true,
        if_false]
  | some f =>
    cases hc : p.c_checkers with
    | nil =>
      simp only [hs, hc, List.isEmpty_nil, Bool.not_true, Bool.false_eq_true, if_false,
        run_checkers, if_true]
    | cons c cs =>
      simp only [hs, hc, List.isEmpty_cons, Bool.not_false, if_true, Bool.false_eq_true,
        if_false]

theorem process_sameConf (p : Param) (v : Str) : SameConf p (p.process v).2 := by
  rw [process_eq]
  split
  · constructor <;> rfl
  · split
    · split
      · constructor <;> rfl
      · refine sameConf_trans ?_ (fire_callback_sameConf _)
        constructor <;> rfl
    · refine sameConf_trans ?_ (fire_callback_sameConf _)
      constructor <;> rfl

/-- Whatever happens, `process(value)` leaves `value` in `m_str_value`. -/
theorem process_str_value (p : Param) (v : Str) : (p.process v).2.m_str_value = v := by
  rw [process_eq]
  split
  · rfl
  · split
    · split
      · rfl
      · rw [fire_callback_str_value]; rfl
    · rw [fire_callback_str_value]; rfl

/-- What a `process` that returns has done: every checker has accepted the
value, the setter, if any, has returned, and the object is `processed`, up
to the trigger callback. -/
theorem process_ok (p : Param) (v : Str) (h : (p.process v).1 = .ok ()) :
    run_checkers p.m_raw_name v p.c_checkers = .ok () ∧
      (p.process v).2 = (fire_callback (processed p v p.c_setter.isSome)).2 ∧
      (∀ f, p.c_setter = some f → f v = .ok ()) := by
  rw [process_eq] at h ⊢
  cases hr : run_checkers p.m_raw_name v p.c_checkers with
  | error e => simp [hr] at h
  | ok u =>
    cases hs : p.c_setter with
    | none => simp [hs]
    | some f =>
      cases hf : f v with
      | error e => simp [hr, hs, hf] at h
      | ok u2 => simp [hs, hf]

/-- A `process` that returns has marked the parameter as set. -/
theorem process_is_set (p : Param) (v : Str) (h : (p.process v).1 = .ok ()) :
    (p.process v).2.m_is_set = true := by
  rw [(process_ok p v h).2.1, fire_callback_is_set]; rfl

/-- A `process` that returns has called the setter, if there is one, with the
value. -/
theorem process_setter_trace (p : Param) (v : Str) (h : (p.process v).1 = .ok ()) :
    (p.process v).2.setter_trace =
      if p.c_setter.isSome then p.setter_trace ++ [v] else p.setter_trace := by
  rw [(process_ok p v h).2.1, fire_callback_setter_trace]; rfl

/-- `process_def` leaves `m_str_value` as it was. -/
theorem process_def_str_value (p : Param) : (p.process_def).2.m_str_value = p.m_str_value := by
  unfold process_def
  rw [process_str_value]

theorem process_def_sameConf (p : Param) : SameConf p (p.process_def).2 := by
  unfold process_def
  refine sameConf_trans ?_ (process_sameConf _ _)
  constructor <;> rfl

end Param

end param

/-! ## Lemmas on the parser -/

theorem store_same {α : Type} (f : Nat → α) (i : Nat) (v : α) : store f i v i = v := by
  simp [store]

theorem store_other {α : Type} (f : Nat → α) (i j : Nat) (v : α) (h : j ≠ i) :
    store f i v j = f j := by
  simp [store, h]

namespace param

theorem Command.push_positionals_order (c : Command) (arg : Str) :
    (c.push_positionals arg).2.m_order = c.m_order := by
  unfold Command.push_positionals
  cases h : c.c_psetter <;> simp only [h]

theorem Command.push_positionals_positionals (c : Command) (arg : Str) :
    (c.push_positionals arg).2.m_positionals = c.m_positionals ++ [arg] := by
  unfold Command.push_positionals
  cases h : c.c_psetter <;> simp only [h]

end param

namespace Parser

open param

theorem sameDecl_refl (P : Parser) : SameDecl P P :=
  ⟨rfl, rfl, fun _ => rfl, fun _ => Param.sameConf_refl _, rfl, rfl, rfl, rfl⟩

theorem sameDecl_trans {P Q R : Parser} (h1 : SameDecl P Q) (h2 : SameDecl Q R) :
    SameDecl P R :=
  ⟨h2.groups.trans h1.groups, h2.current_cmd.trans h1.current_cmd,
    fun c => (h2.order c).trans (h1.order c),
    fun h => Param.sameConf_trans (h1.conf h) (h2.conf h),
    h2.cmd_mode.trans h1.cmd_mode, h2.bypass.trans h1.bypass, h2.exh.trans h1.exh,
    h2.cmds.trans h1.cmds⟩

/-- Writing, at one handle, an object with the same configuration keeps the
configuration of every parameter. -/
theorem sameConf_store (f : Nat → Param) (cp : Nat) (q : Param)
    (hq : Param.SameConf (f cp) q) (h : Nat) : Param.SameConf (f h) (store f cp q h) := by
  by_cases hh : h = cp
  · subst hh; rw [store_same]; exact hq
  · rw [store_other _ _ _ _ hh]; exact Param.sameConf_refl _

theorem SameDecl.cur_groups {P Q : Parser} (h : SameDecl P Q) : Q.cur_groups = P.cur_groups := by
  unfold Parser.cur_groups
  rw [h.current_cmd, h.order]

theorem pexistsLoop_congr {P Q : Parser} (h : Q.groups = P.groups) (n : Str) (gs : List Nat) :
    Q.pexistsLoop n gs = P.pexistsLoop n gs := by
  induction gs with
  | nil => rfl
  | cons g gs ih => simp only [pexistsLoop, h, ih]

theorem getpLoop_congr {P Q : Parser} (h : Q.groups = P.groups) (n : Str) (gs : List Nat) :
    Q.getpLoop n gs = P.getpLoop n gs := by
  induction gs with
  | nil => rfl
  | cons g gs ih => simp only [getpLoop, h, ih]

theorem SameDecl.pexists {P Q : Parser} (h : SameDecl P Q) (n : Str) :
    Q.pexists n = P.pexists n := by
  unfold Parser.pexists
  rw [h.cur_groups, pexistsLoop_congr h.groups]

theorem SameDecl.get_current_param {P Q : Parser} (h : SameDecl P Q) (n : Str) :
    Q.get_current_param n = P.get_current_param n := by
  unfold Parser.get_current_param
  rw [h.cur_groups, getpLoop_congr h.groups]

theorem SameDecl.getp {P Q : Parser} (h : SameDecl P Q) (n : Str) : Q.getp n = P.getp n :=
  h.get_current_param n

/-- In a group where the name exists, `get` on the trimmed name returns. -/
theorem group_get_of_exists (g : ParamGroup) (n : Str) (h : g.exists n = true) :
    ∃ cp, g.get (utils.trim_param n) = .ok cp := by
  unfold ParamGroup.exists at h
  have h1 : UMap.count g.m_params (utils.trim_param n) > 0 := by simpa using h
  rw [UMap.count_pos_iff] at h1
  unfold ParamGroup.get
  cases hf : UMap.find g.m_params (utils.trim_param n) with
  | none => rw [hf] at h1; simp at h1
  | some cp => exact ⟨cp, rfl⟩

theorem group_exists_trim (g : ParamGroup) (n : Str) :
    g.exists (utils.trim_param n) = g.exists n := by
  unfold ParamGroup.exists
  rw [utils.trim_param_idem]

theorem getpLoop_of_pexistsLoop (P : Parser) (n : Str) (gs : List Nat)
    (h : P.pexistsLoop n gs = true) : ∃ cp, P.getpLoop (utils.trim_param n) gs = some cp := by
  induction gs with
  | nil => simp [pexistsLoop] at h
  | cons g gs ih =>
    unfold pexistsLoop at h
    unfold getpLoop
    rw [group_exists_trim]
    by_cases hg : (P.groups g).exists n = true
    · obtain ⟨cp, hcp⟩ := group_get_of_exists _ _ hg
      exact ⟨cp, by simp [hg, hcp]⟩
    · simp only [hg, if_false, Bool.false_eq_true] at h ⊢
      exact ih h

theorem pexistsLoop_of_getpLoop (P : Parser) (n : Str) (gs : List Nat) (cp : Nat)
    (h : P.getpLoop (utils.trim_param n) gs = some cp) : P.pexistsLoop n gs = true := by
  induction gs with
  | nil => simp [getpLoop] at h
  | cons g gs ih =>
    unfold getpLoop at h
    unfold pexistsLoop
    rw [group_exists_trim] at h
    by_cases hg : (P.groups g).exists n = true
    · simp [hg]
    · simp only [hg, if_false, Bool.false_eq_true] at h ⊢
      exact ih h

/-- A name `pexists` accepts is resolved by `get_current_param`: the pointer
it returns is not null. -/
theorem get_current_param_of_pexists (P : Parser) (n : Str) (h : P.pexists n = true) :
    ∃ cp, P.get_current_param n = some cp :=
  getpLoop_of_pexistsLoop P n _ h

/-- `get_current_param` resolves only names `pexists` accepts. -/
theorem pexists_of_get_current_param (P : Parser) (n : Str) (cp : Nat)
    (h : P.get_current_param n = some cp) : P.pexists n = true :=
  pexistsLoop_of_getpLoop P n _ cp h

end Parser

theorem store_store {α : Type} (f : Nat → α) (i : Nat) (v w : α) :
    store (store f i v) i w = store f i w := by
  funext j
  by_cases h : j = i <;> simp [store, h]

namespace Parser

open param

/-! ### The branches of `process_arg` -/

/-- On a token that starts with "[-", `unwrap(arg, 1)` does not throw and
drops the first and the last character. -/
theorem unwrap_bracketed (a : Str) (h : utils.startswith a "[-".toList = true) :
    utils.unwrap a 1 = .ok ((a.drop 1).take (a.length - 2)) := by
  have hlen : 2 ≤ a.length := by
    cases a with
    | nil => simp [utils.startswith] at h
    | cons c a =>
      cases a with
      | nil => simp [utils.startswith] at h
      | cons d a => simp
  unfold utils.unwrap utils.substr utils.size_t_sub
  have h1 : ¬ 1 > a.length := by omega
  have h2 : 2 * 1 ≤ a.length := by omega
  simp only [h1, h2, if_true, if_false]

/-- The value `process_arg` hands to `process`. -/
theorem unwrapping_eq (a : Str) :
    (if utils.startswith a "[-".toList && utils.endswith a "]".toList then
      utils.unwrap a 1 else .ok a) = .ok (unwrapped a) := by
  unfold unwrapped
  by_cases h : (utils.startswith a "[-".toList && utils.endswith a "]".toList) = true
  · have hs : utils.startswith a "[-".toList = true := by
      simp only [Bool.and_eq_true] at h
      exact h.1
    simp only [h, if_true, unwrap_bracketed a hs]
  · simp only [h, if_false, Bool.false_eq_true]

theorem process_arg_unknown (P : Parser) (a : Str) (ha : utils.is_param a = true)
    (hx : P.pexists a = false) :
    P.process_arg a =
      (.error (InvalidParamError ("Unknown param: ".toList ++ a ++ ".".toList)), P) := by
  unfold process_arg
  simp [ha, hx]

theorem process_arg_awaited (P : Parser) (a : Str) (ha : utils.is_param a = true)
    (hx : P.pexists a = true) (hw : P.m_is_param = true) :
    P.process_arg a =
      (.error (MissingValueError (P.m_current ++ "needs a value.".toList)), P) := by
  unfold process_arg
  simp [ha, hx, hw]

theorem process_arg_value_param (P : Parser) (a : Str) (cp : Nat)
    (ha : utils.is_param a = true) (hw : P.m_is_param = false)
    (hcp : P.get_current_param a = some cp) (hf : (P.params cp).m_is_flag = false) :
    P.process_arg a =
      (.ok (P.params cp).m_action, { P with m_current := a, m_is_param := true }) := by
  have hx := pexists_of_get_current_param P a cp hcp
  have hd : SameDecl P { P with m_current := a, m_is_param := true } :=
    ⟨rfl, rfl, fun _ => rfl, fun _ => Param.sameConf_refl _, rfl, rfl, rfl, rfl⟩
  have hcp1 : Parser.get_current_param { P with m_current := a, m_is_param := true } a
      = some cp := (hd.get_current_param a).trans hcp
  unfold process_arg
  simp only [ha, hx, hw, if_true, Bool.not_true, Bool.false_eq_true, if_false, hcp1]
  simp only [Param.is_flag, hf, Bool.false_eq_true, if_false, Param.get_action]
  split
  · rfl
  · rename_i h
    simp only [ne_eq, Decidable.not_not] at h
    rw [h]

theorem process_arg_flag (P : Parser) (a : Str) (cp : Nat)
    (ha : utils.is_param a = true) (hw : P.m_is_param = false)
    (hcp : P.get_current_param a = some cp) (hf : (P.params cp).m_is_flag = true) :
    P.process_arg a =
      (match ((P.params cp).set.process FLAG_VALUE).1 with
        | .error e => .error e
        | .ok () => .ok (P.params cp).m_action,
       { P with m_current := a, m_is_param := false, m_last_is_flag := true,
                params := store P.params cp ((P.params cp).set.process FLAG_VALUE).2 }) := by
  have hx := pexists_of_get_current_param P a cp hcp
  have hd : SameDecl P { P with m_current := a, m_is_param := true } :=
    ⟨rfl, rfl, fun _ => rfl, fun _ => Param.sameConf_refl _, rfl, rfl, rfl, rfl⟩
  have hcp1 : Parser.get_current_param { P with m_current := a, m_is_param := true } a
      = some cp := (hd.get_current_param a).trans hcp
  have hact : (((P.params cp).set.process FLAG_VALUE).2).m_action = (P.params cp).m_action :=
    (Param.sameConf_trans (Param.set_sameConf _) (Param.process_sameConf _ _)).action
  unfold process_arg
  simp only [ha, hx, hw, if_true, Bool.not_true, Bool.false_eq_true, if_false, hcp1]
  simp only [Param.is_flag, hf, if_true, Param.get_action, store_same, store_store]
  cases hr : ((P.params cp).set.process FLAG_VALUE).1 with
  | error e => rfl
  | ok u =>
    simp only [hact]
    split
    · rfl
    · rename_i h
      simp only [ne_eq, Decidable.not_not] at h
      rw [h]

theorem process_arg_positional (P : Parser) (a : Str) (ha : utils.is_param a = false)
    (hw : P.m_is_param = false) :
    P.process_arg a =
      (match ((P.commands P.m_current_cmd).push_positionals a).1 with
        | .error e => .error e
        | .ok () => .ok Action.Nothing,
       { P with commands := store P.commands P.m_current_cmd
                  ((P.commands P.m_current_cmd).push_positionals a).2 }) := by
  unfold process_arg
  simp only [ha, hw, Bool.false_eq_true, if_false, Bool.not_false, if_true]
  cases hr : ((P.commands P.m_current_cmd).push_positionals a).1 <;> rfl

theorem process_arg_value (P : Parser) (a : Str) (cp : Nat) (ha : utils.is_param a = false)
    (hw : P.m_is_param = true) (hcp : P.get_current_param P.m_current = some cp) :
    P.process_arg a =
      (match ((P.params cp).process (unwrapped a)).1 with
        | .error e => .error e
        | .ok () => .ok Action.Nothing,
       { P with params := store P.params cp ((P.params cp).process (unwrapped a)).2,
                m_is_param := (match ((P.params cp).process (unwrapped a)).1 with
                  | .error _ => true
                  | .ok () => false) }) := by
  unfold process_arg
  simp only [ha, hw, Bool.false_eq_true, if_false, Bool.not_true, unwrapping_eq, hcp]
  cases hr : ((P.params cp).process (unwrapped a)).1 with
  | error e => simp only [← hw]
  | ok u => rfl

end Parser

namespace Parser

open param

theorem process_arg_value_null (P : Parser) (a : Str) (ha : utils.is_param a = false)
    (hw : P.m_is_param = true) (hcp : P.get_current_param P.m_current = none) :
    P.process_arg a = (.error nullDeref, P) := by
  unfold process_arg
  simp only [ha, hw, Bool.false_eq_true, if_false, Bool.not_true, unwrapping_eq, hcp]

/-- The seven ways `process_arg` can go. -/
theorem process_arg_cases (P : Parser) (a : Str) :
    (utils.is_param a = true ∧ P.pexists a = false ∧
      P.process_arg a =
        (.error (InvalidParamError ("Unknown param: ".toList ++ a ++ ".".toList)), P)) ∨
    (utils.is_param a = true ∧ P.pexists a = true ∧ P.m_is_param = true ∧
      P.process_arg a =
        (.error (MissingValueError (P.m_current ++ "needs a value.".toList)), P)) ∨
    (∃ cp, utils.is_param a = true ∧ P.m_is_param = false ∧
      P.get_current_param a = some cp ∧ (P.params cp).m_is_flag = true ∧
      P.process_arg a =
        (match ((P.params cp).set.process FLAG_VALUE).1 with
          | .error e => .error e
          | .ok () => .ok (P.params cp).m_action,
         { P with m_current := a, m_is_param := false, m_last_is_flag := true,
                  params := store P.params cp ((P.params cp).set.process FLAG_VALUE).2 })) ∨
    (∃ cp, utils.is_param a = true ∧ P.m_is_param = false ∧
      P.get_current_param a = some cp ∧ (P.params cp).m_is_flag = false ∧
      P.process_arg a =
        (.ok (P.params cp).m_action, { P with m_current := a, m_is_param := true })) ∨
    (utils.is_param a = false ∧ P.m_is_param = false ∧
      P.process_arg a =
        (match ((P.commands P.m_current_cmd).push_positionals a).1 with
          | .error e => .error e
          | .ok () => .ok Action.Nothing,
         { P with commands := store P.commands P.m_current_cmd
                    ((P.commands P.m_current_cmd).push_positionals a).2 })) ∨
    (∃ cp, utils.is_param a = false ∧ P.m_is_param = true ∧
      P.get_current_param P.m_current = some cp ∧
      P.process_arg a =
        (match ((P.params cp).process (unwrapped a)).1 with
          | .error e => .error e
          | .ok () => .ok Action.Nothing,
         { P with params := store P.params cp ((P.params cp).process (unwrapped a)).2,
                  m_is_param := (match ((P.params cp).process (unwrapped a)).1 with
                    | .error _ => true
                    | .ok () => false) })) ∨
    (utils.is_param a = false ∧ P.m_is_param = true ∧
      P.get_current_param P.m_current = none ∧ P.process_arg a = (.error nullDeref, P)) := by
  by_cases ha : utils.is_param a = true
  · by_cases hx : P.pexists a = true
    · by_cases hw : P.m_is_param = true
      · exact Or.inr (Or.inl ⟨ha, hx, hw, process_arg_awaited P a ha hx hw⟩)
      · have hw' : P.m_is_param = false := by simpa using hw
        obtain ⟨cp, hcp⟩ := get_current_param_of_pexists P a hx
        by_cases hf : (P.params cp).m_is_flag = true
        · exact Or.inr (Or.inr (Or.inl ⟨cp, ha, hw', hcp, hf,
            process_arg_flag P a cp ha hw' hcp hf⟩))
        · have hf' : (P.params cp).m_is_flag = false := by simpa using hf
          exact Or.inr (Or.inr (Or.inr (Or.inl ⟨cp, ha, hw', hcp, hf',
            process_arg_value_param P a cp ha hw' hcp hf'⟩)))
    · have hx' : P.pexists a = false := by simpa using hx
      exact Or.inl ⟨ha, hx', process_arg_unknown P a ha hx'⟩
  · have ha' : utils.is_param a = false := by simpa using ha
    by_cases hw : P.m_is_param = true
    · cases hcp : P.get_current_param P.m_current with
      | none =>
        exact Or.inr (Or.inr (Or.inr (Or.inr (Or.inr (Or.inr
          ⟨ha', hw, rfl, process_arg_value_null P a ha' hw hcp⟩)))))
      | some cp =>
        exact Or.inr (Or.inr (Or.inr (Or.inr (Or.inr (Or.inl
          ⟨cp, ha', hw, rfl, process_arg_value P a cp ha' hw hcp⟩)))))
    · have hw' : P.m_is_param = false := by simpa using hw
      exact Or.inr (Or.inr (Or.inr (Or.inr (Or.inl
        ⟨ha', hw', process_arg_positional P a ha' hw'⟩))))

/-- `process_arg` does not touch the declaration. -/
theorem process_arg_sameDecl (P : Parser) (a : Str) : SameDecl P (P.process_arg a).2 := by
  rcases process_arg_cases P a with ⟨_, _, h⟩ | ⟨_, _, _, h⟩ | ⟨cp, _, _, _, _, h⟩ |
    ⟨cp, _, _, _, _, h⟩ | ⟨_, _, h⟩ | ⟨cp, _, _, _, h⟩ | ⟨_, _, _, h⟩ <;> rw [h]
  · exact sameDecl_refl P
  · exact sameDecl_refl P
  · exact ⟨rfl, rfl, fun _ => rfl,
      sameConf_store _ _ _
        (Param.sameConf_trans (Param.set_sameConf _) (Param.process_sameConf _ _)),
      rfl, rfl, rfl, rfl⟩
  · exact ⟨rfl, rfl, fun _ => rfl, fun _ => Param.sameConf_refl _, rfl, rfl, rfl, rfl⟩
  · refine ⟨rfl, rfl, fun c => ?_, fun _ => Param.sameConf_refl _, rfl, rfl, rfl, rfl⟩
    by_cases hc : c = P.m_current_cmd
    · subst hc
      simp only [store_same, Command.push_positionals_order]
    · simp only [store_other _ _ _ _ hc]
  · exact ⟨rfl, rfl, fun _ => rfl, sameConf_store _ _ _ (Param.process_sameConf _ _),
      rfl, rfl, rfl, rfl⟩
  · exact sameDecl_refl P

/-- `show_help` leaves the state as it is or adds one item to the diagnostic
stream. -/
theorem show_help_snd (P : Parser) :
    (P.show_help).2 = P ∨ ∃ o, (P.show_help).2 = { P with cerr := P.cerr ++ [o] } := by
  unfold show_help
  split
  · split
    · exact Or.inl rfl
    · exact Or.inr ⟨_, rfl⟩
  · split
    · exact Or.inl rfl
    · exact Or.inr ⟨_, rfl⟩

/-- The help branch of `parse` in one piece: it always throws, the error of
the rendering or the silent failure. -/
theorem show_help_stop (P : Parser) :
    (match P.show_help with
      | (.error e, P2) => ((.error e : Except BCliError Unit), P2)
      | (.ok (), P2) => (.error silentFailure, P2)) =
      (.error (help_stop P), (P.show_help).2) := by
  unfold help_stop
  cases h : P.show_help with
  | mk r P2 =>
    cases r with
    | error e => rfl
    | ok u => rfl

/-- A `show_help` that returns on a parser that scans has written the help
of the current command. -/
theorem show_help_written (P : Parser) (hs : (!P.m_is_cmd_mode || P.m_bypass) = true)
    (h : (P.show_help).1 = .ok ()) :
    (P.show_help).2.cerr = P.cerr ++ [Output.help (P.show_help).2.m_current_cmd] := by
  unfold show_help at h ⊢
  simp only [hs, if_true] at h ⊢
  cases hg : (P.commands P.m_current_cmd).get_help P.groups P.params P.conf.m_flag_symbol
      P.m_name P.m_version P.m_bypass with
  | error e => rw [hg] at h; simp at h
  | ok u => rfl

/-- A `show_help` that throws has written nothing. -/
theorem show_help_error (P : Parser) (e : BCliError) (h : (P.show_help).1 = .error e) :
    (P.show_help).2 = P := by
  unfold show_help at h ⊢
  by_cases hs : (!P.m_is_cmd_mode || P.m_bypass) = true
  · simp only [hs, if_true] at h ⊢
    cases hg : (P.commands P.m_current_cmd).get_help P.groups P.params P.conf.m_flag_symbol
        P.m_name P.m_version P.m_bypass with
    | error e2 => rfl
    | ok u => rw [hg] at h; simp at h
  · simp only [hs, if_false] at h ⊢
    cases hg : P.m_cmds.get_help with
    | error e2 => rfl
    | ok u => rw [hg] at h; simp at h

theorem show_help_sameDecl (P : Parser) : SameDecl P (P.show_help).2 := by
  rcases show_help_snd P with h | ⟨o, h⟩ <;> rw [h] <;>
    exact ⟨rfl, rfl, fun _ => rfl, fun _ => Param.sameConf_refl _, rfl, rfl, rfl, rfl⟩

theorem show_version_sameDecl (P : Parser) : SameDecl P P.show_version :=
  ⟨rfl, rfl, fun _ => rfl, fun _ => Param.sameConf_refl _, rfl, rfl, rfl, rfl⟩

/-- A property every step of the scan keeps holds when the scan stops,
however it stops. -/
theorem scan_invariant (I : Parser → Prop)
    (hstep : ∀ P a, I P → I (P.process_arg a).2)
    (hhelp : ∀ P, I P → I (P.show_help).2) (hver : ∀ P, I P → I P.show_version) :
    ∀ (toks : List Str) (P : Parser), I P → I (P.scan toks).2 := by
  intro toks
  induction toks with
  | nil => intro P h; exact h
  | cons a rest ih =>
    intro P h
    have h1 := hstep P a h
    unfold scan
    cases hr : P.process_arg a with
    | mk r P1 =>
      rw [hr] at h1
      cases r with
      | error e => exact h1
      | ok act =>
        cases act with
        | Nothing => exact ih P1 h1
        | ShowHelp =>
          simp only
          rw [show_help_stop]
          exact hhelp P1 h1
        | ShowVersion => exact hver P1 h1

theorem scan_sameDecl (P : Parser) (toks : List Str) : SameDecl P (P.scan toks).2 :=
  scan_invariant (fun Q => SameDecl P Q)
    (fun Q a h => sameDecl_trans h (process_arg_sameDecl Q a))
    (fun Q h => sameDecl_trans h (show_help_sameDecl Q))
    (fun Q h => sameDecl_trans h (show_version_sameDecl Q)) toks P (sameDecl_refl P)

end Parser

namespace param

theorem Param.fire_callback_keeps (p : Param) :
    (Param.fire_callback p).2.m_is_set = p.m_is_set ∧
      (Param.fire_callback p).2.m_str_value = p.m_str_value :=
  ⟨Param.fire_callback_is_set p, Param.fire_callback_str_value p⟩

/-- `process` never clears `m_is_set`. -/
theorem Param.process_keeps_set (p : Param) (v : Str) (h : p.m_is_set = true) :
    (p.process v).2.m_is_set = true := by
  rw [Param.process_eq]
  split
  · exact h
  · split
    · split
      · rfl
      · rw [Param.fire_callback_is_set]; rfl
    · rw [Param.fire_callback_is_set]; rfl

end param

namespace Parser

open param

theorem awaitsValueParam_of_not_awaiting (P : Parser) (h : P.m_is_param = false) :
    AwaitsValueParam P := by
  intro h1
  rw [h] at h1
  exact absurd h1 (by decide)

/-- A step of the scan keeps a set flag set, with the sentinel as its value. -/
theorem process_arg_keeps_flag (cp : Nat) (P : Parser) (a : Str)
    (hI : AwaitsValueParam P ∧ FlagSet cp P) :
    AwaitsValueParam (P.process_arg a).2 ∧ FlagSet cp (P.process_arg a).2 := by
  obtain ⟨hA, hflag, hset, hval⟩ := hI
  rcases process_arg_cases P a with ⟨_, _, h⟩ | ⟨_, _, _, h⟩ | ⟨c, _, _, _, hcf, h⟩ |
    ⟨c, _, hw, hc, hcf, h⟩ | ⟨_, hw, h⟩ | ⟨c, _, hw, hc, h⟩ | ⟨_, _, _, h⟩ <;> rw [h]
  · exact ⟨hA, hflag, hset, hval⟩
  · exact ⟨hA, hflag, hset, hval⟩
  · refine ⟨awaitsValueParam_of_not_awaiting _ rfl, ?_⟩
    by_cases hcc : cp = c
    · subst hcc
      refine ⟨?_, ?_, ?_⟩
      · simp only [store_same]
        rw [(Param.sameConf_trans (Param.set_sameConf _) (Param.process_sameConf _ _)).is_flag]
        exact hflag
      · simp only [store_same]
        exact Param.process_keeps_set _ _ rfl
      · simp only [store_same]
        exact Param.process_str_value _ _
    · exact ⟨by simp only [store_other _ _ _ _ hcc]; exact hflag,
        by simp only [store_other _ _ _ _ hcc]; exact hset,
        by simp only [store_other _ _ _ _ hcc]; exact hval⟩
  · refine ⟨?_, hflag, hset, hval⟩
    intro _ c' hc'
    have hd : SameDecl P { P with m_current := a, m_is_param := true } :=
      ⟨rfl, rfl, fun _ => rfl, fun _ => Param.sameConf_refl _, rfl, rfl, rfl, rfl⟩
    have h2 : P.get_current_param a = some c' := (hd.get_current_param a).symm.trans hc'
    rw [hc] at h2
    cases h2
    exact hcf
  · exact ⟨awaitsValueParam_of_not_awaiting _ hw, hflag, hset, hval⟩
  · have hcf : (P.params c).m_is_flag = false := hA hw c hc
    have hne : cp ≠ c := by
      intro hcc
      rw [hcc, hcf] at hflag
      exact absurd hflag (by decide)
    refine ⟨?_, by simp only [store_other _ _ _ _ hne]; exact hflag,
      by simp only [store_other _ _ _ _ hne]; exact hset,
      by simp only [store_other _ _ _ _ hne]; exact hval⟩
    intro _ c' hc'
    have hd : SameDecl P
        { P with params := store P.params c ((P.params c).process (unwrapped a)).2,
                 m_is_param := (match ((P.params c).process (unwrapped a)).1 with
                    | .error _ => true
                    | .ok () => false) } :=
      ⟨rfl, rfl, fun _ => rfl, sameConf_store _ _ _ (Param.process_sameConf _ _),
        rfl, rfl, rfl, rfl⟩
    have h2 : P.get_current_param P.m_current = some c' :=
      (hd.get_current_param P.m_current).symm.trans hc'
    rw [hc] at h2
    cases h2
    rw [(hd.conf c).is_flag]
    exact hcf
  · exact ⟨hA, hflag, hset, hval⟩

theorem AwaitsValueParam.congr {P Q : Parser} (hd : SameDecl P Q)
    (h1 : Q.m_is_param = P.m_is_param) (h2 : Q.m_current = P.m_current)
    (h : AwaitsValueParam P) : AwaitsValueParam Q := by
  intro hw c hc
  rw [h1] at hw
  rw [h2, hd.get_current_param] at hc
  rw [(hd.conf c).is_flag]
  exact h hw c hc

theorem show_help_fields (P : Parser) :
    (P.show_help).2.m_is_param = P.m_is_param ∧ (P.show_help).2.m_current = P.m_current ∧
      (P.show_help).2.params = P.params ∧ (P.show_help).2.commands = P.commands := by
  rcases show_help_snd P with h | ⟨o, h⟩ <;> rw [h] <;> exact ⟨rfl, rfl, rfl, rfl⟩

/-- The scan keeps a set flag set, with the sentinel as its value, however it
stops. -/
theorem scan_keeps_flag (cp : Nat) (P : Parser) (toks : List Str)
    (hI : AwaitsValueParam P ∧ FlagSet cp P) :
    AwaitsValueParam (P.scan toks).2 ∧ FlagSet cp (P.scan toks).2 :=
  scan_invariant (fun Q => AwaitsValueParam Q ∧ FlagSet cp Q)
    (fun Q a h => process_arg_keeps_flag cp Q a h)
    (fun Q h =>
      ⟨h.1.congr (show_help_sameDecl Q) (show_help_fields Q).1 (show_help_fields Q).2.1, by
        unfold FlagSet
        rw [(show_help_fields Q).2.2.1]
        exact h.2⟩)
    (fun Q h => ⟨h.1.congr (show_version_sameDecl Q) rfl rfl, h.2⟩) toks P hI

end Parser

namespace Parser

open param

/-- A scan that completes has processed its first token without stopping. -/
theorem scan_cons_ok (P P' : Parser) (a : Str) (rest : List Str)
    (h : P.scan (a :: rest) = (.ok (), P')) :
    ∃ P1, P.process_arg a = (.ok Action.Nothing, P1) ∧ P1.scan rest = (.ok (), P') := by
  unfold scan at h
  cases hr : P.process_arg a with
  | mk r P1 =>
    rw [hr] at h
    cases r with
    | error e => simp at h
    | ok act =>
      cases act with
      | Nothing => exact ⟨P1, rfl, h⟩
      | ShowHelp =>
        simp only [show_help_stop] at h
        simp at h
      | ShowVersion => simp at h

theorem positional_tokens_from_cons (P : Parser) (prev : Option Str) (a : Str)
    (rest : List Str) :
    positional_tokens_from P prev (a :: rest) =
      (if !utils.is_param a && !consumedAfter P prev then [a] else []) ++
        positional_tokens_from P (some a) rest := by
  unfold positional_tokens_from
  simp only [List.map_cons, List.zip_cons_cons, List.filter_cons]
  split <;> simp

theorem takesValue_congr {P Q : Parser} (hd : SameDecl P Q) (t : Str) :
    takesValue Q t = takesValue P t := by
  unfold takesValue
  rw [hd.get_current_param]
  cases P.get_current_param t with
  | none => rfl
  | some cp => simp only [Param.is_flag, (hd.conf cp).is_flag]

theorem consumedAfter_congr {P Q : Parser} (hd : SameDecl P Q) (prev : Option Str) :
    consumedAfter Q prev = consumedAfter P prev := by
  cases prev with
  | none => rfl
  | some t => exact takesValue_congr hd t

theorem positional_tokens_from_congr {P Q : Parser} (hd : SameDecl P Q) (prev : Option Str)
    (toks : List Str) : positional_tokens_from Q prev toks = positional_tokens_from P prev toks := by
  unfold positional_tokens_from
  congr 2
  funext x
  rw [consumedAfter_congr hd]

/-- One successful step of the scan: what is awaited afterwards and what the
positional list has become. -/
theorem process_arg_ok_positionals (P P1 : Parser) (a : Str)
    (h : P.process_arg a = (.ok Action.Nothing, P1)) :
    P1.m_is_param = takesValue P a ∧
      P1.get_positionals =
        P.get_positionals ++ (if !utils.is_param a && !P.m_is_param then [a] else []) := by
  rcases process_arg_cases P a with ⟨_, _, h'⟩ | ⟨_, _, _, h'⟩ | ⟨c, ha, hw, hc, hcf, h'⟩ |
    ⟨c, ha, hw, hc, hcf, h'⟩ | ⟨ha, hw, h'⟩ | ⟨c, ha, hw, hc, h'⟩ | ⟨_, _, _, h'⟩ <;>
    rw [h'] at h
  · simp at h
  · simp at h
  · have h2 := (Prod.mk.inj h).2
    subst h2
    simp [takesValue, ha, hc, Param.is_flag, hcf, get_positionals]
  · have h2 := (Prod.mk.inj h).2
    subst h2
    simp [takesValue, ha, hc, Param.is_flag, hcf, get_positionals]
  · have h2 := (Prod.mk.inj h).2
    subst h2
    simp [takesValue, ha, hw, get_positionals, Command.get_positionals, store_same,
      Command.push_positionals_positionals]
  · have h1 := (Prod.mk.inj h).1
    have h2 := (Prod.mk.inj h).2
    subst h2
    cases hr : ((P.params c).process (unwrapped a)).1 with
    | error e => rw [hr] at h1; simp at h1
    | ok u => simp [takesValue, ha, hw, get_positionals]
  · simp at h

/-- The positional list after a scan that completes, from any state of the
scan: `prev` is the token processed last. -/
theorem scan_positionals_from (P0 : Parser) :
    ∀ (toks : List Str) (P P' : Parser) (prev : Option Str),
      SameDecl P0 P → P.m_is_param = consumedAfter P0 prev →
      P.scan toks = (.ok (), P') →
      P'.get_positionals = P.get_positionals ++ positional_tokens_from P0 prev toks := by
  intro toks
  induction toks with
  | nil =>
    intro P P' prev _ _ h
    have h2 := (Prod.mk.inj h).2
    subst h2
    simp [positional_tokens_from]
  | cons a rest ih =>
    intro P P' prev hd hw h
    obtain ⟨P1, h1, h2⟩ := scan_cons_ok P P' a rest h
    have hstep := process_arg_ok_positionals P P1 a h1
    have hd1 : SameDecl P0 P1 := by
      have := process_arg_sameDecl P a
      rw [h1] at this
      exact sameDecl_trans hd this
    have hw1 : P1.m_is_param = consumedAfter P0 (some a) := by
      rw [hstep.1]
      exact takesValue_congr hd a
    rw [ih P1 P' (some a) hd1 hw1 h2, hstep.2, positional_tokens_from_cons, hw,
      List.append_assoc]

end Parser

namespace param

theorem Param.fire_callback_trace (p : Param) :
    (Param.fire_callback p).2.setter_trace = p.setter_trace :=
  Param.fire_callback_setter_trace p

/-- `process` only appends to the trace of the setter. -/
theorem Param.process_trace_mono (p : Param) (v : Str) :
    ∃ l, (p.process v).2.setter_trace = p.setter_trace ++ l := by
  rw [Param.process_eq]
  split
  · exact ⟨[], by simp⟩
  · split
    · split
      · exact ⟨[v], rfl⟩
      · exact ⟨[v], by rw [Param.fire_callback_setter_trace]; rfl⟩
    · exact ⟨[], by rw [Param.fire_callback_setter_trace]; simp [Param.processed]⟩

theorem Param.process_def_keeps_set (p : Param) (h : p.m_is_set = true) :
    (p.process_def).2.m_is_set = true := by
  unfold Param.process_def
  exact Param.process_keeps_set _ _ h

theorem Param.process_def_trace_mono (p : Param) :
    ∃ l, (p.process_def).2.setter_trace = p.setter_trace ++ l := by
  unfold Param.process_def
  exact Param.process_trace_mono _ _

end param

namespace Parser

open param

theorem paramsOnly_refl (P : Parser) : ParamsOnly P P :=
  ⟨⟨P.params, rfl⟩, fun _ => Param.sameConf_refl _, fun _ => rfl, fun _ h => h,
    fun _ => ⟨[], by simp⟩⟩

theorem paramsOnly_trans {P Q R : Parser} (h1 : ParamsOnly P Q) (h2 : ParamsOnly Q R) :
    ParamsOnly P R := by
  refine ⟨?_, fun h => Param.sameConf_trans (h1.conf h) (h2.conf h),
    fun h => (h2.value h).trans (h1.value h), fun h hs => h2.set_mono h (h1.set_mono h hs), ?_⟩
  · obtain ⟨f, hf⟩ := h1.eq
    obtain ⟨g, hg⟩ := h2.eq
    exact ⟨g, by rw [hg, hf]⟩
  · intro h
    obtain ⟨l1, hl1⟩ := h1.trace_mono h
    obtain ⟨l2, hl2⟩ := h2.trace_mono h
    exact ⟨l1 ++ l2, by rw [hl2, hl1, List.append_assoc]⟩

theorem ParamsOnly.sameDecl {P Q : Parser} (h : ParamsOnly P Q) : SameDecl P Q := by
  obtain ⟨f, hf⟩ := h.eq
  have hc := h.conf
  subst hf
  exact ⟨rfl, rfl, fun _ => rfl, hc, rfl, rfl, rfl, rfl⟩

theorem ParamsOnly.fields {P Q : Parser} (h : ParamsOnly P Q) :
    Q.commands = P.commands ∧ Q.m_current_cmd = P.m_current_cmd ∧
      Q.m_is_param = P.m_is_param ∧ Q.m_current = P.m_current ∧ Q.cerr = P.cerr := by
  obtain ⟨f, hf⟩ := h.eq
  subst hf
  exact ⟨rfl, rfl, rfl, rfl, rfl⟩

/-- Writing the result of `process_def` at a handle. -/
theorem paramsOnly_process_def (P : Parser) (p : Nat) :
    ParamsOnly P { P with params := store P.params p (P.params p).process_def.2 } := by
  refine ⟨⟨_, rfl⟩, sameConf_store _ _ _ (Param.process_def_sameConf _), ?_, ?_, ?_⟩
  · intro h
    by_cases hh : h = p
    · subst hh; simp only [store_same]; exact Param.process_def_str_value _
    · simp only [store_other _ _ _ _ hh]
  · intro h hs
    by_cases hh : h = p
    · subst hh; simp only [store_same]; exact Param.process_def_keeps_set _ hs
    · simp only [store_other _ _ _ _ hh]; exact hs
  · intro h
    by_cases hh : h = p
    · subst hh; simp only [store_same]; exact Param.process_def_trace_mono _
    · simp only [store_other _ _ _ _ hh]; exact ⟨[], by simp⟩

/-- The state `check_param` leaves: the one it was given, or that state
after `process_def` on the parameter. -/
theorem check_param_state (P : Parser) (p : Nat) :
    (P.check_param p).2 = P ∨
      (P.check_param p).2 = { P with params := store P.params p (P.params p).process_def.2 } := by
  unfold check_param
  split
  · exact Or.inl rfl
  · split
    · simp only
      repeat' split
      all_goals exact Or.inr rfl
    · simp only
      repeat' split
      all_goals exact Or.inl rfl

theorem check_param_paramsOnly (P : Parser) (p : Nat) : ParamsOnly P (P.check_param p).2 := by
  rcases check_param_state P p with h | h <;> rw [h]
  · exact paramsOnly_refl P
  · exact paramsOnly_process_def P p

theorem check_params_paramsOnly (ps : List Nat) :
    ∀ P : Parser, ParamsOnly P (P.check_params ps).2 := by
  induction ps with
  | nil => intro P; exact paramsOnly_refl P
  | cons p ps ih =>
    intro P
    have h1 := check_param_paramsOnly P p
    unfold check_params
    cases hr : P.check_param p with
    | mk r P1 =>
      rw [hr] at h1
      cases r with
      | error e => exact h1
      | ok u => exact paramsOnly_trans h1 (ih P1)

theorem check_groups_paramsOnly (gs : List Nat) :
    ∀ P : Parser, ParamsOnly P (P.check_groups gs).2 := by
  induction gs with
  | nil => intro P; exact paramsOnly_refl P
  | cons g gs ih =>
    intro P
    have h1 := check_params_paramsOnly (P.groups g).m_order P
    unfold check_groups
    cases hr : P.check_params (P.groups g).m_order with
    | mk r P1 =>
      rw [hr] at h1
      cases r with
      | error e => exact h1
      | ok u => exact paramsOnly_trans h1 (ih P1)

/-- The consistency pass writes nothing but the parameter store, and there
keeps every configuration and every value. -/
theorem check_consistency_paramsOnly (P : Parser) : ParamsOnly P (P.check_consistency).2 := by
  have h1 := check_groups_paramsOnly P.cur_groups P
  unfold check_consistency
  cases hr : P.check_groups P.cur_groups with
  | mk r P1 =>
    rw [hr] at h1
    cases r with
    | error e => exact h1
    | ok u =>
      simp only
      split
      · exact h1
      · split <;> exact h1

end Parser

namespace Parser

open param

/-- With an empty `ExHandler` queue, and in simple mode or once a command has
been selected, `parse` is the scan of `argv[1..]` followed by the checks. -/
theorem parse_scanning (P : Parser) (prog : Str) (toks : List Str) (hq : P.exh = [])
    (hm : (!P.m_is_cmd_mode || P.m_bypass) = true) :
    P.parse (prog :: toks) = P.parse_args toks := by
  unfold parse exh_check ExHandler.check
  simp only [hq, List.isEmpty_nil, Bool.not_true, Bool.false_eq_true, if_false, hm, if_true]

/-- What a successful `parse_args` went through. -/
theorem parse_args_ok (P P' : Parser) (args : List Str)
    (h : P.parse_args args = (.ok (), P')) :
    ∃ P1, P.scan args = (.ok (), P1) ∧ P1.m_is_param = false ∧
      P1.check_consistency = (.ok (), P') := by
  unfold parse_args at h
  cases hr : P.scan args with
  | mk r P1 =>
    rw [hr] at h
    cases r with
    | error e => simp at h
    | ok u =>
      simp only at h
      by_cases hw : P1.m_is_param = true
      · simp [hw] at h
      · simp only [hw, if_false, Bool.false_eq_true] at h
        exact ⟨P1, rfl, by simpa using hw, h⟩

/-- After a scan that completes, `parse_args` leaves the positional list of
the scan. -/
theorem parse_args_positionals (P P1 : Parser) (args : List Str)
    (h : P.scan args = (.ok (), P1)) :
    (P.parse_args args).2.get_positionals = P1.get_positionals := by
  unfold parse_args
  rw [h]
  simp only
  split
  · rfl
  · have hf := (check_consistency_paramsOnly P1).fields
    unfold get_positionals
    rw [hf.1, hf.2.1]

end Parser

namespace Parser

open param

/-- A scan that completes splits at any point into two scans that complete. -/
theorem scan_append_ok (l1 l2 : List Str) :
    ∀ (P P' : Parser), P.scan (l1 ++ l2) = (.ok (), P') →
      ∃ P0, P.scan l1 = (.ok (), P0) ∧ P0.scan l2 = (.ok (), P') := by
  induction l1 with
  | nil => intro P P' h; exact ⟨P, rfl, h⟩
  | cons a l1 ih =>
    intro P P' h
    obtain ⟨P1, h1, h2⟩ := scan_cons_ok P P' a (l1 ++ l2) h
    obtain ⟨P0, h3, h4⟩ := ih P1 P' h2
    refine ⟨P0, ?_, h4⟩
    unfold scan
    rw [h1]
    exact h3

/-- A parameter token processed without error is the current one afterwards. -/
theorem process_arg_ok_current (P P1 : Parser) (a : Str) (ha : utils.is_param a = true)
    (h : P.process_arg a = (.ok Action.Nothing, P1)) : P1.m_current = a := by
  rcases process_arg_cases P a with ⟨_, _, h'⟩ | ⟨_, _, _, h'⟩ | ⟨c, _, hw, hc, hcf, h'⟩ |
    ⟨c, _, hw, hc, hcf, h'⟩ | ⟨ha', hw, h'⟩ | ⟨c, ha', hw, hc, h'⟩ | ⟨ha', _, _, h'⟩ <;>
    rw [h'] at h
  · simp at h
  · simp at h
  · have h2 := (Prod.mk.inj h).2
    subst h2
    rfl
  · have h2 := (Prod.mk.inj h).2
    subst h2
    rfl
  · rw [ha] at ha'; exact absurd ha' (by decide)
  · rw [ha] at ha'; exact absurd ha' (by decide)
  · rw [ha] at ha'; exact absurd ha' (by decide)

end Parser

namespace Parser

open param

/-- A property kept by every step of the scan on a token that satisfies `T`
holds when the scan of tokens that all satisfy `T` stops, however it
stops. -/
theorem scan_invariant_on (I : Parser → Prop) (T : Str → Prop)
    (hstep : ∀ P a, T a → I P → I (P.process_arg a).2)
    (hhelp : ∀ P, I P → I (P.show_help).2) (hver : ∀ P, I P → I P.show_version) :
    ∀ (toks : List Str) (P : Parser), (∀ t ∈ toks, T t) → I P → I (P.scan toks).2 := by
  intro toks
  induction toks with
  | nil => intro P _ h; exact h
  | cons a rest ih =>
    intro P hT h
    have h1 := hstep P a (hT a (List.mem_cons_self a rest)) h
    have hT' : ∀ t ∈ rest, T t := fun t ht => hT t (List.mem_cons_of_mem a ht)
    unfold scan
    cases hr : P.process_arg a with
    | mk r P1 =>
      rw [hr] at h1
      cases r with
      | error e => exact h1
      | ok act =>
        cases act with
        | Nothing => exact ih P1 hT' h1
        | ShowHelp =>
          simp only
          rw [show_help_stop]
          exact hhelp P1 h1
        | ShowVersion => exact hver P1 h1

/-- A step of the scan on a token that does not name the parameter `cp`
leaves the object of `cp` as it is. -/
theorem process_arg_keeps_param (P0 : Parser) (cp : Nat) (v : Param) (P : Parser) (a : Str)
    (hT : utils.is_param a = true → P0.get_current_param a ≠ some cp)
    (hI : HoldsParam P0 cp v P) : HoldsParam P0 cp v (P.process_arg a).2 := by
  obtain ⟨hd, hv, hA⟩ := hI
  have hd' : SameDecl P0 (P.process_arg a).2 := sameDecl_trans hd (process_arg_sameDecl P a)
  refine ⟨hd', ?_⟩
  rcases process_arg_cases P a with ⟨_, _, h⟩ | ⟨_, _, _, h⟩ | ⟨c, ha, _, hc, hcf, h⟩ |
    ⟨c, ha, hw, hc, hcf, h⟩ | ⟨_, hw, h⟩ | ⟨c, _, hw, hc, h⟩ | ⟨_, _, _, h⟩ <;> rw [h]
  · exact ⟨hv, hA⟩
  · exact ⟨hv, hA⟩
  · have hne : cp ≠ c := by
      intro hcc
      rw [hd.get_current_param] at hc
      exact hT ha (by rw [hc, hcc])
    exact ⟨by simp only [store_other _ _ _ _ hne]; exact hv, fun h => by simp at h⟩
  · refine ⟨hv, fun _ => ?_⟩
    exact hT ha
  · exact ⟨hv, fun h => by rw [hw] at h; exact absurd h (by decide)⟩
  · have hne : cp ≠ c := by
      intro hcc
      rw [hd.get_current_param] at hc
      exact hA hw (by rw [hc, hcc])
    exact ⟨by simp only [store_other _ _ _ _ hne]; exact hv, fun _ => hA hw⟩
  · exact ⟨hv, hA⟩

theorem holdsParam_show_help (P0 : Parser) (cp : Nat) (v : Param) (Q : Parser)
    (h : HoldsParam P0 cp v Q) : HoldsParam P0 cp v (Q.show_help).2 := by
  obtain ⟨hd, hv, hA⟩ := h
  have hf := show_help_fields Q
  refine ⟨sameDecl_trans hd (show_help_sameDecl Q), by rw [hf.2.2.1]; exact hv, ?_⟩
  rw [hf.1, hf.2.1]
  exact hA

/-- The scan of tokens none of which names the parameter `cp` leaves the
object of `cp` as it is. -/
theorem scan_keeps_param (P0 : Parser) (cp : Nat) (v : Param) (toks : List Str) (P : Parser)
    (hT : ∀ t ∈ toks, utils.is_param t = true → P0.get_current_param t ≠ some cp)
    (hI : HoldsParam P0 cp v P) : HoldsParam P0 cp v (P.scan toks).2 :=
  scan_invariant_on (HoldsParam P0 cp v)
    (fun t => utils.is_param t = true → P0.get_current_param t ≠ some cp)
    (fun Q a hTa h => process_arg_keeps_param P0 cp v Q a hTa h)
    (fun Q h => holdsParam_show_help P0 cp v Q h)
    (fun Q h => ⟨sameDecl_trans h.1 (show_version_sameDecl Q), h.2.1, h.2.2⟩) toks P hT hI

/-- A token that does not start with "[-" is stored as it is. -/
theorem unwrapped_of_not_bracket (a : Str) (h : utils.startswith a "[-".toList = false) :
    unwrapped a = a := by
  have h' : utils.startswith a ['[', '-'] = false := h
  unfold unwrapped
  simp [h']

/-- The step that consumes a value: the awaited parameter holds the token
afterwards. -/
theorem process_arg_value_ok (P P1 : Parser) (a : Str) (cp : Nat)
    (ha : utils.is_param a = false) (hw : P.m_is_param = true)
    (hcp : P.get_current_param P.m_current = some cp)
    (h : P.process_arg a = (.ok Action.Nothing, P1)) :
    (P1.params cp).m_str_value = unwrapped a ∧ P1.m_is_param = false := by
  rw [process_arg_value P a cp ha hw hcp] at h
  have h1 := (Prod.mk.inj h).1
  have h2 := (Prod.mk.inj h).2
  subst h2
  cases hr : ((P.params cp).process (unwrapped a)).1 with
  | error e => rw [hr] at h1; simp at h1
  | ok u =>
    refine ⟨?_, rfl⟩
    simp only [store_same]
    exact Param.process_str_value _ _

end Parser

namespace Parser

open param

/-! ### The consistency pass -/

theorem rulesLoop_ok_iff (f : rule_t → Except BCliError Unit) (rs : List rule_t) :
    rulesLoop f rs = .ok () ↔ ∀ r ∈ rs, f r = .ok () := by
  induction rs with
  | nil => simp [rulesLoop]
  | cons r rs ih =>
    unfold rulesLoop
    cases hr : f r with
    | error e =>
      simp only [List.mem_cons, forall_eq_or_imp, hr]
      constructor
      · intro h; simp at h
      · intro h; simp at h
    | ok u =>
      simp only [List.mem_cons, forall_eq_or_imp, hr, true_and]
      exact ih

/-- `check_param` in one piece. -/
theorem check_param_eq (P : Parser) (p : Nat) :
    P.check_param p =
      if (P.params p).is_required && !(P.params p).is_set then
        (.error (RequiredParamError ((P.params p).raw ++ " is required.".toList)), P)
      else
        match (default_step P p).1 with
        | .error e => (.error e, (default_step P p).2)
        | .ok () =>
          match rulesLoop ((default_step P p).2.check_depends p)
              ((default_step P p).2.params p).get_dependency with
          | .error e => (.error e, (default_step P p).2)
          | .ok () =>
            match rulesLoop ((default_step P p).2.check_banned p)
                ((default_step P p).2.params p).get_banned with
            | .error e => (.error e, (default_step P p).2)
            | .ok () => (.ok (), (default_step P p).2) := by
  unfold check_param default_step
  rfl

/-- When the pass gets past a parameter: it is not a required parameter left
unset, its default is applied without a throw, and each of its dependency
and ban rules passes in the state the default step leaves. -/
theorem check_param_ok_iff (P : Parser) (p : Nat) :
    (P.check_param p).1 = .ok () ↔
      ((P.params p).is_required && !(P.params p).is_set) = false ∧
      (default_step P p).1 = .ok () ∧
      (∀ r ∈ ((default_step P p).2.params p).get_dependency,
        (default_step P p).2.check_depends p r = .ok ()) ∧
      (∀ r ∈ ((default_step P p).2.params p).get_banned,
        (default_step P p).2.check_banned p r = .ok ()) := by
  rw [check_param_eq, ← rulesLoop_ok_iff, ← rulesLoop_ok_iff]
  by_cases h0 : ((P.params p).is_required && !(P.params p).is_set) = true
  · simp [h0]
  · simp only [h0, if_false, Bool.false_eq_true]
    cases h1 : (default_step P p).1 with
    | error e => simp
    | ok u =>
      cases h2 : rulesLoop ((default_step P p).2.check_depends p)
          ((default_step P p).2.params p).get_dependency with
      | error e => simp
      | ok u2 =>
        cases h3 : rulesLoop ((default_step P p).2.check_banned p)
            ((default_step P p).2.params p).get_banned with
        | error e => simp
        | ok u3 => simp

/-- The state the pass leaves at a parameter it does not reject as required. -/
theorem check_param_snd (P : Parser) (p : Nat)
    (h0 : ((P.params p).is_required && !(P.params p).is_set) = false) :
    (P.check_param p).2 = (default_step P p).2 := by
  rw [check_param_eq]
  simp only [h0, if_false, Bool.false_eq_true]
  repeat' split
  all_goals rfl

theorem check_param_required (P : Parser) (p : Nat) (hreq : (P.params p).is_required = true)
    (hunset : (P.params p).is_set = false) :
    P.check_param p =
      (.error (RequiredParamError ((P.params p).raw ++ " is required.".toList)), P) := by
  rw [check_param_eq]
  simp [hreq, hunset]

theorem check_param_other (P : Parser) (p h : Nat) (hne : h ≠ p) :
    (P.check_param p).2.params h = P.params h := by
  rcases check_param_state P p with hs | hs <;> rw [hs]
  simp only [store_other _ _ _ _ hne]

theorem check_params_other (ps : List Nat) (h : Nat) (hnot : h ∉ ps) :
    ∀ P : Parser, (P.check_params ps).2.params h = P.params h := by
  induction ps with
  | nil => intro P; rfl
  | cons p ps ih =>
    intro P
    have hne : h ≠ p := fun hh => hnot (by rw [hh]; exact List.mem_cons_self p ps)
    have hnot' : h ∉ ps := fun hh => hnot (List.mem_cons_of_mem p hh)
    have h1 := check_param_other P p h hne
    unfold check_params
    cases hr : P.check_param p with
    | mk r P1 =>
      rw [hr] at h1
      cases r with
      | error e => exact h1
      | ok u => exact (ih hnot' P1).trans h1

theorem check_params_append (l1 l2 : List Nat) :
    ∀ P : Parser, P.check_params (l1 ++ l2) =
      match P.check_params l1 with
      | (.error e, P1) => (.error e, P1)
      | (.ok (), P1) => P1.check_params l2 := by
  induction l1 with
  | nil => intro P; rfl
  | cons p l1 ih =>
    intro P
    simp only [List.cons_append]
    rw [check_params, check_params]
    cases hr : P.check_param p with
    | mk r P1 =>
      cases r with
      | error e => rfl
      | ok u => exact ih P1

theorem params_in_order_congr {P Q : Parser} (h : Q.groups = P.groups) (gs : List Nat) :
    params_in_order Q gs = params_in_order P gs := by
  induction gs with
  | nil => rfl
  | cons g gs ih => simp only [params_in_order, h, ih]

/-- The two nested loops of the pass are one loop over `params_in_order`. -/
theorem check_groups_flat (gs : List Nat) :
    ∀ P : Parser, P.check_groups gs = P.check_params (params_in_order P gs) := by
  induction gs with
  | nil => intro P; rfl
  | cons g gs ih =>
    intro P
    unfold check_groups
    simp only [params_in_order]
    rw [check_params_append]
    have hpo := check_params_paramsOnly (P.groups g).m_order P
    cases hr : P.check_params (P.groups g).m_order with
    | mk r P1 =>
      rw [hr] at hpo
      cases r with
      | error e => rfl
      | ok u =>
        simp only
        rw [ih P1, params_in_order_congr hpo.sameDecl.groups]

/-- A loop of the pass over a list that holds a required parameter left
unset throws. -/
theorem check_params_required (ps : List Nat) (r : Nat) :
    ∀ P : Parser, r ∈ ps → (P.params r).is_required = true → (P.params r).is_set = false →
      ∃ e, (P.check_params ps).1 = .error e := by
  induction ps with
  | nil => intro P h; simp at h
  | cons p ps ih =>
    intro P hin hreq hunset
    unfold check_params
    cases hr : P.check_param p with
    | mk res P1 =>
      cases res with
      | error e => exact ⟨e, rfl⟩
      | ok u =>
        simp only
        have hne : r ≠ p := by
          intro hh
          subst hh
          rw [check_param_required P r hreq hunset] at hr
          simp at hr
        have hin' : r ∈ ps := by
          rcases List.mem_cons.mp hin with h | h
          · exact absurd h hne
          · exact h
        have hsame : P1.params r = P.params r := by
          have := check_param_other P p r hne
          rw [hr] at this
          exact this
        exact ih P1 hin' (by rw [hsame]; exact hreq) (by rw [hsame]; exact hunset)

end Parser

namespace param

/-- The loop over the checkers returns exactly when every checker returns
true. -/
theorem Param.run_checkers_ok_iff (raw v : Str) (cs : List check.checker_fn_t) :
    Param.run_checkers raw v cs = .ok () ↔ ∀ c ∈ cs, ∃ msg, c raw v = .ok (true, msg) := by
  induction cs with
  | nil => simp [Param.run_checkers]
  | cons c cs ih =>
    unfold Param.run_checkers
    simp only [List.mem_cons, forall_eq_or_imp]
    cases hc : c raw v with
    | error e => simp
    | ok r =>
      obtain ⟨res, msg⟩ := r
      cases res with
      | false => simp
      | true => simpa using ih

/-- The first checker that returns false decides the error of the loop. -/
theorem Param.run_checkers_first_false (raw v : Str) (pre post : List check.checker_fn_t)
    (c : check.checker_fn_t) (msg : Str)
    (hpre : ∀ c' ∈ pre, ∃ m, c' raw v = .ok (true, m)) (hc : c raw v = .ok (false, msg)) :
    Param.run_checkers raw v (pre ++ c :: post) = .error (CheckFailedError msg) := by
  induction pre with
  | nil => simp [Param.run_checkers, hc]
  | cons c' pre ih =>
    obtain ⟨m, hm⟩ := hpre c' (List.mem_cons_self c' pre)
    simp only [List.cons_append, Param.run_checkers, hm]
    exact ih (fun c'' h => hpre c'' (List.mem_cons_of_mem c' h))

/-- With `m_as_default` set the trigger callback is not called. -/
theorem Param.fire_callback_as_default (p : Param) (h : p.m_as_default = true) :
    Param.fire_callback p = (.ok (), p) := by
  unfold Param.fire_callback
  cases p.c_callback with
  | none => rfl
  | some cb => simp [h]

/-- `process_def` returns exactly when every checker accepts the current
value and the setter, if any, returns on it. -/
theorem Param.process_def_ok_iff (p : Param) :
    (p.process_def).1 = .ok () ↔
      Param.run_checkers p.m_raw_name p.m_str_value p.c_checkers = .ok () ∧
        ∀ f, p.c_setter = some f → f p.m_str_value = .ok () := by
  unfold Param.process_def
  simp only
  rw [Param.process_eq]
  simp only
  cases hr : Param.run_checkers p.m_raw_name p.m_str_value p.c_checkers with
  | error e => simp
  | ok u =>
    cases hs : p.c_setter with
    | none =>
      simp only [true_and]
      rw [Param.fire_callback_as_default _ rfl]
      simp
    | some f =>
      cases hf : f p.m_str_value with
      | error e => simp [hf]
      | ok u2 =>
        simp only [true_and, hf]
        rw [Param.fire_callback_as_default _ rfl]
        simp [hf]

/-- What a `process_def` that returns leaves. -/
theorem Param.process_def_ok (p : Param) (h : (p.process_def).1 = .ok ()) :
    (p.process_def).2.m_str_value = p.m_str_value ∧ (p.process_def).2.m_is_set = true ∧
      (p.process_def).2.setter_trace =
        (if p.c_setter.isSome then p.setter_trace ++ [p.m_str_value] else p.setter_trace) := by
  refine ⟨Param.process_def_str_value p, ?_, ?_⟩
  · unfold Param.process_def at h ⊢
    exact Param.process_is_set _ _ h
  · unfold Param.process_def at h ⊢
    exact Param.process_setter_trace _ _ h

end param

namespace Parser

open param

theorem check_consistency_ok (P P' : Parser) (h : P.check_consistency = (.ok (), P')) :
    P.check_params (params_in_order P P.cur_groups) = (.ok (), P') := by
  unfold check_consistency at h
  rw [check_groups_flat] at h
  cases hr : P.check_params (params_in_order P P.cur_groups) with
  | mk r P1 =>
    rw [hr] at h
    cases r with
    | error e => simp at h
    | ok u =>
      simp only at h
      split at h
      · simp at h
      · split at h
        · simp at h
        · have h2 := (Prod.mk.inj h).2
          rw [h2]

theorem default_step_applies (P : Parser) (p : Nat) (hflag : (P.params p).is_flag = false)
    (hne : (P.params p).get_def ≠ []) :
    default_step P p =
      ((P.params p).process_def.1,
        { P with params := store P.params p (P.params p).process_def.2 }) := by
  unfold default_step
  have : (P.params p).get_def.isEmpty = false := by
    cases h : (P.params p).get_def with
    | nil => exact absurd h hne
    | cons a l => rfl
  simp [hflag, this]

theorem default_step_skips (P : Parser) (p : Nat)
    (h : (P.params p).is_flag = true ∨ (P.params p).get_def = []) :
    default_step P p = (.ok (), P) := by
  unfold default_step
  rcases h with h | h <;> simp [h]

end Parser

namespace Parser

open param

/-- In multi-command mode, before any command is selected, `parse` on a
command line whose first token is a registered command name selects that
command, sets `m_bypass`, and parses again from that token on. -/
theorem parse_dispatch (P : Parser) (prog a1 : Str) (rest : List Str) (c : Nat)
    (hq : P.exh = []) (hmode : P.m_is_cmd_mode = true) (hb : P.m_bypass = false)
    (hc : P.m_cmds.get a1 = some c) :
    P.parse (prog :: a1 :: rest) =
      Parser.parse { P with m_current_cmd := c, m_bypass := true } (a1 :: rest) := by
  have hex : P.m_cmds.exists a1 = true := by
    unfold Commands.exists
    have : UMap.count P.m_cmds.m_cmds a1 > 0 := by
      rw [UMap.count_pos_iff]
      unfold Commands.get at hc
      rw [hc]
      rfl
    simpa using this
  rw [parse]
  simp only [exh_check, ExHandler.check, hq, List.isEmpty_nil, Bool.not_true,
    Bool.false_eq_true, if_false, hmode, hb, Bool.or_false, hex, hc, if_true]

end Parser

namespace Parser

open param

/-- A loop of the pass that returns, over a list that holds a parameter that
is not a flag and holds its non-empty default `d`, has applied the default:
the value is `d`, the parameter is set, and the setter, if any, has been
called with `d` and has returned. -/
theorem check_params_default_applied (p : Nat) (d : Str) (hne : d ≠ []) (ps : List Nat) :
    ∀ P P' : Parser, p ∈ ps → P.check_params ps = (.ok (), P') →
      (P.params p).is_flag = false → (P.params p).get_def = d →
      (P.params p).m_str_value = d →
      (P'.params p).m_str_value = d ∧ (P'.params p).m_is_set = true ∧
        ∀ f, (P.params p).c_setter = some f →
          f d = .ok () ∧ ∃ l, (P'.params p).setter_trace = (P.params p).setter_trace ++ d :: l := by
  induction ps with
  | nil => intro P P' h; simp at h
  | cons q ps ih =>
    intro P P' hin hok hflag hdef hval
    rw [check_params] at hok
    cases hr : P.check_param q with
    | mk res Pq =>
      rw [hr] at hok
      cases res with
      | error e => simp at hok
      | ok u =>
        simp only at hok
        by_cases hqp : q = p
        · subst hqp
          have hq1 : (P.check_param q).1 = .ok () := by rw [hr]
          have hiff := (check_param_ok_iff P q).mp hq1
          have hsnd := check_param_snd P q hiff.1
          have hstep := default_step_applies P q hflag (by rw [hdef]; exact hne)
          rw [hr] at hsnd
          simp only at hsnd
          rw [hstep] at hsnd
          have hpd : (P.params q).process_def.1 = .ok () := by
            have := hiff.2.1
            rw [hstep] at this
            exact this
          have hres := Param.process_def_ok (P.params q) hpd
          have hset := ((Param.process_def_ok_iff (P.params q)).mp hpd).2
          have hq : Pq.params q = (P.params q).process_def.2 := by
            rw [hsnd]
            simp only [store_same]
          have hpo : ParamsOnly Pq P' := by
            have := check_params_paramsOnly ps Pq
            rw [hok] at this
            exact this
          refine ⟨?_, ?_, ?_⟩
          · rw [hpo.value q, hq, hres.1]; exact hval
          · exact hpo.set_mono q (by rw [hq]; exact hres.2.1)
          · intro f hf
            refine ⟨by rw [← hval]; exact hset f hf, ?_⟩
            obtain ⟨l, hl⟩ := hpo.trace_mono q
            refine ⟨l, ?_⟩
            rw [hl, hq, hres.2.2, hf, hval]
            simp
        · have hne' : p ≠ q := fun h => hqp h.symm
          have hin' : p ∈ ps := by
            rcases List.mem_cons.mp hin with h | h
            · exact absurd h hne'
            · exact h
          have hsame : Pq.params p = P.params p := by
            have := check_param_other P q p hne'
            rw [hr] at this
            exact this
          have := ih Pq P' hin' hok (by rw [hsame]; exact hflag) (by rw [hsame]; exact hdef)
            (by rw [hsame]; exact hval)
          rw [hsame] at this
          exact this

end Parser

namespace Parser

open param

/-- `check_consistency` when the loop over the parameters throws. -/
theorem check_consistency_of_params_error (P P2 : Parser) (e : BCliError)
    (h : P.check_params (params_in_order P P.cur_groups) = (.error e, P2)) :
    P.check_consistency = (.error e, P2) := by
  unfold check_consistency
  rw [check_groups_flat, h]

end Parser

namespace Parser

open param

/-- A `parse` that returns found the `ExHandler` queue empty. -/
theorem parse_ok_exh (P P' : Parser) (argv : List Str) (h : P.parse argv = (.ok (), P')) :
    P.exh = [] := by
  cases hq : P.exh with
  | nil => rfl
  | cons e es =>
    have hc : P.exh_check.1 = .error silentFailure := by
      unfold exh_check ExHandler.check
      simp [hq]
    cases argv with
    | nil =>
      rw [parse] at h
      cases hr : P.exh_check with
      | mk r P0 =>
        rw [hr] at hc h
        simp only at hc
        subst hc
        simp at h
    | cons a args =>
      rw [parse] at h
      cases hr : P.exh_check with
      | mk r P0 =>
        rw [hr] at hc h
        simp only at hc
        subst hc
        simp at h

end Parser

namespace Parser

open param

/-- The value supplied for a parameter, for a `parse` that starts in the
scanning branch. -/
theorem supplied_value_scanning (P P' : Parser) (pre post : List Str) (name value : Str)
    (cp : Nat) (prog : Str)
    (hm : (!P.m_is_cmd_mode || P.m_bypass) = true)
    (hname : utils.is_param name = true) (hcp : P.get_current_param name = some cp)
    (hnf : (P.params cp).is_flag = false)
    (hv1 : utils.startswith value "-".toList = false)
    (hv2 : utils.startswith value "[-".toList = false)
    (hlast : ∀ t ∈ post, utils.is_param t = true → P.get_current_param t ≠ some cp)
    (hparse : P.parse (prog :: (pre ++ name :: value :: post)) = (.ok (), P')) :
    (P'.params cp).value = value ∧
      ∀ n, P.getp n = some cp →
        (P'.getp n).map (fun h => (P'.params h).value) = some value := by
  have hq := parse_ok_exh P P' _ hparse
  rw [parse_scanning P prog _ hq hm] at hparse
  obtain ⟨P1, hs, _, hc⟩ := parse_args_ok P P' _ hparse
  obtain ⟨Pa, hsa, hs1⟩ := scan_append_ok pre (name :: value :: post) P P1 hs
  obtain ⟨Pb, hb, hs2⟩ := scan_cons_ok Pa P1 name (value :: post) hs1
  obtain ⟨Pc, hcc, hs3⟩ := scan_cons_ok Pb P1 value post hs2
  have hda : SameDecl P Pa := by
    have := scan_sameDecl P pre
    rw [hsa] at this
    exact this
  have hdb : SameDecl P Pb := by
    have := process_arg_sameDecl Pa name
    rw [hb] at this
    exact sameDecl_trans hda this
  have hdc : SameDecl P Pc := by
    have := process_arg_sameDecl Pb value
    rw [hcc] at this
    exact sameDecl_trans hdb this
  have hwb : Pb.m_is_param = true := by
    rw [(process_arg_ok_positionals Pa Pb name hb).1, takesValue_congr hda]
    simp [takesValue, hname, hcp, hnf]
  have hcurb : Pb.get_current_param Pb.m_current = some cp := by
    rw [process_arg_ok_current Pa Pb name hname hb, hdb.get_current_param]
    exact hcp
  have hval : utils.is_param value = false := by
    cases hi : utils.is_param value with
    | false => rfl
    | true =>
      rw [utils.is_param_iff] at hi
      have hv1' : utils.startswith value ['-'] = false := hv1
      rw [hv1'] at hi
      exact absurd hi (by decide)
  have hstored := process_arg_value_ok Pb Pc value cp hval hwb hcurb hcc
  rw [unwrapped_of_not_bracket value hv2] at hstored
  have hkeep := scan_keeps_param P cp (Pc.params cp) post Pc hlast
    ⟨hdc, rfl, fun h => by rw [hstored.2] at h; exact absurd h (by decide)⟩
  rw [hs3] at hkeep
  have hpo : ParamsOnly P1 P' := by
    have := check_consistency_paramsOnly P1
    rw [hc] at this
    exact this
  have hfinal : (P'.params cp).m_str_value = value := by
    rw [hpo.value cp, hkeep.2.1]
    exact hstored.1
  refine ⟨hfinal, fun n hn => ?_⟩
  have hd' : SameDecl P P' := sameDecl_trans hkeep.1 hpo.sameDecl
  rw [hd'.getp n, hn]
  exact congrArg some hfinal

/-- The trailing name of a value-parameter, for a `parse` that starts in the
scanning branch. -/
theorem trailing_value_param_scanning (P P1 : Parser) (pre : List Str) (name : Str)
    (cp : Nat) (hq : P.exh = []) (hm : (!P.m_is_cmd_mode || P.m_bypass) = true)
    (hname : utils.is_param name = true) (hcp : P.get_current_param name = some cp)
    (hnf : (P.params cp).is_flag = false)
    (hscan : P.scan (pre ++ [name]) = (.ok (), P1)) (prog : Str) :
    P.parse (prog :: (pre ++ [name])) =
      (.error (MissingValueError (name ++ " needs a value.".toList)), P1) := by
  obtain ⟨P0, h0, h1⟩ := scan_append_ok pre [name] P P1 hscan
  obtain ⟨P2, h2, h3⟩ := scan_cons_ok P0 P1 name [] h1
  have h4 : P2 = P1 := (Prod.mk.inj h3).2
  subst h4
  have hd : SameDecl P P0 := by
    have := scan_sameDecl P pre
    rw [h0] at this
    exact this
  have hcur := process_arg_ok_current P0 P2 name hname h2
  have hw : P2.m_is_param = true := by
    rw [(process_arg_ok_positionals P0 P2 name h2).1, takesValue_congr hd]
    simp [takesValue, hname, hcp, hnf]
  rw [parse_scanning P prog _ hq hm]
  unfold parse_args
  rw [hscan]
  simp only [hw, if_true, hcur]

/-- The default of a parameter that is not supplied, for a `parse` that
starts in the scanning branch. -/
theorem default_materialized_scanning (P P' : Parser) (toks : List Str) (prog : Str) (p : Nat)
    (d : Str) (hm : (!P.m_is_cmd_mode || P.m_bypass) = true)
    (hfresh : P.m_is_param = false)
    (hin : p ∈ params_in_order P P.cur_groups)
    (hflag : (P.params p).is_flag = false)
    (hdef : (P.params p).get_def = d) (hval : (P.params p).value = d) (hne : d ≠ [])
    (hns : ∀ t ∈ toks, utils.is_param t = true → P.get_current_param t ≠ some p)
    (hparse : P.parse (prog :: toks) = (.ok (), P')) :
    (P'.params p).value = d ∧ (P'.params p).is_set = true ∧
      ∀ f, (P.params p).c_setter = some f →
        f d = .ok () ∧
          ∃ l, (P'.params p).setter_trace = (P.params p).setter_trace ++ d :: l := by
  have hq := parse_ok_exh P P' _ hparse
  rw [parse_scanning P prog _ hq hm] at hparse
  obtain ⟨P1, hs, _, hc⟩ := parse_args_ok P P' _ hparse
  have hkeep := scan_keeps_param P p (P.params p) toks P hns
    ⟨sameDecl_refl P, rfl, fun h => by rw [hfresh] at h; exact absurd h (by decide)⟩
  rw [hs] at hkeep
  obtain ⟨hd, hp1, _⟩ := hkeep
  simp only at hd hp1
  have hflat : params_in_order P1 P1.cur_groups = params_in_order P P.cur_groups := by
    rw [hd.cur_groups, params_in_order_congr hd.groups]
  have hloop := check_consistency_ok P1 P' hc
  have := check_params_default_applied p d hne _ P1 P' (by rw [hflat]; exact hin) hloop
    (by rw [hp1]; exact hflag) (by rw [hp1]; exact hdef) (by rw [hp1]; exact hval)
  rw [hp1] at this
  exact this

/-- After a command is selected the scanning branch of `parse` is taken. -/
theorem select_scanning (P0 : Parser) (c : Nat) :
    (!(select P0 c).m_is_cmd_mode || (select P0 c).m_bypass) = true := by
  simp [select]

/-- `parse_dispatch`, with the selected state named. -/
theorem parse_select (P0 : Parser) (prog cname : Str) (rest : List Str) (c : Nat)
    (hq : P0.exh = []) (hmode : P0.m_is_cmd_mode = true) (hb : P0.m_bypass = false)
    (hc : P0.m_cmds.get cname = some c) :
    P0.parse (prog :: cname :: rest) = (select P0 c).parse (cname :: rest) :=
  parse_dispatch P0 prog cname rest c hq hmode hb hc

end Parser

namespace Parser

open param

/-! ### The positional check of the pass -/

/-- Once the loop over the parameters has completed, the pass ends with the
positional check of the current command. -/
theorem check_consistency_positionals (P P1 : Parser)
    (h : P.check_groups P.cur_groups = (.ok (), P1)) :
    P.check_consistency =
      match (P.commands P.m_current_cmd).check_positionals with
      | .error e => (.error e, P1)
      | .ok rc => if !rc.1 then (.error (PositionalsError rc.2), P1) else (.ok (), P1) := by
  have hpo := check_groups_paramsOnly P.cur_groups P
  rw [h] at hpo
  have hf := hpo.fields
  have hf1 : P1.commands = P.commands := hf.1
  have hf2 : P1.m_current_cmd = P.m_current_cmd := hf.2.1
  unfold check_consistency
  rw [h]
  simp only [hf1, hf2]
  cases hcp : (P.commands P.m_current_cmd).check_positionals with
  | error e => rfl
  | ok rc => rfl

/-- The loop of the positional checker stops at the first positional the
checker rejects. -/
theorem Command.pcheckLoop_first_false (pc : check.checker_fn_t) (x msg : Str)
    (post : List Str) (pre : List Str) :
    ∀ i : Nat,
      (∀ j y, pre[j]? = some y →
        ∃ m, pc ("positionals".toList ++ utils.wrap (to_string (i + j)) "[]".toList) y =
          .ok (true, m)) →
      pc ("positionals".toList ++ utils.wrap (to_string (i + pre.length)) "[]".toList) x =
        .ok (false, msg) →
      Command.pcheckLoop pc i (pre ++ x :: post) = .ok (false, msg) := by
  induction pre with
  | nil =>
    intro i _ hx
    simp only [List.nil_append, Command.pcheckLoop]
    simp only [List.length_nil, Nat.add_zero] at hx
    rw [hx]
    rfl
  | cons a pre ih =>
    intro i hpre hx
    simp only [List.cons_append, Command.pcheckLoop]
    obtain ⟨m, hm⟩ := hpre 0 a (by simp)
    rw [Nat.add_zero] at hm
    rw [hm]
    simp only [Bool.not_true, Bool.false_eq_true, if_false]
    apply ih (i + 1)
    · intro j y hj
      have := hpre (j + 1) y (by simpa using hj)
      rw [show i + 1 + j = i + (j + 1) by omega]
      exact this
    · rw [show i + 1 + pre.length = i + (a :: pre).length by simp; omega]
      exact hx

/-- The loop of the positional checker succeeds when the checker accepts
every positional. -/
theorem Command.pcheckLoop_all_true (pc : check.checker_fn_t) (ps : List Str) :
    ∀ i : Nat,
      (∀ j y, ps[j]? = some y →
        ∃ m, pc ("positionals".toList ++ utils.wrap (to_string (i + j)) "[]".toList) y =
          .ok (true, m)) →
      Command.pcheckLoop pc i ps = .ok (true, []) := by
  induction ps with
  | nil => intro i _; rfl
  | cons a ps ih =>
    intro i hps
    simp only [Command.pcheckLoop]
    obtain ⟨m, hm⟩ := hps 0 a (by simp)
    rw [Nat.add_zero] at hm
    rw [hm]
    simp only [Bool.not_true, Bool.false_eq_true, if_false]
    apply ih (i + 1)
    intro j y hj
    have := hps (j + 1) y (by simpa using hj)
    rw [show i + 1 + j = i + (j + 1) by omega]
    exact this

/-- `wrap(s, "[]")` puts `s` between the two brackets. -/
theorem wrap_brackets (s : Str) : utils.wrap s "[]".toList = '[' :: (s ++ [']']) := rfl

/-- With an exact count the positional checker is not reached: exact count 1,
checker `is_number`, command line `abc`.  The check returns true and `parse`
succeeds although the checker rejects "abc". -/
theorem exact_count_skips_checker :
    check.is_number "positionals[0]".toList "abc".toList =
      .ok (false, "[positionals[0] abc] ~ Not a number!".toList) ∧
    ((Scenario.exact_checked.scan ["abc".toList]).2.commands 0).check_positionals =
      .ok (true, "number of positionals must be 1".toList) ∧
    (Scenario.exact_checked.parse ["cmd".toList, "abc".toList]).1 = .ok () :=
  ⟨rfl, rfl, rfl⟩

end Parser

namespace Parser

open param

/-! ### The mode members are read by `parse` and `show_help` only -/

theorem with_mode_pexists (P : Parser) (m b : Bool) (n : Str) :
    (with_mode P m b).pexists n = P.pexists n :=
  pexistsLoop_congr (P := P) (Q := with_mode P m b) rfl n _

theorem with_mode_get_current_param (P : Parser) (m b : Bool) (n : Str) :
    (with_mode P m b).get_current_param n = P.get_current_param n :=
  getpLoop_congr (P := P) (Q := with_mode P m b) rfl _ _

theorem process_arg_with_mode (P : Parser) (m b : Bool) (a : Str) :
    (with_mode P m b).process_arg a =
      ((P.process_arg a).1, with_mode (P.process_arg a).2 m b) := by
  rcases process_arg_cases P a with ⟨ha, hx, h⟩ | ⟨ha, hx, hw, h⟩ | ⟨cp, ha, hw, hcp, hf, h⟩ |
    ⟨cp, ha, hw, hcp, hf, h⟩ | ⟨ha, hw, h⟩ | ⟨cp, ha, hw, hcp, h⟩ | ⟨ha, hw, hcp, h⟩
  · rw [h, process_arg_unknown (with_mode P m b) a ha ((with_mode_pexists P m b a).trans hx)]
  · rw [h, process_arg_awaited (with_mode P m b) a ha ((with_mode_pexists P m b a).trans hx) hw]
    rfl
  · rw [h, process_arg_flag (with_mode P m b) a cp ha hw
      ((with_mode_get_current_param P m b a).trans hcp) hf]
    rfl
  · rw [h, process_arg_value_param (with_mode P m b) a cp ha hw
      ((with_mode_get_current_param P m b a).trans hcp) hf]
    rfl
  · rw [h, process_arg_positional (with_mode P m b) a ha hw]
    rfl
  · rw [h, process_arg_value (with_mode P m b) a cp ha hw
      ((with_mode_get_current_param P m b _).trans hcp)]
    rfl
  · rw [h, process_arg_value_null (with_mode P m b) a ha hw
      ((with_mode_get_current_param P m b _).trans hcp)]

theorem show_help_with_mode (P : Parser) (m b : Bool)
    (h : (!m || b) = (!P.m_is_cmd_mode || P.m_bypass)) :
    (with_mode P m b).show_help = ((P.show_help).1, with_mode (P.show_help).2 m b) := by
  unfold show_help
  have h1 : (!(with_mode P m b).m_is_cmd_mode || (with_mode P m b).m_bypass) =
      (!P.m_is_cmd_mode || P.m_bypass) := h
  rw [h1]
  by_cases hs : (!P.m_is_cmd_mode || P.m_bypass) = true
  · simp only [hs, if_true]
    have hg : (with_mode P m b).commands (with_mode P m b).m_current_cmd =
        P.commands P.m_current_cmd := rfl
    have hh : ((with_mode P m b).commands (with_mode P m b).m_current_cmd).get_help
          (with_mode P m b).groups (with_mode P m b).params (with_mode P m b).conf.m_flag_symbol
          (with_mode P m b).m_name (with_mode P m b).m_version (with_mode P m b).m_bypass =
        (P.commands P.m_current_cmd).get_help P.groups P.params P.conf.m_flag_symbol
          P.m_name P.m_version P.m_bypass := rfl
    rw [hh]
    cases (P.commands P.m_current_cmd).get_help P.groups P.params P.conf.m_flag_symbol
        P.m_name P.m_version P.m_bypass <;> rfl
  · simp only [hs, if_false]
    have hh : (with_mode P m b).m_cmds.get_help = P.m_cmds.get_help := rfl
    rw [hh]
    cases P.m_cmds.get_help <;> rfl

theorem scan_with_mode (m b : Bool) (toks : List Str) :
    ∀ P : Parser, (!m || b) = (!P.m_is_cmd_mode || P.m_bypass) →
      (with_mode P m b).scan toks = ((P.scan toks).1, with_mode (P.scan toks).2 m b) := by
  induction toks with
  | nil => intro P _; rfl
  | cons a rest ih =>
    intro P h
    have hd := process_arg_sameDecl P a
    unfold scan
    rw [process_arg_with_mode]
    cases hr : P.process_arg a with
    | mk r P1 =>
      rw [hr] at hd
      have h1 : (!m || b) = (!P1.m_is_cmd_mode || P1.m_bypass) := by
        have e1 : P1.m_is_cmd_mode = P.m_is_cmd_mode := hd.cmd_mode
        have e2 : P1.m_bypass = P.m_bypass := hd.bypass
        rw [e1, e2]
        exact h
      cases r with
      | error e => rfl
      | ok act =>
        cases act with
        | Nothing => exact ih P1 h1
        | ShowHelp =>
          simp only
          rw [show_help_with_mode P1 m b h1]
          cases hs : P1.show_help with
          | mk r2 P2 =>
            cases r2 with
            | error e => rfl
            | ok u => rfl
        | ShowVersion => rfl

theorem default_step_with_mode (P : Parser) (m b : Bool) (p : Nat) :
    default_step (with_mode P m b) p =
      ((default_step P p).1, with_mode (default_step P p).2 m b) := by
  unfold default_step
  have hp : (with_mode P m b).params = P.params := rfl
  rw [hp]
  split <;> rfl

theorem check_param_with_mode (P : Parser) (m b : Bool) (p : Nat) :
    (with_mode P m b).check_param p =
      ((P.check_param p).1, with_mode (P.check_param p).2 m b) := by
  rw [check_param_eq, check_param_eq, default_step_with_mode]
  have hp : (with_mode P m b).params = P.params := rfl
  have hdep : (with_mode (default_step P p).2 m b).check_depends p =
      (default_step P p).2.check_depends p := rfl
  have hban : (with_mode (default_step P p).2 m b).check_banned p =
      (default_step P p).2.check_banned p := rfl
  have hp2 : (with_mode (default_step P p).2 m b).params = (default_step P p).2.params := rfl
  simp only [hp, hdep, hban, hp2]
  by_cases h0 : ((P.params p).is_required && !(P.params p).is_set) = true
  · simp only [h0, if_true]
  · simp only [h0, if_false]
    cases h1 : (default_step P p).1 with
    | error e => rfl
    | ok u =>
      cases h2 : rulesLoop ((default_step P p).2.check_depends p)
          ((default_step P p).2.params p).get_dependency with
      | error e => rfl
      | ok u2 =>
        cases h3 : rulesLoop ((default_step P p).2.check_banned p)
            ((default_step P p).2.params p).get_banned with
        | error e => rfl
        | ok u3 => rfl

theorem check_params_with_mode (m b : Bool) (ps : List Nat) :
    ∀ P : Parser, (with_mode P m b).check_params ps =
      ((P.check_params ps).1, with_mode (P.check_params ps).2 m b) := by
  induction ps with
  | nil => intro P; rfl
  | cons p ps ih =>
    intro P
    rw [check_params, check_params, check_param_with_mode]
    cases hr : P.check_param p with
    | mk r P1 =>
      cases r with
      | error e => rfl
      | ok u => exact ih P1

theorem check_consistency_with_mode (P : Parser) (m b : Bool) :
    (with_mode P m b).check_consistency =
      ((P.check_consistency).1, with_mode (P.check_consistency).2 m b) := by
  unfold check_consistency
  rw [check_groups_flat, check_groups_flat]
  have hg : params_in_order (with_mode P m b) (with_mode P m b).cur_groups =
      params_in_order P P.cur_groups :=
    params_in_order_congr (P := P) (Q := with_mode P m b) rfl _
  rw [hg, check_params_with_mode]
  cases hr : P.check_params (params_in_order P P.cur_groups) with
  | mk r P1 =>
    cases r with
    | error e => rfl
    | ok u =>
      have hc : (with_mode P1 m b).commands (with_mode P1 m b).m_current_cmd =
          P1.commands P1.m_current_cmd := rfl
      simp only [hc]
      cases hcp : (P1.commands P1.m_current_cmd).check_positionals with
      | error e => rfl
      | ok rc =>
        obtain ⟨res, msg⟩ := rc
        cases res <;> rfl

theorem parse_args_with_mode (P : Parser) (m b : Bool) (toks : List Str)
    (h : (!m || b) = (!P.m_is_cmd_mode || P.m_bypass)) :
    (with_mode P m b).parse_args toks =
      ((P.parse_args toks).1, with_mode (P.parse_args toks).2 m b) := by
  unfold parse_args
  rw [scan_with_mode m b toks P h]
  cases hr : P.scan toks with
  | mk r P1 =>
    cases r with
    | error e => rfl
    | ok u =>
      have hp : (with_mode P1 m b).m_is_param = P1.m_is_param := rfl
      have hcur : (with_mode P1 m b).m_current = P1.m_current := rfl
      simp only [hp, hcur]
      split
      · rfl
      · exact check_consistency_with_mode P1 m b

/-- The scan and the checks do not touch the declaration. -/
theorem parse_args_sameDecl (P : Parser) (toks : List Str) :
    SameDecl P (P.parse_args toks).2 := by
  have hs := scan_sameDecl P toks
  unfold parse_args
  cases hr : P.scan toks with
  | mk r P1 =>
    rw [hr] at hs
    cases r with
    | error e => exact hs
    | ok u =>
      simp only
      split
      · exact hs
      · exact sameDecl_trans hs (check_consistency_paramsOnly P1).sameDecl

/-- In multi-command mode, `parse` on a command line that starts with the
name of the command `c` is the parse of the rest of the line by the
simple-mode parser whose command is `c`, up to the two mode members. -/
theorem parse_dispatch_single (P : Parser) (prog cname : Str) (toks : List Str)
    (c : Nat) (hq : P.exh = []) (hmode : P.m_is_cmd_mode = true) (hb : P.m_bypass = false)
    (hc : P.m_cmds.get cname = some c) :
    P.parse (prog :: cname :: toks) =
      (((as_single P c).parse_args toks).1,
        with_mode ((as_single P c).parse_args toks).2 true true) := by
  have hsel : select P c = with_mode (as_single P c) true true := by
    unfold select with_mode as_single
    rw [← hmode]
  rw [parse_select P prog cname toks c hq hmode hb hc,
    parse_scanning (select P c) cname toks hq (select_scanning P c), hsel,
    parse_args_with_mode (as_single P c) true true toks rfl]

/-- The parse of the simple-mode parser is its scan followed by the checks. -/
theorem single_command_parse_eq (P : Parser) (c : Nat) (prog : Str) (toks : List Str)
    (hq : P.exh = []) :
    single_command_parse P c prog toks = (as_single P c).parse_args toks :=
  parse_scanning (as_single P c) prog toks hq rfl

/-- After a successful parse no value is awaited. -/
theorem parse_args_ok_not_awaiting (P P' : Parser) (toks : List Str)
    (h : P.parse_args toks = (.ok (), P')) : P'.m_is_param = false := by
  obtain ⟨Q, _, hw, hc⟩ := parse_args_ok P P' toks h
  have hf := (check_consistency_paramsOnly Q).fields
  rw [hc] at hf
  exact hf.2.2.1.trans hw

end Parser

namespace Parser

open param

/-! ### Declaring a parameter under a short and a long name -/

theorem UMap.find_append {α : Type} (m : UMap α) (k k2 : Str) (v : α) :
    UMap.find (m ++ [(k, v)]) k2 =
      match UMap.find m k2 with
      | some w => some w
      | none => if k = k2 then some v else none := by
  induction m with
  | nil =>
    by_cases h : k = k2 <;> simp [UMap.find, h]
  | cons e m ih =>
    by_cases h : (e.1 == k2) = true
    · simp only [List.cons_append, UMap.find, h, if_true]
    · simp only [List.cons_append, UMap.find, h, if_false, Bool.false_eq_true]
      exact ih

/-- `insert` keeps every present key with its value and adds the new key
when it is absent. -/
theorem UMap.find_insert {α : Type} (m : UMap α) (k k2 : Str) (v : α) :
    UMap.find (UMap.insert m k v) k2 =
      match UMap.find m k2 with
      | some w => some w
      | none => if k = k2 then some v else none := by
  unfold UMap.insert
  by_cases hc : UMap.count m k > 0
  · simp only [hc, if_true]
    cases hf : UMap.find m k2 with
    | some w => rfl
    | none =>
      by_cases hk : k = k2
      · subst hk
        rw [UMap.count_pos_iff, hf] at hc
        simp at hc
      · simp only [hk, if_false]
  · simp only [hc, if_false]
    exact UMap.find_append m k k2 v

theorem UMap.count_zero_iff {α : Type} (m : UMap α) (k : Str) :
    UMap.count m k = 0 ↔ UMap.find m k = none := by
  have h := UMap.count_pos_iff m k
  constructor
  · intro h0
    cases hf : UMap.find m k with
    | none => rfl
    | some w =>
      have : UMap.count m k > 0 := h.mpr (by rw [hf]; rfl)
      omega
  · intro hf
    by_contra hne
    have hpos : UMap.count m k > 0 := Nat.pos_of_ne_zero hne
    have := h.mp hpos
    rw [hf] at this
    simp at this

/-- A string that does not start with a dash is its own trimmed form. -/
theorem trim_param_of_not_dash (s : Str) (h : utils.startswith s "-".toList = false) :
    utils.trim_param s = s := by
  cases s with
  | nil => rfl
  | cons c s =>
    have hc : c ≠ '-' := by
      intro hh
      subst hh
      simp [utils.startswith] at h
    unfold utils.trim_param utils.ltrim
    have : ("-".toList).contains c = false := by
      simp only [String.toList, List.contains_eq_any_beq]
      simp [hc]
    simp only [this, if_false, Bool.false_eq_true]

theorem trim_param_dash (s : Str) (h : utils.startswith s "-".toList = false) :
    utils.trim_param ('-' :: s) = s := by
  have := trim_param_of_not_dash s h
  unfold utils.trim_param at this ⊢
  rw [utils.ltrim]
  simpa using this

theorem trim_param_dash_dash (s : Str) (h : utils.startswith s "-".toList = false) :
    utils.trim_param ('-' :: '-' :: s) = s := by
  have := trim_param_dash s h
  unfold utils.trim_param at this ⊢
  rw [utils.ltrim]
  simpa using this

/-- `split` on a string without the delimiter: one field, or none when the
string is empty. -/
theorem splitLoop_no_delim (delim : Char) (s : Str) (h : delim ∉ s) :
    ∀ cur : Str, utils.splitLoop delim s cur =
      if (cur.reverse ++ s).isEmpty then [] else [cur.reverse ++ s] := by
  induction s with
  | nil =>
    intro cur
    cases cur <;> simp [utils.splitLoop]
  | cons c s ih =>
    intro cur
    have hc : c ≠ delim := fun hh => h (by rw [hh]; exact List.mem_cons_self _ _)
    have hs : delim ∉ s := fun hh => h (List.mem_cons_of_mem _ hh)
    simp only [utils.splitLoop, hc, if_false]
    rw [ih hs]
    simp

/-- `split` at the first delimiter. -/
theorem splitLoop_append (delim : Char) (a b : Str) (h : delim ∉ a) :
    ∀ cur : Str, utils.splitLoop delim (a ++ delim :: b) cur =
      (cur.reverse ++ a) :: utils.splitLoop delim b [] := by
  induction a with
  | nil =>
    intro cur
    simp [utils.splitLoop]
  | cons c a ih =>
    intro cur
    have hc : c ≠ delim := fun hh => h (by rw [hh]; exact List.mem_cons_self _ _)
    have ha : delim ∉ a := fun hh => h (List.mem_cons_of_mem _ hh)
    simp only [List.cons_append, utils.splitLoop, hc, if_false, List.append_eq]
    rw [ih ha]
    simp

/-- The parts of a name made of a short and a long form. -/
theorem split_short_long (x xx : Str) (hx : '/' ∉ x) (hxx : '/' ∉ xx) :
    utils.split ('-' :: x ++ '/' :: '-' :: '-' :: xx) '/' = ['-' :: x, '-' :: '-' :: xx] := by
  unfold utils.split
  have h1 : '/' ∉ '-' :: x := by
    intro hh
    rcases List.mem_cons.mp hh with h | h
    · exact absurd h (by decide)
    · exact hx h
  have h2 : '/' ∉ '-' :: '-' :: xx := by
    intro hh
    rcases List.mem_cons.mp hh with h | h
    · exact absurd h (by decide)
    · rcases List.mem_cons.mp h with h | h
      · exact absurd h (by decide)
      · exact hxx h
  rw [splitLoop_append '/' ('-' :: x) ('-' :: '-' :: xx) h1 [], splitLoop_no_delim '/' _ h2 []]
  simp
theorem is_short_param_dash (s : Str) (h : utils.startswith s "-".toList = false) :
    utils.is_short_param ('-' :: s) = true := by
  have h2 : utils.startswith s ['-'] = false := h
  simp [utils.is_short_param, utils.is_long_param, utils.startswith, h2]

theorem is_long_param_dash_dash (s : Str) :
    utils.is_long_param ('-' :: '-' :: s) = true := by
  simp [utils.is_long_param, utils.startswith]

/-- The object `make` builds for a name made of a short form `x` and a long
form `xx`: both names are recorded and no error is queued. -/
theorem make_short_long (conf : config.Config) (x xx help : Str) (exh : ExHandler)
    (hx1 : utils.startswith x "-".toList = false) (hx2 : '/' ∉ x)
    (hxx1 : utils.startswith xx "-".toList = false) (hxx2 : '/' ∉ xx) :
    make conf ('-' :: x ++ '/' :: '-' :: '-' :: xx) help none none exh =
      ({ m_raw_name := '-' :: x ++ '/' :: '-' :: '-' :: xx, m_help := help,
         m_meta := conf.m_default_meta, m_short := x, m_long := xx, m_has_pname := true },
        exh) := by
  unfold make Param.ctor
  rw [split_short_long x xx hx2 hxx2]
  have hnl : utils.is_short_param ('-' :: '-' :: xx) = false := by
    simp [utils.is_short_param, is_long_param_dash_dash]
  simp only [Param.ctorLoop, is_short_param_dash x hx1, if_true, hnl, Bool.false_eq_true,
    if_false, is_long_param_dash_dash, trim_param_dash x hx1, trim_param_dash_dash xx hxx1]

/-- `ParamGroup::exists` through `find`. -/
theorem group_exists_eq_find (g : ParamGroup) (k : Str) :
    g.exists k = (UMap.find g.m_params (utils.trim_param k)).isSome := by
  unfold ParamGroup.exists
  by_cases h : UMap.count g.m_params (utils.trim_param k) > 0
  · rw [(UMap.count_pos_iff _ _).mp h]
    simpa using h
  · have h0 : UMap.count g.m_params (utils.trim_param k) = 0 := by omega
    rw [(UMap.count_zero_iff _ _).mp h0]
    simp [h0]

/-- The lookup loop finds a key in the first group that holds it. -/
theorem getpLoop_found (P : Parser) (g h : Nat) (k : Str) (hk : utils.trim_param k = k)
    (hfind : UMap.find (P.groups g).m_params k = some h) (gs : List Nat) (hg : g ∈ gs)
    (hfree : ∀ g2 ∈ gs, g2 ≠ g → UMap.find (P.groups g2).m_params k = none) :
    P.getpLoop k gs = some h := by
  induction gs with
  | nil => simp at hg
  | cons g1 gs ih =>
    unfold getpLoop
    rw [group_exists_eq_find, hk]
    by_cases h1 : g1 = g
    · subst h1
      simp only [hfind, Option.isSome_some, if_true, ParamGroup.get]
    · rw [hfree g1 (List.mem_cons_self _ _) h1]
      simp only [Option.isSome_none, Bool.false_eq_true, if_false]
      apply ih
      · rcases List.mem_cons.mp hg with hh | hh
        · exact absurd hh.symm h1
        · exact hh
      · intro g2 hg2 hne
        exact hfree g2 (List.mem_cons_of_mem _ hg2) hne

/-- The lookup loop depends on the groups only through `find` at the key. -/
theorem getpLoop_find_congr (P Q : Parser) (k : Str) (hk : utils.trim_param k = k)
    (hf : ∀ g, UMap.find (Q.groups g).m_params k = UMap.find (P.groups g).m_params k)
    (gs : List Nat) : Q.getpLoop k gs = P.getpLoop k gs := by
  induction gs with
  | nil => rfl
  | cons g gs ih =>
    unfold getpLoop
    rw [group_exists_eq_find, group_exists_eq_find, hk, hf g, ih]
    unfold ParamGroup.get
    rw [hf g]
    cases hfd : UMap.find (P.groups g).m_params k with
    | none => simp
    | some w => simp

/-- The index of a group after `add`, for a parameter with a non-empty short
and a non-empty long name. -/
theorem group_add_params (g : ParamGroup) (h : Nat) (p : Param) (exh : ExHandler)
    (hs : p.m_short ≠ []) (hl : p.m_long ≠ []) :
    (g.add h p exh).1.m_params = UMap.insert (UMap.insert g.m_params p.m_short h) p.m_long h := by
  unfold ParamGroup.add Param.idx
  have h1 : p.m_short.isEmpty = false := by
    cases hp : p.m_short with
    | nil => exact absurd hp hs
    | cons _ _ => rfl
  have h2 : p.m_long.isEmpty = false := by
    cases hp : p.m_long with
    | nil => exact absurd hp hl
    | cons _ _ => rfl
  simp only [h1, h2, Bool.not_false, if_true]
/-! ### Declaration errors -/

theorem UMap.count_insert_self {α : Type} (m : UMap α) (k : Str) (v : α) :
    UMap.count (UMap.insert m k v) k > 0 := by
  rw [UMap.count_pos_iff, UMap.find_insert]
  cases hf : UMap.find m k with
  | some w => rfl
  | none => simp

theorem UMap.count_insert_mono {α : Type} (m : UMap α) (k k2 : Str) (v : α)
    (h : UMap.count m k2 > 0) : UMap.count (UMap.insert m k v) k2 > 0 := by
  rw [UMap.count_pos_iff] at h ⊢
  rw [UMap.find_insert]
  cases hf : UMap.find m k2 with
  | some w => rfl
  | none => rw [hf] at h; simp at h

/-- With a non-empty queue `parse` throws at once and prints the queue. -/
theorem parse_queue_not_empty (P : Parser) (argv : List Str) (h : P.exh ≠ []) :
    P.parse argv =
      (.error silentFailure, { P with cerr := P.cerr ++ P.exh.map Output.queued }) := by
  have hne : P.exh.isEmpty = false := by
    cases he : P.exh with
    | nil => exact absurd he h
    | cons _ _ => rfl
  cases argv with
  | nil =>
    unfold parse exh_check ExHandler.check
    simp only [hne, Bool.not_false, if_true]
  | cons a args =>
    unfold parse exh_check ExHandler.check
    simp only [hne, Bool.not_false, if_true]

end Parser

namespace Parser

open param

/-- The names `Commands::exists` accepts after `add_command`: the new name
and those accepted before. -/
theorem add_command_exists (P : Parser) (name desc : Str) (help : Option help_fn_t)
    (t : Str) :
    (P.add_command name desc help).2.m_cmds.exists t = true ↔
      P.m_cmds.exists t = true ∨ t = name := by
  have hname : ((P.add_command name desc help).2.m_cmds.m_cmds) =
      UMap.insert P.m_cmds.m_cmds name P.ncommands := by
    unfold add_command cmd_add Commands.add Command.add
    simp only [store_same]
    split <;> rfl
  unfold Commands.exists
  rw [hname]
  simp only [decide_eq_true_eq]
  rw [UMap.count_pos_iff, UMap.count_pos_iff, UMap.find_insert]
  cases hf : UMap.find P.m_cmds.m_cmds t with
  | some w => simp
  | none =>
    by_cases hk : name = t
    · simp [hk]
    · simp [hk, Ne.symm hk]

end Parser

namespace Parser

open param

/-! ### The errors the constructor of `Param` queues -/

/-- The error the constructor queues for the part `v` of the name `name`. -/
theorem ctorLoop_exh (name : Str) (vs : List Str) :
    ∀ (p : Param) (exh : ExHandler),
      (Param.ctorLoop name vs p exh).2 =
        exh ++ (vs.filter (fun v => !utils.is_param v)).map (fun v =>
          InvalidParamError (name ++ " -> ".toList ++ utils.wrap v ['"', '"'] ++
            " is neither a valid short nor a valid long param".toList)) := by
  induction vs with
  | nil => intro p exh; simp [Param.ctorLoop]
  | cons v vs ih =>
    intro p exh
    unfold Param.ctorLoop
    by_cases hs : utils.is_short_param v = true
    · have hp : utils.is_param v = true := by simp [utils.is_param, hs]
      simp only [hs, if_true, ih, List.filter_cons, hp, Bool.not_true, Bool.false_eq_true,
        if_false]
    · by_cases hl : utils.is_long_param v = true
      · have hp : utils.is_param v = true := by simp [utils.is_param, hl]
        simp only [hs, if_false, hl, if_true, ih, List.filter_cons, hp, Bool.not_true,
          Bool.false_eq_true]
      · have hp : utils.is_param v = false := by
          simp only [Bool.not_eq_true] at hs hl
          simp [utils.is_param, hs, hl]
        simp only [hs, if_false, hl, ih, List.filter_cons, hp, Bool.not_false, if_true,
          List.map_cons, ExHandler.push, List.append_assoc, List.singleton_append,
          Bool.false_eq_true]

/-- The queue after `make`: one error for each part of the name that does
not look like a parameter. -/
theorem make_exh (conf : config.Config) (name help : Str) (setter : Option setter_fn_t)
    (checker : Option check.checker_fn_t) (exh : ExHandler) :
    (make conf name help setter checker exh).2 =
      exh ++ ((utils.split name '/').filter (fun v => !utils.is_param v)).map (fun v =>
        InvalidParamError (name ++ " -> ".toList ++ utils.wrap v ['"', '"'] ++
          " is neither a valid short nor a valid long param".toList)) := by
  unfold make Param.ctor
  cases checker with
  | none => exact ctorLoop_exh name _ _ exh
  | some c => exact ctorLoop_exh name _ _ exh

/-- The object `make` builds for a name made of a short form only. -/
theorem make_short (conf : config.Config) (x help : Str) (exh : ExHandler)
    (hx1 : utils.startswith x "-".toList = false) (hx2 : '/' ∉ x) :
    make conf ('-' :: x) help none none exh =
      ({ m_raw_name := '-' :: x, m_help := help, m_meta := conf.m_default_meta, m_short := x,
         m_has_pname := true }, exh) := by
  have hsplit : utils.split ('-' :: x) '/' = ['-' :: x] := by
    unfold utils.split
    have h1 : '/' ∉ '-' :: x := by
      intro hh
      rcases List.mem_cons.mp hh with h | h
      · exact absurd h (by decide)
      · exact hx2 h
    rw [splitLoop_no_delim '/' _ h1 []]
    simp
  unfold make Param.ctor
  rw [hsplit]
  simp only [Param.ctorLoop, is_short_param_dash x hx1, if_true, trim_param_dash x hx1]

/-- The object `make` builds for a name made of a long form only. -/
theorem make_long (conf : config.Config) (xx help : Str) (exh : ExHandler)
    (hxx1 : utils.startswith xx "-".toList = false) (hxx2 : '/' ∉ xx) :
    make conf ('-' :: '-' :: xx) help none none exh =
      ({ m_raw_name := '-' :: '-' :: xx, m_help := help, m_meta := conf.m_default_meta,
         m_long := xx, m_has_pname := true }, exh) := by
  have hsplit : utils.split ('-' :: '-' :: xx) '/' = ['-' :: '-' :: xx] := by
    unfold utils.split
    have h2 : '/' ∉ '-' :: '-' :: xx := by
      intro hh
      rcases List.mem_cons.mp hh with h | h
      · exact absurd h (by decide)
      · rcases List.mem_cons.mp h with h | h
        · exact absurd h (by decide)
        · exact hxx2 h
    rw [splitLoop_no_delim '/' _ h2 []]
    simp
  have hnl : utils.is_short_param ('-' :: '-' :: xx) = false := by
    simp [utils.is_short_param, is_long_param_dash_dash]
  unfold make Param.ctor
  rw [hsplit]
  simp only [Param.ctorLoop, hnl, Bool.false_eq_true, if_false, is_long_param_dash_dash,
    if_true, trim_param_dash_dash xx hxx1]

end Parser

namespace Parser

open param

/-! ### Flags and checkers -/

/-- No declaration writes the member `c_checker`: `make` leaves it empty. -/
theorem make_c_checker (conf : config.Config) (name help : Str)
    (setter : Option setter_fn_t) (checker : Option check.checker_fn_t) (exh : ExHandler) :
    (make conf name help setter checker exh).1.c_checker = none := by
  have hloop : ∀ (vs : List Str) (p : Param) (e : ExHandler),
      p.c_checker = none → (Param.ctorLoop name vs p e).1.c_checker = none := by
    intro vs
    induction vs with
    | nil => intro p e h; exact h
    | cons v vs ih =>
      intro p e h
      unfold Param.ctorLoop
      split
      · exact ih _ _ h
      · split
        · exact ih _ _ h
        · exact ih _ _ h
  unfold make Param.ctor
  cases checker with
  | none => exact hloop _ _ _ rfl
  | some c => exact hloop _ _ _ rfl

/-- `checker` leaves the member `c_checker` as it is. -/
theorem checker_c_checker (p : Param) (c : check.checker_fn_t) (exh : ExHandler) :
    (p.checker c exh).1.c_checker = p.c_checker := rfl

/-- `as_flag` on a parameter whose member `c_checker` is empty queues
nothing, whatever the list `c_checkers` holds. -/
theorem as_flag_exh (p : Param) (exh : ExHandler) (h : p.c_checker = none) :
    (p.as_flag exh).2 = exh := by
  unfold Param.as_flag
  simp [h]

/-- `checker` on a flag queues one `IncompatibleError`. -/
theorem checker_on_flag_exh (p : Param) (c : check.checker_fn_t) (exh : ExHandler)
    (h : p.m_is_flag = true) :
    (p.checker c exh).2 =
      exh ++ [IncompatibleError
        (utils.wrap p.m_raw_name "[]".toList ++ "~ A flag cannot have a checker.".toList)] := by
  unfold Param.checker ExHandler.push
  simp [h]

end Parser

namespace Parser

open param

/-! ### Checkers of a parameter -/

/-- A checker that throws after checkers that return true decides the error
of the loop. -/
theorem Param.run_checkers_first_error (raw v : Str) (pre post : List check.checker_fn_t)
    (c : check.checker_fn_t) (e : BCliError)
    (hpre : ∀ c2 ∈ pre, ∃ m, c2 raw v = .ok (true, m)) (hc : c raw v = .error e) :
    Param.run_checkers raw v (pre ++ c :: post) = .error e := by
  induction pre with
  | nil => simp [Param.run_checkers, hc]
  | cons c2 pre ih =>
    obtain ⟨m, hm⟩ := hpre c2 (List.mem_cons_self c2 pre)
    simp only [List.cons_append, Param.run_checkers, hm]
    exact ih (fun c3 h => hpre c3 (List.mem_cons_of_mem c2 h))

/-- When a checker rejects the value, `process` throws the error of the loop
over the checkers, having written the value only. -/
theorem Param.process_checkers_error (p : Param) (v : Str) (e : BCliError)
    (h : Param.run_checkers p.m_raw_name v p.c_checkers = .error e) :
    p.process v = (.error e, { p with m_str_value := v }) := by
  rw [Param.process_eq, h]

/-- A scan goes on from the state its first part leaves. -/
theorem scan_append (l1 l2 : List Str) :
    ∀ (P P1 : Parser), P.scan l1 = (.ok (), P1) → P.scan (l1 ++ l2) = P1.scan l2 := by
  induction l1 with
  | nil =>
    intro P P1 h
    have := (Prod.mk.inj h).2
    subst this
    rfl
  | cons a l1 ih =>
    intro P P1 h
    obtain ⟨P0, h1, h2⟩ := scan_cons_ok P P1 a l1 h
    simp only [List.cons_append]
    rw [scan, h1]
    exact ih P0 P1 h2

/-- A token whose processing throws ends the scan, whatever follows it. -/
theorem scan_error_at (P P1 : Parser) (pre rest : List Str) (a : Str) (e : BCliError)
    (hpre : P.scan pre = (.ok (), P1)) (ha : (P1.process_arg a).1 = .error e) :
    P.scan (pre ++ a :: rest) = (.error e, (P1.process_arg a).2) := by
  rw [scan_append pre (a :: rest) P P1 hpre, scan]
  cases hr : P1.process_arg a with
  | mk r Q =>
    rw [hr] at ha
    simp only at ha
    subst ha
    rfl

/-- A scan that throws makes `parse_args` throw the same error in the same
state. -/
theorem parse_args_scan_error (P Q : Parser) (toks : List Str) (e : BCliError)
    (h : P.scan toks = (.error e, Q)) : P.parse_args toks = (.error e, Q) := by
  unfold parse_args
  rw [h]

end Parser

namespace Parser

open param

/-! ### What `process` writes -/

/-- The trigger callback changes nothing but its own trace, and is called
exactly when there is one, it is armed, and the call is not the application
of a default. -/
theorem Param.fire_callback_snd (p : Param) :
    (Param.fire_callback p).2 =
      { p with callback_trace := p.callback_trace +
          (if p.c_callback.isSome && p.m_callback_trigger && !p.m_as_default then 1 else 0) } := by
  cases p with
  | mk raw sv hlp dflt sh lg mt act dep ban hd hv hp iset ifl asd hid cs cc ccs cb trig st ct
      svar =>
    cases cb with
    | none => rfl
    | some f =>
      cases trig <;> cases asd <;> rfl

/-- The object `process` leaves when the checkers accept the value: the
value is stored, the parameter is set, the setter has been called once, and
the trigger callback has been called once if the setter has returned and the
callback is armed. -/
theorem Param.process_accepted (p : Param) (v : Str)
    (h : Param.run_checkers p.m_raw_name v p.c_checkers = .ok ()) :
    (p.process v).2 =
      { Param.processed p v p.c_setter.isSome with
        callback_trace := p.callback_trace +
          (if (match p.c_setter with
                | some f => (f v).toBool
                | none => true) &&
              (p.c_callback.isSome && p.m_callback_trigger && !p.m_as_default)
            then 1 else 0) } := by
  rw [Param.process_eq, h]
  cases hs : p.c_setter with
  | none =>
    simp only [Param.fire_callback_snd, Option.isSome_none, Bool.true_and]
    rfl
  | some f =>
    cases hf : f v with
    | error e =>
      simp only [hf, Option.isSome_some, Except.toBool, Bool.false_and, Bool.false_eq_true,
        if_false, Nat.add_zero]
      rfl
    | ok u =>
      simp only [hf, Param.fire_callback_snd, Option.isSome_some, Except.toBool, Bool.true_and]
      rfl

end Parser

namespace Parser

open param

/-! ### The trigger callback over a parse -/

/-- Applying a default never calls the trigger callback. -/
theorem Param.process_def_callback_trace (p : Param) :
    (p.process_def).2.callback_trace = p.callback_trace := by
  show (Param.process { p with m_as_default := true } p.m_str_value).2.callback_trace = _
  cases hr : Param.run_checkers p.m_raw_name p.m_str_value p.c_checkers with
  | error e =>
    rw [Param.process_checkers_error { p with m_as_default := true } p.m_str_value e hr]
  | ok u =>
    rw [Param.process_accepted { p with m_as_default := true } p.m_str_value hr]
    simp

/-- On a parameter that was never applied as a default and has an armed
trigger callback, `process` calls the callback once when the checkers accept
the value and the setter returns. -/
theorem Param.process_fires (p : Param) (v : Str) (cb : callback_fn_t)
    (hcb : p.c_callback = some cb) (htr : p.m_callback_trigger = true)
    (hfresh : p.m_as_default = false)
    (hchk : Param.run_checkers p.m_raw_name v p.c_checkers = .ok ())
    (hset : ∀ f, p.c_setter = some f → f v = .ok ()) :
    (p.process v).2.callback_trace = p.callback_trace + 1 := by
  rw [Param.process_accepted p v hchk]
  cases hs : p.c_setter with
  | none => simp [hcb, htr, hfresh]
  | some f => simp [hcb, htr, hfresh, hset f hs, Except.toBool]

theorem check_param_callback_trace (P : Parser) (p h : Nat) :
    ((P.check_param p).2.params h).callback_trace = (P.params h).callback_trace := by
  rcases check_param_state P p with hs | hs <;> rw [hs]
  by_cases hh : h = p
  · subst hh
    simp only [store_same]
    exact Param.process_def_callback_trace _
  · simp only [store_other _ _ _ _ hh]

theorem check_params_callback_trace (ps : List Nat) (h : Nat) :
    ∀ P : Parser, ((P.check_params ps).2.params h).callback_trace = (P.params h).callback_trace := by
  induction ps with
  | nil => intro P; rfl
  | cons p ps ih =>
    intro P
    have h1 := check_param_callback_trace P p h
    unfold check_params
    cases hr : P.check_param p with
    | mk r P1 =>
      rw [hr] at h1
      cases r with
      | error e => exact h1
      | ok u => exact (ih P1).trans h1

/-- The consistency pass never calls a trigger callback. -/
theorem check_consistency_callback_trace (P : Parser) (h : Nat) :
    ((P.check_consistency).2.params h).callback_trace = (P.params h).callback_trace := by
  have h1 := check_params_callback_trace (params_in_order P P.cur_groups) h P
  rw [← check_groups_flat] at h1
  unfold check_consistency
  cases hr : P.check_groups P.cur_groups with
  | mk r P1 =>
    rw [hr] at h1
    cases r with
    | error e => exact h1
    | ok u =>
      simp only
      split
      · exact h1
      · split <;> exact h1

/-- The trigger callbacks are called by the scan only. -/
theorem parse_args_callback_trace (P : Parser) (toks : List Str) (h : Nat) :
    ((P.parse_args toks).2.params h).callback_trace =
      ((P.scan toks).2.params h).callback_trace := by
  unfold parse_args
  cases hr : P.scan toks with
  | mk r P1 =>
    cases r with
    | error e => rfl
    | ok u =>
      simp only
      split
      · rfl
      · exact check_consistency_callback_trace P1 h

/-- A parse whose tokens do not name the parameter `cp` leaves the trace of
its trigger callback as it is. -/
theorem parse_args_not_supplied (P : Parser) (cp : Nat) (toks : List Str)
    (hA : P.m_is_param = true → P.get_current_param P.m_current ≠ some cp)
    (hT : ∀ t ∈ toks, utils.is_param t = true → P.get_current_param t ≠ some cp) :
    ((P.parse_args toks).2.params cp).callback_trace = (P.params cp).callback_trace := by
  rw [parse_args_callback_trace,
    (scan_keeps_param P cp (P.params cp) toks P hT ⟨sameDecl_refl P, rfl, hA⟩).2.1]

/-- The scan from the name of a flag on: the flag is processed with the
sentinel, and no later token that does not name it touches it. -/
theorem scan_supplied_flag (P0 P1 : Parser) (cp : Nat) (name : Str) (post : List Str)
    (hd : SameDecl P0 P1) (hw : P1.m_is_param = false) (hn : utils.is_param name = true)
    (hcp : P1.get_current_param name = some cp) (hf : (P1.params cp).m_is_flag = true)
    (hT : ∀ t ∈ post, utils.is_param t = true → P0.get_current_param t ≠ some cp) :
    ((P1.scan (name :: post)).2.params cp) = ((P1.params cp).set.process FLAG_VALUE).2 := by
  have hstep := process_arg_flag P1 name cp hn hw hcp hf
  have hH : HoldsParam P0 cp ((P1.params cp).set.process FLAG_VALUE).2 (P1.process_arg name).2 := by
    refine ⟨sameDecl_trans hd (process_arg_sameDecl P1 name), ?_, ?_⟩
    · rw [hstep]; simp only [store_same]
    · rw [hstep]; intro h; simp at h
  unfold scan
  cases hr : P1.process_arg name with
  | mk r Q =>
    rw [hr] at hH
    cases r with
    | error e => exact hH.2.1
    | ok act =>
      cases act with
      | Nothing => exact (scan_keeps_param P0 cp _ post Q hT hH).2.1
      | ShowHelp =>
        simp only
        rw [show_help_stop]
        exact (holdsParam_show_help P0 cp _ Q hH).2.1
      | ShowVersion => exact hH.2.1

/-- The scan from the name of a value parameter without an action on, when
the next token is taken as its value: the parameter is processed with that
token, and no later token that does not name it touches it. -/
theorem scan_supplied_value (P0 P1 : Parser) (cp : Nat) (name value : Str) (post : List Str)
    (hd : SameDecl P0 P1) (hw : P1.m_is_param = false) (hn : utils.is_param name = true)
    (hcp : P1.get_current_param name = some cp) (hf : (P1.params cp).m_is_flag = false)
    (hact : (P1.params cp).m_action = Action.Nothing) (hv : utils.is_param value = false)
    (hT : ∀ t ∈ post, utils.is_param t = true → P0.get_current_param t ≠ some cp) :
    ((P1.scan (name :: value :: post)).2.params cp) =
      ((P1.params cp).process (unwrapped value)).2 := by
  have hstep := process_arg_value_param P1 name cp hn hw hcp hf
  rw [hact] at hstep
  have hd2 : SameDecl P1 { P1 with m_current := name, m_is_param := true } :=
    ⟨rfl, rfl, fun _ => rfl, fun _ => Param.sameConf_refl _, rfl, rfl, rfl, rfl⟩
  have hcp2 : Parser.get_current_param { P1 with m_current := name, m_is_param := true } name
      = some cp := (hd2.get_current_param name).trans hcp
  have hstep2 := process_arg_value { P1 with m_current := name, m_is_param := true } value cp
    hv rfl hcp2
  rw [scan, hstep]
  simp only
  rw [scan, hstep2]
  cases hr : ((P1.params cp).process (unwrapped value)).1 with
  | error e => simp only [store_same]
  | ok u =>
    simp only
    refine (scan_keeps_param P0 cp _ post _ hT ⟨?_, ?_, ?_⟩).2.1
    · refine sameDecl_trans hd ⟨rfl, rfl, fun _ => rfl, ?_, rfl, rfl, rfl, rfl⟩
      exact sameConf_store _ _ _ (Param.process_sameConf _ _)
    · simp only [store_same]
    · intro h
      simp at h

end Parser

namespace Parser

open param

/-! ### A token that names a parameter with an action -/

/-- The step on the name of a parameter, when no value is awaited and (for a
flag) the processing of the sentinel returns: the action of the parameter is
returned. -/
theorem process_arg_action (P1 : Parser) (name : Str) (cp : Nat)
    (hw : P1.m_is_param = false) (hn : utils.is_param name = true)
    (hcp : P1.get_current_param name = some cp)
    (hret : (P1.params cp).m_is_flag = true →
      ((P1.params cp).set.process FLAG_VALUE).1 = .ok ()) :
    (P1.process_arg name).1 = .ok (P1.params cp).m_action := by
  by_cases hf : (P1.params cp).m_is_flag = true
  · rw [process_arg_flag P1 name cp hn hw hcp hf, hret hf]
  · have hf' : (P1.params cp).m_is_flag = false := by simpa using hf
    rw [process_arg_value_param P1 name cp hn hw hcp hf']

/-- The scan stops at a token whose step returns `ShowHelp`. -/
theorem scan_show_help (P P1 : Parser) (pre rest : List Str) (name : Str)
    (hpre : P.scan pre = (.ok (), P1))
    (h : (P1.process_arg name).1 = .ok Action.ShowHelp) :
    P.scan (pre ++ name :: rest) =
      (.error (help_stop (P1.process_arg name).2), ((P1.process_arg name).2.show_help).2) := by
  rw [scan_append pre _ P P1 hpre, scan]
  cases hr : P1.process_arg name with
  | mk r Q =>
    rw [hr] at h
    simp only at h
    subst h
    simp only
    rw [show_help_stop]

/-- The scan stops at a token whose step returns `ShowVersion`. -/
theorem scan_show_version (P P1 : Parser) (pre rest : List Str) (name : Str)
    (hpre : P.scan pre = (.ok (), P1))
    (h : (P1.process_arg name).1 = .ok Action.ShowVersion) :
    P.scan (pre ++ name :: rest) =
      (.error silentFailure, (P1.process_arg name).2.show_version) := by
  rw [scan_append pre _ P P1 hpre, scan]
  cases hr : P1.process_arg name with
  | mk r Q =>
    rw [hr] at h
    simp only at h
    subst h
    rfl

end Parser

namespace Parser

open param

/-! ### `process_def` in the consistency pass -/

/-- A loop of the pass that returns splits at any point into two loops that
return. -/
theorem check_params_append_ok (l1 l2 : List Nat) (P P' : Parser)
    (h : P.check_params (l1 ++ l2) = (.ok (), P')) :
    ∃ Pa, P.check_params l1 = (.ok (), Pa) ∧ Pa.check_params l2 = (.ok (), P') := by
  rw [check_params_append] at h
  cases hr : P.check_params l1 with
  | mk r Pa =>
    rw [hr] at h
    cases r with
    | error e => simp at h
    | ok u => exact ⟨Pa, rfl, h⟩

/-- The loop body of the pass on a parameter that is not a flag and has a
non-empty default, when it is not a required parameter left unset: the state
it leaves is the one `process_def` on the parameter leaves, whether or not
the parameter is set. -/
theorem check_param_runs_process_def (P : Parser) (p : Nat)
    (hflag : (P.params p).is_flag = false) (hne : (P.params p).get_def ≠ [])
    (hreq : ((P.params p).is_required && !(P.params p).is_set) = false) :
    (P.check_param p).2 = { P with params := store P.params p (P.params p).process_def.2 } := by
  rw [check_param_snd P p hreq, default_step_applies P p hflag hne]

/-- The loop body of the pass on a flag or on a parameter with an empty
default: the state is left as it is. -/
theorem check_param_skips_process_def (P : Parser) (p : Nat)
    (h : (P.params p).is_flag = true ∨ (P.params p).get_def = []) :
    (P.check_param p).2 = P := by
  by_cases hreq : ((P.params p).is_required && !(P.params p).is_set) = true
  · rw [check_param_eq]
    simp only [hreq, if_true]
  · have hreq' : ((P.params p).is_required && !(P.params p).is_set) = false := by
      simpa using hreq
    rw [check_param_snd P p hreq', default_step_skips P p h]

/-- A loop of the pass that returns, over a list that holds once a parameter
that is not a flag and has a non-empty default, has run `process_def` on it,
and `process_def` has returned. -/
theorem check_params_reprocesses (l1 l2 : List Nat) (cp : Nat) (P P' : Parser)
    (h1 : cp ∉ l1) (h2 : cp ∉ l2)
    (hflag : (P.params cp).is_flag = false) (hne : (P.params cp).get_def ≠ [])
    (h : P.check_params (l1 ++ cp :: l2) = (.ok (), P')) :
    P'.params cp = (P.params cp).process_def.2 ∧ (P.params cp).process_def.1 = .ok () := by
  obtain ⟨Pa, ha, hrest⟩ := check_params_append_ok l1 (cp :: l2) P P' h
  have hpa : Pa.params cp = P.params cp := by
    have := check_params_other l1 cp h1 P
    rw [ha] at this
    exact this
  rw [check_params] at hrest
  cases hr : Pa.check_param cp with
  | mk r Pb =>
    rw [hr] at hrest
    cases r with
    | error e => simp at hrest
    | ok u =>
      simp only at hrest
      have hok : (Pa.check_param cp).1 = .ok () := by rw [hr]
      have hiff := (check_param_ok_iff Pa cp).mp hok
      have hflag' : (Pa.params cp).is_flag = false := by rw [hpa]; exact hflag
      have hne' : (Pa.params cp).get_def ≠ [] := by rw [hpa]; exact hne
      have hsnd := check_param_runs_process_def Pa cp hflag' hne' hiff.1
      rw [hr] at hsnd
      simp only at hsnd
      have hpb : Pb.params cp = (P.params cp).process_def.2 := by
        rw [hsnd]
        simp only [store_same]
        rw [hpa]
      have hp' : P'.params cp = Pb.params cp := by
        have := check_params_other l2 cp h2 Pb
        rw [hrest] at this
        exact this
      refine ⟨hp'.trans hpb, ?_⟩
      have := hiff.2.1
      rw [default_step_applies Pa cp hflag' hne', hpa] at this
      exact this

/-- When the scan from the name of a value parameter on completes, the
processing of the token after the name has returned, and the parameter has
no action. -/
theorem scan_supplied_value_ok (P1 Ps : Parser) (cp : Nat) (name value : Str)
    (post : List Str) (hw : P1.m_is_param = false) (hn : utils.is_param name = true)
    (hcp : P1.get_current_param name = some cp) (hf : (P1.params cp).m_is_flag = false)
    (hv : utils.is_param value = false)
    (h : P1.scan (name :: value :: post) = (.ok (), Ps)) :
    ((P1.params cp).process (unwrapped value)).1 = .ok () ∧
      (P1.params cp).m_action = Action.Nothing := by
  obtain ⟨Q1, hq1, hrest⟩ := scan_cons_ok P1 Ps name (value :: post) h
  obtain ⟨Q2, hq2, _⟩ := scan_cons_ok Q1 Ps value post hrest
  rw [process_arg_value_param P1 name cp hn hw hcp hf] at hq1
  have hQ1 := (Prod.mk.inj hq1).2
  have hact : (P1.params cp).m_action = Action.Nothing := by
    have := (Prod.mk.inj hq1).1
    injection this
  refine ⟨?_, hact⟩
  subst hQ1
  have hd2 : SameDecl P1 { P1 with m_current := name, m_is_param := true } :=
    ⟨rfl, rfl, fun _ => rfl, fun _ => Param.sameConf_refl _, rfl, rfl, rfl, rfl⟩
  have hcp2 : Parser.get_current_param { P1 with m_current := name, m_is_param := true } name
      = some cp := (hd2.get_current_param name).trans hcp
  rw [process_arg_value { P1 with m_current := name, m_is_param := true } value cp hv rfl hcp2]
    at hq2
  have h1 := (Prod.mk.inj hq2).1
  revert h1
  show (match ((P1.params cp).process (unwrapped value)).1 with
    | .error e => (Except.error e : Except BCliError Action)
    | .ok () => .ok Action.Nothing) = .ok Action.Nothing → _
  cases ((P1.params cp).process (unwrapped value)).1 with
  | error e => intro h1; simp at h1
  | ok u => intro _; rfl

end Parser

namespace Parser

open param

/-! ### Token classification -/

theorem is_long_param_iff (s : Str) :
    utils.is_long_param s = true ↔ ∃ r, s = '-' :: '-' :: r := by
  unfold utils.is_long_param
  cases s with
  | nil => simp [utils.startswith]
  | cons c s =>
    cases s with
    | nil => simp [utils.startswith]
    | cons d s => simp [utils.startswith]

theorem is_param_iff_cons (s : Str) : utils.is_param s = true ↔ ∃ r, s = '-' :: r := by
  cases s with
  | nil => simp [utils.is_param_nil]
  | cons c s => simp [utils.is_param_cons]

theorem is_short_param_iff (s : Str) :
    utils.is_short_param s = true ↔ (∃ r, s = '-' :: r) ∧ ¬ ∃ r, s = '-' :: '-' :: r := by
  rw [← is_long_param_iff, ← is_param_iff_cons]
  unfold utils.is_param utils.is_short_param
  by_cases h : utils.is_long_param s = true
  · simp [h]
  · simp [h]

/-- `ltrim(s, "-")` drops the leading dashes. -/
theorem trim_param_eq_dropWhile (s : Str) :
    utils.trim_param s = s.dropWhile (fun c => c == '-') := by
  unfold utils.trim_param
  induction s with
  | nil => rfl
  | cons c s ih =>
    by_cases h : c = '-'
    · subst h
      simp only [utils.ltrim, List.dropWhile_cons, beq_self_eq_true, if_true]
      rw [← ih]
      have : "-".toList.contains '-' = true := by decide
      simp only [this, if_true]
    · have hc : "-".toList.contains c = false := by
        have : "-".toList = ['-'] := rfl
        rw [this]
        simp [h]
      have hb : (c == '-') = false := by simpa using h
      simp only [utils.ltrim, hc, List.dropWhile_cons, hb, Bool.false_eq_true, if_false]

theorem trim_param_no_dash (s : Str) : ∀ r, utils.trim_param s ≠ '-' :: r := by
  intro r h
  rw [trim_param_eq_dropWhile] at h
  have := List.head_dropWhile_not (fun c => c == '-') s
  rw [h] at this
  simp at this

end Parser

namespace Parser

open param

/-! ### `split` and `join` -/

theorem join_cons_of_ne_nil (x : Str) (l : List Str) (d : Str) (h : l ≠ []) :
    utils.join (x :: l) d = x ++ d ++ utils.join l d := by
  cases l with
  | nil => exact absurd rfl h
  | cons y r => rfl

/-- `join` puts the delimiter between the elements. -/
theorem join_eq_intercalate (v : List Str) (d : Str) : utils.join v d = d.intercalate v := by
  induction v with
  | nil => rfl
  | cons x l ih =>
    cases l with
    | nil => simp [utils.join, List.intercalate]
    | cons y r =>
      rw [join_cons_of_ne_nil x (y :: r) d (by simp), ih]
      simp [List.intercalate, List.intersperse]

theorem splitLoop_eq_nil (delim : Char) (s cur : Str)
    (h : utils.splitLoop delim s cur = []) : s = [] := by
  induction s generalizing cur with
  | nil => rfl
  | cons c s ih =>
    unfold utils.splitLoop at h
    by_cases hc : c = delim
    · simp [hc] at h
    · simp only [hc, if_false] at h
      have := ih (c :: cur) h
      subst this
      simp [utils.splitLoop] at h

/-- Joining the fields `split` reads gives the string back when it does not
end with the delimiter. -/
theorem join_splitLoop (delim : Char) (s : Str) :
    ∀ cur : Str, (cur.reverse ++ s).getLast? ≠ some delim →
      utils.join (utils.splitLoop delim s cur) [delim] = cur.reverse ++ s := by
  induction s with
  | nil =>
    intro cur _
    cases cur with
    | nil => rfl
    | cons c cur => simp [utils.splitLoop, utils.join]
  | cons c s ih =>
    intro cur hlast
    unfold utils.splitLoop
    by_cases hc : c = delim
    · subst hc
      simp only [if_true]
      have hs : s ≠ [] := by
        intro hs
        subst hs
        simp at hlast
      have hne : utils.splitLoop c s [] ≠ [] := fun h => hs (splitLoop_eq_nil c s [] h)
      rw [join_cons_of_ne_nil _ _ _ hne]
      have hlast' : (([] : Str).reverse ++ s).getLast? ≠ some c := by
        intro h
        apply hlast
        simp only [List.reverse_nil, List.nil_append] at h
        rw [List.getLast?_append_of_ne_nil _ (by simp)]
        cases s with
        | nil => exact absurd rfl hs
        | cons a s => rw [List.getLast?_cons_cons]; exact h
      rw [ih [] hlast']
      simp
    · simp only [hc, if_false]
      have := ih (c :: cur) (by simpa using hlast)
      rw [this]
      simp

/-- A delimiter at the end of a non-empty string that does not end with one
adds no field. -/
theorem splitLoop_trailing (delim : Char) (s : Str) :
    ∀ cur : Str, cur.reverse ++ s ≠ [] → (cur.reverse ++ s).getLast? ≠ some delim →
      utils.splitLoop delim (s ++ [delim]) cur = utils.splitLoop delim s cur := by
  induction s with
  | nil =>
    intro cur hne _
    cases cur with
    | nil => simp at hne
    | cons a cur => simp [utils.splitLoop]
  | cons a s ih =>
    intro cur hne hlast
    simp only [List.cons_append]
    rw [utils.splitLoop, utils.splitLoop]
    by_cases hc : a = delim
    · subst hc
      simp only [if_true]
      have hs : s ≠ [] := by
        intro hs
        subst hs
        simp at hlast
      have hlast' : (([] : Str).reverse ++ s).getLast? ≠ some a := by
        intro h
        apply hlast
        simp only [List.reverse_nil, List.nil_append] at h
        rw [List.getLast?_append_of_ne_nil _ (by simp)]
        cases s with
        | nil => exact absurd rfl hs
        | cons b s => rw [List.getLast?_cons_cons]; exact h
      rw [ih [] (by simpa using hs) hlast']
    · simp only [hc, if_false]
      exact ih (a :: cur) (by simp) (by simpa using hlast)

theorem split_join_fields (c : Char) (v : List Str) (h : ∀ x ∈ v, x ≠ [] ∧ c ∉ x) :
    utils.split (utils.join v [c]) c = v := by
  induction v with
  | nil => rfl
  | cons x l ih =>
    have hx := h x (List.mem_cons_self x l)
    have hl : ∀ y ∈ l, y ≠ [] ∧ c ∉ y := fun y hy => h y (List.mem_cons_of_mem x hy)
    cases l with
    | nil =>
      show utils.splitLoop c x [] = [x]
      rw [splitLoop_no_delim c x hx.2]
      simp [hx.1]
    | cons y r =>
      rw [join_cons_of_ne_nil x (y :: r) [c] (by simp)]
      show utils.splitLoop c (x ++ [c] ++ utils.join (y :: r) [c]) [] = _
      rw [List.append_assoc, List.singleton_append, splitLoop_append c x _ hx.2]
      simp only [List.reverse_nil, List.nil_append]
      exact congrArg _ (ih hl)

theorem split_join_trailing_empty (c : Char) (v : List Str) (h : ∀ x ∈ v, c ∉ x) :
    utils.split (utils.join (v ++ [[]]) [c]) c = v := by
  induction v with
  | nil => rfl
  | cons x l ih =>
    have hx := h x (List.mem_cons_self x l)
    have hl : ∀ y ∈ l, c ∉ y := fun y hy => h y (List.mem_cons_of_mem x hy)
    rw [List.cons_append, join_cons_of_ne_nil x (l ++ [[]]) [c] (by simp)]
    show utils.splitLoop c (x ++ [c] ++ utils.join (l ++ [[]]) [c]) [] = _
    rw [List.append_assoc, List.singleton_append, splitLoop_append c x _ hx]
    simp only [List.reverse_nil, List.nil_append]
    exact congrArg _ (ih hl)

end Parser

namespace Parser

open param

/-! ### `is_number` -/

theorem is_number_loop_neg (v : Str) :
    check.is_number_loop true v = v.all (fun c => c.isDigit || c == '.') := by
  induction v with
  | nil => rfl
  | cons c v ih =>
    unfold check.is_number_loop
    by_cases h : (c.isDigit || c == '.') = true
    · have h2 : (!c.isDigit && c != '.') = false := by
        cases hd : c.isDigit <;> cases he : (c == '.') <;> simp_all
      simp [h2, ih, h]
    · have h2 : (!c.isDigit && c != '.') = true := by
        cases hd : c.isDigit <;> cases he : (c == '.') <;> simp_all
      simp only [Bool.not_true, Bool.false_and, Bool.false_eq_true, if_false, h2, if_true,
        List.all_cons]
      have h3 : (c.isDigit || c == '.') = false := by simpa using h
      rw [h3]
      rfl

/-- The loop of `is_number` skips the first dash of the value, wherever it
is, and accepts when every other character is a digit or a dot. -/
theorem is_number_loop_erase (v : Str) :
    check.is_number_loop false v = (v.erase '-').all (fun c => c.isDigit || c == '.') := by
  induction v with
  | nil => rfl
  | cons c v ih =>
    unfold check.is_number_loop
    by_cases hc : c = '-'
    · subst hc
      simp only [Bool.not_false, beq_self_eq_true, Bool.and_self, if_true, List.erase_cons_head]
      exact is_number_loop_neg v
    · have hb : (c == '-') = false := by simpa using hc
      rw [List.erase_cons_tail (by simpa using hc)]
      simp only [hb, Bool.and_false, Bool.false_eq_true, if_false, List.all_cons]
      by_cases h : (c.isDigit || c == '.') = true
      · have h2 : (!c.isDigit && c != '.') = false := by
          cases hd : c.isDigit <;> cases he : (c == '.') <;> simp_all
        simp only [h2, Bool.false_eq_true, if_false, ih, h, Bool.true_and]
      · have h2 : (!c.isDigit && c != '.') = true := by
          cases hd : c.isDigit <;> cases he : (c == '.') <;> simp_all
        have h3 : (c.isDigit || c == '.') = false := by simpa using h
        simp only [h2, if_true, h3, Bool.false_and]

end Parser

namespace Parser

open param

/-! ### Bracketed values -/

/-- The test of `process_arg` on a value: the token starts with "[-" and ends
with "]". -/
theorem bracketed_iff (t : Str) :
    (utils.startswith t "[-".toList && utils.endswith t "]".toList) = true ↔
      ∃ m, t = '[' :: '-' :: (m ++ [']']) := by
  constructor
  · intro h
    rw [Bool.and_eq_true] at h
    obtain ⟨h1, h2⟩ := h
    cases t with
    | nil => simp [utils.startswith] at h1
    | cons a t =>
      cases t with
      | nil => simp [utils.startswith] at h1
      | cons b r =>
        have hab : a = '[' ∧ b = '-' := by
          have : (a == '[' && (b == '-' && utils.startswith r [])) = true := h1
          simp [utils.startswith] at this
          cases r <;> simp_all [utils.startswith]
        obtain ⟨ha, hb⟩ := hab
        subst ha hb
        rcases List.eq_nil_or_concat r with hr | ⟨m, x, hr⟩
        · subst hr
          have : utils.endswith ['[', '-'] "]".toList = false := by decide
          rw [this] at h2
          exact absurd h2 (by decide)
        · rw [List.concat_eq_append] at hr
          subst hr
          refine ⟨m, ?_⟩
          have : utils.startswith (x :: (m.reverse ++ ['-', '['])) [']'] = true := by
            have h3 : utils.endswith ('[' :: '-' :: (m ++ [x])) [']'] = true := h2
            unfold utils.endswith at h3
            simpa using h3
          have hx : x = ']' := by
            simp [utils.startswith] at this
            cases hm : m.reverse ++ ['-', '['] <;> simp_all [utils.startswith]
          rw [hx]
  · rintro ⟨m, rfl⟩
    rw [Bool.and_eq_true]
    constructor
    · show (('[' == '[') && (('-' == '-') && utils.startswith (m ++ [']']) [])) = true
      cases m <;> simp [utils.startswith]
    · unfold utils.endswith
      have : ('[' :: '-' :: (m ++ [']'])).reverse = ']' :: (m.reverse ++ ['-', '[']) := by simp
      rw [this]
      show ((']' == ']') && utils.startswith (m.reverse ++ ['-', '[']) []) = true
      cases hm : m.reverse ++ ['-', '['] <;> simp [utils.startswith]

/-- What a bracketed token is stored as. -/
theorem unwrapped_bracketed (m : Str) : unwrapped ('[' :: '-' :: (m ++ [']'])) = '-' :: m := by
  unfold unwrapped
  rw [(bracketed_iff _).mpr ⟨m, rfl⟩]
  simp

/-- A token that is not bracketed is stored as it is. -/
theorem unwrapped_not_bracketed (t : Str) (h : ¬ ∃ m, t = '[' :: '-' :: (m ++ [']'])) :
    unwrapped t = t := by
  unfold unwrapped
  have : (utils.startswith t "[-".toList && utils.endswith t "]".toList) = false := by
    cases hb : (utils.startswith t "[-".toList && utils.endswith t "]".toList) with
    | false => rfl
    | true => exact absurd ((bracketed_iff t).mp hb) h
  have h2 : (utils.startswith t ['[', '-'] && utils.endswith t [']']) = false := this
  simp [h2]

end Parser

namespace Parser

open param

/-! ### Tokens that start with a dash -/

theorem pexistsLoop_false_iff (P : Parser) (n : Str) (gs : List Nat) :
    P.pexistsLoop n gs = false ↔
      ∀ g ∈ gs, UMap.find (P.groups g).m_params (utils.trim_param n) = none := by
  induction gs with
  | nil => simp [pexistsLoop]
  | cons g gs ih =>
    unfold pexistsLoop
    rw [group_exists_eq_find]
    cases hf : UMap.find (P.groups g).m_params (utils.trim_param n) with
    | none =>
      simp only [Option.isSome_none, Bool.false_eq_true, if_false, List.mem_cons,
        forall_eq_or_imp, hf, true_and]
      exact ih
    | some w =>
      simp only [Option.isSome_some, if_true, List.mem_cons, forall_eq_or_imp, hf]
      simp

/-- No group of the current command knows the name. -/
theorem pexists_false_iff (P : Parser) (n : Str) :
    P.pexists n = false ↔
      ∀ g ∈ P.cur_groups, UMap.find (P.groups g).m_params (utils.trim_param n) = none :=
  pexistsLoop_false_iff P n P.cur_groups

/-- `ParamGroup::add` never registers the empty name. -/
theorem group_add_empty_key (g : ParamGroup) (h : Nat) (p : Param) (exh : ExHandler) :
    UMap.find (g.add h p exh).1.m_params [] = UMap.find g.m_params [] := by
  unfold ParamGroup.add
  simp only
  cases hs : p.idx.1 with
  | nil =>
    cases hl : p.idx.2 with
    | nil => simp
    | cons b l =>
      simp only [List.isEmpty_nil, Bool.not_true, Bool.false_eq_true, if_false,
        List.isEmpty_cons, Bool.not_false, if_true]
      rw [UMap.find_insert]
      cases UMap.find g.m_params [] <;> simp
  | cons a s =>
    cases hl : p.idx.2 with
    | nil =>
      simp only [List.isEmpty_nil, Bool.not_true, Bool.false_eq_true, if_false,
        List.isEmpty_cons, Bool.not_false, if_true]
      rw [UMap.find_insert]
      cases UMap.find g.m_params [] <;> simp
    | cons b l =>
      simp only [List.isEmpty_cons, Bool.not_false, if_true]
      rw [UMap.find_insert, UMap.find_insert]
      cases UMap.find g.m_params [] <;> simp

/-- A step on a token that starts with a dash appends no positional, and the
only value it can write is the sentinel of a flag. -/
theorem process_arg_dash_token (Q : Parser) (a : Str) (ha : utils.is_param a = true) :
    (Q.process_arg a).2.get_positionals = Q.get_positionals ∧
    ∀ h, ((Q.process_arg a).2.params h).m_str_value = (Q.params h).m_str_value ∨
      ((Q.process_arg a).2.params h).m_str_value = FLAG_VALUE := by
  rcases process_arg_cases Q a with ⟨_, _, h'⟩ | ⟨_, _, _, h'⟩ | ⟨c, _, hw, hc, hcf, h'⟩ |
    ⟨c, _, hw, hc, hcf, h'⟩ | ⟨ha', hw, h'⟩ | ⟨c, ha', hw, hc, h'⟩ | ⟨ha', _, _, h'⟩
  · rw [h']; exact ⟨rfl, fun _ => Or.inl rfl⟩
  · rw [h']; exact ⟨rfl, fun _ => Or.inl rfl⟩
  · rw [h']
    refine ⟨rfl, fun h => ?_⟩
    by_cases hh : h = c
    · subst hh
      right
      simp only [store_same]
      exact Param.process_str_value _ _
    · left
      simp only [store_other _ _ _ _ hh]
  · rw [h']; exact ⟨rfl, fun _ => Or.inl rfl⟩
  · rw [ha] at ha'; exact absurd ha' (by decide)
  · rw [ha] at ha'; exact absurd ha' (by decide)
  · rw [ha] at ha'; exact absurd ha' (by decide)

/-- A step appends at most the token itself to the positionals, and only a
token that does not look like a parameter. -/
theorem process_arg_positionals_cases (Q : Parser) (a : Str) :
    (Q.process_arg a).2.get_positionals = Q.get_positionals ∨
      ((Q.process_arg a).2.get_positionals = Q.get_positionals ++ [a] ∧
        utils.is_param a = false) := by
  rcases process_arg_cases Q a with ⟨_, _, h'⟩ | ⟨_, _, _, h'⟩ | ⟨c, _, hw, hc, hcf, h'⟩ |
    ⟨c, _, hw, hc, hcf, h'⟩ | ⟨ha', hw, h'⟩ | ⟨c, ha', hw, hc, h'⟩ | ⟨ha', _, _, h'⟩ <;>
    rw [h']
  · exact Or.inl rfl
  · exact Or.inl rfl
  · exact Or.inl rfl
  · exact Or.inl rfl
  · right
    refine ⟨?_, ha'⟩
    simp [get_positionals, store_same, Command.push_positionals, Command.get_positionals]
    split <;> rfl
  · exact Or.inl rfl
  · exact Or.inl rfl

/-- The scan never collects a positional that starts with a dash. -/
theorem scan_positionals_no_dash (Q : Parser) (toks : List Str)
    (h : ∀ x ∈ Q.get_positionals, utils.is_param x = false) :
    ∀ x ∈ (Q.scan toks).2.get_positionals, utils.is_param x = false := by
  refine scan_invariant (fun R => ∀ x ∈ R.get_positionals, utils.is_param x = false)
    ?_ ?_ ?_ toks Q h
  · intro R a hR
    rcases process_arg_positionals_cases R a with h1 | ⟨h1, h2⟩ <;> rw [h1]
    · exact hR
    · intro x hx
      rcases List.mem_append.mp hx with hx | hx
      · exact hR x hx
      · rw [List.mem_singleton.mp hx]; exact h2
  · intro R hR
    unfold get_positionals
    rw [(show_help_fields R).2.2.2, (show_help_sameDecl R).current_cmd]
    exact hR
  · intro R hR
    exact hR

end Parser

namespace Parser

open param

/-! ### Name resolution across groups -/

/-- The loop of `getp` returns the entry of the first group that knows the
name. -/
theorem getpLoop_first (P : Parser) (k : Str) (hk : utils.trim_param k = k) (h : Nat)
    (pre post : List Nat) (g : Nat)
    (hpre : ∀ g2 ∈ pre, UMap.find (P.groups g2).m_params k = none)
    (hfind : UMap.find (P.groups g).m_params k = some h) :
    P.getpLoop k (pre ++ g :: post) = some h := by
  induction pre with
  | nil =>
    simp only [List.nil_append]
    unfold getpLoop
    rw [group_exists_eq_find, hk, hfind]
    simp [ParamGroup.get, hfind]
  | cons g0 pre ih =>
    have h0 := hpre g0 (List.mem_cons_self g0 pre)
    simp only [List.cons_append]
    unfold getpLoop
    rw [group_exists_eq_find, hk, h0]
    simp only [Option.isSome_none, Bool.false_eq_true, if_false]
    exact ih (fun g2 hg2 => hpre g2 (List.mem_cons_of_mem g0 hg2))

/-- A handle the loop of `getp` returns is the entry of a group before which
no group knows the name. -/
theorem getpLoop_some (P : Parser) (k : Str) (hk : utils.trim_param k = k) (h : Nat)
    (gs : List Nat) (hget : P.getpLoop k gs = some h) :
    ∃ pre g post, gs = pre ++ g :: post ∧
      (∀ g2 ∈ pre, UMap.find (P.groups g2).m_params k = none) ∧
      UMap.find (P.groups g).m_params k = some h := by
  induction gs with
  | nil => simp [getpLoop] at hget
  | cons g0 gs ih =>
    unfold getpLoop at hget
    rw [group_exists_eq_find, hk] at hget
    cases hf : UMap.find (P.groups g0).m_params k with
    | some w =>
      rw [hf] at hget
      simp only [Option.isSome_some, if_true, ParamGroup.get, hf] at hget
      exact ⟨[], g0, gs, rfl, fun _ hg => by simp at hg, by rw [hf, Option.some.inj hget]⟩
    | none =>
      rw [hf] at hget
      simp only [Option.isSome_none, Bool.false_eq_true, if_false] at hget
      obtain ⟨pre, g, post, hgs, hpre, hfind⟩ := ih hget
      refine ⟨g0 :: pre, g, post, by rw [hgs]; rfl, ?_, hfind⟩
      intro g2 hg2
      rcases List.mem_cons.mp hg2 with h2 | h2
      · rw [h2]; exact hf
      · exact hpre g2 h2

/-- `ParamGroup::add` looks at the names of its own group only. -/
theorem group_add_no_error (g : ParamGroup) (h : Nat) (p : Param) (exh : ExHandler)
    (hs : UMap.find g.m_params p.idx.1 = none) (hl : UMap.find g.m_params p.idx.2 = none) :
    (g.add h p exh).2 = exh := by
  unfold ParamGroup.add ParamGroup.already_exists
  simp only
  rw [(UMap.count_zero_iff _ _).mpr hs, (UMap.count_zero_iff _ _).mpr hl]
  simp

end Parser

namespace Parser

open param

/-! ### What a parse leaves for the next one -/

/-- A step of the scan leaves a set parameter set. -/
theorem process_arg_set_mono (P : Parser) (a : Str) (h : Nat)
    (hs : (P.params h).m_is_set = true) :
    ((P.process_arg a).2.params h).m_is_set = true := by
  rcases process_arg_cases P a with ⟨_, _, h'⟩ | ⟨_, _, _, h'⟩ | ⟨c, _, hw, hc, hcf, h'⟩ |
    ⟨c, _, hw, hc, hcf, h'⟩ | ⟨ha', hw, h'⟩ | ⟨c, ha', hw, hc, h'⟩ | ⟨ha', _, _, h'⟩ <;>
    rw [h']
  · exact hs
  · exact hs
  · by_cases hh : h = c
    · subst hh
      simp only [store_same]
      exact Param.process_keeps_set _ _ rfl
    · simp only [store_other _ _ _ _ hh]
      exact hs
  · exact hs
  · exact hs
  · by_cases hh : h = c
    · subst hh
      simp only [store_same]
      exact Param.process_keeps_set _ _ hs
    · simp only [store_other _ _ _ _ hh]
      exact hs
  · exact hs

/-- The scan leaves a set parameter set, however it stops. -/
theorem scan_set_mono (P : Parser) (toks : List Str) (h : Nat)
    (hs : (P.params h).m_is_set = true) : ((P.scan toks).2.params h).m_is_set = true := by
  refine scan_invariant (fun R => (R.params h).m_is_set = true) ?_ ?_ ?_ toks P hs
  · intro R a hR
    exact process_arg_set_mono R a h hR
  · intro R hR
    rw [(show_help_fields R).2.2.1]
    exact hR
  · intro R hR
    exact hR

/-- Scan and consistency pass leave a set parameter set, however they
stop. -/
theorem parse_args_set_mono (P : Parser) (toks : List Str) (h : Nat)
    (hs : (P.params h).m_is_set = true) :
    ((P.parse_args toks).2.params h).m_is_set = true := by
  have h1 := scan_set_mono P toks h hs
  unfold parse_args
  cases hr : P.scan toks with
  | mk r P1 =>
    rw [hr] at h1
    cases r with
    | error e => exact h1
    | ok u =>
      simp only
      split
      · exact h1
      · exact (check_consistency_paramsOnly P1).set_mono h h1

/-- After a `parse_args` that returns no value is awaited. -/
theorem parse_args_ok_fields (P P' : Parser) (toks : List Str)
    (h : P.parse_args toks = (.ok (), P')) :
    P'.m_is_param = false ∧ SameDecl P P' ∧
      ∃ Ps, P.scan toks = (.ok (), Ps) ∧ P'.get_positionals = Ps.get_positionals := by
  obtain ⟨Ps, hscan, hw, hpass⟩ := parse_args_ok P P' toks h
  have hpo := check_consistency_paramsOnly Ps
  rw [hpass] at hpo
  have hd : SameDecl P P' := by
    have := parse_args_sameDecl P toks
    rw [h] at this
    exact this
  refine ⟨by rw [hpo.fields.2.2.1]; exact hw, hd, Ps, hscan, ?_⟩
  unfold get_positionals
  rw [hpo.fields.1, hpo.fields.2.1]

end Parser

namespace Parser

open param

/-! ### A supplied parameter that has a default -/

/-- A `parse_args` that returns, on tokens that supply once, with the token
`value`, a parameter that is not a flag, has a non-empty default and is
visited once by the pass: the scan has processed the parameter with the
stored form of `value`, the pass has then called `process_def` on the object
the scan left, both have returned, and nothing else has touched the
object. -/
theorem parse_args_supplied_default (P P1 P' : Parser) (pre post : List Str)
    (l1 l2 : List Nat) (name value : Str) (p : Nat)
    (hA : P.m_is_param = true → P.get_current_param P.m_current ≠ some p)
    (hT : ∀ t ∈ pre ++ post, utils.is_param t = true → P.get_current_param t ≠ some p)
    (hpre : P.scan pre = (.ok (), P1)) (hw : P1.m_is_param = false)
    (hn : utils.is_param name = true) (hcp : P.get_current_param name = some p)
    (hv : utils.is_param value = false)
    (hflag : (P.params p).is_flag = false) (hne : (P.params p).get_def ≠ [])
    (horder : params_in_order P P.cur_groups = l1 ++ p :: l2) (h1 : p ∉ l1) (h2 : p ∉ l2)
    (hparse : P.parse_args (pre ++ name :: value :: post) = (.ok (), P')) :
    ((P.params p).process (unwrapped value)).1 = .ok () ∧
    (((P.params p).process (unwrapped value)).2.process_def).1 = .ok () ∧
    P'.params p = (((P.params p).process (unwrapped value)).2.process_def).2 := by
  obtain ⟨Ps, hscan, _, hpass⟩ := parse_args_ok P P' _ hparse
  have hTpre : ∀ t ∈ pre, utils.is_param t = true → P.get_current_param t ≠ some p :=
    fun t ht => hT t (List.mem_append_left post ht)
  have hTpost : ∀ t ∈ post, utils.is_param t = true → P.get_current_param t ≠ some p :=
    fun t ht => hT t (List.mem_append_right pre ht)
  have hH := scan_keeps_param P p (P.params p) pre P hTpre ⟨sameDecl_refl P, rfl, hA⟩
  rw [hpre] at hH
  obtain ⟨hd1, hp1, _⟩ := hH
  have hcp1 : P1.get_current_param name = some p := (hd1.get_current_param name).trans hcp
  have hf1 : (P1.params p).m_is_flag = false := by rw [hp1]; exact hflag
  rw [scan_append pre _ P P1 hpre] at hscan
  obtain ⟨hproc, hact⟩ := scan_supplied_value_ok P1 Ps p name value post hw hn hcp1 hf1 hv hscan
  have hps : Ps.params p = ((P.params p).process (unwrapped value)).2 := by
    have := scan_supplied_value P P1 p name value post hd1 hw hn hcp1 hf1 hact hv hTpost
    rw [hscan, hp1] at this
    exact this
  rw [hp1] at hproc
  have hds : SameDecl P Ps := by
    have := scan_sameDecl P1 (name :: value :: post)
    rw [hscan] at this
    exact sameDecl_trans hd1 this
  have hconf := hds.conf p
  have hloop := check_consistency_ok Ps P' hpass
  rw [hds.cur_groups, params_in_order_congr hds.groups, horder] at hloop
  obtain ⟨hfin, hdef⟩ := check_params_reprocesses l1 l2 p Ps P' h1 h2
    (by unfold Param.is_flag; rw [hconf.is_flag]; exact hflag)
    (by unfold Param.get_def; rw [hconf.default]; exact hne) hloop
  rw [hps] at hfin hdef
  exact ⟨hproc, hdef, hfin⟩

/-- A `process_def` that returns leaves the parameter marked as applied from
its default. -/
theorem Param.process_def_as_default (q : Param) (h : (q.process_def).1 = .ok ()) :
    (q.process_def).2.m_as_default = true := by
  have hchk := ((Param.process_def_ok_iff q).mp h).1
  show (Param.process { q with m_as_default := true } q.m_str_value).2.m_as_default = true
  rw [Param.process_accepted { q with m_as_default := true } q.m_str_value hchk]
  rfl

end Parser

namespace Parser

open param

/-! ### Which parameters are set after the pass -/

/-- A loop of the pass that returns, over a list that holds a parameter that
is not a flag and has a non-empty default, leaves that parameter set. -/
theorem check_params_sets_default (p : Nat) (ps : List Nat) :
    ∀ P P' : Parser, p ∈ ps → P.check_params ps = (.ok (), P') →
      (P.params p).is_flag = false → (P.params p).get_def ≠ [] →
      (P'.params p).m_is_set = true := by
  induction ps with
  | nil => intro P P' h; simp at h
  | cons q ps ih =>
    intro P P' hin hok hflag hne
    rw [check_params] at hok
    cases hr : P.check_param q with
    | mk res Pq =>
      rw [hr] at hok
      cases res with
      | error e => simp at hok
      | ok u =>
        simp only at hok
        have hpo1 : ParamsOnly P Pq := by
          have := check_param_paramsOnly P q
          rw [hr] at this
          exact this
        have hpo : ParamsOnly Pq P' := by
          have := check_params_paramsOnly ps Pq
          rw [hok] at this
          exact this
        by_cases hqp : q = p
        · subst hqp
          have hq1 : (P.check_param q).1 = .ok () := by rw [hr]
          have hiff := (check_param_ok_iff P q).mp hq1
          have hsnd := check_param_runs_process_def P q hflag hne hiff.1
          rw [hr] at hsnd
          simp only at hsnd
          have hpd : (P.params q).process_def.1 = .ok () := by
            have := hiff.2.1
            rw [default_step_applies P q hflag hne] at this
            exact this
          have hres := Param.process_def_ok (P.params q) hpd
          apply hpo.set_mono q
          rw [hsnd]
          simp only [store_same]
          exact hres.2.1
        · have hin' : p ∈ ps := by
            rcases List.mem_cons.mp hin with h | h
            · exact absurd h.symm hqp
            · exact h
          have hc := hpo1.conf p
          exact ih Pq P' hin' hok
            (by unfold Param.is_flag; rw [hc.is_flag]; exact hflag)
            (by unfold Param.get_def; rw [hc.default]; exact hne)

/-- The loop of the pass leaves the object of a flag, and that of a
parameter with an empty default, as it is, however it stops. -/
theorem check_params_keeps_skipped (f : Nat) (ps : List Nat) :
    ∀ P : Parser, ((P.params f).is_flag = true ∨ (P.params f).get_def = []) →
      (P.check_params ps).2.params f = P.params f := by
  induction ps with
  | nil => intro P _; rfl
  | cons q ps ih =>
    intro P hf
    have h1 : (P.check_param q).2.params f = P.params f := by
      by_cases hqf : f = q
      · subst hqf
        rw [check_param_skips_process_def P f hf]
      · exact check_param_other P q f hqf
    unfold check_params
    cases hr : P.check_param q with
    | mk r P1 =>
      rw [hr] at h1
      cases r with
      | error e => exact h1
      | ok u =>
        simp only at h1 ⊢
        rw [ih P1 (by rw [h1]; exact hf), h1]

/-- The consistency pass leaves the object of a flag, and that of a parameter
with an empty default, as it is. -/
theorem check_consistency_keeps_skipped (P : Parser) (f : Nat)
    (hf : (P.params f).is_flag = true ∨ (P.params f).get_def = []) :
    (P.check_consistency).2.params f = P.params f := by
  have h1 := check_params_keeps_skipped f (params_in_order P P.cur_groups) P hf
  rw [← check_groups_flat] at h1
  unfold check_consistency
  cases hr : P.check_groups P.cur_groups with
  | mk r P1 =>
    rw [hr] at h1
    cases r with
    | error e => exact h1
    | ok u =>
      simp only
      split
      · exact h1
      · split <;> exact h1

/-- Scan and pass leave the object of a flag, or of a parameter with an empty
default, that no token names, as it is, however they stop. -/
theorem parse_args_keeps_skipped (P : Parser) (toks : List Str) (f : Nat)
    (hf : (P.params f).is_flag = true ∨ (P.params f).get_def = [])
    (hA : P.m_is_param = true → P.get_current_param P.m_current ≠ some f)
    (hT : ∀ t ∈ toks, utils.is_param t = true → P.get_current_param t ≠ some f) :
    (P.parse_args toks).2.params f = P.params f := by
  have hk := (scan_keeps_param P f (P.params f) toks P hT ⟨sameDecl_refl P, rfl, hA⟩).2.1
  unfold parse_args
  cases hr : P.scan toks with
  | mk r P1 =>
    rw [hr] at hk
    cases r with
    | error e => exact hk
    | ok u =>
      simp only at hk ⊢
      split
      · exact hk
      · rw [check_consistency_keeps_skipped P1 f (by rw [hk]; exact hf), hk]

end Parser

namespace Parser

open param

/-- A difference of sizes that wraps around is passed to `sp` as a negative
`int`. -/
theorem int_of_size_t_sub_neg (a b : Nat) (hab : a < b) (hb : b < 2 ^ 31) :
    utils.int_of_size_t (utils.size_t_sub a b) < 0 := by
  unfold utils.int_of_size_t utils.size_t_sub
  have h1 : ¬ b ≤ a := by omega
  simp only [h1, if_false]
  have h2 : (a + 2 ^ 64 - b % 2 ^ 64) % 2 ^ 64 % 2 ^ 32 = 2 ^ 32 - (b - a) := by omega
  rw [h2]
  have h3 : ¬ (2 ^ 32 - (b - a) < 2 ^ 31) := by omega
  simp only [h3, if_false]
  omega

/-- A difference of sizes that does not wrap around is passed to `sp` as it
is. -/
theorem int_of_size_t_sub_nonneg (a b : Nat) (hab : b ≤ a) (ha : a < 2 ^ 31) :
    0 ≤ utils.int_of_size_t (utils.size_t_sub a b) := by
  unfold utils.int_of_size_t utils.size_t_sub
  simp only [hab, if_true]
  have h2 : (a - b) % 2 ^ 32 = a - b := by omega
  rw [h2]
  have h3 : a - b < 2 ^ 31 := by omega
  simp only [h3, if_true]
  omega

/-- One turn of the loop of `ParamGroup::get_help`. -/
theorem group_get_helpLoop_cons (params : Nat → Param) (fsymb : Str) (maxl : Nat) (h : Nat)
    (rest : List Nat) :
    ParamGroup.get_helpLoop params fsymb maxl (h :: rest) =
      if (params h).hidden = true ∨ (params h).lp ≠ [] ∨
          0 ≤ utils.int_of_size_t (utils.size_t_sub maxl
            (utils.size (if (params h).is_flag then " ".toList ++ fsymb else []))) then
        ParamGroup.get_helpLoop params fsymb maxl rest
      else .error utils.sp_length_error := by
  rw [ParamGroup.get_helpLoop]
  simp only []
  generalize utils.int_of_size_t (utils.size_t_sub maxl
    (utils.size (if (params h).is_flag then " ".toList ++ fsymb else []))) = N
  by_cases hh : (params h).hidden = true
  · simp [hh]
  · by_cases hl : (params h).lp = []
    · by_cases hn : 0 ≤ N
      · have hn' := not_lt.mpr hn
        simp [hh, hl, hn, hn', utils.sp]
      · have hn' := not_le.mp hn
        simp [hh, hl, hn, hn', utils.sp]
    · have hl' : (params h).lp.isEmpty = false := by
        cases hlp : (params h).lp with
        | nil => exact absurd hlp hl
        | cons c cs => rfl
      simp [hh, hl, hl']

/-- The loop of `ParamGroup::get_help` throws `std::length_error` when it
meets a flag that is not hidden and has no long name while the longest long
form of the group is shorter than a space followed by the flag symbol. -/
theorem group_get_helpLoop_throws (params : Nat → Param) (fsymb : Str) (maxl : Nat)
    (hsz : maxl < utils.size (" ".toList ++ fsymb))
    (hsmall : utils.size (" ".toList ++ fsymb) < 2 ^ 31) :
    ∀ (l : List Nat) (h : Nat), h ∈ l → (params h).hidden = false →
      (params h).is_flag = true → (params h).lp = [] →
      ParamGroup.get_helpLoop params fsymb maxl l = .error utils.sp_length_error := by
  intro l
  induction l with
  | nil => intro h hm; exact absurd hm (List.not_mem_nil h)
  | cons x rest ih =>
    intro h hm hv hf hl
    rw [group_get_helpLoop_cons]
    rcases List.mem_cons.mp hm with hx | hx
    · subst hx
      have hneg := int_of_size_t_sub_neg maxl _ hsz hsmall
      have hneg' := not_le.mpr hneg
      simp only [hv, hf, hl, if_true, Bool.false_eq_true, ne_eq, not_true_eq_false, false_or,
        hneg', if_false]
    · rw [ih h hx hv hf hl]
      exact ite_self _

/-- The loop of `ParamGroup::get_help` returns when every flag that is not
hidden has a long name or the longest long form of the group is at least as
long as a space followed by the flag symbol, that longest form being shorter
than `2^31` bytes. -/
theorem group_get_helpLoop_ok (params : Nat → Param) (fsymb : Str) (maxl : Nat)
    (hsmall : maxl < 2 ^ 31) :
    ∀ (l : List Nat), (∀ h ∈ l, (params h).hidden = false → (params h).lp = [] →
        (params h).is_flag = true → utils.size (" ".toList ++ fsymb) ≤ maxl) →
      ParamGroup.get_helpLoop params fsymb maxl l = .ok () := by
  intro l
  induction l with
  | nil => intro _; rfl
  | cons x rest ih =>
    intro hall
    rw [group_get_helpLoop_cons]
    have hrest := ih (fun h hm => hall h (List.mem_cons_of_mem x hm))
    rw [hrest]
    refine if_pos ?_
    by_cases hh : (params x).hidden = true
    · exact Or.inl hh
    · by_cases hl : (params x).lp = []
      · have hh' : (params x).hidden = false := by simpa using hh
        refine Or.inr (Or.inr ?_)
        by_cases hf : (params x).is_flag = true
        · have hle := hall x (List.mem_cons_self x rest) hh' hl hf
          rw [if_pos hf]
          exact int_of_size_t_sub_nonneg maxl _ hle hsmall
        · rw [if_neg hf]
          exact int_of_size_t_sub_nonneg maxl 0 (Nat.zero_le _) hsmall
      · exact Or.inr (Or.inl hl)

end Parser

namespace Parser

open param

/-- A loop over rules throws the error of the first rule that throws. -/
theorem rulesLoop_first_error (f : rule_t → Except BCliError Unit) (pre post : List rule_t)
    (r : rule_t) (e : BCliError) (hpre : ∀ x ∈ pre, f x = .ok ()) (hr : f r = .error e) :
    rulesLoop f (pre ++ r :: post) = .error e := by
  induction pre with
  | nil =>
    simp only [List.nil_append, rulesLoop, hr]
  | cons x pre ih =>
    simp only [List.cons_append, rulesLoop, hpre x (List.mem_cons_self x pre)]
    exact ih (fun y hy => hpre y (List.mem_cons_of_mem x hy))

/-- A loop over rules goes on after the rules that pass. -/
theorem rulesLoop_skip_ok (f : rule_t → Except BCliError Unit) (pre post : List rule_t)
    (r : rule_t) (hpre : ∀ x ∈ pre, f x = .ok ()) (hr : f r = .ok ()) :
    rulesLoop f (pre ++ r :: post) = rulesLoop f post := by
  induction pre with
  | nil =>
    simp only [List.nil_append, rulesLoop, hr]
  | cons x pre ih =>
    simp only [List.cons_append, rulesLoop, hpre x (List.mem_cons_self x pre)]
    exact ih (fun y hy => hpre y (List.mem_cons_of_mem x hy))

/-- The loop body of the pass throws the error of the first dependency rule
that throws, in the state the default step leaves. -/
theorem check_param_depends_error (P0 P : Parser) (p : Nat) (pre post : List rule_t)
    (r : rule_t) (e : BCliError)
    (hreq : ((P0.params p).is_required && !(P0.params p).is_set) = false)
    (hds : default_step P0 p = (.ok (), P))
    (hdep : (P.params p).get_dependency = pre ++ r :: post)
    (hpre : ∀ x ∈ pre, P.check_depends p x = .ok ())
    (hr : P.check_depends p r = .error e) :
    P0.check_param p = (.error e, P) := by
  rw [check_param_eq]
  simp only [hreq, if_false, Bool.false_eq_true, hds, hdep,
    rulesLoop_first_error _ pre post r e hpre hr]

/-- The loop of the pass throws the error of the first parameter whose loop
body throws. -/
theorem check_params_error_at (Ps P0 P : Parser) (before after : List Nat) (p : Nat)
    (e : BCliError) (hbefore : Ps.check_params before = (.ok (), P0))
    (hp : P0.check_param p = (.error e, P)) :
    Ps.check_params (before ++ p :: after) = (.error e, P) := by
  rw [check_params_append, hbefore]
  simp only
  rw [check_params, hp]

/-- `parse_args` throws the error of the consistency pass when the scan
completes and no value is awaited. -/
theorem parse_args_consistency_error (Pp Ps P : Parser) (toks : List Str) (e : BCliError)
    (hscan : Pp.scan toks = (.ok (), Ps)) (hw : Ps.m_is_param = false)
    (hcc : Ps.check_consistency = (.error e, P)) :
    Pp.parse_args toks = (.error e, P) := by
  unfold parse_args
  rw [hscan]
  simp only [hw, Bool.false_eq_true, if_false]
  exact hcc

/-- `parse` is `parse_args` on the tokens after the program name in simple
mode or once a command is selected, and on the tokens after the command name,
in the state where the command is selected, in multi-command mode. -/
theorem parse_eq_parse_args (P0 P : Parser) (argv toks : List Str) (hq : P0.exh = [])
    (hb : (P = P0 ∧ (!P0.m_is_cmd_mode || P0.m_bypass) = true ∧
        ∃ prog, argv = prog :: toks) ∨
      (∃ c cname prog, P = select P0 c ∧ P0.m_is_cmd_mode = true ∧ P0.m_bypass = false ∧
        P0.m_cmds.get cname = some c ∧ argv = prog :: cname :: toks)) :
    P0.parse argv = P.parse_args toks := by
  rcases hb with ⟨h, hm, prog, hargv⟩ | ⟨c, cname, prog, h, hmode, hbp, hc, hargv⟩
  · rw [h, hargv]
    exact parse_scanning P0 prog _ hq hm
  · rw [h, hargv, parse_select P0 prog cname _ c hq hmode hbp hc]
    exact parse_scanning (select P0 c) cname _ hq (select_scanning P0 c)

end Parser

namespace Parser

open param

/-- The loop of `ParamGroup::get_help` returns or throws
`std::length_error`. -/
theorem group_get_helpLoop_cases (params : Nat → Param) (fsymb : Str) (maxl : Nat) :
    ∀ l : List Nat, ParamGroup.get_helpLoop params fsymb maxl l = .ok () ∨
      ParamGroup.get_helpLoop params fsymb maxl l = .error utils.sp_length_error := by
  intro l
  induction l with
  | nil => exact Or.inl rfl
  | cons x rest ih =>
    rw [group_get_helpLoop_cons]
    by_cases hc : (params x).hidden = true ∨ (params x).lp ≠ [] ∨
        0 ≤ utils.int_of_size_t (utils.size_t_sub maxl
          (utils.size (if (params x).is_flag then " ".toList ++ fsymb else [])))
    · rw [if_pos hc]
      exact ih
    · rw [if_neg hc]
      exact Or.inr rfl

/-- The loop of `Command::get_help` over the groups throws
`std::length_error` when the help of one of the groups, which is not empty,
throws it. -/
theorem command_get_helpLoop_throws (groups : Nat → ParamGroup) (params : Nat → Param)
    (fsymb : Str) :
    ∀ (gs : List Nat) (g : Nat), g ∈ gs → (groups g).empty = false →
      (groups g).get_help params fsymb = .error utils.sp_length_error →
      Command.get_helpLoop groups params fsymb gs = .error utils.sp_length_error := by
  intro gs
  induction gs with
  | nil => intro g hg; exact absurd hg (List.not_mem_nil g)
  | cons x rest ih =>
    intro g hg he hthrow
    rw [Command.get_helpLoop]
    rcases List.mem_cons.mp hg with hx | hx
    · subst hx
      simp only [he, Bool.not_false, if_true, hthrow]
    · have hrest := ih g hx he hthrow
      by_cases hxe : (groups x).empty = true
      · simp only [hxe, Bool.not_true, Bool.false_eq_true, if_false]
        exact hrest
      · have hxe' : (groups x).empty = false := by simpa using hxe
        simp only [hxe', Bool.not_false, if_true]
        rcases group_get_helpLoop_cases params fsymb ((groups x).padding params).2
          (groups x).m_order with h | h
        · have h' : (groups x).get_help params fsymb = .ok () := h
          rw [h']
          exact hrest
        · have h' : (groups x).get_help params fsymb = .error utils.sp_length_error := h
          rw [h']

/-- The loop of `Command::get_help` over the groups returns when the help of
every group that is not empty returns. -/
theorem command_get_helpLoop_ok (groups : Nat → ParamGroup) (params : Nat → Param)
    (fsymb : Str) :
    ∀ (gs : List Nat), (∀ g ∈ gs, (groups g).empty = false →
        (groups g).get_help params fsymb = .ok ()) →
      Command.get_helpLoop groups params fsymb gs = .ok () := by
  intro gs
  induction gs with
  | nil => intro _; rfl
  | cons x rest ih =>
    intro hall
    have hrest := ih (fun g hg => hall g (List.mem_cons_of_mem x hg))
    rw [Command.get_helpLoop]
    by_cases hxe : (groups x).empty = true
    · simp only [hxe, Bool.not_true, Bool.false_eq_true, if_false]
      exact hrest
    · have hxe' : (groups x).empty = false := by simpa using hxe
      simp only [hxe', Bool.not_false, if_true, hall x (List.mem_cons_self x rest) hxe']
      exact hrest

/-- When the help of the current command is rendered: on a parser that
scans, `show_help` returns when the command has a help function of its own,
and when, in every group of the command, the longest long form is shorter
than `2^31` bytes and every flag that is not hidden has a long name or stands
in a group whose longest long form is at least as long as a space followed
by the flag symbol. -/
theorem show_help_renders (P : Parser) (hs : (!P.m_is_cmd_mode || P.m_bypass) = true)
    (hall : (P.commands P.m_current_cmd).m_help.isSome = true ∨
      ∀ g ∈ (P.commands P.m_current_cmd).m_order,
        ((P.groups g).padding P.params).2 < 2 ^ 31 ∧
        ∀ h ∈ (P.groups g).m_order, (P.params h).hidden = false → (P.params h).lp = [] →
          (P.params h).is_flag = true →
          utils.size (" ".toList ++ P.conf.m_flag_symbol) ≤ ((P.groups g).padding P.params).2) :
    (P.show_help).1 = .ok () := by
  have hget : (P.commands P.m_current_cmd).get_help P.groups P.params P.conf.m_flag_symbol
      P.m_name P.m_version P.m_bypass = .ok () := by
    unfold Command.get_help
    rcases hall with hh | hall
    · simp only [hh, if_true]
    · by_cases hh : (P.commands P.m_current_cmd).m_help.isSome = true
      · simp only [hh, if_true]
      · simp only [hh, if_false, Bool.false_eq_true]
        apply command_get_helpLoop_ok
        intro g hg _
        exact group_get_helpLoop_ok P.params P.conf.m_flag_symbol _ (hall g hg).1 _
          (hall g hg).2
  unfold show_help
  simp only [hs, if_true, hget]

/-- When the help of the current command is not rendered: on a parser that
scans, whose current command has no help function of its own, `show_help`
throws `std::length_error` and writes nothing when a group of the command
holds a flag that is not hidden and has no long name while the longest long
form of the group is shorter than a space followed by the flag symbol. -/
theorem show_help_throws (P : Parser) (g h : Nat)
    (hs : (!P.m_is_cmd_mode || P.m_bypass) = true)
    (hnone : (P.commands P.m_current_cmd).m_help = none)
    (hg : g ∈ (P.commands P.m_current_cmd).m_order) (hh : h ∈ (P.groups g).m_order)
    (hv : (P.params h).hidden = false) (hf : (P.params h).is_flag = true)
    (hl : (P.params h).lp = [])
    (hsz : ((P.groups g).padding P.params).2 < utils.size (" ".toList ++ P.conf.m_flag_symbol))
    (hsmall : utils.size (" ".toList ++ P.conf.m_flag_symbol) < 2 ^ 31) :
    P.show_help = (.error utils.sp_length_error, P) := by
  have hne : (P.groups g).empty = false := by
    unfold ParamGroup.empty
    cases hm : (P.groups g).m_order with
    | nil => rw [hm] at hh; exact absurd hh (List.not_mem_nil h)
    | cons a l => rfl
  have hgrp : (P.groups g).get_help P.params P.conf.m_flag_symbol =
      .error utils.sp_length_error :=
    group_get_helpLoop_throws P.params P.conf.m_flag_symbol _ hsz hsmall _ h hh hv hf hl
  have hget : (P.commands P.m_current_cmd).get_help P.groups P.params P.conf.m_flag_symbol
      P.m_name P.m_version P.m_bypass = .error utils.sp_length_error := by
    unfold Command.get_help
    simp only [hnone, Option.isSome_none, Bool.false_eq_true, if_false]
    exact command_get_helpLoop_throws P.groups P.params P.conf.m_flag_symbol _ g hg hne hgrp
  unfold show_help
  simp only [hs, if_true, hget]

end Parser

/-! ## The claims -/

namespace Parser

open param

/-- C1: in simple mode on a fresh parser (no value awaited, no positional
yet, empty `ExHandler` queue), when the scan of the tokens completes (no
error, no help or version action), the positional list after the scan is
the list of the tokens that do not start with a dash and are not consumed
as the value of the value-parameter right before them, in their order (a
token that follows a flag is kept: a flag takes no value); `parse` on that
command line leaves the same list. -/
theorem positionals_after_scan (P P' : Parser) (toks : List Str)
    (hmode : P.m_is_cmd_mode = false) (hq : P.exh = [])
    (hfresh : P.m_is_param = false) (hpos : P.get_positionals = [])
    (hscan : P.scan toks = (.ok (), P')) :
    P'.get_positionals = positional_tokens P toks ∧
      ∀ prog, (P.parse (prog :: toks)).2.get_positionals = positional_tokens P toks := by
  have h1 : P'.get_positionals = positional_tokens P toks := by
    rw [scan_positionals_from P toks P P' none (sameDecl_refl P) hfresh hscan, hpos]
    rfl
  refine ⟨h1, fun prog => ?_⟩
  rw [parse_scanning P prog toks hq (by simp [hmode]), parse_args_positionals P P' toks hscan]
  exact h1

/-- Witness of C1: `TEST(Parser, simple)`, tokens
`-p 10 pos1 -t strvalue -f pos2 pos3` with `-f` a flag. -/
theorem positionals_after_scan_witness :
    Scenario.simple.m_is_cmd_mode = false ∧ Scenario.simple.exh = [] ∧
    Scenario.simple.m_is_param = false ∧ Scenario.simple.get_positionals = [] ∧
    (Scenario.simple.scan Scenario.simple_args).1 = .ok () ∧
    positional_tokens Scenario.simple Scenario.simple_args =
      ["pos1".toList, "pos2".toList, "pos3".toList] ∧
    (Scenario.simple.scan Scenario.simple_args).2.get_positionals =
      positional_tokens Scenario.simple Scenario.simple_args ∧
    (Scenario.simple.parse ("cmd".toList :: Scenario.simple_args)).2.get_positionals =
      positional_tokens Scenario.simple Scenario.simple_args :=
  have h := positionals_after_scan Scenario.simple
    (Scenario.simple.scan Scenario.simple_args).2 Scenario.simple_args
    (by decide) (by decide) (by decide) (by decide) (Prod.ext rfl rfl)
  ⟨by decide, by decide, by decide, by decide, rfl, by decide, h.1, h.2 "cmd".toList⟩

/-- C2: let the scan start in the state `P` (the parser itself in simple mode
or once a command is selected; in multi-command mode, the parser after the
command named by the first token has been selected).  Let the command line
hold the name of a declared parameter that is not a flag, followed by a
token `value` that starts neither with a dash nor with "[-", and let no
later token name that parameter.  After a successful `parse` the stored
string value of the parameter is `value`, under every name `getp` resolves
to it (short or long, with or without dashes). -/
theorem supplied_value_is_stored (P P' : Parser) (pre post : List Str) (name value : Str)
    (cp : Nat) (hname : utils.is_param name = true)
    (hcp : P.get_current_param name = some cp) (hnf : (P.params cp).is_flag = false)
    (hv1 : utils.startswith value "-".toList = false)
    (hv2 : utils.startswith value "[-".toList = false)
    (hlast : ∀ t ∈ post, utils.is_param t = true → P.get_current_param t ≠ some cp) :
    ((!P.m_is_cmd_mode || P.m_bypass) = true → ∀ prog,
      P.parse (prog :: (pre ++ name :: value :: post)) = (.ok (), P') →
      (P'.params cp).value = value ∧
        ∀ n, P.getp n = some cp →
          (P'.getp n).map (fun h => (P'.params h).value) = some value) ∧
    (∀ P0 c cname prog, P = select P0 c → P0.m_is_cmd_mode = true → P0.m_bypass = false →
      P0.m_cmds.get cname = some c →
      P0.parse (prog :: cname :: (pre ++ name :: value :: post)) = (.ok (), P') →
      (P'.params cp).value = value ∧
        ∀ n, P.getp n = some cp →
          (P'.getp n).map (fun h => (P'.params h).value) = some value) := by
  refine ⟨fun hm prog hparse =>
    supplied_value_scanning P P' pre post name value cp prog hm hname hcp hnf hv1 hv2 hlast
      hparse, ?_⟩
  intro P0 c cname prog hP hmode hb hc hparse
  subst hP
  rw [parse_select P0 prog cname _ c (parse_ok_exh P0 P' _ hparse) hmode hb hc] at hparse
  exact supplied_value_scanning (select P0 c) P' pre post name value cp cname
    (select_scanning P0 c) hname hcp hnf hv1 hv2 hlast hparse

/-- Witness of C2: `TEST(Parser, simple)`, where `-p 10` gives the value "10",
read through the long name `param`. -/
theorem supplied_value_is_stored_witness :
    (!Scenario.simple.m_is_cmd_mode || Scenario.simple.m_bypass) = true ∧
    Scenario.simple.getp "param".toList = some 0 ∧
    (Scenario.simple.parse ("cmd".toList :: Scenario.simple_args)).1 = .ok () ∧
    ((Scenario.simple.parse ("cmd".toList :: Scenario.simple_args)).2.getp "param".toList).map
      (fun h => ((Scenario.simple.parse ("cmd".toList :: Scenario.simple_args)).2.params h).value)
      = some "10".toList :=
  ⟨by decide, by decide, rfl,
    ((supplied_value_is_stored Scenario.simple
      (Scenario.simple.parse ("cmd".toList :: Scenario.simple_args)).2 []
      ["pos1".toList, "-t".toList, "strvalue".toList, "-f".toList, "pos2".toList, "pos3".toList]
      "-p".toList "10".toList 0 (by decide) (by decide) (by decide)
      (by decide) (by decide) (by decide)).1 (by decide) "cmd".toList
      (Prod.ext rfl rfl)).2 "param".toList (by decide)⟩

/-- Counterexample to C3 as stated: in the parser of `TEST(Parser, simple)` the
scan of `-p` completes and reaches the next token `-f`, the name of the
declared flag of handle 2; a value is awaited, the token is rejected with
`MissingValueError`, and right after that the flag is not set, its value is
not the sentinel and a value is still awaited. -/
theorem flag_token_counterexample :
    (Scenario.simple.scan ["-p".toList]).1 = .ok () ∧
    (Scenario.simple.scan ["-p".toList]).2.get_current_param "-f".toList = some 2 ∧
    ((Scenario.simple.scan ["-p".toList]).2.params 2).is_flag = true ∧
    (thrown ((Scenario.simple.scan ["-p".toList]).2.process_arg "-f".toList).1).map
      (fun e => e.name) = some "MissingValueError".toList ∧
    (((Scenario.simple.scan ["-p".toList]).2.process_arg "-f".toList).2.params 2).is_set
      = false ∧
    (((Scenario.simple.scan ["-p".toList]).2.process_arg "-f".toList).2.params 2).value
      ≠ FLAG_VALUE ∧
    ((Scenario.simple.scan ["-p".toList]).2.process_arg "-f".toList).2.m_is_param = true := by
  refine ⟨rfl, by decide, by decide, by decide, by decide, by decide, by decide⟩

/-- C3, amended: when the scan reaches the name of a declared flag while no
value is awaited, then right after that token is processed the flag is set,
its value is the sentinel `FLAG_VALUE` and no value is awaited, even when a
callback of the flag throws, which is the only way the step can fail.  The
next token is not consumed as the value of the flag: if it does not look
like a parameter it is pushed as a positional; and whatever tokens follow,
and however their scan stops, the flag is still set with the sentinel as its
value. -/
theorem flag_token_sets_flag (P : Parser) (a : Str) (cp : Nat)
    (ha : utils.is_param a = true) (hcp : P.get_current_param a = some cp)
    (hf : (P.params cp).is_flag = true) (hw : P.m_is_param = false) :
    ((P.process_arg a).2.params cp).is_set = true ∧
    ((P.process_arg a).2.params cp).value = FLAG_VALUE ∧
    (P.process_arg a).2.m_is_param = false ∧
    thrown (P.process_arg a).1 = thrown ((P.params cp).set.process FLAG_VALUE).1 ∧
    (∀ u, utils.is_param u = false →
      ((P.process_arg a).2.process_arg u).2.get_positionals =
        (P.process_arg a).2.get_positionals ++ [u]) ∧
    (∀ rest, (((P.process_arg a).2.scan rest).2.params cp).is_set = true ∧
      (((P.process_arg a).2.scan rest).2.params cp).value = FLAG_VALUE) := by
  have hstep := process_arg_flag P a cp ha hw hcp hf
  have h1 : ((P.process_arg a).2.params cp).m_is_set = true := by
    rw [hstep]
    simp only [store_same]
    exact Param.process_keeps_set _ _ rfl
  have h2 : ((P.process_arg a).2.params cp).m_str_value = FLAG_VALUE := by
    rw [hstep]
    simp only [store_same]
    exact Param.process_str_value _ _
  have h3 : (P.process_arg a).2.m_is_param = false := by rw [hstep]
  have h4 : ((P.process_arg a).2.params cp).m_is_flag = true := by
    rw [((process_arg_sameDecl P a).conf cp).is_flag]
    exact hf
  refine ⟨h1, h2, h3, ?_, ?_, ?_⟩
  · rw [hstep]
    cases ((P.params cp).set.process FLAG_VALUE).1 <;> rfl
  · intro u hu
    rw [process_arg_positional _ u hu h3]
    simp only [get_positionals, Command.get_positionals, store_same,
      Command.push_positionals_positionals]
  · intro rest
    have hk := scan_keeps_flag cp (P.process_arg a).2 rest
      ⟨awaitsValueParam_of_not_awaiting _ h3, h4, h1, h2⟩
    exact ⟨hk.2.2.1, hk.2.2.2⟩

/-- Witness of C3, amended: the flag `-f` of the parser of
`TEST(Parser, simple)`, reached after `-p 10 pos1`; the tokens `pos2 pos3`
that follow are positionals. -/
theorem flag_token_sets_flag_witness :
    utils.is_param "-f".toList = true ∧
    (Scenario.simple.scan ["-p".toList, "10".toList, "pos1".toList]).2.get_current_param
      "-f".toList = some 2 ∧
    ((Scenario.simple.scan ["-p".toList, "10".toList, "pos1".toList]).2.params 2).is_flag
      = true ∧
    (Scenario.simple.scan ["-p".toList, "10".toList, "pos1".toList]).2.m_is_param = false ∧
    ((Scenario.simple.scan ["-p".toList, "10".toList, "pos1".toList, "-f".toList]).2.params
      2).is_set = true ∧
    ((Scenario.simple.scan ["-p".toList, "10".toList, "pos1".toList, "-f".toList]).2.params
      2).value = FLAG_VALUE ∧
    (Scenario.simple.scan ["-p".toList, "10".toList, "pos1".toList, "-f".toList,
      "pos2".toList, "pos3".toList]).2.get_positionals =
      ["pos1".toList, "pos2".toList, "pos3".toList] :=
  have h := flag_token_sets_flag
    (Scenario.simple.scan ["-p".toList, "10".toList, "pos1".toList]).2 "-f".toList 2
    (by decide) (by decide) (by decide) (by decide)
  ⟨by decide, by decide, by decide, by decide, h.1, h.2.1, by decide⟩

/-- Counterexample to C4 as stated: in the parser of `TEST(Parser, simple)`,
after `-p` a value is awaited; the token `-x`, which looks like a parameter
and is not declared, is rejected with `InvalidParamError`, not with
`MissingValueError`. -/
theorem awaited_unknown_token_counterexample :
    (Scenario.simple.process_arg "-p".toList).2.m_is_param = true ∧
    utils.is_param "-x".toList = true ∧
    thrown ((Scenario.simple.process_arg "-p".toList).2.process_arg "-x".toList).1 =
      some (InvalidParamError "Unknown param: -x.".toList) ∧
    (thrown ((Scenario.simple.process_arg "-p".toList).2.process_arg "-x".toList).1).map
      (fun e => e.name) ≠ some "MissingValueError".toList := by
  decide

/-- C4, amended: when a value is awaited and the next token looks like a
parameter, processing that token fails and leaves the state as it is: with
`MissingValueError` when the token names a parameter declared in the active
command, with `InvalidParamError` ("Unknown param: ...") when it does not. -/
theorem awaited_param_token_fails (P : Parser) (a : Str) (hw : P.m_is_param = true)
    (ha : utils.is_param a = true) :
    (P.pexists a = true →
      P.process_arg a =
        (.error (MissingValueError (P.m_current ++ "needs a value.".toList)), P)) ∧
    (P.pexists a = false →
      P.process_arg a =
        (.error (InvalidParamError ("Unknown param: ".toList ++ a ++ ".".toList)), P)) :=
  ⟨fun hx => process_arg_awaited P a ha hx hw, fun hx => process_arg_unknown P a ha hx⟩

/-- Witness of C4, amended: after `-p`, the declared name `-t`. -/
theorem awaited_param_token_fails_witness :
    (Scenario.simple.process_arg "-p".toList).2.m_is_param = true ∧
    utils.is_param "-t".toList = true ∧
    (Scenario.simple.process_arg "-p".toList).2.pexists "-t".toList = true ∧
    (Scenario.simple.process_arg "-p".toList).2.process_arg "-t".toList =
      (.error (MissingValueError ("-p".toList ++ "needs a value.".toList)),
        (Scenario.simple.process_arg "-p".toList).2) :=
  ⟨by decide, by decide, by decide,
    (awaited_param_token_fails (Scenario.simple.process_arg "-p".toList).2 "-t".toList
      (by decide) (by decide)).1 (by decide)⟩

/-- C5: let the scan start in the state `P`, with an empty `ExHandler` queue
(the parser itself in simple mode or once a command is selected; in
multi-command mode, the parser after the command named by the first token
has been selected).  When the scan of the token list completes and the last
token is the name of a declared parameter that is not a flag, `parse`
throws `MissingValueError` (that name, then " needs a value.") and returns
the state the scan left: the consistency pass is not run, whatever it would
have raised. -/
theorem trailing_value_param_missing_value (P P1 : Parser) (pre : List Str) (name : Str)
    (cp : Nat) (hq : P.exh = [])
    (hname : utils.is_param name = true) (hcp : P.get_current_param name = some cp)
    (hnf : (P.params cp).is_flag = false)
    (hscan : P.scan (pre ++ [name]) = (.ok (), P1)) :
    ((!P.m_is_cmd_mode || P.m_bypass) = true → ∀ prog,
      P.parse (prog :: (pre ++ [name])) =
        (.error (MissingValueError (name ++ " needs a value.".toList)), P1)) ∧
    (∀ P0 c cname prog, P = select P0 c → P0.m_is_cmd_mode = true → P0.m_bypass = false →
      P0.m_cmds.get cname = some c →
      P0.parse (prog :: cname :: (pre ++ [name])) =
        (.error (MissingValueError (name ++ " needs a value.".toList)), P1)) := by
  refine ⟨fun hm prog =>
    trailing_value_param_scanning P P1 pre name cp hq hm hname hcp hnf hscan prog, ?_⟩
  intro P0 c cname prog hP hmode hb hc
  subst hP
  rw [parse_select P0 prog cname _ c hq hmode hb hc]
  exact trailing_value_param_scanning (select P0 c) P1 pre name cp hq (select_scanning P0 c)
    hname hcp hnf hscan cname

/-- Witness of C5: the parser of `TEST(Parser, simple)` on `cmd pos1 -p`; the
consistency pass would have thrown `RequiredParamError` on the state of the
scan. -/
theorem trailing_value_param_missing_value_witness :
    Scenario.simple.exh = [] ∧
    (!Scenario.simple.m_is_cmd_mode || Scenario.simple.m_bypass) = true ∧
    utils.is_param "-p".toList = true ∧
    Scenario.simple.get_current_param "-p".toList = some 0 ∧
    (Scenario.simple.params 0).is_flag = false ∧
    (Scenario.simple.scan (["pos1".toList] ++ ["-p".toList])).1 = .ok () ∧
    (thrown (Scenario.simple.scan (["pos1".toList] ++ ["-p".toList])).2.check_consistency.1).map
      (fun e => e.name) = some "RequiredParamError".toList ∧
    Scenario.simple.parse ("cmd".toList :: (["pos1".toList] ++ ["-p".toList])) =
      (.error (MissingValueError ("-p".toList ++ " needs a value.".toList)),
        (Scenario.simple.scan (["pos1".toList] ++ ["-p".toList])).2) :=
  ⟨by decide, by decide, by decide, by decide, by decide, rfl, by decide,
    (trailing_value_param_missing_value Scenario.simple
      (Scenario.simple.scan (["pos1".toList] ++ ["-p".toList])).2 ["pos1".toList]
      "-p".toList 0 (by decide) (by decide) (by decide) (by decide)
      (Prod.ext rfl rfl)).1 (by decide) "cmd".toList⟩

/-- C6, the code at the failing input: in the parser of `TEST(Parser, simple)`
the command line `cmd -x` makes `parse` throw `InvalidParamError`, whose exit
code is `ImplError`, not `UsageError`. -/
theorem unknown_param_is_impl_error :
    thrown (Scenario.simple.parse ["cmd".toList, "-x".toList]).1 =
      some ⟨"InvalidParamError".toList, "Unknown param: -x.".toList, ExitCodes.ImplError⟩ ∧
    (thrown (Scenario.simple.parse ["cmd".toList, "-x".toList]).1).map (fun e => e.code) ≠
      some ExitCodes.UsageError := by
  decide

/-- Counterexample to C7 as stated: in `dep_then_required` the parameter `-r`
(handle 2) has no default and is not supplied by the empty command line, yet
the consistency pass aborts with `DependsError`, raised by the parameter
`-d` declared before it. -/
theorem required_param_counterexample :
    (Scenario.dep_then_required.params 2).is_required = true ∧
    (Scenario.dep_then_required.params 2).is_flag = false ∧
    2 ∈ params_in_order Scenario.dep_then_required Scenario.dep_then_required.cur_groups ∧
    (Scenario.dep_then_required.scan []).1 = .ok () ∧
    ((Scenario.dep_then_required.scan []).2.params 2).is_set = false ∧
    (thrown (Scenario.dep_then_required.scan []).2.check_consistency.1).map (fun e => e.name) =
      some "DependsError".toList ∧
    (thrown (Scenario.dep_then_required.scan []).2.check_consistency.1).map (fun e => e.name) ≠
      some "RequiredParamError".toList := by
  refine ⟨by decide, by decide, by decide, rfl, by decide, by decide, by decide⟩

/-- C7, amended: let a parameter of the active command have no default and be
unset on a parser that awaits no value, let no token of the command line
name it, and let the scan complete.  Then the consistency pass always
aborts, and it aborts with `RequiredParamError` (raw name, then
" is required.") whenever the loop gets past the parameters visited before
it; otherwise the error is the one raised by a parameter visited before
it. -/
theorem required_param_aborts (P P1 : Parser) (toks : List Str) (r : Nat)
    (hfresh : P.m_is_param = false)
    (hin : r ∈ params_in_order P P.cur_groups)
    (hreq : (P.params r).is_required = true) (hunset : (P.params r).is_set = false)
    (hns : ∀ t ∈ toks, utils.is_param t = true → P.get_current_param t ≠ some r)
    (hscan : P.scan toks = (.ok (), P1)) :
    (∃ e, P1.check_consistency.1 = .error e) ∧
    (∀ pre post P2, params_in_order P P.cur_groups = pre ++ r :: post →
      P1.check_params pre = (.ok (), P2) →
      P1.check_consistency =
        (.error (RequiredParamError ((P.params r).raw ++ " is required.".toList)), P2)) ∧
    (∀ pre post P2 e, params_in_order P P.cur_groups = pre ++ r :: post →
      P1.check_params pre = (.error e, P2) → P1.check_consistency = (.error e, P2)) := by
  have hkeep := scan_keeps_param P r (P.params r) toks P hns
    ⟨sameDecl_refl P, rfl, fun h => by rw [hfresh] at h; exact absurd h (by decide)⟩
  rw [hscan] at hkeep
  obtain ⟨hd, hr1, _⟩ := hkeep
  have hflat : params_in_order P1 P1.cur_groups = params_in_order P P.cur_groups := by
    rw [hd.cur_groups, params_in_order_congr hd.groups]
  have hreq1 : (P1.params r).is_required = true := by rw [hr1]; exact hreq
  have hunset1 : (P1.params r).is_set = false := by rw [hr1]; exact hunset
  refine ⟨?_, ?_, ?_⟩
  · obtain ⟨e, he⟩ := check_params_required (params_in_order P1 P1.cur_groups) r P1
      (by rw [hflat]; exact hin) hreq1 hunset1
    refine ⟨e, ?_⟩
    rw [check_consistency_of_params_error P1
      (P1.check_params (params_in_order P1 P1.cur_groups)).2 e (Prod.ext he rfl)]
  · intro pre post P2 hsplit hpre
    have hnot : r ∉ pre := by
      intro hmem
      obtain ⟨e, he⟩ := check_params_required pre r P1 hmem hreq1 hunset1
      rw [hpre] at he
      simp at he
    have hr2 : P2.params r = P1.params r := by
      have := check_params_other pre r hnot P1
      rw [hpre] at this
      exact this
    apply check_consistency_of_params_error
    rw [hflat, hsplit, check_params_append, hpre]
    simp only
    rw [check_params, check_param_required P2 r (by rw [hr2]; exact hreq1)
      (by rw [hr2]; exact hunset1), hr2, hr1]
  · intro pre post P2 e hsplit hpre
    apply check_consistency_of_params_error
    rw [hflat, hsplit, check_params_append, hpre]

/-- Witness of C7, amended: the parser of `TEST(Parser, simple)` on the tokens
`-t x`: `-p` (handle 0), never supplied, is the first parameter visited. -/
theorem required_param_aborts_witness :
    Scenario.simple.m_is_param = false ∧
    params_in_order Scenario.simple Scenario.simple.cur_groups = [] ++ 0 :: [1, 2] ∧
    (Scenario.simple.params 0).is_required = true ∧
    (Scenario.simple.params 0).is_set = false ∧
    (Scenario.simple.scan ["-t".toList, "x".toList]).1 = .ok () ∧
    (Scenario.simple.scan ["-t".toList, "x".toList]).2.check_consistency =
      (.error (RequiredParamError ("-p/--param".toList ++ " is required.".toList)),
        (Scenario.simple.scan ["-t".toList, "x".toList]).2) :=
  ⟨by decide, by decide, by decide, by decide, rfl,
    (required_param_aborts Scenario.simple (Scenario.simple.scan ["-t".toList, "x".toList]).2
      ["-t".toList, "x".toList] 0 (by decide) (by decide) (by decide) (by decide) (by decide)
      (Prod.ext rfl rfl)).2.1 [] [1, 2] _ (by decide) rfl⟩

/-- Counterexample to C8 as stated: in `checked_default` the parameter `-n`
has the default "abc" and the checker `is_number`; on the empty command line
the consistency pass aborts on its account, applying the default throws
`CheckFailedError`. -/
theorem default_param_counterexample :
    (Scenario.checked_default.params 0).m_has_default = true ∧
    (Scenario.checked_default.params 0).get_def = "abc".toList ∧
    (Scenario.checked_default.scan []).1 = .ok () ∧
    thrown (Scenario.checked_default.scan []).2.check_consistency.1 =
      some (CheckFailedError "[-n abc] ~ Not a number!".toList) ∧
    thrown (Scenario.checked_default.parse ["cmd".toList]).1 =
      some (CheckFailedError "[-n abc] ~ Not a number!".toList) := by
  refine ⟨by decide, by decide, rfl, by decide, by decide⟩

/-- C8, amended: for a parameter that has a declared default and still holds
it (it was not supplied), the loop body of the consistency pass never takes
the required-parameter branch: it gets past the parameter exactly when the
default step returns and every dependency and ban rule of the parameter
passes.  The default step returns exactly when the parameter is a flag, or
its default is empty (nothing is applied), or every checker of the
parameter accepts the default and its setter, if any, returns on it; when
the default is applied and a checker rejects it, the pass aborts with
`CheckFailedError` carrying the message of the first such checker.  The test
of the required-parameter branch is false, and what the loop body does on the
parameter is the default step, then its dependency rules, then its ban
rules: the error it throws, if any, is the error of the default step, or the
error of the first dependency rule that throws, or the error of the first ban
rule that throws, never the required-parameter error of the pass.  The pass
itself, once it has got past the parameters that precede this one in the
order of the visit, throws that error in that state, and otherwise goes on
with the parameters that follow. -/
theorem default_param_never_required (P : Parser) (p : Nat)
    (hdef : (P.params p).m_has_default = true)
    (hval : (P.params p).value = (P.params p).get_def) :
    ((P.check_param p).1 = .ok () ↔
      (default_step P p).1 = .ok () ∧
      (∀ r ∈ ((default_step P p).2.params p).get_dependency,
        (default_step P p).2.check_depends p r = .ok ()) ∧
      (∀ r ∈ ((default_step P p).2.params p).get_banned,
        (default_step P p).2.check_banned p r = .ok ())) ∧
    ((default_step P p).1 = .ok () ↔
      ((P.params p).is_flag = true ∨ (P.params p).get_def = [] ∨
        ((∀ c ∈ (P.params p).c_checkers,
            ∃ msg, c (P.params p).raw (P.params p).get_def = .ok (true, msg)) ∧
          ∀ f, (P.params p).c_setter = some f → f (P.params p).get_def = .ok ()))) ∧
    (∀ pre post c msg, (P.params p).is_flag = false → (P.params p).get_def ≠ [] →
      (P.params p).c_checkers = pre ++ c :: post →
      (∀ c' ∈ pre, ∃ m, c' (P.params p).raw (P.params p).get_def = .ok (true, m)) →
      c (P.params p).raw (P.params p).get_def = .ok (false, msg) →
      (P.check_param p).1 = .error (CheckFailedError msg)) ∧
    ((P.params p).is_required && !(P.params p).is_set) = false ∧
    (P.check_param p =
      match (default_step P p).1 with
      | .error e => (.error e, (default_step P p).2)
      | .ok () =>
        match rulesLoop ((default_step P p).2.check_depends p)
            ((default_step P p).2.params p).get_dependency with
        | .error e => (.error e, (default_step P p).2)
        | .ok () =>
          match rulesLoop ((default_step P p).2.check_banned p)
              ((default_step P p).2.params p).get_banned with
          | .error e => (.error e, (default_step P p).2)
          | .ok () => (.ok (), (default_step P p).2)) ∧
    (∀ (P0 : Parser) (before after : List Nat), P0.check_params before = (.ok (), P) →
      P0.check_params (before ++ p :: after) =
        match (default_step P p).1 with
        | .error e => (.error e, (default_step P p).2)
        | .ok () =>
          match rulesLoop ((default_step P p).2.check_depends p)
              ((default_step P p).2.params p).get_dependency with
          | .error e => (.error e, (default_step P p).2)
          | .ok () =>
            match rulesLoop ((default_step P p).2.check_banned p)
                ((default_step P p).2.params p).get_banned with
            | .error e => (.error e, (default_step P p).2)
            | .ok () => (default_step P p).2.check_params after) := by
  have hreq : ((P.params p).is_required && !(P.params p).is_set) = false := by
    simp [Param.is_required, hdef]
  have hval' : (P.params p).m_str_value = (P.params p).get_def := hval
  have hnf : P.check_param p =
      match (default_step P p).1 with
      | .error e => (.error e, (default_step P p).2)
      | .ok () =>
        match rulesLoop ((default_step P p).2.check_depends p)
            ((default_step P p).2.params p).get_dependency with
        | .error e => (.error e, (default_step P p).2)
        | .ok () =>
          match rulesLoop ((default_step P p).2.check_banned p)
              ((default_step P p).2.params p).get_banned with
          | .error e => (.error e, (default_step P p).2)
          | .ok () => (.ok (), (default_step P p).2) := by
    rw [check_param_eq]
    simp only [hreq, if_false, Bool.false_eq_true]
  refine ⟨?_, ?_, ?_, hreq, hnf, ?_⟩
  rotate_left 3
  · intro P0 before after hbefore
    rw [check_params_append, hbefore]
    simp only
    rw [check_params, hnf]
    cases h1 : (default_step P p).1 with
    | error e => rfl
    | ok u =>
      cases h2 : rulesLoop ((default_step P p).2.check_depends p)
          ((default_step P p).2.params p).get_dependency with
      | error e => rfl
      | ok u2 =>
        cases h3 : rulesLoop ((default_step P p).2.check_banned p)
            ((default_step P p).2.params p).get_banned with
        | error e => rfl
        | ok u3 => rfl
  · rw [check_param_ok_iff]
    simp only [hreq, true_and]
  · by_cases hf : (P.params p).is_flag = true
    · rw [default_step_skips P p (Or.inl hf)]
      simp [hf]
    · by_cases he : (P.params p).get_def = []
      · rw [default_step_skips P p (Or.inr he)]
        simp [he]
      · have hf' : (P.params p).is_flag = false := by simpa using hf
        rw [default_step_applies P p hf' he]
        simp only [hf', he, false_or, Bool.false_eq_true]
        rw [Param.process_def_ok_iff, Param.run_checkers_ok_iff, hval']
        rfl
  · intro pre post c msg hf he hcs hpre hc
    rw [check_param_eq]
    simp only [hreq, if_false, Bool.false_eq_true]
    rw [default_step_applies P p hf he]
    have hrun : Param.run_checkers (P.params p).m_raw_name (P.params p).m_str_value
        (P.params p).c_checkers = .error (CheckFailedError msg) := by
      rw [hcs, hval']
      exact Param.run_checkers_first_false _ _ pre post c msg hpre hc
    have hpd : (P.params p).process_def.1 = .error (CheckFailedError msg) := by
      unfold Param.process_def
      simp only
      rw [Param.process_eq]
      simp only [hrun]
    simp only [hpd]

/-- Witness of C8, amended: in `with_default "out"` the pass gets past the
parameter `-o`, whose default no checker rejects.  In `dep_flag` the
parameter `-d` (handle 1) has the default "1" and depends on the flag `-f`
(handle 0): on the empty command line the loop body applies the default,
then throws the `DependsError` of the rule, and so does the loop of the pass
over the parameters 0 and 1. -/
theorem default_param_never_required_witness :
    ((Scenario.with_default "out".toList).params 0).m_has_default = true ∧
    ((Scenario.with_default "out".toList).params 0).value =
      ((Scenario.with_default "out".toList).params 0).get_def ∧
    (default_step (Scenario.with_default "out".toList) 0).1 = .ok () ∧
    ((Scenario.with_default "out".toList).check_param 0).1 = .ok () ∧
    (Scenario.dep_flag.params 1).m_has_default = true ∧
    (Scenario.dep_flag.params 1).value = (Scenario.dep_flag.params 1).get_def ∧
    thrown (Scenario.dep_flag.check_param 1).1 =
      some (DependsError
        "-d/--dep 1 depends on -f ~ Check returns -> A true checker.".toList) ∧
    thrown (Scenario.dep_flag.check_params [0, 1]).1 =
      some (DependsError
        "-d/--dep 1 depends on -f ~ Check returns -> A true checker.".toList) :=
  ⟨by decide, by decide, rfl,
    (default_param_never_required (Scenario.with_default "out".toList) 0 (by decide)
      (by decide)).1.mpr
      ⟨rfl, fun r hr => absurd (show r ∈ ([] : List rule_t) from hr) (List.not_mem_nil r),
        fun r hr => absurd (show r ∈ ([] : List rule_t) from hr) (List.not_mem_nil r)⟩,
    by decide, by decide,
    (congrArg (fun r => thrown r.1)
      (default_param_never_required Scenario.dep_flag 1 (by decide)
        (by decide)).2.2.2.2.1).trans (by decide),
    (congrArg (fun r => thrown r.1)
      ((default_param_never_required (Scenario.dep_flag.check_params [0]).2 1 (by decide)
        (by decide)).2.2.2.2.2 Scenario.dep_flag [0] [] (Prod.ext rfl rfl))).trans
      (by decide)⟩

/-- Counterexample to C9 as stated: in `with_default ""` the parameter `-o` is
declared with the empty default and has a setter; after the successful
`parse` of the empty command line the setter has not been called at all, and
the parameter is not set. -/
theorem empty_default_counterexample :
    ((Scenario.with_default []).params 0).m_has_default = true ∧
    ((Scenario.with_default []).params 0).get_def = [] ∧
    ((Scenario.with_default []).params 0).is_flag = false ∧
    ((Scenario.with_default []).params 0).c_setter.isSome = true ∧
    ((Scenario.with_default []).params 0).setter_trace = [] ∧
    ((Scenario.with_default []).parse ["cmd".toList]).1 = .ok () ∧
    (((Scenario.with_default []).parse ["cmd".toList]).2.params 0).setter_trace = [] ∧
    (((Scenario.with_default []).parse ["cmd".toList]).2.params 0).is_set = false := by
  refine ⟨by decide, by decide, by decide, by decide, by decide, rfl, by decide, by decide⟩

/-- C9, amended: let the scan start in the state `P`, which awaits no value
(the parser itself in simple mode or once a command is selected; in
multi-command mode, the parser after the command named by the first token
has been selected).  Let a parameter of the active command be not a flag,
be declared with a non-empty default `d` (`def(d)` leaves `d` as default and
as value), and be named by no token of the command line.  After a
successful `parse` its string value is `d`, it is set, and its setter, if
any, has been called with `d` and has returned. -/
theorem default_is_materialized (P P' : Parser) (toks : List Str) (p : Nat) (d : Str)
    (hfresh : P.m_is_param = false)
    (hin : p ∈ params_in_order P P.cur_groups)
    (hflag : (P.params p).is_flag = false)
    (hdef : (P.params p).get_def = d) (hval : (P.params p).value = d) (hne : d ≠ [])
    (hns : ∀ t ∈ toks, utils.is_param t = true → P.get_current_param t ≠ some p) :
    ((!P.m_is_cmd_mode || P.m_bypass) = true → ∀ prog,
      P.parse (prog :: toks) = (.ok (), P') →
      (P'.params p).value = d ∧ (P'.params p).is_set = true ∧
        ∀ f, (P.params p).c_setter = some f →
          f d = .ok () ∧
            ∃ l, (P'.params p).setter_trace = (P.params p).setter_trace ++ d :: l) ∧
    (∀ P0 c cname prog, P = select P0 c → P0.m_is_cmd_mode = true → P0.m_bypass = false →
      P0.m_cmds.get cname = some c →
      P0.parse (prog :: cname :: toks) = (.ok (), P') →
      (P'.params p).value = d ∧ (P'.params p).is_set = true ∧
        ∀ f, (P.params p).c_setter = some f →
          f d = .ok () ∧
            ∃ l, (P'.params p).setter_trace = (P.params p).setter_trace ++ d :: l) := by
  refine ⟨fun hm prog hparse =>
    default_materialized_scanning P P' toks prog p d hm hfresh hin hflag hdef hval hne hns
      hparse, ?_⟩
  intro P0 c cname prog hP hmode hb hc hparse
  subst hP
  rw [parse_select P0 prog cname _ c (parse_ok_exh P0 P' _ hparse) hmode hb hc] at hparse
  exact default_materialized_scanning (select P0 c) P' toks cname p d (select_scanning P0 c)
    hfresh hin hflag hdef hval hne hns hparse

/-- Witness of C9, amended: `with_default "out"` on the empty command line. -/
theorem default_is_materialized_witness :
    (Scenario.with_default "out".toList).m_is_param = false ∧
    ((Scenario.with_default "out".toList).params 0).is_flag = false ∧
    ((Scenario.with_default "out".toList).params 0).get_def = "out".toList ∧
    ((Scenario.with_default "out".toList).parse ["cmd".toList]).1 = .ok () ∧
    (((Scenario.with_default "out".toList).parse ["cmd".toList]).2.params 0).value =
      "out".toList ∧
    (((Scenario.with_default "out".toList).parse ["cmd".toList]).2.params 0).is_set = true ∧
    (((Scenario.with_default "out".toList).parse ["cmd".toList]).2.params 0).setter_trace =
      ["out".toList] :=
  have h := (default_is_materialized (Scenario.with_default "out".toList)
    ((Scenario.with_default "out".toList).parse ["cmd".toList]).2 [] 0
    "out".toList (by decide) (by decide) (by decide) (by decide) (by decide)
    (by decide) (by decide)).1 (by decide) "cmd".toList (Prod.ext rfl rfl)
  ⟨by decide, by decide, by decide, rfl, h.1, h.2.1, by decide⟩

/-- C10: for a dependency rule without checker for the other parameter whose
self checker returns true on the owner's raw name and value, the rule passes
if and only if the other parameter is set in the state in which the rule is
evaluated, and otherwise `DependsError` is thrown, with the message built
from both parameters and the message of the self checker.  In the pass: if
the loop body gets past the owner `p`, leaving the state `P` in which its
rules were evaluated, the other parameter of every such rule of `p` is set
in `P`.  Let the pass reach `p` in the state `P0`, not take the
required-parameter branch, and let the default step return and leave `P`;
let the rule stand in the list of dependency rules of `p` after rules that
all pass.  If the other parameter is set in `P`, the loop over the rules
accepts the rule and goes on with the rules that follow it.  If it is not
set, the loop body throws that `DependsError` in the state `P`; so does the
loop of the pass once it has got past the parameters that precede `p`, so
does `check_consistency` when these and `p` are the first parameters of the
current command in the order of the visit, and so does `parse` when the scan
of the command line has completed with no value awaited. -/
theorem dependency_rule_passes_iff_other_set (P : Parser) (p d : Nat)
    (c : check.checker_fn_t) (msg : Str)
    (hc : c (P.params p).raw (P.params p).value = .ok (true, msg)) :
    (P.check_depends p (c, d, none) = .ok () ↔ (P.params d).is_set = true) ∧
    ((P.params d).is_set = false →
      P.check_depends p (c, d, none) =
        .error (DependsError
          (utils.format_depend_errors (P.params p) (P.params d) msg))) ∧
    (∀ P0 : Parser, (P0.check_param p).2 = P → (P0.check_param p).1 = .ok () →
      (c, d, none) ∈ (P.params p).get_dependency → (P.params d).is_set = true) ∧
    (∀ (P0 : Parser) (pre post : List rule_t),
      ((P0.params p).is_required && !(P0.params p).is_set) = false →
      default_step P0 p = (.ok (), P) →
      (P.params p).get_dependency = pre ++ (c, d, none) :: post →
      (∀ r ∈ pre, P.check_depends p r = .ok ()) →
      ((P.params d).is_set = true →
        rulesLoop (P.check_depends p) (P.params p).get_dependency =
          rulesLoop (P.check_depends p) post) ∧
      ((P.params d).is_set = false →
        P0.check_param p =
          (.error (DependsError
            (utils.format_depend_errors (P.params p) (P.params d) msg)), P) ∧
        ∀ (Ps : Parser) (before after : List Nat),
          Ps.check_params before = (.ok (), P0) →
          Ps.check_params (before ++ p :: after) =
            (.error (DependsError
              (utils.format_depend_errors (P.params p) (P.params d) msg)), P) ∧
          (params_in_order Ps Ps.cur_groups = before ++ p :: after →
            Ps.check_consistency =
              (.error (DependsError
                (utils.format_depend_errors (P.params p) (P.params d) msg)), P) ∧
            ∀ (Pq Pp : Parser) (argv toks : List Str), Pq.exh = [] →
              ((Pp = Pq ∧ (!Pq.m_is_cmd_mode || Pq.m_bypass) = true ∧
                  ∃ prog, argv = prog :: toks) ∨
                (∃ cmd cname prog, Pp = select Pq cmd ∧ Pq.m_is_cmd_mode = true ∧
                  Pq.m_bypass = false ∧ Pq.m_cmds.get cname = some cmd ∧
                  argv = prog :: cname :: toks)) →
              Pp.scan toks = (.ok (), Ps) → Ps.m_is_param = false →
              Pq.parse argv =
                (.error (DependsError
                  (utils.format_depend_errors (P.params p) (P.params d) msg)), P)))) := by
  have hrule : P.check_depends p (c, d, none) = .ok () ↔ (P.params d).is_set = true := by
    unfold check_depends
    simp only [hc]
    cases hs : (P.params d).is_set <;> simp
  have herr : (P.params d).is_set = false →
      P.check_depends p (c, d, none) =
        .error (DependsError
          (utils.format_depend_errors (P.params p) (P.params d) msg)) := by
    intro hs
    unfold check_depends
    simp only [hc, hs]
    rfl
  refine ⟨hrule, herr, ?_, ?_⟩
  · intro P0 hP hok hmem
    have h := (check_param_ok_iff P0 p).mp hok
    rw [← check_param_snd P0 p h.1, hP] at h
    exact hrule.mp (h.2.2.1 _ hmem)
  · intro P0 pre post hreq hds hdep hpre
    refine ⟨fun hs => ?_, fun hs => ?_⟩
    · rw [hdep]
      exact rulesLoop_skip_ok _ pre post _ hpre (hrule.mpr hs)
    · have hcp := check_param_depends_error P0 P p pre post (c, d, none) _ hreq hds hdep hpre
        (herr hs)
      refine ⟨hcp, fun Ps before after hbefore => ?_⟩
      have hps := check_params_error_at Ps P0 P before after p _ hbefore hcp
      refine ⟨hps, fun horder => ?_⟩
      have hcc := check_consistency_of_params_error Ps P _ (by rw [horder]; exact hps)
      refine ⟨hcc, fun Pq Pp argv toks hq hb hscan hw => ?_⟩
      rw [parse_eq_parse_args Pq Pp argv toks hq hb]
      exact parse_args_consistency_error Pp Ps P toks _ hscan hw hcc

/-- Witness of C10: in `dep_flag` the parameter `-d` (handle 1) depends on the
flag `-f` (handle 0) through a rule whose self checker is always true.  After
the scan of `-d 5` the flag is not set: the rule throws, and `parse` throws
`DependsError` with the message of the rule.  After the scan of `-d 5 -f`
the flag is set: the rule passes, and `parse` returns. -/
theorem dependency_rule_passes_iff_other_set_witness :
    check.always_true
        (((Scenario.dep_flag.scan ["-d".toList, "5".toList]).2.params 1).raw)
        (((Scenario.dep_flag.scan ["-d".toList, "5".toList]).2.params 1).value) =
      .ok (true, "A true checker.".toList) ∧
    ((Scenario.dep_flag.scan ["-d".toList, "5".toList]).2.params 0).is_set = false ∧
    (thrown ((Scenario.dep_flag.scan ["-d".toList, "5".toList]).2.check_depends 1
        (check.always_true, 0, none))).map (fun e => e.name) = some "DependsError".toList ∧
    ((Scenario.dep_flag.scan ["-d".toList, "5".toList, "-f".toList]).2.params 0).is_set = true ∧
    (Scenario.dep_flag.scan ["-d".toList, "5".toList, "-f".toList]).2.check_depends 1
        (check.always_true, 0, none) = .ok () ∧
    params_in_order (Scenario.dep_flag.scan ["-d".toList, "5".toList]).2
      (Scenario.dep_flag.scan ["-d".toList, "5".toList]).2.cur_groups = [0, 1] ∧
    thrown (Scenario.dep_flag.parse ["cmd".toList, "-d".toList, "5".toList]).1 =
      some (DependsError
        "-d/--dep 5 depends on -f ~ Check returns -> A true checker.".toList) ∧
    (Scenario.dep_flag.parse ["cmd".toList, "-d".toList, "5".toList, "-f".toList]).1 =
      .ok () :=
  have hpass := ((dependency_rule_passes_iff_other_set
    (default_step ((Scenario.dep_flag.scan ["-d".toList, "5".toList]).2.check_params [0]).2
      1).2 1 0 check.always_true "A true checker.".toList rfl).2.2.2
    ((Scenario.dep_flag.scan ["-d".toList, "5".toList]).2.check_params [0]).2 [] []
    (by decide) (Prod.ext rfl rfl) rfl (fun r hr => absurd hr (List.not_mem_nil r))).2
    (by decide)
  have hcons := (hpass.2 (Scenario.dep_flag.scan ["-d".toList, "5".toList]).2 [0] []
    (Prod.ext rfl rfl)).2 (by decide)
  have hparse := hcons.2 Scenario.dep_flag Scenario.dep_flag
    ["cmd".toList, "-d".toList, "5".toList] ["-d".toList, "5".toList] (by decide)
    (Or.inl ⟨rfl, by decide, "cmd".toList, rfl⟩) (Prod.ext rfl rfl) (by decide)
  ⟨rfl, by decide,
    by
      rw [(dependency_rule_passes_iff_other_set
        (Scenario.dep_flag.scan ["-d".toList, "5".toList]).2 1 0 check.always_true
        "A true checker.".toList rfl).2.1 (by decide)]
      rfl,
    by decide,
    (dependency_rule_passes_iff_other_set
      (Scenario.dep_flag.scan ["-d".toList, "5".toList, "-f".toList]).2 1 0 check.always_true
      "A true checker.".toList rfl).1.mpr (by decide),
    by decide,
    (congrArg (fun r => thrown r.1) hparse).trans (by decide),
    rfl⟩

/-- C11: for a dependency rule with a checker `dc` for the other parameter
whose self checker returns true on the owner's raw name and value, the rule
passes if and only if `dc`, called on the raw name and the value of the other
parameter, returns true; when `dc` returns false the rule throws
`DependsError` with the message of `dc`.  Whether the other parameter is set
plays no part: the rule gives the same result in the state and in the state
where the set flag of the other parameter is replaced by any `b`.  In the
pass: if the loop body gets past the owner `p`, leaving the state `P` in
which its rules were evaluated, the checker of every such rule of `p`
returns true on the other parameter in `P`. -/
theorem dependency_rule_passes_iff_other_checker (P : Parser) (p d : Nat)
    (c dc : check.checker_fn_t) (msg : Str)
    (hc : c (P.params p).raw (P.params p).value = .ok (true, msg)) :
    (P.check_depends p (c, d, some dc) = .ok () ↔
      ∃ m, dc (P.params d).raw (P.params d).value = .ok (true, m)) ∧
    (∀ m, dc (P.params d).raw (P.params d).value = .ok (false, m) →
      P.check_depends p (c, d, some dc) =
        .error (DependsError
          (utils.format_depend_errors (P.params p) (P.params d) m))) ∧
    (∀ b : Bool,
      ({ P with params := store P.params d { P.params d with m_is_set := b } }).check_depends
          p (c, d, some dc) = P.check_depends p (c, d, some dc)) ∧
    (∀ P0 : Parser, (P0.check_param p).2 = P → (P0.check_param p).1 = .ok () →
      (c, d, some dc) ∈ (P.params p).get_dependency →
      ∃ m, dc (P.params d).raw (P.params d).value = .ok (true, m)) := by
  have hrule : P.check_depends p (c, d, some dc) = .ok () ↔
      ∃ m, dc (P.params d).raw (P.params d).value = .ok (true, m) := by
    unfold check_depends
    simp only [hc]
    cases hd : dc (P.params d).raw (P.params d).value with
    | error e => simp
    | ok r =>
      obtain ⟨dres, dmsg⟩ := r
      cases dres <;> simp
  refine ⟨hrule, ?_, ?_, ?_⟩
  · intro m hm
    unfold check_depends
    simp only [hc, hm]
    rfl
  · intro b
    unfold check_depends
    by_cases hpd : p = d
    · subst hpd
      simp only [store_same]
      rfl
    · simp only [store_same, store_other _ _ _ _ hpd]
      rfl
  · intro P0 hP hok hmem
    have h := (check_param_ok_iff P0 p).mp hok
    rw [← check_param_snd P0 p h.1, hP] at h
    exact hrule.mp (h.2.2.1 _ hmem)

/-- Witness of C11: example `04_bcli_deps_bans`.  After the scan of
`-p 110 -d 20` the self checker `range(10, 100)` accepts "20", the checker
`range(120, 140)` rejects "110" and the rule throws `DependsError`, and so
does `parse`; after the scan of `-p 125 -d 20` the rule passes, and `parse`
succeeds on that line and on `-p 110 -d 8`. -/
theorem dependency_rule_passes_iff_other_checker_witness :
    check.f.range 10 100
        (((Scenario.ex04.scan ["-p".toList, "110".toList, "-d".toList, "20".toList]).2.params
          1).raw)
        (((Scenario.ex04.scan ["-p".toList, "110".toList, "-d".toList, "20".toList]).2.params
          1).value) =
      .ok (true, "[-d/--dep 20] ~ Not in range [10,100].".toList) ∧
    thrown ((Scenario.ex04.scan ["-p".toList, "110".toList, "-d".toList, "20".toList]).2.check_depends
        1 (check.f.range 10 100, 0, some (check.f.range 120 140))) =
      some (DependsError ("-d/--dep 20 depends on -p/--param ~ Check returns -> ".toList ++
        "[-p/--param 110] ~ Not in range [120,140].".toList)) ∧
    (Scenario.ex04.scan ["-p".toList, "125".toList, "-d".toList, "20".toList]).2.check_depends
        1 (check.f.range 10 100, 0, some (check.f.range 120 140)) = .ok () ∧
    (thrown (Scenario.ex04.parse
        ["cmd".toList, "-p".toList, "110".toList, "-d".toList, "20".toList]).1).map
      (fun e => e.name) = some "DependsError".toList ∧
    (Scenario.ex04.parse
        ["cmd".toList, "-p".toList, "125".toList, "-d".toList, "20".toList]).1 = .ok () ∧
    (Scenario.ex04.parse
        ["cmd".toList, "-p".toList, "110".toList, "-d".toList, "8".toList]).1 = .ok () :=
  ⟨rfl,
    by
      rw [(dependency_rule_passes_iff_other_checker
        (Scenario.ex04.scan ["-p".toList, "110".toList, "-d".toList, "20".toList]).2 1 0
        (check.f.range 10 100) (check.f.range 120 140)
        "[-d/--dep 20] ~ Not in range [10,100].".toList rfl).2.1
        "[-p/--param 110] ~ Not in range [120,140].".toList rfl]
      rfl,
    (dependency_rule_passes_iff_other_checker
      (Scenario.ex04.scan ["-p".toList, "125".toList, "-d".toList, "20".toList]).2 1 0
      (check.f.range 10 100) (check.f.range 120 140)
      "[-d/--dep 20] ~ Not in range [10,100].".toList rfl).1.mpr
      ⟨"[-p/--param 125] ~ Not in range [120,140].".toList, rfl⟩,
    by decide, rfl, rfl⟩

/-- Counterexample to C12 as stated: in example `04_bcli_deps_bans`, after the
scan of `-p abc -d 20`, take the rule of `-d` (self checker `range(10, 100)`,
other parameter `-p`, other checker `range(120, 140)`) once as a ban rule and
once as a dependency rule.  The self checker returns true on the owner, the
other checker throws `CheckFailedError` on "abc", and both rules throw that
error: the ban rule does not pass although the dependency rule does not pass
either. -/
theorem ban_rule_counterexample :
    check.f.range 10 100
        (((Scenario.ex04.scan ["-p".toList, "abc".toList, "-d".toList, "20".toList]).2.params
          1).raw)
        (((Scenario.ex04.scan ["-p".toList, "abc".toList, "-d".toList, "20".toList]).2.params
          1).value) =
      .ok (true, "[-d/--dep 20] ~ Not in range [10,100].".toList) ∧
    thrown ((Scenario.ex04.scan ["-p".toList, "abc".toList, "-d".toList, "20".toList]).2.check_banned
        1 (check.f.range 10 100, 0, some (check.f.range 120 140))) =
      some (CheckFailedError "[-p/--param abc] ~ Not a number!".toList) ∧
    thrown ((Scenario.ex04.scan ["-p".toList, "abc".toList, "-d".toList, "20".toList]).2.check_depends
        1 (check.f.range 10 100, 0, some (check.f.range 120 140))) =
      some (CheckFailedError "[-p/--param abc] ~ Not a number!".toList) ∧
    ¬ ((Scenario.ex04.scan ["-p".toList, "abc".toList, "-d".toList, "20".toList]).2.check_banned
          1 (check.f.range 10 100, 0, some (check.f.range 120 140)) = .ok () ↔
       ¬ (Scenario.ex04.scan ["-p".toList, "abc".toList, "-d".toList, "20".toList]).2.check_depends
          1 (check.f.range 10 100, 0, some (check.f.range 120 140)) = .ok ()) := by
  have hb : (Scenario.ex04.scan
      ["-p".toList, "abc".toList, "-d".toList, "20".toList]).2.check_banned
        1 (check.f.range 10 100, 0, some (check.f.range 120 140)) =
      .error (CheckFailedError "[-p/--param abc] ~ Not a number!".toList) := rfl
  have hd : (Scenario.ex04.scan
      ["-p".toList, "abc".toList, "-d".toList, "20".toList]).2.check_depends
        1 (check.f.range 10 100, 0, some (check.f.range 120 140)) =
      .error (CheckFailedError "[-p/--param abc] ~ Not a number!".toList) := rfl
  refine ⟨rfl, by rw [hb]; rfl, by rw [hd]; rfl, ?_⟩
  rw [hb, hd]
  intro h
  exact absurd (h.mpr (fun h' => by cases h')) (fun h' => by cases h')

/-- C12, amended: for a ban rule and a dependency rule built from the same
self checker, other parameter and optional other checker, evaluated in the
same state in which the self checker returns true on the owner: when there
is no other checker, or the other checker returns a result, the ban rule
passes if and only if the dependency rule does not pass, and the ban rule
throws `BannedError` exactly when the dependency rule passes; when the other
checker throws, both rules throw its error. -/
theorem ban_rule_negates_dependency_rule (P : Parser) (p d : Nat)
    (c : check.checker_fn_t) (odc : Option check.checker_fn_t) (msg : Str)
    (hc : c (P.params p).raw (P.params p).value = .ok (true, msg)) :
    ((∀ dc, odc = some dc → ∃ r, dc (P.params d).raw (P.params d).value = .ok r) →
      (P.check_banned p (c, d, odc) = .ok () ↔ ¬ P.check_depends p (c, d, odc) = .ok ()) ∧
      ((∃ m, P.check_banned p (c, d, odc) = .error (BannedError m)) ↔
        P.check_depends p (c, d, odc) = .ok ())) ∧
    (∀ dc e, odc = some dc → dc (P.params d).raw (P.params d).value = .error e →
      P.check_banned p (c, d, odc) = .error e ∧ P.check_depends p (c, d, odc) = .error e) := by
  constructor
  · intro hdc
    unfold check_banned check_depends
    simp only [hc]
    cases odc with
    | none =>
      cases hs : (P.params d).is_set <;> simp [BannedError]
    | some dc =>
      obtain ⟨r, hr⟩ := hdc dc rfl
      obtain ⟨dres, dmsg⟩ := r
      simp only [hr]
      cases dres <;> simp [BannedError]
  · intro dc e ho he
    subst ho
    constructor
    · unfold check_banned
      simp only [hc, he]
    · unfold check_depends
      simp only [hc, he]

/-- Witness of C12: example `04_bcli_deps_bans`.  After the scan of
`-p 15 -b 20` the self checker `range(10, 100)` accepts "20" and the other
checker `c` returns true on "15": the ban rule of `-b` throws `BannedError`
and the dependency rule built from the same parts passes.  `parse` throws
`BannedError` on that line and succeeds on `-p 15 -b 9`. -/
theorem ban_rule_negates_dependency_rule_witness :
    check.f.range 10 100
        (((Scenario.ex04.scan ["-p".toList, "15".toList, "-b".toList, "20".toList]).2.params
          2).raw)
        (((Scenario.ex04.scan ["-p".toList, "15".toList, "-b".toList, "20".toList]).2.params
          2).value) =
      .ok (true, "[-b/--ban 20] ~ Not in range [10,100].".toList) ∧
    (Scenario.ex04.scan ["-p".toList, "15".toList, "-b".toList, "20".toList]).2.check_depends
        2 (check.f.range 10 100, 0, some Scenario.ex04_c) = .ok () ∧
    (∃ m, (Scenario.ex04.scan
        ["-p".toList, "15".toList, "-b".toList, "20".toList]).2.check_banned
        2 (check.f.range 10 100, 0, some Scenario.ex04_c) = .error (BannedError m)) ∧
    thrown ((Scenario.ex04.scan
        ["-p".toList, "15".toList, "-b".toList, "20".toList]).2.check_banned
        2 (check.f.range 10 100, 0, some Scenario.ex04_c)) =
      some (BannedError ("-b/--ban 20 is banned with -p/--param 15 ~ Check returns -> ".toList ++
        "-p/--param should not be equal to 15.".toList)) ∧
    (thrown (Scenario.ex04.parse
        ["cmd".toList, "-p".toList, "15".toList, "-b".toList, "20".toList]).1).map
      (fun e => e.name) = some "BannedError".toList ∧
    (Scenario.ex04.parse
        ["cmd".toList, "-p".toList, "15".toList, "-b".toList, "9".toList]).1 = .ok () :=
  have h := (ban_rule_negates_dependency_rule
    (Scenario.ex04.scan ["-p".toList, "15".toList, "-b".toList, "20".toList]).2 2 0
    (check.f.range 10 100) (some Scenario.ex04_c)
    "[-b/--ban 20] ~ Not in range [10,100].".toList rfl).1
    (fun dc hdc => by
      cases hdc
      exact ⟨(true, "-p/--param should not be equal to 15.".toList), rfl⟩)
  ⟨rfl, rfl, h.2.mpr rfl, rfl, by decide, rfl⟩

/-- C13: for a command whose positional members are those
`set_positional_bounds(min, max, ..)` leaves (`m_checkp` and `m_bmode` true,
`m_l_pos = min`, `m_u_pos = max`), without positional checker, and whatever
the collected positionals (`k` of them): the positional check returns true if
and only if `min ≤ k ≤ max`; with fewer than `min` it returns false with
"requires at least min positionals.", with more than `max` it returns false
with "requires at most max positionals.".  In the pass, once the loop over
the parameters has completed: the pass succeeds if and only if
`min ≤ k ≤ max`, and throws `PositionalsError` otherwise.  (Nothing is
assumed on `min` and `max`.) -/
theorem positional_bounds_check (c : Command) (min max : Nat)
    (hcheckp : c.m_checkp = true) (hbmode : c.m_bmode = true)
    (hmin : c.m_l_pos = min) (hmax : c.m_u_pos = max) (hpc : c.c_pchecker = none) :
    ((∃ msg, c.check_positionals = .ok (true, msg)) ↔
      min ≤ c.m_positionals.length ∧ c.m_positionals.length ≤ max) ∧
    (c.m_positionals.length < min →
      c.check_positionals =
        .ok (false, "requires at least ".toList ++ to_string min ++ " positionals.".toList)) ∧
    (min ≤ c.m_positionals.length → max < c.m_positionals.length →
      c.check_positionals =
        .ok (false, "requires at most ".toList ++ to_string max ++ " positionals.".toList)) ∧
    (∀ P P1 : Parser, P.commands P.m_current_cmd = c →
      P.check_groups P.cur_groups = (.ok (), P1) →
      ((P.check_consistency).1 = .ok () ↔
        min ≤ c.m_positionals.length ∧ c.m_positionals.length ≤ max) ∧
      (¬ (min ≤ c.m_positionals.length ∧ c.m_positionals.length ≤ max) →
        ∃ msg, P.check_consistency = (.error (PositionalsError msg), P1))) := by
  have hlow : c.m_positionals.length < min →
      c.check_positionals =
        .ok (false, "requires at least ".toList ++ to_string min ++ " positionals.".toList) := by
    intro h
    unfold Command.check_positionals
    simp only [hcheckp, hbmode, hmin, h, if_true]
  have hhigh : min ≤ c.m_positionals.length → max < c.m_positionals.length →
      c.check_positionals =
        .ok (false, "requires at most ".toList ++ to_string max ++ " positionals.".toList) := by
    intro h1 h2
    unfold Command.check_positionals
    simp only [hcheckp, hbmode, hmin, hmax, Nat.not_lt.mpr h1, gt_iff_lt, h2, if_true, if_false]
  have hin : min ≤ c.m_positionals.length → c.m_positionals.length ≤ max →
      c.check_positionals = .ok (true, []) := by
    intro h1 h2
    unfold Command.check_positionals
    simp only [hcheckp, hbmode, hmin, hmax, hpc, Nat.not_lt.mpr h1, gt_iff_lt,
      Nat.not_lt.mpr h2, if_true, if_false]
  have hiff : (∃ msg, c.check_positionals = .ok (true, msg)) ↔
      min ≤ c.m_positionals.length ∧ c.m_positionals.length ≤ max := by
    constructor
    · rintro ⟨msg, h⟩
      by_cases h1 : min ≤ c.m_positionals.length
      · by_cases h2 : c.m_positionals.length ≤ max
        · exact ⟨h1, h2⟩
        · rw [hhigh h1 (Nat.lt_of_not_le h2)] at h
          simp at h
      · rw [hlow (Nat.lt_of_not_le h1)] at h
        simp at h
    · rintro ⟨h1, h2⟩
      exact ⟨[], hin h1 h2⟩
  refine ⟨hiff, hlow, hhigh, ?_⟩
  intro P P1 hc hloop
  rw [check_consistency_positionals P P1 hloop, hc]
  by_cases h1 : min ≤ c.m_positionals.length
  · by_cases h2 : c.m_positionals.length ≤ max
    · rw [hin h1 h2]
      simp [h1, h2]
    · rw [hhigh h1 (Nat.lt_of_not_le h2)]
      simp [h2]
  · rw [hlow (Nat.lt_of_not_le h1)]
    simp [h1]

/-- Witness of C13: first parser of `TEST(Parser, multiple)`, bounds [1, 5] on
`cmd1`.  After the scan of `-p 10 pos1 .. pos6` against `cmd1` the command
holds 6 positionals, the check returns false with "requires at most 5
positionals." and `parse` throws `PositionalsError` with that message; with
5 positionals `parse` succeeds, with none it throws `PositionalsError`. -/
theorem positional_bounds_check_witness :
    (Scenario.multiple_bounds.commands 1).m_checkp = true ∧
    (Scenario.multiple_bounds.commands 1).m_bmode = true ∧
    (Scenario.multiple_bounds.commands 1).c_pchecker = none ∧
    (((select Scenario.multiple_bounds 1).scan
      ["-p".toList, "10".toList, "pos1".toList, "pos2".toList, "pos3".toList, "pos4".toList,
       "pos5".toList, "pos6".toList]).2.commands 1).m_positionals.length = 6 ∧
    (((select Scenario.multiple_bounds 1).scan
      ["-p".toList, "10".toList, "pos1".toList, "pos2".toList, "pos3".toList, "pos4".toList,
       "pos5".toList, "pos6".toList]).2.commands 1).check_positionals =
      .ok (false, "requires at most 5 positionals.".toList) ∧
    thrown (Scenario.multiple_bounds.parse
      ["cmd".toList, "cmd1".toList, "-p".toList, "10".toList, "pos1".toList, "pos2".toList,
       "pos3".toList, "pos4".toList, "pos5".toList, "pos6".toList]).1 =
      some (PositionalsError "requires at most 5 positionals.".toList) ∧
    (Scenario.multiple_bounds.parse
      ["cmd".toList, "cmd1".toList, "-p".toList, "10".toList, "pos1".toList, "pos2".toList,
       "pos3".toList, "pos4".toList, "pos5".toList]).1 = .ok () ∧
    thrown (Scenario.multiple_bounds.parse
      ["cmd".toList, "cmd1".toList, "-p".toList, "10".toList]).1 =
      some (PositionalsError "requires at least 1 positionals.".toList) :=
  ⟨by decide, by decide, rfl, by decide,
    (positional_bounds_check
      (((select Scenario.multiple_bounds 1).scan
        ["-p".toList, "10".toList, "pos1".toList, "pos2".toList, "pos3".toList, "pos4".toList,
         "pos5".toList, "pos6".toList]).2.commands 1) 1 5
      (by decide) (by decide) (by decide) (by decide) rfl).2.2.1
      (by decide) (by decide),
    rfl, rfl, rfl⟩

/-- Counterexample to C14 as stated: a parser with the required parameter `-r`
and the exact positional count 2 (no bounds).  On the empty command line no
positional is collected, 0 differs from 2, and the consistency pass throws
`RequiredParamError`, not the positionals error; so does `parse`. -/
theorem exact_count_counterexample :
    (Scenario.exact_count_required.commands 0).m_checkp = true ∧
    (Scenario.exact_count_required.commands 0).m_bmode = false ∧
    (Scenario.exact_count_required.commands 0).m_e_pos = 2 ∧
    Scenario.exact_count_required.get_positionals = [] ∧
    thrown Scenario.exact_count_required.check_consistency.1 =
      some (RequiredParamError "-r is required.".toList) ∧
    thrown (Scenario.exact_count_required.parse ["cmd".toList]).1 =
      some (RequiredParamError "-r is required.".toList) :=
  ⟨by decide, by decide, by decide, by decide, rfl, rfl⟩

/-- C14, amended: for a command whose positional members are those
`set_positionals(n, ..)` leaves when no bounds were configured (`m_checkp`
true, `m_bmode` false, `m_e_pos = n`), and whatever the collected
positionals (`k` of them): the positional check returns the truth value of
`k = n` with the message "number of positionals must be n"; and the
consistency pass, once its loop over the parameters has completed, throws
`PositionalsError` with that message if and only if `k ≠ n`, and succeeds if
and only if `k = n`. -/
theorem exact_count_check (c : Command) (n : Nat)
    (hcheckp : c.m_checkp = true) (hbmode : c.m_bmode = false) (hn : c.m_e_pos = n) :
    c.check_positionals =
      .ok (decide (c.m_positionals.length = n),
        "number of positionals must be ".toList ++ to_string n) ∧
    (∀ P P1 : Parser, P.commands P.m_current_cmd = c →
      P.check_groups P.cur_groups = (.ok (), P1) →
      (P.check_consistency =
          (.error (PositionalsError ("number of positionals must be ".toList ++ to_string n)),
            P1) ↔ c.m_positionals.length ≠ n) ∧
      (P.check_consistency = (.ok (), P1) ↔ c.m_positionals.length = n)) := by
  have hcheck : c.check_positionals =
      .ok (decide (c.m_positionals.length = n),
        "number of positionals must be ".toList ++ to_string n) := by
    unfold Command.check_positionals
    simp only [hcheckp, hbmode, hn, if_true, if_false, Bool.false_eq_true]
    by_cases h : c.m_positionals.length = n <;> simp [h]
  refine ⟨hcheck, ?_⟩
  intro P P1 hc hloop
  rw [check_consistency_positionals P P1 hloop, hc, hcheck]
  by_cases h : c.m_positionals.length = n <;> simp [h]

/-- Witness of C14: the parser with the parameter `-r` and the exact count
2.  After the scan of `-r x a` the command holds one positional and the pass
throws `PositionalsError`; after the scan of `-r x a b` it holds two and the
pass succeeds. -/
theorem exact_count_check_witness :
    ((Scenario.exact_count_required.scan
      ["-r".toList, "x".toList, "a".toList]).2.commands 0).m_positionals.length = 1 ∧
    thrown (Scenario.exact_count_required.scan
      ["-r".toList, "x".toList, "a".toList]).2.check_consistency.1 =
      some (PositionalsError "number of positionals must be 2".toList) ∧
    thrown (Scenario.exact_count_required.parse
      ["cmd".toList, "-r".toList, "x".toList, "a".toList]).1 =
      some (PositionalsError "number of positionals must be 2".toList) ∧
    (Scenario.exact_count_required.parse
      ["cmd".toList, "-r".toList, "x".toList, "a".toList, "b".toList]).1 = .ok () :=
  ⟨by decide,
    by
      rw [((exact_count_check
        ((Scenario.exact_count_required.scan
          ["-r".toList, "x".toList, "a".toList]).2.commands 0) 2
        (by decide) (by decide) (by decide)).2
        (Scenario.exact_count_required.scan ["-r".toList, "x".toList, "a".toList]).2
        ((Scenario.exact_count_required.scan
          ["-r".toList, "x".toList, "a".toList]).2.check_groups
          (Scenario.exact_count_required.scan
            ["-r".toList, "x".toList, "a".toList]).2.cur_groups).2
        rfl (Prod.ext rfl rfl)).1.mpr (by decide)]
      rfl,
    rfl, rfl⟩

/-- Counterexample to C15 as stated: a parser with the positional bounds
[1, 2] and the positional checker `is_number`.  On the command line `a b c`
the first positional fails the checker with the message
"[positionals[0] a] ~ Not a number!", and the consistency pass throws a
`PositionalsError` that carries the message of the bounds, "requires at most
2 positionals.": the bounds are tested before the checker is run. -/
theorem positionals_checker_counterexample :
    (Scenario.bounds_checked.commands 0).m_bmode = true ∧
    (Scenario.bounds_checked.scan ["a".toList, "b".toList, "c".toList]).2.get_positionals =
      ["a".toList, "b".toList, "c".toList] ∧
    check.is_number "positionals[0]".toList "a".toList =
      .ok (false, "[positionals[0] a] ~ Not a number!".toList) ∧
    thrown (Scenario.bounds_checked.scan
      ["a".toList, "b".toList, "c".toList]).2.check_consistency.1 =
      some (PositionalsError "requires at most 2 positionals.".toList) ∧
    thrown (Scenario.bounds_checked.parse
      ["cmd".toList, "a".toList, "b".toList, "c".toList]).1 =
      some (PositionalsError "requires at most 2 positionals.".toList) :=
  ⟨by decide, by decide, rfl, rfl, rfl⟩

/-- C15, amended: for a command with the positional checker `pc` and either
no count constraint (`m_checkp` false) or bounds that the number of collected
positionals satisfies.  The checker is called on the positionals in their
order, the one of index `i` with the identifier "positionals[i]", up to the
first one it rejects: if it accepts the positionals before `x` and returns
false with `msg` on `x`, the positional check returns false with `msg`, and
the consistency pass, once its loop over the parameters has completed,
throws `PositionalsError` with `msg`; if it accepts every positional the
check returns true and that pass succeeds.  For a command with the
positional checker `pc` and bounds that the number of collected positionals
violates, the positional check returns false with the message of the bounds,
whatever `pc` is and would return or throw (it is not called): "requires at
least `m_l_pos` positionals." below the lower bound, and "requires at most
`m_u_pos` positionals." above the upper bound when the lower bound holds; the
consistency pass, once its loop over the parameters has completed, throws
`PositionalsError` with that message.  (The statement says nothing of a
command with an exact count.) -/
theorem positionals_checker_first_failure (c : Command) (pc : check.checker_fn_t)
    (hpc : c.c_pchecker = some pc) :
    ((c.m_checkp = false ∨
      (c.m_bmode = true ∧ c.m_l_pos ≤ c.m_positionals.length ∧
        c.m_positionals.length ≤ c.m_u_pos)) →
    (∀ (pre post : List Str) (x msg : Str), c.m_positionals = pre ++ x :: post →
      (∀ j y, pre[j]? = some y →
        ∃ m, pc ("positionals".toList ++ "[".toList ++ to_string j ++ "]".toList) y =
          .ok (true, m)) →
      pc ("positionals".toList ++ "[".toList ++ to_string pre.length ++ "]".toList) x =
        .ok (false, msg) →
      c.check_positionals = .ok (false, msg) ∧
      ∀ P P1 : Parser, P.commands P.m_current_cmd = c →
        P.check_groups P.cur_groups = (.ok (), P1) →
        P.check_consistency = (.error (PositionalsError msg), P1)) ∧
    ((∀ j y, c.m_positionals[j]? = some y →
        ∃ m, pc ("positionals".toList ++ "[".toList ++ to_string j ++ "]".toList) y =
          .ok (true, m)) →
      c.check_positionals = .ok (true, []) ∧
      ∀ P P1 : Parser, P.commands P.m_current_cmd = c →
        P.check_groups P.cur_groups = (.ok (), P1) →
        P.check_consistency = (.ok (), P1))) ∧
    (c.m_checkp = true → c.m_bmode = true →
      (c.m_positionals.length < c.m_l_pos →
        c.check_positionals =
          .ok (false, "requires at least ".toList ++ to_string c.m_l_pos ++
            " positionals.".toList) ∧
        ∀ P P1 : Parser, P.commands P.m_current_cmd = c →
          P.check_groups P.cur_groups = (.ok (), P1) →
          P.check_consistency =
            (.error (PositionalsError ("requires at least ".toList ++ to_string c.m_l_pos ++
              " positionals.".toList)), P1)) ∧
      (c.m_l_pos ≤ c.m_positionals.length → c.m_u_pos < c.m_positionals.length →
        c.check_positionals =
          .ok (false, "requires at most ".toList ++ to_string c.m_u_pos ++
            " positionals.".toList) ∧
        ∀ P P1 : Parser, P.commands P.m_current_cmd = c →
          P.check_groups P.cur_groups = (.ok (), P1) →
          P.check_consistency =
            (.error (PositionalsError ("requires at most ".toList ++ to_string c.m_u_pos ++
              " positionals.".toList)), P1))) := by
  have hid : ∀ j : Nat, "positionals".toList ++ "[".toList ++ to_string j ++ "]".toList =
      "positionals".toList ++ utils.wrap (to_string j) "[]".toList := by
    intro j
    rw [wrap_brackets]
    simp [List.append_assoc]
  refine ⟨fun hcount => ?_, fun hcp hb => ⟨fun hlow => ?_, fun hlow hup => ?_⟩⟩
  rotate_left
  · have hcheck : c.check_positionals =
        .ok (false, "requires at least ".toList ++ to_string c.m_l_pos ++
          " positionals.".toList) := by
      unfold Command.check_positionals
      simp only [hcp, hb, if_true, hlow]
    refine ⟨hcheck, ?_⟩
    intro P P1 hc hl
    rw [check_consistency_positionals P P1 hl, hc, hcheck]
    rfl
  · have hcheck : c.check_positionals =
        .ok (false, "requires at most ".toList ++ to_string c.m_u_pos ++
          " positionals.".toList) := by
      unfold Command.check_positionals
      simp only [hcp, hb, if_true, Nat.not_lt.mpr hlow, if_false, gt_iff_lt, hup]
    refine ⟨hcheck, ?_⟩
    intro P P1 hc hl
    rw [check_consistency_positionals P P1 hl, hc, hcheck]
    rfl
  have hloop : c.check_positionals = Command.pcheckLoop pc 0 c.m_positionals := by
    unfold Command.check_positionals
    simp only [hpc]
    rcases hcount with h | ⟨hb, h1, h2⟩
    · simp only [h, if_false, Bool.false_eq_true]
    · by_cases hcp : c.m_checkp = true
      · simp only [hcp, hb, if_true, Nat.not_lt.mpr h1, gt_iff_lt, Nat.not_lt.mpr h2, if_false]
      · simp only [hcp, if_false, Bool.false_eq_true]
  constructor
  · intro pre post x msg hps hpre hx
    have hcheck : c.check_positionals = .ok (false, msg) := by
      rw [hloop, hps]
      apply Command.pcheckLoop_first_false pc x msg post pre 0
      · intro j y hj
        rw [Nat.zero_add, ← hid]
        exact hpre j y hj
      · rw [Nat.zero_add, ← hid]
        exact hx
    refine ⟨hcheck, ?_⟩
    intro P P1 hc hl
    rw [check_consistency_positionals P P1 hl, hc, hcheck]
    rfl
  · intro hall
    have hcheck : c.check_positionals = .ok (true, []) := by
      rw [hloop]
      apply Command.pcheckLoop_all_true pc c.m_positionals 0
      intro j y hj
      rw [Nat.zero_add, ← hid]
      exact hall j y hj
    refine ⟨hcheck, ?_⟩
    intro P P1 hc hl
    rw [check_consistency_positionals P P1 hl, hc, hcheck]
    rfl

/-- Witness of C15: the positional checker `is_number` with no count
constraint.  After the scan of `1 x 2 y` the checker accepts "1" and rejects
"x", the positional of index 1: the check returns false with the message for
"x", and `parse` throws `PositionalsError` with it.  With the bounds [1, 2]
and the same checker: after the scan of `a b c` the check returns the message
of the upper bound, after the scan of no token that of the lower bound, and
`parse` throws `PositionalsError` with it. -/
theorem positionals_checker_first_failure_witness :
    (Scenario.positionals_checked.commands 0).m_checkp = false ∧
    ((Scenario.positionals_checked.scan
      ["1".toList, "x".toList, "2".toList, "y".toList]).2.commands 0).check_positionals =
      .ok (false, "[positionals[1] x] ~ Not a number!".toList) ∧
    thrown (Scenario.positionals_checked.parse
      ["cmd".toList, "1".toList, "x".toList, "2".toList, "y".toList]).1 =
      some (PositionalsError "[positionals[1] x] ~ Not a number!".toList) ∧
    (Scenario.positionals_checked.parse
      ["cmd".toList, "1".toList, "2".toList]).1 = .ok () ∧
    ((Scenario.bounds_checked.scan
      ["a".toList, "b".toList, "c".toList]).2.commands 0).check_positionals =
      .ok (false, "requires at most 2 positionals.".toList) ∧
    (Scenario.bounds_checked.commands 0).check_positionals =
      .ok (false, "requires at least 1 positionals.".toList) ∧
    thrown (Scenario.bounds_checked.parse ["cmd".toList]).1 =
      some (PositionalsError "requires at least 1 positionals.".toList) :=
  ⟨by decide,
    (((positionals_checker_first_failure
      ((Scenario.positionals_checked.scan
        ["1".toList, "x".toList, "2".toList, "y".toList]).2.commands 0) check.is_number rfl).1
      (Or.inl (by decide))).1 ["1".toList] ["2".toList, "y".toList] "x".toList
      "[positionals[1] x] ~ Not a number!".toList (by decide)
      (fun j y hj => by
        cases j with
        | zero =>
          simp only [List.getElem?_cons_zero, Option.some.injEq] at hj
          subst hj
          exact ⟨"[positionals[0] 1] ~ Not a number!".toList, rfl⟩
        | succ j => simp at hj)
      rfl).1,
    rfl, rfl,
    ((((positionals_checker_first_failure
      ((Scenario.bounds_checked.scan ["a".toList, "b".toList, "c".toList]).2.commands 0)
      check.is_number rfl).2 (by decide) (by decide)).2 (by decide) (by decide)).1).trans rfl,
    ((((positionals_checker_first_failure (Scenario.bounds_checked.commands 0)
      check.is_number rfl).2 (by decide) (by decide)).1 (by decide)).1).trans rfl,
    rfl⟩

/-- C16: in multi-command mode, on a parser with an empty `ExHandler` queue on
which no command has been selected yet, for every command line whose first
token `t` is not the name of a registered command (`Commands::exists`),
`parse` throws `UnknownCmdError` with the message "Unknown command: " + t +
", choices -> [" + names + "]", where `names` is the names of the registered
commands, in the order of registration, joined by "|"; the state is left as
it was: no parameter, positional, or any other member is modified. -/
theorem unknown_command_is_reported (P : Parser) (prog t : Str) (rest : List Str)
    (hq : P.exh = []) (hmode : P.m_is_cmd_mode = true) (hb : P.m_bypass = false)
    (ht : P.m_cmds.exists t = false) :
    P.parse (prog :: t :: rest) =
      (.error (UnknownCmdError
        ("Unknown command: ".toList ++ t ++ ", choices -> [".toList ++
          utils.join (P.m_cmds.m_order.map (fun c => (P.commands c).name)) "|".toList ++
          "]".toList)), P) := by
  have hmsg : "Unknown command: ".toList ++ t ++ ", ".toList ++ "choices -> ".toList ++
      utils.wrap (utils.join (P.m_cmds.m_order.map (fun c => (P.commands c).name)) "|".toList)
        "[]".toList =
      "Unknown command: ".toList ++ t ++ ", choices -> [".toList ++
        utils.join (P.m_cmds.m_order.map (fun c => (P.commands c).name)) "|".toList ++
        "]".toList := by
    rw [wrap_brackets]
    simp [List.append_assoc]
  unfold parse exh_check ExHandler.check
  simp only [hq, hmode, hb, ht, List.isEmpty_nil, Bool.not_true, Bool.false_eq_true, if_false,
    Bool.or_false, Bool.not_false]
  rw [← hmsg]

/-- Witness of C16: example `06_bcli_multiple`, commands `merge` and `split`,
first token `mergex`. -/
theorem unknown_command_is_reported_witness :
    Scenario.ex06.exh = [] ∧ Scenario.ex06.m_is_cmd_mode = true ∧
    Scenario.ex06.m_bypass = false ∧ Scenario.ex06.m_cmds.exists "mergex".toList = false ∧
    utils.join (Scenario.ex06.m_cmds.m_order.map (fun c => (Scenario.ex06.commands c).name))
      "|".toList = "merge|split".toList ∧
    thrown (Scenario.ex06.parse ["ex06".toList, "mergex".toList, "-f".toList, "x".toList]).1 =
      some (UnknownCmdError "Unknown command: mergex, choices -> [merge|split]".toList) ∧
    Scenario.ex06.parse ["ex06".toList, "mergex".toList, "-f".toList, "x".toList] =
      (.error (UnknownCmdError
        ("Unknown command: ".toList ++ "mergex".toList ++ ", choices -> [".toList ++
          utils.join (Scenario.ex06.m_cmds.m_order.map (fun c => (Scenario.ex06.commands c).name))
            "|".toList ++ "]".toList)), Scenario.ex06) :=
  ⟨by decide, by decide, by decide, by decide, by decide, rfl,
    unknown_command_is_reported Scenario.ex06 "ex06".toList "mergex".toList
      ["-f".toList, "x".toList] (by decide) (by decide) (by decide) (by decide)⟩

/-- C17: in multi-command mode, on a parser with an empty `ExHandler` queue on
which no command has been selected yet, for every command line whose first
token `cname` is the name of the registered command `c`: `parse` gives the
result of the parse of the remaining tokens by the simple-mode parser whose
command is `c` (`single_command_parse`: scan of the remaining tokens, test of
a trailing value parameter, consistency pass), and leaves the state that
parse leaves, with the two mode members set.  So the error, if any, is the
same, the parameter store and the command store (hence the positionals) are
the same, and the current command is `c`; the token `cname` is not scanned. -/
theorem dispatch_is_single_command_parse (P : Parser) (prog cname : Str) (toks : List Str)
    (c : Nat) (hq : P.exh = []) (hmode : P.m_is_cmd_mode = true) (hb : P.m_bypass = false)
    (hc : P.m_cmds.get cname = some c) :
    P.parse (prog :: cname :: toks) =
      ((single_command_parse P c prog toks).1,
        with_mode (single_command_parse P c prog toks).2 true true) ∧
    (P.parse (prog :: cname :: toks)).1 = (single_command_parse P c prog toks).1 ∧
    (P.parse (prog :: cname :: toks)).2.params = (single_command_parse P c prog toks).2.params ∧
    (P.parse (prog :: cname :: toks)).2.commands =
      (single_command_parse P c prog toks).2.commands ∧
    (P.parse (prog :: cname :: toks)).2.get_positionals =
      (single_command_parse P c prog toks).2.get_positionals ∧
    (P.parse (prog :: cname :: toks)).2.m_current_cmd = c := by
  have hsingle := single_command_parse_eq P c prog toks hq
  have hmain : P.parse (prog :: cname :: toks) =
      ((single_command_parse P c prog toks).1,
        with_mode (single_command_parse P c prog toks).2 true true) := by
    rw [hsingle]
    exact parse_dispatch_single P prog cname toks c hq hmode hb hc
  have hcur : (single_command_parse P c prog toks).2.m_current_cmd = c := by
    rw [hsingle]
    exact (parse_args_sameDecl (as_single P c) toks).current_cmd
  refine ⟨hmain, ?_, ?_, ?_, ?_, ?_⟩
  · rw [hmain]
  · rw [hmain]
    rfl
  · rw [hmain]
    rfl
  · rw [hmain]
    rfl
  · rw [hmain]
    exact hcur

/-- Witness of C17: second parser of `TEST(Parser, multiple)`, command line
`cmd2 -p 42 pos1 pos2 pos3`: the parse succeeds, the current command is
`cmd2`, its parameter `-p` holds "42", its positionals are the three last
tokens, and the parameter `-p` of `cmd1` is not set. -/
theorem dispatch_is_single_command_parse_witness :
    Scenario.multiple.exh = [] ∧ Scenario.multiple.m_is_cmd_mode = true ∧
    Scenario.multiple.m_bypass = false ∧
    Scenario.multiple.m_cmds.get "cmd2".toList = some 2 ∧
    (Scenario.multiple.parse
      ["cmd".toList, "cmd2".toList, "-p".toList, "42".toList, "pos1".toList, "pos2".toList,
       "pos3".toList]).1 = .ok () ∧
    (single_command_parse Scenario.multiple 2 "cmd".toList
      ["-p".toList, "42".toList, "pos1".toList, "pos2".toList, "pos3".toList]).1 = .ok () ∧
    (Scenario.multiple.parse
      ["cmd".toList, "cmd2".toList, "-p".toList, "42".toList, "pos1".toList, "pos2".toList,
       "pos3".toList]).2.m_current_cmd = 2 ∧
    ((Scenario.multiple.parse
      ["cmd".toList, "cmd2".toList, "-p".toList, "42".toList, "pos1".toList, "pos2".toList,
       "pos3".toList]).2.getp "p".toList).map
      (fun h => ((Scenario.multiple.parse
        ["cmd".toList, "cmd2".toList, "-p".toList, "42".toList, "pos1".toList, "pos2".toList,
         "pos3".toList]).2.params h).value) = some "42".toList ∧
    (Scenario.multiple.parse
      ["cmd".toList, "cmd2".toList, "-p".toList, "42".toList, "pos1".toList, "pos2".toList,
       "pos3".toList]).2.get_positionals = ["pos1".toList, "pos2".toList, "pos3".toList] ∧
    ((Scenario.multiple.parse
      ["cmd".toList, "cmd2".toList, "-p".toList, "42".toList, "pos1".toList, "pos2".toList,
       "pos3".toList]).2.params 0).is_set = false :=
  have h := dispatch_is_single_command_parse Scenario.multiple "cmd".toList "cmd2".toList
    ["-p".toList, "42".toList, "pos1".toList, "pos2".toList, "pos3".toList] 2
    (by decide) (by decide) (by decide) (by decide)
  ⟨by decide, by decide, by decide, by decide, rfl, h.2.1.symm.trans rfl, h.2.2.2.2.2,
    by decide, by decide, by decide⟩

/-- C18, the code at the failing input: second block of
`TEST(Parser, multiple)`, with the registered commands `cmd1` (handle 1) and
`cmd2` (handle 2).  After the successful parse of `cmd2 -p 42 pos1 pos2 pos3`,
the parse of `cmd1 -p 10 pos1 pos2 pos3` on the same parser does not select
`cmd1`: it succeeds and leaves `cmd2` as the current command, the token
`cmd1` is appended to the positionals of `cmd2`, `-p 10` is stored in the
parameter of `cmd2` (which `getp("p")` resolves to), and the parameter `-p`
of `cmd1` is not set.  `parse` sets `m_bypass` before it recurses and never
clears it, whereas the test re-parses one parser to dispatch a second
command. -/
theorem reparse_counterexample :
    Scenario.multiple.m_cmds.get "cmd1".toList = some 1 ∧
    Scenario.multiple.m_cmds.get "cmd2".toList = some 2 ∧
    (Scenario.multiple.parse Scenario.multiple_argv2).1 = .ok () ∧
    ((Scenario.multiple.parse Scenario.multiple_argv2).2.parse Scenario.multiple_argv).1 =
      .ok () ∧
    ((Scenario.multiple.parse Scenario.multiple_argv2).2.parse
      Scenario.multiple_argv).2.m_current_cmd = 2 ∧
    (((Scenario.multiple.parse Scenario.multiple_argv2).2.parse
      Scenario.multiple_argv).2.commands 2).m_positionals =
      ["pos1".toList, "pos2".toList, "pos3".toList, "cmd1".toList, "pos1".toList,
       "pos2".toList, "pos3".toList] ∧
    (((Scenario.multiple.parse Scenario.multiple_argv2).2.parse
      Scenario.multiple_argv).2.commands 1).m_positionals = [] ∧
    ((Scenario.multiple.parse Scenario.multiple_argv2).2.parse
      Scenario.multiple_argv).2.getp "p".toList = some 1 ∧
    (((Scenario.multiple.parse Scenario.multiple_argv2).2.parse
      Scenario.multiple_argv).2.params 1).value = "10".toList ∧
    (((Scenario.multiple.parse Scenario.multiple_argv2).2.parse
      Scenario.multiple_argv).2.params 0).is_set = false :=
  ⟨by decide, by decide, rfl, rfl, by decide, by decide, by decide, by decide, by decide,
    by decide⟩

/-- C18, the defect in general: `m_bypass`, set by `parse` before it
recurses, is never cleared, so command selection is not repeated.
Let `parse` succeed on a command line that starts with the name of the
registered command `c2`, on a parser with an empty `ExHandler` queue on which
no command had been selected, and let `P1` be the state it leaves.  In `P1`
the current command is `c2` and `m_bypass` is true; every later `parse` on
`P1` scans all the tokens after the program name, the first one included,
against `c2` and leaves `c2` as the current command; a first token that does
not start with a dash, such as the name of another command, is appended to
the positionals of `c2` when the scan completes. -/
theorem reparse_keeps_selected_command (P P1 : Parser) (prog c2name : Str) (ts : List Str)
    (c2 : Nat) (hq : P.exh = []) (hmode : P.m_is_cmd_mode = true) (hb : P.m_bypass = false)
    (hc2 : P.m_cmds.get c2name = some c2)
    (hok : P.parse (prog :: c2name :: ts) = (.ok (), P1)) :
    P1.m_current_cmd = c2 ∧ P1.m_bypass = true ∧
    ∀ (prog2 c1name : Str) (us : List Str),
      P1.parse (prog2 :: c1name :: us) = P1.parse_args (c1name :: us) ∧
      (P1.parse (prog2 :: c1name :: us)).2.m_current_cmd = c2 ∧
      (utils.is_param c1name = false → ∀ P2, P1.scan (c1name :: us) = (.ok (), P2) →
        (P2.commands c2).m_positionals =
          (P1.commands c2).m_positionals ++
            c1name :: positional_tokens_from P1 (some c1name) us ∧
        ((P1.parse (prog2 :: c1name :: us)).2.commands c2).m_positionals =
          (P1.commands c2).m_positionals ++
            c1name :: positional_tokens_from P1 (some c1name) us) := by
  rw [parse_dispatch_single P prog c2name ts c2 hq hmode hb hc2] at hok
  have h1 := (Prod.mk.inj hok).1
  have h2 := (Prod.mk.inj hok).2
  have hd := parse_args_sameDecl (as_single P c2) ts
  have hcur : P1.m_current_cmd = c2 := by
    rw [← h2]
    exact hd.current_cmd
  have hq1 : P1.exh = [] := by
    rw [← h2]
    exact hd.exh.trans hq
  have hw1 : P1.m_is_param = false := by
    rw [← h2]
    exact parse_args_ok_not_awaiting (as_single P c2) ((as_single P c2).parse_args ts).2 ts
      (Prod.ext h1 rfl)
  have hby : P1.m_bypass = true := by
    rw [← h2]
    rfl
  refine ⟨hcur, hby, ?_⟩
  intro prog2 c1name us
  have hparse : P1.parse (prog2 :: c1name :: us) = P1.parse_args (c1name :: us) :=
    parse_scanning P1 prog2 (c1name :: us) hq1 (by simp [hby])
  refine ⟨hparse, ?_, ?_⟩
  · rw [hparse]
    exact (parse_args_sameDecl P1 _).current_cmd.trans hcur
  · intro hc1 P2 hscan
    have hpos := scan_positionals_from P1 (c1name :: us) P1 P2 none (sameDecl_refl P1) hw1 hscan
    rw [positional_tokens_from_cons] at hpos
    simp only [hc1, consumedAfter, Bool.not_false, Bool.and_self, if_true,
      List.singleton_append] at hpos
    have hcur2 : P2.m_current_cmd = c2 := by
      have := scan_sameDecl P1 (c1name :: us)
      rw [hscan] at this
      exact this.current_cmd.trans hcur
    have hP2 : (P2.commands c2).m_positionals =
        (P1.commands c2).m_positionals ++
          c1name :: positional_tokens_from P1 (some c1name) us := by
      have := hpos
      unfold get_positionals Command.get_positionals at this
      rw [hcur2, hcur] at this
      exact this
    refine ⟨hP2, ?_⟩
    have hfin := parse_args_positionals P1 P2 (c1name :: us) hscan
    unfold get_positionals Command.get_positionals at hfin
    rw [hcur2, (parse_args_sameDecl P1 _).current_cmd, hcur] at hfin
    rw [hparse, hfin]
    exact hP2

/-- C18, the defect in general at the second block of
`TEST(Parser, multiple)`: after the parse
of `cmd2 -p 42 pos1 pos2 pos3`, the parse of `cmd1 -p 10 pos1 pos2 pos3`
leaves `cmd2` (handle 2) as the current command, with the positionals of the
first parse followed by `cmd1 pos1 pos2 pos3`. -/
theorem reparse_keeps_selected_command_witness :
    Scenario.multiple.exh = [] ∧ Scenario.multiple.m_is_cmd_mode = true ∧
    Scenario.multiple.m_bypass = false ∧
    Scenario.multiple.m_cmds.get "cmd2".toList = some 2 ∧
    (Scenario.multiple.parse Scenario.multiple_argv2).1 = .ok () ∧
    (Scenario.multiple.parse Scenario.multiple_argv2).2.m_current_cmd = 2 ∧
    ((Scenario.multiple.parse Scenario.multiple_argv2).2.parse
      Scenario.multiple_argv).2.m_current_cmd = 2 ∧
    (((Scenario.multiple.parse Scenario.multiple_argv2).2.parse
      Scenario.multiple_argv).2.commands 2).m_positionals =
      (((Scenario.multiple.parse Scenario.multiple_argv2).2.commands 2).m_positionals ++
        "cmd1".toList :: positional_tokens_from (Scenario.multiple.parse Scenario.multiple_argv2).2
          (some "cmd1".toList)
          ["-p".toList, "10".toList, "pos1".toList, "pos2".toList, "pos3".toList]) :=
  have h := reparse_keeps_selected_command Scenario.multiple
    (Scenario.multiple.parse Scenario.multiple_argv2).2 "cmd".toList "cmd2".toList
    ["-p".toList, "42".toList, "pos1".toList, "pos2".toList, "pos3".toList] 2
    (by decide) (by decide) (by decide) (by decide) (Prod.ext rfl rfl)
  ⟨by decide, by decide, by decide, by decide, rfl, h.1,
    (h.2.2 "cmd".toList "cmd1".toList
      ["-p".toList, "10".toList, "pos1".toList, "pos2".toList, "pos3".toList]).2.1,
    ((h.2.2 "cmd".toList "cmd1".toList
      ["-p".toList, "10".toList, "pos1".toList, "pos2".toList, "pos3".toList]).2.2 (by decide)
      ((Scenario.multiple.parse Scenario.multiple_argv2).2.scan
        ["cmd1".toList, "-p".toList, "10".toList, "pos1".toList, "pos2".toList,
         "pos3".toList]).2 (Prod.ext rfl rfl)).2⟩

/-- C19: let `x` and `xx` be non-empty strings that do not start with a dash
and hold no slash, and let the name made of the short form of `x`, a slash
and the long form of `xx` be declared (`add_param`) in a group `g` of the
current command, in a state where no group of that command knows `x` or
`xx`.  The declaration returns a new handle `h`, whose object has the short
name `x` and the long name `xx`, and `getp` returns `h` for `x`, for `xx`,
for `x` after one dash and for `xx` after two dashes.  For every other name
(one whose form without leading dashes is neither `x` nor `xx`, the
comparison being equality of strings) `getp` returns what it returned before
the declaration, a null pointer if no group knew the name. -/
theorem getp_resolves_declared_names (P : Parser) (g : Nat) (x xx help : Str)
    (hx0 : x ≠ []) (hx1 : utils.startswith x "-".toList = false) (hx2 : '/' ∉ x)
    (hxx0 : xx ≠ []) (hxx1 : utils.startswith xx "-".toList = false) (hxx2 : '/' ∉ xx)
    (hg : g ∈ P.cur_groups)
    (hfree : ∀ g2 ∈ P.cur_groups,
      (P.groups g2).exists x = false ∧ (P.groups g2).exists xx = false) :
    (P.group_add_param g ('-' :: x ++ '/' :: '-' :: '-' :: xx) help).1 = P.nparams ∧
    ((P.group_add_param g ('-' :: x ++ '/' :: '-' :: '-' :: xx) help).2.params
      P.nparams).m_short = x ∧
    ((P.group_add_param g ('-' :: x ++ '/' :: '-' :: '-' :: xx) help).2.params
      P.nparams).m_long = xx ∧
    (P.group_add_param g ('-' :: x ++ '/' :: '-' :: '-' :: xx) help).2.getp x =
      some P.nparams ∧
    (P.group_add_param g ('-' :: x ++ '/' :: '-' :: '-' :: xx) help).2.getp xx =
      some P.nparams ∧
    (P.group_add_param g ('-' :: x ++ '/' :: '-' :: '-' :: xx) help).2.getp ('-' :: x) =
      some P.nparams ∧
    (P.group_add_param g ('-' :: x ++ '/' :: '-' :: '-' :: xx) help).2.getp ('-' :: '-' :: xx) =
      some P.nparams ∧
    (∀ n, utils.trim_param n ≠ x → utils.trim_param n ≠ xx →
      (P.group_add_param g ('-' :: x ++ '/' :: '-' :: '-' :: xx) help).2.getp n = P.getp n) ∧
    (∀ n, utils.trim_param n ≠ x → utils.trim_param n ≠ xx → P.pexists n = false →
      (P.group_add_param g ('-' :: x ++ '/' :: '-' :: '-' :: xx) help).2.getp n = none) := by
  have hmk := make_short_long P.conf x xx help P.exh hx1 hx2 hxx1 hxx2
  have htx := trim_param_of_not_dash x hx1
  have htxx := trim_param_of_not_dash xx hxx1
  -- the state after the declaration
  have hgroups : ∀ g2, g2 ≠ g →
      (P.group_add_param g ('-' :: x ++ '/' :: '-' :: '-' :: xx) help).2.groups g2 =
        P.groups g2 := by
    intro g2 hne
    unfold group_add_param
    exact store_other _ _ _ _ hne
  have hidx : ((P.group_add_param g ('-' :: x ++ '/' :: '-' :: '-' :: xx) help).2.groups
      g).m_params = UMap.insert (UMap.insert (P.groups g).m_params x P.nparams) xx P.nparams := by
    unfold group_add_param
    simp only [store_same, hmk]
    exact group_add_params (P.groups g) P.nparams _ P.exh hx0 hxx0
  have hcur : (P.group_add_param g ('-' :: x ++ '/' :: '-' :: '-' :: xx) help).2.cur_groups =
      P.cur_groups := rfl
  have hnone : ∀ g2 ∈ P.cur_groups, UMap.find (P.groups g2).m_params x = none ∧
      UMap.find (P.groups g2).m_params xx = none := by
    intro g2 hg2
    have h := hfree g2 hg2
    rw [group_exists_eq_find, group_exists_eq_find, htx, htxx] at h
    constructor
    · cases hf : UMap.find (P.groups g2).m_params x with
      | none => rfl
      | some w => rw [hf] at h; simp at h
    · cases hf : UMap.find (P.groups g2).m_params xx with
      | none => rfl
      | some w => rw [hf] at h; simp at h
  have hfx : UMap.find ((P.group_add_param g ('-' :: x ++ '/' :: '-' :: '-' :: xx)
      help).2.groups g).m_params x = some P.nparams := by
    rw [hidx, UMap.find_insert, UMap.find_insert, (hnone g hg).1]
    simp
  have hfxx : UMap.find ((P.group_add_param g ('-' :: x ++ '/' :: '-' :: '-' :: xx)
      help).2.groups g).m_params xx = some P.nparams := by
    rw [hidx, UMap.find_insert, UMap.find_insert, (hnone g hg).2]
    by_cases hxe : x = xx <;> simp [hxe]
  have hgx : (P.group_add_param g ('-' :: x ++ '/' :: '-' :: '-' :: xx) help).2.getpLoop x
      P.cur_groups = some P.nparams :=
    getpLoop_found _ g P.nparams x htx hfx P.cur_groups hg
      (fun g2 hg2 hne => by rw [hgroups g2 hne]; exact (hnone g2 hg2).1)
  have hgxx : (P.group_add_param g ('-' :: x ++ '/' :: '-' :: '-' :: xx) help).2.getpLoop xx
      P.cur_groups = some P.nparams :=
    getpLoop_found _ g P.nparams xx htxx hfxx P.cur_groups hg
      (fun g2 hg2 hne => by rw [hgroups g2 hne]; exact (hnone g2 hg2).2)
  have hother : ∀ n, utils.trim_param n ≠ x → utils.trim_param n ≠ xx →
      (P.group_add_param g ('-' :: x ++ '/' :: '-' :: '-' :: xx) help).2.getp n = P.getp n := by
    intro n hnx hnxx
    unfold getp
    rw [hcur]
    apply getpLoop_find_congr P _ _ (utils.trim_param_idem n)
    intro g2
    by_cases hne : g2 = g
    · subst hne
      rw [hidx, UMap.find_insert, UMap.find_insert]
      cases hf : UMap.find (P.groups g2).m_params (utils.trim_param n) with
      | some w => rfl
      | none => simp [Ne.symm hnx, Ne.symm hnxx]
    · rw [hgroups g2 hne]
  refine ⟨rfl, ?_, ?_, ?_, ?_, ?_, ?_, hother, ?_⟩
  · unfold group_add_param
    simp only [store_same, hmk]
  · unfold group_add_param
    simp only [store_same, hmk]
  · unfold getp
    rw [hcur, htx]
    exact hgx
  · unfold getp
    rw [hcur, htxx]
    exact hgxx
  · unfold getp
    rw [hcur, trim_param_dash x hx1]
    exact hgx
  · unfold getp
    rw [hcur, trim_param_dash_dash xx hxx1]
    exact hgxx
  · intro n hnx hnxx hpe
    rw [hother n hnx hnxx]
    cases hgp : P.getp n with
    | none => rfl
    | some cp =>
      have := pexists_of_get_current_param P n cp hgp
      rw [hpe] at this
      simp at this

/-- Witness of C19: the declaration of `-p` with the long name `--param` in
the default group of a new parser, as in `TEST(param, make)` and
`TEST(Parser, simple)`: the four forms of the name resolve to the new
parameter, and neither `P`, `Param` nor `q` resolves to anything. -/
theorem getp_resolves_declared_names_witness :
    (0 : Nat) ∈ (Parser.ctor {} [] "test".toList "test".toList "test".toList
      "test".toList).cur_groups ∧
    ((Parser.ctor {} [] "test".toList "test".toList "test".toList "test".toList).add_param
      "-p/--param".toList "help".toList).2.getp "p".toList = some 0 ∧
    ((Parser.ctor {} [] "test".toList "test".toList "test".toList "test".toList).add_param
      "-p/--param".toList "help".toList).2.getp "param".toList = some 0 ∧
    ((Parser.ctor {} [] "test".toList "test".toList "test".toList "test".toList).add_param
      "-p/--param".toList "help".toList).2.getp "-p".toList = some 0 ∧
    ((Parser.ctor {} [] "test".toList "test".toList "test".toList "test".toList).add_param
      "-p/--param".toList "help".toList).2.getp "--param".toList = some 0 ∧
    ((Parser.ctor {} [] "test".toList "test".toList "test".toList "test".toList).add_param
      "-p/--param".toList "help".toList).2.getp "P".toList = none ∧
    ((Parser.ctor {} [] "test".toList "test".toList "test".toList "test".toList).add_param
      "-p/--param".toList "help".toList).2.getp "Param".toList = none ∧
    ((Parser.ctor {} [] "test".toList "test".toList "test".toList "test".toList).add_param
      "-p/--param".toList "help".toList).2.getp "-q".toList = none :=
  have h := getp_resolves_declared_names
    (Parser.ctor {} [] "test".toList "test".toList "test".toList "test".toList) 0
    "p".toList "param".toList "help".toList (by decide) (by decide) (by decide) (by decide)
    (by decide) (by decide) (by decide) (by decide)
  ⟨by decide, h.2.2.2.1, h.2.2.2.2.1, h.2.2.2.2.2.1, h.2.2.2.2.2.2.1,
    h.2.2.2.2.2.2.2.2 "P".toList (by decide) (by decide) (by decide),
    h.2.2.2.2.2.2.2.2 "Param".toList (by decide) (by decide) (by decide),
    h.2.2.2.2.2.2.2.2 "-q".toList (by decide) (by decide) (by decide)⟩

/-- C20: for every group `g` and every parameter `p` added to it (`h` is its
handle): if the short or the long name of `p` is already a key of the index
of `g`, the add pushes exactly one error on the queue, `AlreadyExistsError`
(an implementation error), and otherwise it leaves the queue as it is; after
the add the non-empty names of `p` are keys of the index, so that a later
parameter that shares one of them is such a duplicate.  A `parse` called
with a non-empty queue throws `BCliError("", "", Failure)` before any token
is read: the state is unchanged but for the queue printed on the diagnostic
stream. -/
theorem duplicate_identifier_queues_one_error (g : ParamGroup) (h : Nat) (p : Param)
    (exh : ExHandler) :
    ((UMap.count g.m_params p.idx.1 > 0 ∨ UMap.count g.m_params p.idx.2 > 0) →
      (g.add h p exh).2 =
        exh ++ [AlreadyExistsError (p.raw ++ " already exists in group ".toList ++ g.m_name)] ∧
      (AlreadyExistsError (p.raw ++ " already exists in group ".toList ++ g.m_name)).code =
        ExitCodes.ImplError) ∧
    (¬ (UMap.count g.m_params p.idx.1 > 0 ∨ UMap.count g.m_params p.idx.2 > 0) →
      (g.add h p exh).2 = exh) ∧
    (p.idx.1 ≠ [] → UMap.count (g.add h p exh).1.m_params p.idx.1 > 0) ∧
    (p.idx.2 ≠ [] → UMap.count (g.add h p exh).1.m_params p.idx.2 > 0) ∧
    (∀ (P : Parser) (argv : List Str), P.exh ≠ [] →
      P.parse argv =
        (.error silentFailure, { P with cerr := P.cerr ++ P.exh.map Output.queued })) := by
  refine ⟨?_, ?_, ?_, ?_, fun P argv hq => parse_queue_not_empty P argv hq⟩
  · intro hdup
    refine ⟨?_, rfl⟩
    unfold ParamGroup.add ParamGroup.already_exists ExHandler.push
    have hc : (decide (UMap.count g.m_params p.idx.1 > 0) ||
        decide (UMap.count g.m_params p.idx.2 > 0)) = true := by
      simpa using hdup
    simp only [hc, if_true]
  · intro hnd
    unfold ParamGroup.add ParamGroup.already_exists
    have hc : (decide (UMap.count g.m_params p.idx.1 > 0) ||
        decide (UMap.count g.m_params p.idx.2 > 0)) = false := by
      simpa using hnd
    simp only [hc, Bool.false_eq_true, if_false]
  · intro hs
    unfold ParamGroup.add
    have h1 : p.idx.1.isEmpty = false := by
      cases hp : p.idx.1 with
      | nil => exact absurd hp hs
      | cons _ _ => rfl
    simp only [h1, Bool.not_false, if_true]
    by_cases h2 : p.idx.2.isEmpty = true
    · simp only [h2, Bool.not_true, Bool.false_eq_true, if_false]
      exact UMap.count_insert_self _ _ _
    · simp only [h2, Bool.not_false, if_true]
      exact UMap.count_insert_mono _ _ _ _ (UMap.count_insert_self _ _ _)
  · intro hl
    unfold ParamGroup.add
    have h2 : p.idx.2.isEmpty = false := by
      cases hp : p.idx.2 with
      | nil => exact absurd hp hl
      | cons _ _ => rfl
    simp only [h2, Bool.not_false, if_true]
    by_cases h1 : p.idx.1.isEmpty = true
    · simp only [h1, Bool.not_true, Bool.false_eq_true, if_false]
      exact UMap.count_insert_self _ _ _
    · simp only [h1, Bool.not_false, if_true]
      exact UMap.count_insert_self _ _ _

/-- Witness of C20: the declarations of `TEST(param, param_group)` on a
parser.  The first one queues nothing; the second one shares the short name
`p` and queues one `AlreadyExistsError`; the third one shares the long name
`param` and queues one more; `parse` then throws without reading `-p 1`. -/
theorem duplicate_identifier_queues_one_error_witness :
    ((Parser.ctor {} [] "test".toList "test".toList "test".toList "test".toList).add_param
      "-p/--param".toList "make test".toList).2.exh = [] ∧
    Scenario.duplicate_short.exh =
      [AlreadyExistsError "-p/--other already exists in group global".toList] ∧
    Scenario.duplicate_long.exh =
      [AlreadyExistsError "-p/--other already exists in group global".toList,
       AlreadyExistsError "-o/--param already exists in group global".toList] ∧
    ((Scenario.duplicate_short.groups 0).add 2
      (make {} "-o/--param".toList "make test".toList none none Scenario.duplicate_short.exh).1
      Scenario.duplicate_short.exh).2 =
      Scenario.duplicate_short.exh ++
        [AlreadyExistsError "-o/--param already exists in group global".toList] ∧
    thrown (Scenario.duplicate_long.parse ["cmd".toList, "-p".toList, "1".toList]).1 =
      some silentFailure ∧
    ((Scenario.duplicate_long.parse ["cmd".toList, "-p".toList, "1".toList]).2.params 0).is_set =
      false :=
  have h := duplicate_identifier_queues_one_error (Scenario.duplicate_short.groups 0) 2
    (make {} "-o/--param".toList "make test".toList none none Scenario.duplicate_short.exh).1
    Scenario.duplicate_short.exh
  ⟨by decide, by decide, by decide, (h.1 (Or.inr (by decide))).1,
    by
      rw [h.2.2.2.2 Scenario.duplicate_long ["cmd".toList, "-p".toList, "1".toList]
        (by decide)]
      rfl,
    by decide⟩

/-- Counterexample to C21 as stated: the names "", "-" and "--" leave both the
short and the long name empty and queue no error; the name made of the two
short forms `-x` and `-y` (the second one replaces the first) and the name
made of the long form `--xxxx` followed by the short form `-x` queue no error
either. -/
theorem invalid_name_counterexample :
    (make {} "".toList "help".toList none none []).2 = [] ∧
    (make {} "".toList "help".toList none none []).1.idx = ([], []) ∧
    (make {} "-".toList "help".toList none none []).2 = [] ∧
    (make {} "-".toList "help".toList none none []).1.idx = ([], []) ∧
    (make {} "--".toList "help".toList none none []).2 = [] ∧
    (make {} "--".toList "help".toList none none []).1.idx = ([], []) ∧
    (make {} "-x/-y".toList "help".toList none none []).2 = [] ∧
    (make {} "-x/-y".toList "help".toList none none []).1.idx = ("y".toList, []) ∧
    (make {} "--xxxx/-x".toList "help".toList none none []).2 = [] ∧
    (make {} "--xxxx/-x".toList "help".toList none none []).1.idx =
      ("x".toList, "xxxx".toList) := by
  decide

/-- C21, amended: declaring a parameter queues one `InvalidParamError` for
each part of its name, the parts being those `split(name, '/')` gives, that
does not start with a dash, and nothing else: the queue is unchanged if and
only if every part starts with a dash.  The three forms of the convention (a
short form, a long form, a short form then a long form, with `x` and `xx`
that do not start with a dash and hold no slash) queue no error and record
`x` as the short and `xx` as the long name. -/
theorem invalid_name_errors (conf : config.Config) (name help : Str)
    (setter : Option setter_fn_t) (checker : Option check.checker_fn_t) (exh : ExHandler) :
    (make conf name help setter checker exh).2 =
      exh ++ ((utils.split name '/').filter (fun v => !utils.is_param v)).map (fun v =>
        InvalidParamError (name ++ " -> ".toList ++ utils.wrap v ['"', '"'] ++
          " is neither a valid short nor a valid long param".toList)) ∧
    ((make conf name help setter checker exh).2 = exh ↔
      ∀ v ∈ utils.split name '/', utils.startswith v "-".toList = true) ∧
    (∀ x : Str, x ≠ [] → utils.startswith x "-".toList = false → '/' ∉ x →
      (make conf ('-' :: x) help none none exh).2 = exh ∧
      (make conf ('-' :: x) help none none exh).1.idx = (x, [])) ∧
    (∀ xx : Str, xx ≠ [] → utils.startswith xx "-".toList = false → '/' ∉ xx →
      (make conf ('-' :: '-' :: xx) help none none exh).2 = exh ∧
      (make conf ('-' :: '-' :: xx) help none none exh).1.idx = ([], xx)) ∧
    (∀ x xx : Str, x ≠ [] → utils.startswith x "-".toList = false → '/' ∉ x →
      xx ≠ [] → utils.startswith xx "-".toList = false → '/' ∉ xx →
      (make conf ('-' :: x ++ '/' :: '-' :: '-' :: xx) help none none exh).2 = exh ∧
      (make conf ('-' :: x ++ '/' :: '-' :: '-' :: xx) help none none exh).1.idx = (x, xx)) := by
  refine ⟨make_exh conf name help setter checker exh, ?_, ?_, ?_, ?_⟩
  · rw [make_exh]
    constructor
    · intro h v hv
      have h2 : ((utils.split name '/').filter (fun v => !utils.is_param v)) = [] := by
        have := List.append_cancel_left (h.trans (List.append_nil exh).symm)
        simpa using this
      have h3 := List.filter_eq_nil_iff.mp h2 v hv
      have h4 : utils.is_param v = true := by simpa using h3
      exact (utils.is_param_iff v).mp h4
    · intro h
      have h2 : ((utils.split name '/').filter (fun v => !utils.is_param v)) = [] := by
        apply List.filter_eq_nil_iff.mpr
        intro v hv
        have := (utils.is_param_iff v).mpr (h v hv)
        simp [this]
      rw [h2]
      simp
  · intro x _ hx1 hx2
    rw [make_short conf x help exh hx1 hx2]
    exact ⟨rfl, rfl⟩
  · intro xx _ hxx1 hxx2
    rw [make_long conf xx help exh hxx1 hxx2]
    exact ⟨rfl, rfl⟩
  · intro x xx _ hx1 hx2 _ hxx1 hxx2
    rw [make_short_long conf x xx help exh hx1 hx2 hxx1 hxx2]
    exact ⟨rfl, rfl⟩

/-- Witness of C21: `TEST(param, make)`.  The name "/p" queues two errors, one
for the empty part and one for the part "p"; the name made of `-p` and
`--param` queues none and gives the short name "p" and the long name
"param". -/
theorem invalid_name_errors_witness :
    (make {} "/p".toList "invalid param".toList none none []).2 =
      [InvalidParamError
        "/p -> \"\" is neither a valid short nor a valid long param".toList,
       InvalidParamError
        "/p -> \"p\" is neither a valid short nor a valid long param".toList] ∧
    (make {} "-p/--param".toList "make test".toList none none []).2 = [] ∧
    (make {} "-p/--param".toList "make test".toList none none []).1.idx =
      ("p".toList, "param".toList) :=
  ⟨by
      rw [(invalid_name_errors {} "/p".toList "invalid param".toList none none []).1]
      decide,
    ((invalid_name_errors {} "-p/--param".toList "make test".toList none none []).2.2.2.2
      "p".toList "param".toList (by decide) (by decide) (by decide) (by decide) (by decide)
      (by decide)).1,
    ((invalid_name_errors {} "-p/--param".toList "make test".toList none none []).2.2.2.2
      "p".toList "param".toList (by decide) (by decide) (by decide) (by decide) (by decide)
      (by decide)).2⟩

/-- C22, the code at the failing input: a parameter `-f` is given the checker
`is_number` and is then made a flag (`checker_then_flag`).  No error is
queued: the parameter is a flag and carries one checker, `parse` starts, it
succeeds on the empty command line, and on `-f` it fails during the scan,
with the `CheckFailedError` of the checker applied to the sentinel.  The same
holds for a parameter constructed with a checker.  In the other order
(`flag_then_checker`) one `IncompatibleError` is queued and `parse` fails
before the scan. -/
theorem flag_after_checker_queues_nothing :
    Scenario.checker_then_flag.exh = [] ∧
    (Scenario.checker_then_flag.params 0).is_flag = true ∧
    (Scenario.checker_then_flag.params 0).c_checkers.length = 1 ∧
    (Scenario.checker_then_flag.parse ["cmd".toList]).1 = .ok () ∧
    thrown (Scenario.checker_then_flag.parse ["cmd".toList, "-f".toList]).1 =
      some (CheckFailedError "[-f BCLI_FSET] ~ Not a number!".toList) ∧
    ((make {} "-f".toList "help".toList none (some check.is_number) []).1.as_flag
      (make {} "-f".toList "help".toList none (some check.is_number) []).2).2 = [] ∧
    ((make {} "-f".toList "help".toList none (some check.is_number) []).1.as_flag
      (make {} "-f".toList "help".toList none (some check.is_number) []).2).1.c_checkers.length
      = 1 ∧
    Scenario.flag_then_checker.exh =
      [IncompatibleError "[-f]~ A flag cannot have a checker.".toList] ∧
    thrown (Scenario.flag_then_checker.parse ["cmd".toList, "-f".toList]).1 =
      some silentFailure :=
  ⟨by decide, by decide, by decide, rfl, rfl, by decide, by decide, by decide, rfl⟩

/-- C23: when the `ExHandler` queue is not empty, `parse` throws
`BCliError("", "", Failure)` before it reads a token, whatever the command
line and the mode: the parameter store (values, set marks, setter and
callback traces), the command store (positionals, positional setter trace),
the current command, `m_bypass` and the scan members are those of the state
before the call, and the queue, left as it was, has been printed.  A
declaration throws nothing: `add_param` on a group returns the handle of the
new object, that of `make`, also when a part of the name is invalid, in
which case the queue it leaves is not empty. -/
theorem queued_errors_stop_parse (P : Parser) (argv : List Str) (hq : P.exh ≠ []) :
    (P.parse argv).1 = .error silentFailure ∧
    (P.parse argv).2.params = P.params ∧
    (P.parse argv).2.commands = P.commands ∧
    (P.parse argv).2.m_current_cmd = P.m_current_cmd ∧
    (P.parse argv).2.m_bypass = P.m_bypass ∧
    (P.parse argv).2.m_is_param = P.m_is_param ∧
    (P.parse argv).2.m_current = P.m_current ∧
    (P.parse argv).2.exh = P.exh ∧
    (P.parse argv).2.cerr = P.cerr ++ P.exh.map Output.queued ∧
    (∀ (Q : Parser) (g : Nat) (name help : Str),
      (Q.group_add_param g name help).1 = Q.nparams ∧
      (Q.group_add_param g name help).2.params Q.nparams =
        (make Q.conf name help none none Q.exh).1 ∧
      ((∃ v ∈ utils.split name '/', utils.is_param v = false) →
        (Q.group_add_param g name help).2.exh ≠ [])) := by
  rw [parse_queue_not_empty P argv hq]
  refine ⟨rfl, rfl, rfl, rfl, rfl, rfl, rfl, rfl, rfl, ?_⟩
  intro Q g name help
  refine ⟨rfl, ?_, ?_⟩
  · unfold group_add_param
    exact store_same _ _ _
  · rintro ⟨v, hv, hpv⟩
    have hmk := make_exh Q.conf name help none none Q.exh
    have hne : (make Q.conf name help none none Q.exh).2 ≠ [] := by
      rw [hmk]
      intro h
      have h2 := (List.append_eq_nil.mp h).2
      have h3 : v ∈ (utils.split name '/').filter (fun v => !utils.is_param v) := by
        apply List.mem_filter.mpr
        exact ⟨hv, by simp [hpv]⟩
      have h4 := List.map_eq_nil_iff.mp h2
      rw [h4] at h3
      simp at h3
    unfold group_add_param ParamGroup.add ParamGroup.already_exists ExHandler.push
    simp only
    split
    · simp
    · exact hne

/-- Witness of C23: the declarations of `TEST(param, param_group)`, which
leave two errors in the queue.  `parse` on `-p 1 pos` throws at once: the
parameter `-p` is not set, its value is empty and there is no positional. -/
theorem queued_errors_stop_parse_witness :
    Scenario.duplicate_long.exh ≠ [] ∧
    thrown (Scenario.duplicate_long.parse
      ["cmd".toList, "-p".toList, "1".toList, "pos".toList]).1 = some silentFailure ∧
    ((Scenario.duplicate_long.parse
      ["cmd".toList, "-p".toList, "1".toList, "pos".toList]).2.params 0).is_set = false ∧
    ((Scenario.duplicate_long.parse
      ["cmd".toList, "-p".toList, "1".toList, "pos".toList]).2.params 0).value = [] ∧
    (Scenario.duplicate_long.parse
      ["cmd".toList, "-p".toList, "1".toList, "pos".toList]).2.get_positionals = [] :=
  have h := queued_errors_stop_parse Scenario.duplicate_long
    ["cmd".toList, "-p".toList, "1".toList, "pos".toList] (by decide)
  ⟨by decide, by rw [h.1]; rfl, by rw [h.2.1]; decide, by rw [h.2.1]; decide,
    by
      unfold get_positionals
      rw [h.2.2.1, h.2.2.2.1]
      decide⟩

/-- Counterexample to C24 as stated: the parameter `-s` with the checkers
`range(10, 100)` and then `c` (the checker of example `04_bcli_deps_bans`),
and the value "abc".  The first checker does not return: it throws
`CheckFailedError` with the message of `is_number`.  The first checker that
returns false is `c`, with the message "-s should not be equal to 15.", and
processing does not carry that message.  On the value "." the first checker
throws the exception of `std::stoi`, which is not a `CheckFailedError`. -/
theorem first_failing_checker_counterexample :
    (Scenario.range_then_custom.params 0).c_checkers.length = 2 ∧
    check.f.range 10 100 "-s".toList "abc".toList =
      .error (CheckFailedError "[-s abc] ~ Not a number!".toList) ∧
    Scenario.ex04_c "-s".toList "abc".toList =
      .ok (false, "-s should not be equal to 15.".toList) ∧
    thrown ((Scenario.range_then_custom.params 0).process "abc".toList).1 =
      some (CheckFailedError "[-s abc] ~ Not a number!".toList) ∧
    thrown (Scenario.range_then_custom.parse ["cmd".toList, "-s".toList, "abc".toList]).1 =
      some (CheckFailedError "[-s abc] ~ Not a number!".toList) ∧
    thrown (Scenario.range_then_custom.parse ["cmd".toList, "-s".toList, ".".toList]).1 =
      some check.stoi_invalid_argument :=
  ⟨by decide, rfl, rfl, rfl, rfl, rfl⟩

/-- C24, amended: for a parameter `p` with the checkers `c_checkers`, in the
order of their declaration, and a value `v`.  The checkers accept `v` (the
loop of `process` over them completes) if and only if every checker returns
true on the raw name and `v`.  Otherwise the first checker that does not
return true decides: if it returns false with `msg`, `process` throws
`CheckFailedError` with exactly `msg`; if it throws, `process` throws its
error.  In both cases the checkers after it play no part (the statement
holds for every list `post`), only the value has been written, and a scan
that reaches such a token stops there, whatever tokens follow: `parse`
throws the same error. -/
theorem first_failing_checker_aborts (p : Param) (v : Str) :
    (Param.run_checkers p.m_raw_name v p.c_checkers = .ok () ↔
      ∀ c ∈ p.c_checkers, ∃ m, c p.m_raw_name v = .ok (true, m)) ∧
    (∀ (pre post : List check.checker_fn_t) (c : check.checker_fn_t) (msg : Str),
      p.c_checkers = pre ++ c :: post →
      (∀ c2 ∈ pre, ∃ m, c2 p.m_raw_name v = .ok (true, m)) →
      c p.m_raw_name v = .ok (false, msg) →
      p.process v = (.error (CheckFailedError msg), { p with m_str_value := v })) ∧
    (∀ (pre post : List check.checker_fn_t) (c : check.checker_fn_t) (e : BCliError),
      p.c_checkers = pre ++ c :: post →
      (∀ c2 ∈ pre, ∃ m, c2 p.m_raw_name v = .ok (true, m)) →
      c p.m_raw_name v = .error e →
      p.process v = (.error e, { p with m_str_value := v })) ∧
    (∀ (P P1 : Parser) (pre rest : List Str) (a : Str) (e : BCliError),
      P.scan pre = (.ok (), P1) → (P1.process_arg a).1 = .error e →
      P.scan (pre ++ a :: rest) = (.error e, (P1.process_arg a).2) ∧
      ((!P.m_is_cmd_mode || P.m_bypass) = true → P.exh = [] → ∀ prog,
        P.parse (prog :: (pre ++ a :: rest)) = (.error e, (P1.process_arg a).2))) := by
  refine ⟨Param.run_checkers_ok_iff _ _ _, ?_, ?_, ?_⟩
  · intro pre post c msg hcs hpre hc
    apply Param.process_checkers_error
    rw [hcs]
    exact Param.run_checkers_first_false _ _ pre post c msg hpre hc
  · intro pre post c e hcs hpre hc
    apply Param.process_checkers_error
    rw [hcs]
    exact Param.run_checkers_first_error _ _ pre post c e hpre hc
  · intro P P1 pre rest a e hpre ha
    have hscan := scan_error_at P P1 pre rest a e hpre ha
    refine ⟨hscan, ?_⟩
    intro hm hq prog
    rw [parse_scanning P prog _ hq hm]
    exact parse_args_scan_error P _ _ e hscan

/-- Witness of C24: the parameter `-s` with the checker `is_number`
(`checked_size`).  `process("ZZ")` throws `CheckFailedError` with the message
of the checker, and `parse` on `-s abc pos` throws it at the value: no
positional has been collected. -/
theorem first_failing_checker_aborts_witness :
    (Scenario.checked_size.params 0).c_checkers = [check.is_number] ∧
    ((Scenario.checked_size.params 0).process "ZZ".toList).1 =
      .error (CheckFailedError "[-s ZZ] ~ Not a number!".toList) ∧
    thrown (Scenario.checked_size.parse
      ["cmd".toList, "-s".toList, "abc".toList, "pos".toList]).1 =
      some (CheckFailedError "[-s abc] ~ Not a number!".toList) ∧
    (Scenario.checked_size.parse
      ["cmd".toList, "-s".toList, "abc".toList, "pos".toList]).2.get_positionals = [] :=
  have hp := (first_failing_checker_aborts (Scenario.checked_size.params 0) "ZZ".toList).2.1
    [] [] check.is_number "[-s ZZ] ~ Not a number!".toList rfl
    (fun c2 h => absurd h (List.not_mem_nil c2)) rfl
  have hs : Scenario.checked_size.parse
      ["cmd".toList, "-s".toList, "abc".toList, "pos".toList] =
      (.error (CheckFailedError "[-s abc] ~ Not a number!".toList),
        ((Scenario.checked_size.scan ["-s".toList]).2.process_arg "abc".toList).2) :=
    ((first_failing_checker_aborts (Scenario.checked_size.params 0)
    "abc".toList).2.2.2 Scenario.checked_size
    (Scenario.checked_size.scan ["-s".toList]).2 ["-s".toList] ["pos".toList] "abc".toList
    (CheckFailedError "[-s abc] ~ Not a number!".toList) (Prod.ext rfl rfl) rfl).2
    (by decide) (by decide) "cmd".toList
  ⟨rfl, by rw [hp], by rw [hs]; rfl, by rw [hs]; decide⟩

/-- C25: `process(v)` on a parameter `p`.  When every checker accepts `v` (the
loop over the checkers completes): `v` is the string value afterwards, the
parameter is set, `m_has_valid_value` is written (to true) exactly when the
list of checkers is not empty, and the setter, if there is one, has been
called once more, with `v` (whether it then returns or throws), which leaves
in the variable it has captured what the setter stores there on `v`.  For
the setter `get_setter` makes from an `int` variable: when `v` casts to the
integer `n`, the setter returns and the variable holds `n`; when the cast
fails, `process` throws the `LexicalCastError` of the cast and the variable
is as it was.  When the loop over the checkers throws, `process` throws that
error, the setter has not been called (the variable is as it was), and
`m_is_set`, `m_has_valid_value` and the trace of the trigger callback are as
before. -/
theorem process_stores_value (p : Param) (v : Str) :
    (Param.run_checkers p.m_raw_name v p.c_checkers = .ok () →
      (p.process v).2.m_str_value = v ∧
      (p.process v).2.m_is_set = true ∧
      (p.c_checkers ≠ [] → (p.process v).2.m_has_valid_value = true) ∧
      (p.c_checkers = [] → (p.process v).2.m_has_valid_value = p.m_has_valid_value) ∧
      (∀ f : setter_fn_t, p.c_setter = some f →
        (p.process v).2.setter_trace = p.setter_trace ++ [v] ∧
        (p.process v).2.setter_var = f.store p.setter_var v) ∧
      (p.c_setter = none → (p.process v).2.setter_trace = p.setter_trace ∧
        (p.process v).2.setter_var = p.setter_var) ∧
      (p.c_setter = some get_setter_int →
        (∀ n, lexical_cast_int v = .ok n →
          (p.process v).1 = (Param.fire_callback (Param.processed p v true)).1 ∧
          (p.process v).2.setter_var = n) ∧
        (∀ e, lexical_cast_int v = .error e →
          (p.process v).1 = .error e ∧ (p.process v).2.setter_var = p.setter_var))) ∧
    (∀ e, Param.run_checkers p.m_raw_name v p.c_checkers = .error e →
      (p.process v).1 = .error e ∧
      (p.process v).2.m_str_value = v ∧
      (p.process v).2.setter_trace = p.setter_trace ∧
      (p.process v).2.setter_var = p.setter_var ∧
      (p.process v).2.m_is_set = p.m_is_set ∧
      (p.process v).2.m_has_valid_value = p.m_has_valid_value ∧
      (p.process v).2.callback_trace = p.callback_trace) := by
  constructor
  · intro h
    have hacc := Param.process_accepted p v h
    refine ⟨Param.process_str_value p v, ?_, ?_, ?_, ?_, ?_, ?_⟩
    · rw [hacc]; rfl
    · intro hne
      rw [hacc]
      cases hcs : p.c_checkers with
      | nil => exact absurd hcs hne
      | cons c cs => simp [Param.processed, hcs]
    · intro hnil
      rw [hacc]
      simp [Param.processed, hnil]
    · intro f hf
      rw [hacc]
      simp [Param.processed, Param.stored, hf]
    · intro hf
      rw [hacc]
      simp [Param.processed, hf]
    · intro hf
      have hvar : (p.process v).2.setter_var = get_setter_int.store p.setter_var v := by
        rw [hacc]
        simp [Param.processed, Param.stored, hf]
      refine ⟨fun n hn => ⟨?_, ?_⟩, fun e he => ⟨?_, ?_⟩⟩
      · rw [Param.process_eq, h]
        simp only [hf, get_setter_int, hn]
      · rw [hvar]
        simp only [get_setter_int, hn]
      · rw [Param.process_eq, h]
        simp only [hf, get_setter_int, he]
      · rw [hvar]
        simp only [get_setter_int, he]
  · intro e he
    rw [Param.process_checkers_error p v e he]
    exact ⟨rfl, rfl, rfl, rfl, rfl, rfl, rfl⟩

/-- Witness of C25: `TEST(param, param_setter)` and
`TEST(param, param_checker_setter)`.  A parameter with a setter bound to an
`int` variable that holds 0: `process("10")` returns, stores "10", sets the
parameter and leaves 10 in the variable; with the checker `is_number`,
`process("42")` leaves 42 and marks the value as valid, and `process("ZZ")`
throws `CheckFailedError` without calling the setter (the variable still
holds 0) or setting the parameter. -/
theorem process_stores_value_witness :
    ((make {} "-p/--param".toList "make test".toList (some get_setter_int) none []).1.process
      "10".toList).1 = .ok () ∧
    ((make {} "-p/--param".toList "make test".toList (some get_setter_int) none []).1.process
      "10".toList).2.m_str_value = "10".toList ∧
    ((make {} "-p/--param".toList "make test".toList (some get_setter_int) none []).1.process
      "10".toList).2.m_is_set = true ∧
    ((make {} "-p/--param".toList "make test".toList (some get_setter_int) none []).1.process
      "10".toList).2.m_has_valid_value = false ∧
    ((make {} "-p/--param".toList "make test".toList (some get_setter_int) none []).1.process
      "10".toList).2.setter_var = 10 ∧
    ((make {} "-p/-param".toList "make test".toList (some get_setter_int)
      (some check.is_number) []).1.process "42".toList).2.setter_var = 42 ∧
    ((make {} "-p/-param".toList "make test".toList (some get_setter_int)
      (some check.is_number) []).1.process "42".toList).2.m_has_valid_value = true ∧
    thrown ((make {} "-p/-param".toList "make test".toList (some get_setter_int)
      (some check.is_number) []).1.process "ZZ".toList).1 =
      some (CheckFailedError "[-p/-param ZZ] ~ Not a number!".toList) ∧
    ((make {} "-p/-param".toList "make test".toList (some get_setter_int)
      (some check.is_number) []).1.process "ZZ".toList).2.setter_trace = [] ∧
    ((make {} "-p/-param".toList "make test".toList (some get_setter_int)
      (some check.is_number) []).1.process "ZZ".toList).2.setter_var = 0 ∧
    ((make {} "-p/-param".toList "make test".toList (some get_setter_int)
      (some check.is_number) []).1.process "ZZ".toList).2.m_is_set = false :=
  have h1 := (process_stores_value
    (make {} "-p/--param".toList "make test".toList (some get_setter_int) none []).1
    "10".toList).1 rfl
  have h2 := (process_stores_value
    (make {} "-p/-param".toList "make test".toList (some get_setter_int)
      (some check.is_number) []).1 "42".toList).1 rfl
  have h3 := (process_stores_value
    (make {} "-p/-param".toList "make test".toList (some get_setter_int)
      (some check.is_number) []).1 "ZZ".toList).2
    (CheckFailedError "[-p/-param ZZ] ~ Not a number!".toList) rfl
  ⟨rfl, h1.1, h1.2.1, (h1.2.2.2.1 rfl).trans (by decide),
    ((h1.2.2.2.2.2.2 rfl).1 10 rfl).2, ((h2.2.2.2.2.2.2 rfl).1 42 rfl).2,
    h2.2.2.1 (fun h => absurd (congrArg List.length h) (by decide)), by rw [h3.1]; rfl,
    h3.2.2.1.trans (by decide), h3.2.2.2.1.trans (by decide),
    h3.2.2.2.2.1.trans (by decide)⟩

/-- Counterexample to C26 as stated: in `with_callback` the parameter `-s`
(handle 0) has the checker `is_number`, a trigger callback and the default
"20", and the parser is fresh.  On the command line `-s abc` the user supplies
`-s` exactly once, the checker rejects the value, `process` throws before it
reaches the callback, and the callback has not been called when the parse
ends.  (`-s 5` calls it once; the empty command line applies the default
without calling it.) -/
theorem trigger_callback_counterexample :
    Scenario.with_callback.exh = [] ∧
    Scenario.with_callback.get_current_param "-s".toList = some 0 ∧
    (Scenario.with_callback.params 0).c_callback.isSome = true ∧
    (Scenario.with_callback.params 0).m_callback_trigger = true ∧
    (Scenario.with_callback.params 0).m_as_default = false ∧
    (Scenario.with_callback.params 0).callback_trace = 0 ∧
    thrown (Scenario.with_callback.parse ["cmd".toList, "-s".toList, "abc".toList]).1 =
      some (CheckFailedError "[-s abc] ~ Not a number!".toList) ∧
    ((Scenario.with_callback.parse ["cmd".toList, "-s".toList, "abc".toList]).2.params
      0).callback_trace = 0 ∧
    ((Scenario.with_callback.parse ["cmd".toList, "-s".toList, "5".toList]).2.params
      0).callback_trace = 1 ∧
    ((Scenario.with_callback.parse ["cmd".toList]).2.params 0).m_str_value = "20".toList ∧
    ((Scenario.with_callback.parse ["cmd".toList]).2.params 0).callback_trace = 0 := by
  refine ⟨by decide, by decide, by decide, by decide, by decide, by decide, by decide,
    by decide, by decide, by decide, by decide⟩

/-- C26, amended: let `parse`, called on `P0` with the command line `argv`,
scan the tokens `toks` from the state `P` (the parser itself in simple mode or
once a command is selected; in multi-command mode, the parser after the
command named by the first token has been selected), and let `P` not await a
value for the parameter `cp`.

When no token of `toks` names `cp`, its trigger callback has been called as
many times after the parse as before, however the parse ends and whether or
not the consistency pass has applied its default.

When the queue of `ExHandler` is empty, `cp` has an armed trigger callback and
was never applied as a default, exactly one token `name` of `toks` names `cp`,
and the scan of the tokens before it completes with no value awaited, then the
callback has been called exactly once more after the parse, whatever follows,
provided the processing of the parameter gets to the callback: for a flag,
when the checkers accept the sentinel and the setter returns on it; for a
parameter that takes a value and has no action, when the next token is taken
as its value, the checkers accept it and the setter returns on it. -/
theorem trigger_callback_fires_on_user_set (P0 P : Parser) (argv toks : List Str) (cp : Nat)
    (hb : (P = P0 ∧ (!P0.m_is_cmd_mode || P0.m_bypass) = true ∧ ∃ prog, argv = prog :: toks) ∨
      (∃ c cname prog, P = select P0 c ∧ P0.m_is_cmd_mode = true ∧ P0.m_bypass = false ∧
        P0.m_cmds.get cname = some c ∧ argv = prog :: cname :: toks))
    (hA : P.m_is_param = true → P.get_current_param P.m_current ≠ some cp) :
    ((∀ t ∈ toks, utils.is_param t = true → P.get_current_param t ≠ some cp) →
      ((P0.parse argv).2.params cp).callback_trace = (P0.params cp).callback_trace) ∧
    (P0.exh = [] → (P.params cp).c_callback.isSome = true →
      (P.params cp).m_callback_trigger = true → (P.params cp).m_as_default = false →
      ∀ pre name post P1, toks = pre ++ name :: post →
        (∀ t ∈ pre ++ post, utils.is_param t = true → P.get_current_param t ≠ some cp) →
        P.scan pre = (.ok (), P1) → P1.m_is_param = false →
        utils.is_param name = true → P.get_current_param name = some cp →
        ((P.params cp).m_is_flag = true →
          Param.run_checkers (P.params cp).m_raw_name FLAG_VALUE (P.params cp).c_checkers
            = .ok () →
          (∀ f, (P.params cp).c_setter = some f → f FLAG_VALUE = .ok ()) →
          ((P0.parse argv).2.params cp).callback_trace = (P0.params cp).callback_trace + 1) ∧
        ((P.params cp).m_is_flag = false → (P.params cp).m_action = Action.Nothing →
          ∀ value post1, post = value :: post1 → utils.is_param value = false →
          Param.run_checkers (P.params cp).m_raw_name (unwrapped value)
            (P.params cp).c_checkers = .ok () →
          (∀ f, (P.params cp).c_setter = some f → f (unwrapped value) = .ok ()) →
          ((P0.parse argv).2.params cp).callback_trace =
            (P0.params cp).callback_trace + 1)) := by
  have hpar : P.params = P0.params := by
    rcases hb with ⟨h, _, _⟩ | ⟨c, cname, prog, h, _⟩ <;> rw [h]
    rfl
  have hparse : P0.exh = [] → P0.parse argv = P.parse_args toks := by
    intro hq
    rcases hb with ⟨h, hm, prog, hargv⟩ | ⟨c, cname, prog, h, hmode, hbp, hc, hargv⟩
    · rw [h, hargv]
      exact parse_scanning P0 prog toks hq hm
    · rw [h, hargv, parse_select P0 prog cname toks c hq hmode hbp hc]
      exact parse_scanning (select P0 c) cname toks hq (select_scanning P0 c)
  refine ⟨?_, ?_⟩
  · intro hT
    by_cases hq : P0.exh = []
    · rw [hparse hq, ← hpar]
      exact parse_args_not_supplied P cp toks hA hT
    · rw [parse_queue_not_empty P0 argv hq]
  · intro hq hcb htr hfresh pre name post P1 htoks hT hpre hw hn hcp
    obtain ⟨cb, hcb'⟩ := Option.isSome_iff_exists.mp hcb
    have hTpre : ∀ t ∈ pre, utils.is_param t = true → P.get_current_param t ≠ some cp :=
      fun t ht => hT t (List.mem_append_left post ht)
    have hTpost : ∀ t ∈ post, utils.is_param t = true → P.get_current_param t ≠ some cp :=
      fun t ht => hT t (List.mem_append_right pre ht)
    have hH := scan_keeps_param P cp (P.params cp) pre P hTpre ⟨sameDecl_refl P, rfl, hA⟩
    rw [hpre] at hH
    obtain ⟨hd1, hp1, _⟩ := hH
    have hcp1 : P1.get_current_param name = some cp := (hd1.get_current_param name).trans hcp
    rw [hparse hq, ← hpar, parse_args_callback_trace, htoks, scan_append pre _ P P1 hpre]
    refine ⟨?_, ?_⟩
    · intro hf hchk hset
      rw [scan_supplied_flag P P1 cp name post hd1 hw hn hcp1 (by rw [hp1]; exact hf) hTpost,
        hp1]
      exact Param.process_fires (P.params cp).set FLAG_VALUE cb hcb' htr hfresh hchk hset
    · intro hf hact value post1 hpost hv hchk hset
      have hTpost1 : ∀ t ∈ post1, utils.is_param t = true →
          P.get_current_param t ≠ some cp :=
        fun t ht => hTpost t (by rw [hpost]; exact List.mem_cons_of_mem value ht)
      rw [hpost, scan_supplied_value P P1 cp name value post1 hd1 hw hn hcp1
        (by rw [hp1]; exact hf) (by rw [hp1]; exact hact) hv hTpost1, hp1]
      exact Param.process_fires (P.params cp) (unwrapped value) cb hcb' htr hfresh hchk hset

/-- Witness of C26, amended, on the fresh parser `with_callback`: the empty
command line applies the default "20" of `-s` without calling its callback,
and `-s 5 pos` calls it exactly once. -/
theorem trigger_callback_fires_on_user_set_witness :
    ((Scenario.with_callback.parse ["cmd".toList]).2.params 0).m_str_value = "20".toList ∧
    ((Scenario.with_callback.parse ["cmd".toList]).2.params 0).callback_trace =
      (Scenario.with_callback.params 0).callback_trace ∧
    (Scenario.with_callback.parse ["cmd".toList, "-s".toList, "5".toList, "pos".toList]).1 =
      .ok () ∧
    ((Scenario.with_callback.parse
      ["cmd".toList, "-s".toList, "5".toList, "pos".toList]).2.params 0).callback_trace =
      (Scenario.with_callback.params 0).callback_trace + 1 :=
  ⟨by decide,
    (trigger_callback_fires_on_user_set Scenario.with_callback Scenario.with_callback
      ["cmd".toList] [] 0 (Or.inl ⟨rfl, by decide, "cmd".toList, rfl⟩)
      (fun h => absurd h (by decide))).1 (fun t ht => absurd ht (List.not_mem_nil t)),
    rfl,
    ((trigger_callback_fires_on_user_set Scenario.with_callback Scenario.with_callback
      ["cmd".toList, "-s".toList, "5".toList, "pos".toList]
      ["-s".toList, "5".toList, "pos".toList] 0 (Or.inl ⟨rfl, by decide, "cmd".toList, rfl⟩)
      (fun h => absurd h (by decide))).2 (by decide) (by decide) (by decide) (by decide)
      [] "-s".toList ["5".toList, "pos".toList] Scenario.with_callback rfl (by decide) rfl
      (by decide) (by decide) (by decide)).2 (by decide) (by decide)
      "5".toList ["pos".toList] rfl (by decide) rfl
      (fun f hf => by
        have h0 : (Scenario.with_callback.params 0).c_setter = none := rfl
        rw [h0] at hf
        exact absurd hf (by simp))⟩

/-- Counterexample to C27 as stated: in `help_with_setter` the parameter `-r`
(handle 0) is required, and the flag `-h` (handle 1) has the action `ShowHelp`
and the setter `get_setter` makes from an `int` variable; the help of the
parser can be rendered.  On the command line `-h` no token precedes `-h` and
no value is awaited, the token names a parameter with the action `ShowHelp`,
but a flag is processed with the sentinel before its action is looked at:
the setter throws `LexicalCastError`, and `parse` throws that error instead
of showing the help (nothing is printed). -/
theorem action_token_counterexample :
    Scenario.help_with_setter.exh = [] ∧
    (Scenario.help_with_setter.show_help).1 = .ok () ∧
    (Scenario.help_with_setter.scan []).1 = .ok () ∧
    (Scenario.help_with_setter.scan []).2.m_is_param = false ∧
    Scenario.help_with_setter.get_current_param "-h".toList = some 1 ∧
    (Scenario.help_with_setter.params 1).m_action = Action.ShowHelp ∧
    (Scenario.help_with_setter.params 1).m_is_flag = true ∧
    (thrown (Scenario.help_with_setter.parse ["cmd".toList, "-h".toList]).1).map
      (fun e => e.name) = some "LexicalCastError".toList ∧
    (Scenario.help_with_setter.parse ["cmd".toList, "-h".toList]).1 ≠ .error silentFailure ∧
    (Scenario.help_with_setter.parse ["cmd".toList, "-h".toList]).2.cerr = [] := by
  refine ⟨by decide, rfl, rfl, by decide, by decide, by decide, by decide, by decide, ?_,
    by decide⟩
  intro h
  have h2 := congrArg (fun r => (thrown r).map (fun e => e.name)) h
  revert h2
  decide

/-- C27, the rendering of the help apart: when the step on the token that
names the help parameter returns `ShowHelp` and the rendering of the help
throws, `parse` throws the error of the rendering, not the silent failure,
and the diagnostic stream is as the step on the token left it. -/
theorem help_rendering_error_propagates (P0 P P1 : Parser) (argv pre rest : List Str)
    (name : Str) (e : BCliError) (hq : P0.exh = [])
    (hb : (P = P0 ∧ (!P0.m_is_cmd_mode || P0.m_bypass) = true ∧
        ∃ prog, argv = prog :: (pre ++ name :: rest)) ∨
      (∃ c cname prog, P = select P0 c ∧ P0.m_is_cmd_mode = true ∧ P0.m_bypass = false ∧
        P0.m_cmds.get cname = some c ∧ argv = prog :: cname :: (pre ++ name :: rest)))
    (hpre : P.scan pre = (.ok (), P1))
    (hstep : (P1.process_arg name).1 = .ok Action.ShowHelp)
    (hrender : ((P1.process_arg name).2.show_help).1 = .error e) :
    P0.parse argv = (.error e, (P1.process_arg name).2) := by
  have hparse : P0.parse argv = P.parse_args (pre ++ name :: rest) := by
    rcases hb with ⟨h, hm, prog, hargv⟩ | ⟨c, cname, prog, h, hmode, hbp, hc, hargv⟩
    · rw [h, hargv]
      exact parse_scanning P0 prog _ hq hm
    · rw [h, hargv, parse_select P0 prog cname _ c hq hmode hbp hc]
      exact parse_scanning (select P0 c) cname _ hq (select_scanning P0 c)
  have hstop : help_stop (P1.process_arg name).2 = e := by
    unfold help_stop
    rw [hrender]
  rw [hparse, parse_args_scan_error P _ _ _ (scan_show_help P P1 pre rest name hpre hstep),
    hstop, show_help_error _ e hrender]

/-- C27, the rendering of the help apart, at an input: in `short_flag` the
flag `-f` (handle 0) of the default group has no long name and no parameter
of that group has one, so that the padding of its line in the help has the
size `0 - 4` (a space and the flag symbol take four bytes).  The token `-h`
names the help flag of the common group and its processing returns, but the
rendering of the help throws `std::length_error`: `parse` throws that error,
not the silent failure, and writes nothing. -/
theorem help_rendering_throws :
    Scenario.short_flag.exh = [] ∧
    (Scenario.short_flag.params 0).is_flag = true ∧
    (Scenario.short_flag.params 0).lp = [] ∧
    (Scenario.short_flag.params 0).hidden = false ∧
    utils.size (" ".toList ++ Scenario.short_flag.conf.m_flag_symbol) = 4 ∧
    (Scenario.short_flag.process_arg "-h".toList).1 = .ok Action.ShowHelp ∧
    ((Scenario.short_flag.process_arg "-h".toList).2.show_help).1 =
      .error utils.sp_length_error ∧
    (Scenario.short_flag.parse ["cmd".toList, "-h".toList]).1 = .error utils.sp_length_error ∧
    (Scenario.short_flag.parse ["cmd".toList, "-h".toList]).1 ≠ .error silentFailure ∧
    (Scenario.short_flag.parse ["cmd".toList, "-h".toList]).2.cerr = [] := by
  refine ⟨by decide, by decide, by decide, by decide, by decide, rfl, rfl, rfl, ?_, by decide⟩
  intro h
  have h2 := congrArg (fun r => (thrown r).map (fun e => e.name)) h
  revert h2
  decide

/-- C27, amended: let `parse`, called on `P0` with the command line `argv`,
scan the tokens `pre ++ name :: rest` from the state `P` (the parser itself in
simple mode or once a command is selected; in multi-command mode, the parser
after the command named by the first token has been selected), with an empty
`ExHandler` queue.  Let the scan of `pre` complete and leave no value
awaited, let `name` name the parameter `cp`, and, when `cp` is a flag, let the
processing of the sentinel return (checkers, setter and trigger callback of
the flag run before its action is looked at).  If the action of `cp` is
`ShowHelp` and the help of the current command is rendered (`show_help`
returns), resp. if the action is `ShowVersion`, `parse` shows the help (resp.
the version) in the state the step on `name` leaves, which adds one item to
the diagnostic stream, and throws `BCliError("", "", Failure)`: the result
does not depend on `rest`, no token of `rest` is processed, and the
consistency pass is not run, so that neither a required parameter left unset,
nor a dependency or ban rule, nor the positional check raises an error. -/
theorem action_token_stops_parse (P0 P P1 : Parser) (argv pre rest : List Str) (name : Str)
    (cp : Nat) (hq : P0.exh = [])
    (hb : (P = P0 ∧ (!P0.m_is_cmd_mode || P0.m_bypass) = true ∧
        ∃ prog, argv = prog :: (pre ++ name :: rest)) ∨
      (∃ c cname prog, P = select P0 c ∧ P0.m_is_cmd_mode = true ∧ P0.m_bypass = false ∧
        P0.m_cmds.get cname = some c ∧ argv = prog :: cname :: (pre ++ name :: rest)))
    (hpre : P.scan pre = (.ok (), P1)) (hw : P1.m_is_param = false)
    (hn : utils.is_param name = true) (hcp : P.get_current_param name = some cp)
    (hret : (P.params cp).m_is_flag = true →
      ((P1.params cp).set.process FLAG_VALUE).1 = .ok ()) :
    ((P.params cp).m_action = Action.ShowHelp →
      ((P1.process_arg name).2.show_help).1 = .ok () →
      P0.parse argv = (.error silentFailure, ((P1.process_arg name).2.show_help).2) ∧
      (P0.parse argv).2.cerr =
        (P1.process_arg name).2.cerr ++ [Output.help (P0.parse argv).2.m_current_cmd] ∧
      (P0.parse argv).2.get_positionals = P1.get_positionals) ∧
    ((P.params cp).m_action = Action.ShowVersion →
      P0.parse argv = (.error silentFailure, (P1.process_arg name).2.show_version) ∧
      (P0.parse argv).2.cerr = (P1.process_arg name).2.cerr ++ [Output.version] ∧
      (P0.parse argv).2.get_positionals = P1.get_positionals) := by
  have hparse : P0.parse argv = P.parse_args (pre ++ name :: rest) := by
    rcases hb with ⟨h, hm, prog, hargv⟩ | ⟨c, cname, prog, h, hmode, hbp, hc, hargv⟩
    · rw [h, hargv]
      exact parse_scanning P0 prog _ hq hm
    · rw [h, hargv, parse_select P0 prog cname _ c hq hmode hbp hc]
      exact parse_scanning (select P0 c) cname _ hq (select_scanning P0 c)
  have hd1 : SameDecl P P1 := by
    have := scan_sameDecl P pre
    rw [hpre] at this
    exact this
  have hcp1 : P1.get_current_param name = some cp := (hd1.get_current_param name).trans hcp
  have hstep := process_arg_action P1 name cp hw hn hcp1
    (fun hf => hret (by rw [← (hd1.conf cp).is_flag]; exact hf))
  rw [(hd1.conf cp).action] at hstep
  have hpos : ((P1.process_arg name).2.commands (P1.process_arg name).2.m_current_cmd)
      = P1.commands P1.m_current_cmd := by
    by_cases hf : (P1.params cp).m_is_flag = true
    · rw [process_arg_flag P1 name cp hn hw hcp1 hf]
    · have hf' : (P1.params cp).m_is_flag = false := by simpa using hf
      rw [process_arg_value_param P1 name cp hn hw hcp1 hf']
  have hscanning : (!(P1.process_arg name).2.m_is_cmd_mode ||
      (P1.process_arg name).2.m_bypass) = true := by
    have hd2 : SameDecl P (P1.process_arg name).2 :=
      sameDecl_trans hd1 (process_arg_sameDecl P1 name)
    rw [hd2.cmd_mode, hd2.bypass]
    rcases hb with ⟨h, hm, _⟩ | ⟨c, cname, prog, h, _⟩
    · rw [h]; exact hm
    · rw [h]; exact select_scanning P0 c
  refine ⟨fun ha hrender => ?_, fun ha => ?_⟩
  · rw [ha] at hstep
    have hstop : help_stop (P1.process_arg name).2 = silentFailure := by
      unfold help_stop
      rw [hrender]
    rw [hparse, parse_args_scan_error P _ _ _ (scan_show_help P P1 pre rest name hpre hstep),
      hstop]
    refine ⟨rfl, ?_, ?_⟩
    · exact show_help_written _ hscanning hrender
    · have hf := show_help_fields (P1.process_arg name).2
      simp only [get_positionals]
      rw [hf.2.2.2, (show_help_sameDecl _).current_cmd, hpos]
  · rw [ha] at hstep
    rw [hparse, parse_args_scan_error P _ _ _
      (scan_show_version P P1 pre rest name hpre hstep)]
    refine ⟨rfl, rfl, ?_⟩
    simp only [get_positionals]
    exact congrArg _ hpos

/-- Witness of C27, amended: in the parser of example `04_bcli_deps_bans`, where
`-p` is required, the help is rendered, the command line `-h --unknown pos`
shows the help and throws the silent failure, and `--version -p` shows the
version: the unknown parameter, the missing value and the missing required
parameter raise nothing. -/
theorem action_token_stops_parse_witness :
    Scenario.ex04.get_current_param "-h".toList = some 3 ∧
    (Scenario.ex04.params 3).m_action = Action.ShowHelp ∧
    (Scenario.ex04.params 0).is_required = true ∧
    ((Scenario.ex04.process_arg "-h".toList).2.show_help).1 = .ok () ∧
    Scenario.ex04.parse ["cmd".toList, "-h".toList, "--unknown".toList, "pos".toList] =
      (.error silentFailure, ((Scenario.ex04.process_arg "-h".toList).2.show_help).2) ∧
    (Scenario.ex04.parse
      ["cmd".toList, "-h".toList, "--unknown".toList, "pos".toList]).2.cerr =
      [Output.help 0] ∧
    (Scenario.ex04.params 6).m_action = Action.ShowVersion ∧
    Scenario.ex04.parse ["cmd".toList, "--version".toList, "-p".toList] =
      (.error silentFailure, (Scenario.ex04.process_arg "--version".toList).2.show_version) :=
  ⟨by decide, by decide, by decide, rfl,
    ((action_token_stops_parse Scenario.ex04 Scenario.ex04 Scenario.ex04
      ["cmd".toList, "-h".toList, "--unknown".toList, "pos".toList] []
      ["--unknown".toList, "pos".toList] "-h".toList 3 (by decide)
      (Or.inl ⟨rfl, by decide, "cmd".toList, rfl⟩) rfl (by decide) (by decide) (by decide)
      (fun _ => rfl)).1 (by decide) rfl).1,
    by decide, by decide,
    ((action_token_stops_parse Scenario.ex04 Scenario.ex04 Scenario.ex04
      ["cmd".toList, "--version".toList, "-p".toList] []
      ["-p".toList] "--version".toList 6 (by decide)
      (Or.inl ⟨rfl, by decide, "cmd".toList, rfl⟩) rfl (by decide) (by decide) (by decide)
      (fun _ => rfl)).2 (by decide)).1⟩

/-- C28: round trip of `wrap` and `unwrap`.  For every string `s`,
`unwrap(wrap(s, "[]"), 1)` returns `s`; for every bounds string `b` of even
length `2k`, `wrap(s, b)` is the first `k` characters of `b`, then `s`, then
the last `k` characters of `b`, and `unwrap(wrap(s, b), k)` returns `s`
(`substr` does not throw and the subtraction of `size_t` values does not wrap
around). -/
theorem wrap_unwrap_round_trip (s b : Str) (k : Nat) (hb : b.length = 2 * k) :
    utils.unwrap (utils.wrap s "[]".toList) 1 = .ok s ∧
    utils.wrap s b = b.take k ++ s ++ b.drop (b.length - k) ∧
    utils.unwrap (utils.wrap s b) k = .ok s := by
  have hhalf : b.length / 2 = k := by omega
  have hlast : b.length - k = k := by omega
  have hw : utils.wrap s b = b.take k ++ s ++ b.drop k := by
    simp only [utils.wrap, utils.split2, hhalf]
  have hlen : (b.take k ++ s ++ b.drop k).length = s.length + 2 * k := by
    simp only [List.length_append, List.length_take, List.length_drop]
    omega
  have htk : (b.take k).length = k := by
    rw [List.length_take]
    omega
  refine ⟨?_, by rw [hw, hlast], ?_⟩
  · have h1 : utils.wrap s "[]".toList = '[' :: (s ++ [']']) := rfl
    rw [h1]
    simp only [utils.unwrap, utils.substr, utils.size_t_sub, List.length_cons,
      List.length_append, List.length_nil]
    rw [if_neg (by omega), if_pos (by omega)]
    simp only [List.drop_succ_cons, List.drop_zero]
    have h2 : s.length + 0 + 1 + 1 - 2 * 1 = s.length := by omega
    rw [h2, List.take_left' rfl]
  · rw [hw]
    simp only [utils.unwrap, utils.substr, utils.size_t_sub, hlen]
    rw [if_neg (by omega), if_pos (by omega)]
    have h2 : s.length + 2 * k - 2 * k = s.length := by omega
    rw [h2, List.append_assoc, List.drop_left' htk, List.take_left' rfl]

/-- Witness of C28: `TEST(utils, wrap)`.  `wrap("WRAP", "([])")` is "([WRAP])",
`unwrap("([WRAP])", 2)` is "WRAP", and `unwrap("[WRAP]", 1)` is "WRAP". -/
theorem wrap_unwrap_round_trip_witness :
    "([])".toList.length = 2 * 2 ∧
    utils.wrap "WRAP".toList "([])".toList = "([WRAP])".toList ∧
    utils.unwrap "([WRAP])".toList 2 = .ok "WRAP".toList ∧
    utils.unwrap "[WRAP]".toList 1 = .ok "WRAP".toList :=
  have h := wrap_unwrap_round_trip "WRAP".toList "([])".toList 2 (by decide)
  ⟨by decide, h.2.1.trans (by decide), h.2.2, h.1⟩

/-- Counterexample to C29 as stated: `with_default "out"` declares the
parameter `-o` (handle 0), not a flag, with a setter and the default "out".
The command line `-o x` supplies it once; the scan processes it (the setter
is called with "x" and the parameter is set), and the consistency pass then
calls `process_def` on it although it is set: after the parse, which returns,
the setter has been called twice with "x", and the parameter is marked as
applied from its default. -/
theorem set_param_reprocessed_counterexample :
    (Scenario.with_default "out".toList).get_current_param "-o".toList = some 0 ∧
    ((Scenario.with_default "out".toList).params 0).is_flag = false ∧
    ((Scenario.with_default "out".toList).params 0).get_def = "out".toList ∧
    ((Scenario.with_default "out".toList).params 0).setter_trace = [] ∧
    ((Scenario.with_default "out".toList).scan ["-o".toList, "x".toList]).1 = .ok () ∧
    (((Scenario.with_default "out".toList).scan ["-o".toList, "x".toList]).2.params 0).is_set
      = true ∧
    (((Scenario.with_default "out".toList).scan
      ["-o".toList, "x".toList]).2.params 0).setter_trace = ["x".toList] ∧
    ((Scenario.with_default "out".toList).parse ["cmd".toList, "-o".toList, "x".toList]).1
      = .ok () ∧
    (((Scenario.with_default "out".toList).parse
      ["cmd".toList, "-o".toList, "x".toList]).2.params 0).setter_trace
      = ["x".toList, "x".toList] ∧
    (((Scenario.with_default "out".toList).parse
      ["cmd".toList, "-o".toList, "x".toList]).2.params 0).m_as_default = true := by
  refine ⟨by decide, by decide, by decide, by decide, rfl, by decide, by decide, rfl,
    by decide, by decide⟩

/-- C29, amended: the loop body of the consistency pass on the parameter `p`.

When `p` is not a flag, has a non-empty default and is not a required parameter
left unset, the body calls `process_def` on it, whether or not it is set:
the state it leaves is the one `process_def` leaves.  When `p` is a flag or
has an empty default, the body leaves the state as it is.

So a parameter that the user has set is processed again, with the value it
holds: let `parse`, called on `P0` with the command line `argv`, scan the
tokens `pre ++ name :: value :: post` from the state `P` (the parser itself in
simple mode or once a command is selected; in multi-command mode, the parser
after the command named by the first token has been selected); let `name` be
the only token that names `p`, a parameter with a setter, not a flag, with a
non-empty default, that the pass visits once; let the scan of `pre` complete
with no value awaited and `value` not look like a parameter.  When the parse
returns, the setter of `p` has been called exactly twice, both times with the
value taken from `value`, and `p` holds that value. -/
theorem pass_reprocesses_set_param (P : Parser) (p : Nat) :
    ((P.params p).is_flag = false → (P.params p).get_def ≠ [] →
      ((P.params p).is_required && !(P.params p).is_set) = false →
      (P.check_param p).2 =
        { P with params := store P.params p (P.params p).process_def.2 }) ∧
    ((P.params p).is_flag = true ∨ (P.params p).get_def = [] → (P.check_param p).2 = P) ∧
    (∀ (P0 P1 P' : Parser) (argv pre post : List Str) (l1 l2 : List Nat) (name value : Str)
      (f : setter_fn_t),
      ((P = P0 ∧ (!P0.m_is_cmd_mode || P0.m_bypass) = true ∧
          ∃ prog, argv = prog :: (pre ++ name :: value :: post)) ∨
        (∃ c cname prog, P = select P0 c ∧ P0.m_is_cmd_mode = true ∧ P0.m_bypass = false ∧
          P0.m_cmds.get cname = some c ∧
          argv = prog :: cname :: (pre ++ name :: value :: post))) →
      (P.m_is_param = true → P.get_current_param P.m_current ≠ some p) →
      (∀ t ∈ pre ++ post, utils.is_param t = true → P.get_current_param t ≠ some p) →
      P.scan pre = (.ok (), P1) → P1.m_is_param = false →
      utils.is_param name = true → P.get_current_param name = some p →
      utils.is_param value = false →
      (P.params p).is_flag = false → (P.params p).get_def ≠ [] →
      (P.params p).c_setter = some f →
      params_in_order P P.cur_groups = l1 ++ p :: l2 → p ∉ l1 → p ∉ l2 →
      P0.parse argv = (.ok (), P') →
      (P'.params p).setter_trace =
        (P.params p).setter_trace ++ [unwrapped value, unwrapped value] ∧
      (P'.params p).m_str_value = unwrapped value) := by
  refine ⟨check_param_runs_process_def P p, check_param_skips_process_def P p, ?_⟩
  intro P0 P1 P' argv pre post l1 l2 name value f hb hA hT hpre hw hn hcp hv hflag hne hset
    horder h1 h2 hparse
  have hq := parse_ok_exh P0 P' argv hparse
  have hparse' : P.parse_args (pre ++ name :: value :: post) = (.ok (), P') := by
    rw [← hparse]
    rcases hb with ⟨h, hm, prog, hargv⟩ | ⟨c, cname, prog, h, hmode, hbp, hc, hargv⟩
    · rw [h, hargv]
      exact (parse_scanning P0 prog _ hq hm).symm
    · rw [h, hargv, parse_select P0 prog cname _ c hq hmode hbp hc]
      exact (parse_scanning (select P0 c) cname _ hq (select_scanning P0 c)).symm
  obtain ⟨Ps, hscan, _, hpass⟩ := parse_args_ok P P' _ hparse'
  have hTpre : ∀ t ∈ pre, utils.is_param t = true → P.get_current_param t ≠ some p :=
    fun t ht => hT t (List.mem_append_left post ht)
  have hTpost : ∀ t ∈ post, utils.is_param t = true → P.get_current_param t ≠ some p :=
    fun t ht => hT t (List.mem_append_right pre ht)
  have hH := scan_keeps_param P p (P.params p) pre P hTpre ⟨sameDecl_refl P, rfl, hA⟩
  rw [hpre] at hH
  obtain ⟨hd1, hp1, _⟩ := hH
  have hcp1 : P1.get_current_param name = some p := (hd1.get_current_param name).trans hcp
  have hf1 : (P1.params p).m_is_flag = false := by rw [hp1]; exact hflag
  rw [scan_append pre _ P P1 hpre] at hscan
  obtain ⟨hproc, hact⟩ := scan_supplied_value_ok P1 Ps p name value post hw hn hcp1 hf1 hv hscan
  have hps : Ps.params p = ((P.params p).process (unwrapped value)).2 := by
    have := scan_supplied_value P P1 p name value post hd1 hw hn hcp1 hf1 hact hv hTpost
    rw [hscan, hp1] at this
    exact this
  rw [hp1] at hproc
  have hds : SameDecl P Ps := by
    have := scan_sameDecl P1 (name :: value :: post)
    rw [hscan] at this
    exact sameDecl_trans hd1 this
  have hconf := hds.conf p
  have hloop := check_consistency_ok Ps P' hpass
  rw [hds.cur_groups, params_in_order_congr hds.groups, horder] at hloop
  obtain ⟨hfin, hdef⟩ := check_params_reprocesses l1 l2 p Ps P' h1 h2
    (by unfold Param.is_flag; rw [hconf.is_flag]; exact hflag)
    (by unfold Param.get_def; rw [hconf.default]; exact hne) hloop
  have hres := Param.process_def_ok (Ps.params p) hdef
  have hsetter : (Ps.params p).c_setter = some f := by rw [hconf.setter]; exact hset
  have hval : (Ps.params p).m_str_value = unwrapped value := by
    rw [hps]
    exact Param.process_str_value _ _
  have htrace : (Ps.params p).setter_trace = (P.params p).setter_trace ++ [unwrapped value] := by
    rw [hps, Param.process_setter_trace _ _ hproc, hset]
    rfl
  refine ⟨?_, ?_⟩
  · rw [hfin, hres.2.2, hsetter, hval, htrace]
    simp
  · rw [hfin, hres.1, hval]

/-- Witness of C29, amended, on `with_default "out"`: after the scan of `-o x`
the parameter `-o` is set, and the loop body of the pass calls `process_def`
on it; the parse of `-o x` returns with the setter called twice with "x". -/
theorem pass_reprocesses_set_param_witness :
    (((Scenario.with_default "out".toList).scan ["-o".toList, "x".toList]).2.params 0).is_set
      = true ∧
    (((Scenario.with_default "out".toList).scan ["-o".toList, "x".toList]).2.check_param 0).2 =
      { ((Scenario.with_default "out".toList).scan ["-o".toList, "x".toList]).2 with
        params := store
          ((Scenario.with_default "out".toList).scan ["-o".toList, "x".toList]).2.params 0
          (((Scenario.with_default "out".toList).scan
            ["-o".toList, "x".toList]).2.params 0).process_def.2 } ∧
    (((Scenario.with_default "out".toList).parse
      ["cmd".toList, "-o".toList, "x".toList]).2.params 0).setter_trace =
      ((Scenario.with_default "out".toList).params 0).setter_trace ++
        [unwrapped "x".toList, unwrapped "x".toList] :=
  ⟨by decide,
    (pass_reprocesses_set_param
      ((Scenario.with_default "out".toList).scan ["-o".toList, "x".toList]).2 0).1
      (by decide) (by decide) (by decide),
    ((pass_reprocesses_set_param (Scenario.with_default "out".toList) 0).2.2
      (Scenario.with_default "out".toList) (Scenario.with_default "out".toList)
      ((Scenario.with_default "out".toList).parse
        ["cmd".toList, "-o".toList, "x".toList]).2
      ["cmd".toList, "-o".toList, "x".toList] [] [] [] [] "-o".toList "x".toList
      { call := fun _ => .ok () }
      (Or.inl ⟨rfl, by decide, "cmd".toList, rfl⟩) (fun h => absurd h (by decide))
      (by decide) rfl (by decide) (by decide) (by decide) (by decide) (by decide) (by decide)
      rfl (by decide) (by decide) (by decide) (Prod.ext rfl rfl)).1⟩

/-- Counterexample to C30 as stated: the declarations of
`TEST(param, param_group)` queue two errors.  The check of `parse` prints
them and throws, and the queue holds the same two errors afterwards: a second
`parse` fails in the same way, and so does the parse of a correctly declared
parser declared afterwards in the same process, whose own declarations queue
nothing and whose parse of `-x 1` returns when the queue is empty. -/
theorem check_keeps_queue_counterexample :
    Scenario.duplicate_long.exh.length = 2 ∧
    Scenario.duplicate_long.exh.check = .error silentFailure ∧
    (Scenario.duplicate_long.parse ["cmd".toList]).1 = .error silentFailure ∧
    (Scenario.duplicate_long.parse ["cmd".toList]).2.exh = Scenario.duplicate_long.exh ∧
    ((Scenario.duplicate_long.parse ["cmd".toList]).2.parse ["cmd".toList]).1 =
      .error silentFailure ∧
    (Scenario.declared_after (Scenario.duplicate_long.parse ["cmd".toList]).2.exh).exh =
      Scenario.duplicate_long.exh ∧
    ((Scenario.declared_after (Scenario.duplicate_long.parse ["cmd".toList]).2.exh).parse
      ["cmd".toList, "-x".toList, "1".toList]).1 = .error silentFailure ∧
    (Scenario.declared_after []).exh = [] ∧
    ((Scenario.declared_after []).parse ["cmd".toList, "-x".toList, "1".toList]).1 = .ok () := by
  refine ⟨by decide, rfl, rfl, by decide, rfl, by decide, rfl, by decide, rfl⟩

/-- C30, amended: `ExHandler::check` throws `BCliError("", "", Failure)` exactly
when the queue is not empty, and leaves the queue as it is: after the check of
`parse` the queue of the process is the one before it, so that, once an error
is queued, every later `parse` in the process fails at its check until
`clear` is called, which is what empties the queue.  `throw_last` removes the
most recent queued error, leaves the others, and throws the one it removed;
on an empty queue it does nothing. -/
theorem check_keeps_queue (h : ExHandler) (P : Parser) (argv : List Str) :
    (h.check = .ok () ↔ h = []) ∧
    (h ≠ [] → h.check = .error silentFailure) ∧
    P.exh_check.1 = P.exh.check ∧
    P.exh_check.2.exh = P.exh ∧
    (P.exh ≠ [] →
      (P.parse argv).1 = .error silentFailure ∧ (P.parse argv).2.exh = P.exh ∧
      ∀ argv2, ((P.parse argv).2.parse argv2).1 = .error silentFailure) ∧
    h.clear = [] ∧
    (∀ e, ExHandler.throw_last (h ++ [e]) = (.error e, h)) ∧
    ExHandler.throw_last [] = (.ok (), []) := by
  refine ⟨?_, ?_, ?_, ?_, ?_, rfl, ?_, rfl⟩
  · cases h with
    | nil => simp [ExHandler.check]
    | cons e es => simp [ExHandler.check]
  · intro hne
    cases h with
    | nil => exact absurd rfl hne
    | cons e es => rfl
  · unfold exh_check
    cases P.exh.check <;> rfl
  · unfold exh_check
    cases P.exh.check <;> rfl
  · intro hq
    have h1 := parse_queue_not_empty P argv hq
    have h2 : (P.parse argv).2.exh = P.exh := by rw [h1]
    refine ⟨by rw [h1], h2, fun argv2 => ?_⟩
    rw [parse_queue_not_empty (P.parse argv).2 argv2 (by rw [h2]; exact hq)]
  · intro e
    simp [ExHandler.throw_last]

/-- Witness of C30, amended: `TEST(param, command)` and `TEST(param, make)`.  With
the two errors of `TEST(param, param_group)` queued, `throw_last` throws the
second one and leaves the first; `parse` fails and leaves both; after `clear`
the queue is empty and `throw_last` throws nothing. -/
theorem check_keeps_queue_witness :
    ExHandler.throw_last Scenario.duplicate_long.exh =
      (.error (AlreadyExistsError "-o/--param already exists in group global".toList),
        Scenario.duplicate_short.exh) ∧
    (Scenario.duplicate_long.parse ["cmd".toList]).2.exh = Scenario.duplicate_long.exh ∧
    ExHandler.throw_last (ExHandler.clear Scenario.duplicate_long.exh) = (.ok (), []) :=
  have hx : Scenario.duplicate_long.exh = Scenario.duplicate_short.exh ++
      [AlreadyExistsError "-o/--param already exists in group global".toList] := by decide
  have h := check_keeps_queue Scenario.duplicate_short.exh Scenario.duplicate_long
    ["cmd".toList]
  ⟨(congrArg ExHandler.throw_last hx).trans (h.2.2.2.2.2.2.1 _),
    (h.2.2.2.2.1 (by decide)).2.1, rfl⟩

/-- C33: token classification.  For every string `s`: `is_param(s)` holds
exactly when `s` starts with a dash, `is_long_param(s)` exactly when it
starts with two dashes, `is_short_param(s)` exactly when it starts with a
dash but not with two, so that no string is both a short and a long form;
`trim_param(s)` is `s` without all its leading dashes, it is idempotent and
its result never starts with a dash. -/
theorem token_classification (s : Str) :
    (utils.is_param s = true ↔ ∃ r, s = '-' :: r) ∧
    (utils.is_long_param s = true ↔ ∃ r, s = '-' :: '-' :: r) ∧
    (utils.is_short_param s = true ↔ (∃ r, s = '-' :: r) ∧ ¬ ∃ r, s = '-' :: '-' :: r) ∧
    ¬ (utils.is_short_param s = true ∧ utils.is_long_param s = true) ∧
    utils.trim_param s = s.dropWhile (fun c => c == '-') ∧
    utils.trim_param (utils.trim_param s) = utils.trim_param s ∧
    (∀ r, utils.trim_param s ≠ '-' :: r) ∧
    utils.is_param (utils.trim_param s) = false := by
  refine ⟨is_param_iff_cons s, is_long_param_iff s, is_short_param_iff s, ?_,
    trim_param_eq_dropWhile s, utils.trim_param_idem s, trim_param_no_dash s, ?_⟩
  · rintro ⟨h1, h2⟩
    exact ((is_short_param_iff s).mp h1).2 ((is_long_param_iff s).mp h2)
  · cases h : utils.is_param (utils.trim_param s) with
    | false => rfl
    | true =>
      obtain ⟨r, hr⟩ := (is_param_iff_cons _).mp h
      exact absurd hr (trim_param_no_dash s r)

/-- Witness of C33: `TEST(utils, params)` and `TEST(utils, trim_params)`. -/
theorem token_classification_witness :
    utils.is_param "-t".toList = true ∧ utils.is_param "--test".toList = true ∧
    utils.is_long_param "--test".toList = true ∧ utils.is_short_param "-t".toList = true ∧
    utils.is_long_param "-t".toList = false ∧ utils.is_short_param "--test".toList = false ∧
    utils.trim_param "-t".toList = "t".toList ∧
    utils.trim_param "--test".toList = "test".toList :=
  ⟨(token_classification "-t".toList).1.mpr ⟨"t".toList, rfl⟩,
    (token_classification "--test".toList).1.mpr ⟨"-test".toList, rfl⟩,
    (token_classification "--test".toList).2.1.mpr ⟨"test".toList, rfl⟩,
    (token_classification "-t".toList).2.2.1.mpr ⟨⟨"t".toList, rfl⟩, fun ⟨r, hr⟩ => by simp at hr⟩,
    by decide, by decide,
    (token_classification "-t".toList).2.2.2.2.1.trans (by decide),
    (token_classification "--test".toList).2.2.2.2.1.trans (by decide)⟩

/-- C40: `split` and `join`, for a delimiter character `c`.  For every list
`v` of non-empty strings none of which holds `c`, `split(join(v, c), c)` is
`v`.  `join(v, d)` is the elements of `v` with `d` between them (nothing for
the empty list).  For every string `s` that does not end with `c`,
`join(split(s, c), c)` is `s`.  `split` drops one empty field at the end: the
fields `v` (empty ones allowed) followed by an empty field are read back as
`v`, and a delimiter added at the end of a non-empty string that does not
end with one changes nothing. -/
theorem split_join_inverse (c : Char) :
    (∀ v : List Str, (∀ x ∈ v, x ≠ [] ∧ c ∉ x) → utils.split (utils.join v [c]) c = v) ∧
    (∀ (v : List Str) (d : Str), utils.join v d = d.intercalate v) ∧
    (∀ d : Str, utils.join [] d = []) ∧
    (∀ s : Str, s.getLast? ≠ some c → utils.join (utils.split s c) [c] = s) ∧
    (∀ v : List Str, (∀ x ∈ v, c ∉ x) → utils.split (utils.join (v ++ [[]]) [c]) c = v) ∧
    (∀ s : Str, s ≠ [] → s.getLast? ≠ some c →
      utils.split (s ++ [c]) c = utils.split s c) := by
  refine ⟨split_join_fields c, join_eq_intercalate, fun _ => rfl, ?_,
    split_join_trailing_empty c, ?_⟩
  · intro s hs
    exact join_splitLoop c s [] (by simpa using hs)
  · intro s hne hs
    exact splitLoop_trailing c s [] (by simpa using hne) (by simpa using hs)

/-- Witness of C40: `TEST(utils, split)` and `TEST(utils, join)`. -/
theorem split_join_inverse_witness :
    utils.split "-t|--test".toList '|' = ["-t".toList, "--test".toList] ∧
    utils.join ["a".toList, "b".toList] "|".toList = "a|b".toList ∧
    utils.join (utils.split "-t|--test".toList '|') "|".toList = "-t|--test".toList ∧
    utils.split "a|b|".toList '|' = ["a".toList, "b".toList] :=
  ⟨(split_join_inverse '|').1 ["-t".toList, "--test".toList] (by decide),
    ((split_join_inverse '|').2.1 ["a".toList, "b".toList] "|".toList).trans (by decide),
    (split_join_inverse '|').2.2.2.1 "-t|--test".toList (by decide),
    (split_join_inverse '|').2.2.2.2.1 ["a".toList, "b".toList] (by decide)⟩

/-- C32, the code and the spec side by side.  `is_number(p, v)` returns, with
the message "[p v] ~ Not a number!", true exactly when `v` is not empty and,
once its first dash is removed, wherever it stands, holds only digits and
dots.  Every value of the form the spec calls a number (`number_form`) is
accepted, and "123456789A" is rejected; but the values "-", ".", "-.",
"1.2.3", "1-2" and "12-", none of which is of that form, are accepted
too. -/
theorem is_number_accepts_non_numbers (p v : Str) :
    check.is_number p v =
      .ok (!v.isEmpty && (v.erase '-').all (fun c => c.isDigit || c == '.'),
        "[".toList ++ p ++ " ".toList ++ v ++ "] ~ Not a number!".toList) ∧
    (number_form v = true → ∃ m, check.is_number p v = .ok (true, m)) ∧
    check.is_number "--param".toList "123456789".toList =
      .ok (true, "[--param 123456789] ~ Not a number!".toList) ∧
    check.is_number "--param".toList "123456789A".toList =
      .ok (false, "[--param 123456789A] ~ Not a number!".toList) ∧
    (number_form "-".toList = false ∧
      check.is_number "--param".toList "-".toList =
        .ok (true, "[--param -] ~ Not a number!".toList)) ∧
    (number_form ".".toList = false ∧
      check.is_number "--param".toList ".".toList =
        .ok (true, "[--param .] ~ Not a number!".toList)) ∧
    (number_form "-.".toList = false ∧
      check.is_number "--param".toList "-.".toList =
        .ok (true, "[--param -.] ~ Not a number!".toList)) ∧
    (number_form "1.2.3".toList = false ∧
      check.is_number "--param".toList "1.2.3".toList =
        .ok (true, "[--param 1.2.3] ~ Not a number!".toList)) ∧
    (number_form "1-2".toList = false ∧
      check.is_number "--param".toList "1-2".toList =
        .ok (true, "[--param 1-2] ~ Not a number!".toList)) ∧
    (number_form "12-".toList = false ∧
      check.is_number "--param".toList "12-".toList =
        .ok (true, "[--param 12-] ~ Not a number!".toList)) := by
  have hcode : check.is_number p v =
      .ok (!v.isEmpty && (v.erase '-').all (fun c => c.isDigit || c == '.'),
        "[".toList ++ p ++ " ".toList ++ v ++ "] ~ Not a number!".toList) := by
    unfold check.is_number utils.format_error
    rw [is_number_loop_erase]
    cases v with
    | nil => simp
    | cons c v => simp
  refine ⟨hcode, ?_, rfl, rfl, ⟨by decide, rfl⟩, ⟨by decide, rfl⟩, ⟨by decide, rfl⟩,
    ⟨by decide, rfl⟩, ⟨by decide, rfl⟩, ⟨by decide, rfl⟩⟩
  intro hform
  refine ⟨"[".toList ++ p ++ " ".toList ++ v ++ "] ~ Not a number!".toList, ?_⟩
  rw [hcode]
  have hall : ∀ body : Str, body.all (fun c => c.isDigit || c == '.') = true →
      (body.erase '-').all (fun c => c.isDigit || c == '.') = true := by
    intro body hb
    rw [List.all_eq_true] at hb ⊢
    intro x hx
    exact hb x (List.mem_of_mem_erase hx)
  have hacc : (!v.isEmpty && (v.erase '-').all (fun c => c.isDigit || c == '.')) = true := by
    unfold number_form at hform
    simp only [Bool.and_eq_true] at hform
    obtain ⟨⟨h1, _⟩, h3⟩ := hform
    cases v with
    | nil => simp at h3
    | cons c r =>
      by_cases hc : c = '-'
      · subst hc
        simp only [List.isEmpty_cons, Bool.not_false, Bool.true_and, List.erase_cons_head]
        exact h1
      · have hbody : (if (c :: r).head? = some '-' then (c :: r).tail else c :: r) = c :: r := by
          simp [hc]
        rw [hbody] at h1
        simp only [List.isEmpty_cons, Bool.not_false, Bool.true_and]
        exact hall _ h1
  rw [hacc]

/-- C31: let a value be awaited for the parameter `cp` and let the token `t`
not look like a parameter, so that it is consumed as the value.  If `t` is
"[-", then `m`, then "]", the stored value is "-" followed by `m`, that is
`t` without its first and last character; otherwise the stored value is `t`
unchanged, and this whether or not the processing of the value then throws.
A token taken as a positional is appended as it is. -/
theorem awaited_value_is_unwrapped (P : Parser) (t : Str) (cp : Nat)
    (hw : P.m_is_param = true) (hcp : P.get_current_param P.m_current = some cp)
    (ht : utils.is_param t = false) :
    (∀ m, t = '[' :: '-' :: (m ++ [']']) →
      ((P.process_arg t).2.params cp).m_str_value = '-' :: m ∧
      '-' :: m = (t.drop 1).dropLast) ∧
    ((¬ ∃ m, t = '[' :: '-' :: (m ++ [']'])) →
      ((P.process_arg t).2.params cp).m_str_value = t) ∧
    (P.process_arg t).1 =
      (match ((P.params cp).process ((P.process_arg t).2.params cp).m_str_value).1 with
        | .error e => .error e
        | .ok () => .ok Action.Nothing) ∧
    (∀ (Q : Parser) (a : Str), Q.m_is_param = false → utils.is_param a = false →
      (Q.process_arg a).2.get_positionals = Q.get_positionals ++ [a]) := by
  have hstep := process_arg_value P t cp ht hw hcp
  have hval : ((P.process_arg t).2.params cp).m_str_value = unwrapped t := by
    rw [hstep]
    simp only [store_same]
    exact Param.process_str_value _ _
  refine ⟨?_, ?_, ?_, ?_⟩
  · intro m hm
    refine ⟨?_, ?_⟩
    · rw [hval, hm, unwrapped_bracketed]
    · rw [hm]
      show '-' :: m = (('-' :: m) ++ [']']).dropLast
      rw [List.dropLast_concat]
  · intro hnb
    rw [hval, unwrapped_not_bracketed t hnb]
  · rw [hval, hstep]
  · intro Q a hq ha
    rw [process_arg_positional Q a ha hq]
    simp [get_positionals, store_same, Command.push_positionals, Command.get_positionals]
    split <;> rfl

/-- Witness of C31, in the parser of `TEST(Parser, simple)` once `-p` has been
read: the token "[-5]" is stored as "-5", the token "[abc]" as "[abc]"; read
as a positional, "[-5]" is kept as it is. -/
theorem awaited_value_is_unwrapped_witness :
    (Scenario.simple.scan ["-p".toList]).2.m_is_param = true ∧
    (((Scenario.simple.scan ["-p".toList]).2.process_arg "[-5]".toList).2.params 0).m_str_value
      = "-5".toList ∧
    (((Scenario.simple.scan ["-p".toList]).2.process_arg "[abc]".toList).2.params
      0).m_str_value = "[abc]".toList ∧
    (Scenario.simple.process_arg "[-5]".toList).2.get_positionals = ["[-5]".toList] :=
  have h5 := awaited_value_is_unwrapped (Scenario.simple.scan ["-p".toList]).2 "[-5]".toList 0
    (by decide) (by decide) (by decide)
  have ha := awaited_value_is_unwrapped (Scenario.simple.scan ["-p".toList]).2 "[abc]".toList 0
    (by decide) (by decide) (by decide)
  ⟨by decide, (h5.1 "5".toList rfl).1,
    ha.2.1 (fun ⟨m, hm⟩ => by
      have h1 := (List.cons.inj hm).2
      have h2 := (List.cons.inj h1).1
      exact absurd h2 (by decide)),
    (h5.2.2.2 Scenario.simple "[-5]".toList (by decide) (by decide)).trans (by decide)⟩

/-- C37: let the token `t` start with a dash and let no group of the active
command know the name `t` gives once its leading dashes are removed.  The
step on `t` throws `InvalidParamError` with the message "Unknown param: ",
then `t`, then ".", and leaves the state as it is, whether or not a value is
awaited; a scan that reaches `t` stops there with that error, and so does
`parse`.  `ParamGroup::add` never registers the empty name, which is what
"-" and "--" are trimmed to.

Hence: a step on a token that starts with a dash appends no positional and
writes no value but the sentinel of a flag; a step that consumes a token as a
value has a token that does not start with a dash, stored as it is unless it
is bracketed; and the scan keeps the positionals free of tokens that start
with a dash. -/
theorem unknown_dash_token_raises (P : Parser) (t : Str) (ht : ∃ r, t = '-' :: r)
    (hx : ∀ g ∈ P.cur_groups,
      UMap.find (P.groups g).m_params (utils.trim_param t) = none) :
    P.process_arg t =
      (.error (InvalidParamError ("Unknown param: ".toList ++ t ++ ".".toList)), P) ∧
    (∀ (P0 : Parser) (pre rest : List Str), P0.scan pre = (.ok (), P) →
      P0.scan (pre ++ t :: rest) =
        (.error (InvalidParamError ("Unknown param: ".toList ++ t ++ ".".toList)), P) ∧
      P0.parse_args (pre ++ t :: rest) =
        (.error (InvalidParamError ("Unknown param: ".toList ++ t ++ ".".toList)), P) ∧
      ((!P0.m_is_cmd_mode || P0.m_bypass) = true → P0.exh = [] → ∀ prog,
        P0.parse (prog :: (pre ++ t :: rest)) =
          (.error (InvalidParamError ("Unknown param: ".toList ++ t ++ ".".toList)), P))) ∧
    (∀ (g : ParamGroup) (h : Nat) (p : Param) (exh : ExHandler),
      UMap.find (g.add h p exh).1.m_params [] = UMap.find g.m_params []) ∧
    (∀ (Q : Parser) (a : Str), (∃ r, a = '-' :: r) →
      (Q.process_arg a).2.get_positionals = Q.get_positionals ∧
      ∀ h, ((Q.process_arg a).2.params h).m_str_value = (Q.params h).m_str_value ∨
        ((Q.process_arg a).2.params h).m_str_value = FLAG_VALUE) ∧
    (∀ (Q : Parser) (a : Str) (cp : Nat), Q.m_is_param = true →
      Q.get_current_param Q.m_current = some cp →
      (Q.process_arg a).1 = .ok Action.Nothing →
      (¬ ∃ r, a = '-' :: r) ∧
      ((¬ ∃ m, a = '[' :: '-' :: (m ++ [']'])) →
        ((Q.process_arg a).2.params cp).m_str_value = a)) ∧
    (∀ (Q : Parser) (toks : List Str),
      (∀ x ∈ Q.get_positionals, ¬ ∃ r, x = '-' :: r) →
      ∀ x ∈ (Q.scan toks).2.get_positionals, ¬ ∃ r, x = '-' :: r) := by
  have hp : utils.is_param t = true := (is_param_iff_cons t).mpr ht
  have hstep := process_arg_unknown P t hp ((pexists_false_iff P t).mpr hx)
  refine ⟨hstep, ?_, group_add_empty_key, ?_, ?_, ?_⟩
  · intro P0 pre rest hpre
    have hscan := scan_error_at P0 P pre rest t _ hpre (by rw [hstep])
    rw [hstep] at hscan
    refine ⟨hscan, parse_args_scan_error P0 _ _ _ hscan, ?_⟩
    intro hm hq prog
    rw [parse_scanning P0 prog _ hq hm]
    exact parse_args_scan_error P0 _ _ _ hscan
  · intro Q a ha
    exact process_arg_dash_token Q a ((is_param_iff_cons a).mpr ha)
  · intro Q a cp hw hcp hok
    have hna : utils.is_param a = false := by
      cases hpa : utils.is_param a with
      | false => rfl
      | true =>
        by_cases hex : Q.pexists a = true
        · rw [process_arg_awaited Q a hpa hex hw] at hok
          simp at hok
        · rw [process_arg_unknown Q a hpa (by simpa using hex)] at hok
          simp at hok
    refine ⟨fun h => ?_, fun hnb => ?_⟩
    · rw [(is_param_iff_cons a).mpr h] at hna
      exact absurd hna (by decide)
    · rw [process_arg_value Q a cp hna hw hcp]
      simp only [store_same]
      rw [Param.process_str_value, unwrapped_not_bracketed a hnb]
  · intro Q toks hQ x hx hdash
    have h1 : ∀ y ∈ Q.get_positionals, utils.is_param y = false := by
      intro y hy
      cases hpy : utils.is_param y with
      | false => rfl
      | true => exact absurd ((is_param_iff_cons y).mp hpy) (hQ y hy)
    have := scan_positionals_no_dash Q toks h1 x hx
    rw [(is_param_iff_cons x).mpr hdash] at this
    exact absurd this (by decide)

/-- Witness of C37, in the parser of `TEST(Parser, simple)`: the tokens "-5",
"-" and "--" are unknown parameters, also "-5" after `-p`, when a value is
awaited. -/
theorem unknown_dash_token_raises_witness :
    Scenario.simple.process_arg "-5".toList =
      (.error (InvalidParamError "Unknown param: -5.".toList), Scenario.simple) ∧
    Scenario.simple.process_arg "-".toList =
      (.error (InvalidParamError "Unknown param: -.".toList), Scenario.simple) ∧
    Scenario.simple.process_arg "--".toList =
      (.error (InvalidParamError "Unknown param: --.".toList), Scenario.simple) ∧
    (Scenario.simple.scan ["-p".toList]).2.m_is_param = true ∧
    Scenario.simple.parse ["cmd".toList, "-p".toList, "-5".toList, "pos".toList] =
      (.error (InvalidParamError "Unknown param: -5.".toList),
        (Scenario.simple.scan ["-p".toList]).2) :=
  ⟨(unknown_dash_token_raises Scenario.simple "-5".toList ⟨"5".toList, rfl⟩ (by decide)).1,
    (unknown_dash_token_raises Scenario.simple "-".toList ⟨[], rfl⟩ (by decide)).1,
    (unknown_dash_token_raises Scenario.simple "--".toList ⟨"-".toList, rfl⟩ (by decide)).1,
    by decide,
    ((unknown_dash_token_raises (Scenario.simple.scan ["-p".toList]).2 "-5".toList
      ⟨"5".toList, rfl⟩ (by decide)).2.1 Scenario.simple ["-p".toList] ["pos".toList]
      (Prod.ext rfl rfl)).2.2 (by decide) (by decide) "cmd".toList⟩

/-- C38: let the groups of the current command be `pre`, then `g1`, then
`post`, let no group of `pre` know the name `k` gives once its leading dashes
are removed, and let `g1` map that name to the handle `h1`.  Then `getp` and
`get_current_param` (the scanner) both resolve `k` to `h1`, whatever the
groups of `post` hold, at the start and in the state any scan or parse of any
token list leaves.  A parameter `h2` that a group of `post` maps the same
name to is never what `getp` returns for a name with that trimmed form, and
every handle `getp` returns is the entry of the first group that knows the
name.  Declaring a name known to another group queues no error:
`ParamGroup::add` looks at the names of its own group only. -/
theorem first_group_wins (P : Parser) (k : Str) (pre post : List Nat) (g1 h1 : Nat)
    (hgs : P.cur_groups = pre ++ g1 :: post)
    (hpre : ∀ g ∈ pre, UMap.find (P.groups g).m_params (utils.trim_param k) = none)
    (hfind : UMap.find (P.groups g1).m_params (utils.trim_param k) = some h1) :
    P.getp k = some h1 ∧ P.get_current_param k = some h1 ∧
    (∀ toks : List Str, (P.scan toks).2.get_current_param k = some h1 ∧
      (P.scan toks).2.getp k = some h1 ∧
      (P.parse_args toks).2.getp k = some h1) ∧
    (∀ h2 n, h2 ≠ h1 → utils.trim_param n = utils.trim_param k → P.getp n ≠ some h2) ∧
    (∀ n h, P.getp n = some h →
      ∃ pre2 g post2, P.cur_groups = pre2 ++ g :: post2 ∧
        (∀ g2 ∈ pre2, UMap.find (P.groups g2).m_params (utils.trim_param n) = none) ∧
        UMap.find (P.groups g).m_params (utils.trim_param n) = some h) ∧
    (∀ (g : ParamGroup) (h : Nat) (p : Param) (exh : ExHandler),
      UMap.find g.m_params p.idx.1 = none → UMap.find g.m_params p.idx.2 = none →
      (g.add h p exh).2 = exh) := by
  have hget : P.getp k = some h1 := by
    unfold getp
    rw [hgs]
    exact getpLoop_first P _ (utils.trim_param_idem k) h1 pre post g1 hpre hfind
  refine ⟨hget, hget, ?_, ?_, ?_, group_add_no_error⟩
  · intro toks
    refine ⟨?_, ?_, ?_⟩
    · rw [(scan_sameDecl P toks).get_current_param]; exact hget
    · rw [(scan_sameDecl P toks).getp]; exact hget
    · rw [(parse_args_sameDecl P toks).getp]; exact hget
  · intro h2 n hne htrim hn
    have : P.getp n = P.getp k := by
      unfold getp
      rw [htrim]
    rw [this, hget] at hn
    exact hne (Option.some.inj hn).symm
  · intro n h hn
    exact getpLoop_some P _ (utils.trim_param_idem n) h P.cur_groups hn

/-- Witness of C38: example `04_bcli_deps_bans`, where the default group
declares `-d` with the long name `--dep` (handle 1) and the common group
declares `-d` with the long name `--debug` (handle 5), and no error is
queued.  The name `d` resolves to the parameter of the default group, also
after the scan of `-d 8`, which stores "8" there; the flag of the common
group is reached through `debug` only. -/
theorem first_group_wins_witness :
    Scenario.ex04.exh = [] ∧
    (Scenario.ex04.params 1).idx = ("d".toList, "dep".toList) ∧
    (Scenario.ex04.params 5).idx = ("d".toList, "debug".toList) ∧
    Scenario.ex04.getp "-d".toList = some 1 ∧
    (Scenario.ex04.scan ["-d".toList, "8".toList]).2.get_current_param "-d".toList = some 1 ∧
    ((Scenario.ex04.scan ["-d".toList, "8".toList]).2.params 1).value = "8".toList ∧
    ((Scenario.ex04.scan ["-d".toList, "8".toList]).2.params 5).is_set = false ∧
    Scenario.ex04.getp "d".toList ≠ some 5 ∧
    Scenario.ex04.getp "--debug".toList = some 5 :=
  have h := first_group_wins Scenario.ex04 "-d".toList [] [1] 0 1 (by decide)
    (fun g hg => absurd hg (List.not_mem_nil g)) (by decide)
  ⟨by decide, by decide, by decide, h.1, (h.2.2.1 ["-d".toList, "8".toList]).1, by decide,
    by decide, h.2.2.2.1 5 "d".toList (by decide) (by decide),
    (first_group_wins Scenario.ex04 "--debug".toList [0] [] 1 5 (by decide) (by decide)
      (by decide)).1⟩

/-- C39: two successive calls of `parse` that return, on the same simple-mode
parser: `P1` is the state after the first call, on the tokens `toks1`, and
`P2` the state after the second, on the tokens `toks2`.  Nothing is reset in
between: the positional list after the second call is the list after the
first call followed by the positional tokens of `toks2` (on a fresh parser,
the positional tokens of `toks1` followed by those of `toks2`), and a
parameter that is set after the first call is set after the second; it
stays set through any later scan and pass, however they end, so that in no
state of a later pass the test that raises `RequiredParamError` holds for
it. -/
theorem parse_state_is_kept (P P1 P2 : Parser) (prog1 prog2 : Str) (toks1 toks2 : List Str)
    (hmode : P.m_is_cmd_mode = false)
    (h1 : P.parse (prog1 :: toks1) = (.ok (), P1))
    (h2 : P1.parse (prog2 :: toks2) = (.ok (), P2)) :
    P2.get_positionals = P1.get_positionals ++ positional_tokens P toks2 ∧
    (P.m_is_param = false →
      P1.get_positionals = P.get_positionals ++ positional_tokens P toks1) ∧
    (P.m_is_param = false → P.get_positionals = [] →
      P2.get_positionals = positional_tokens P toks1 ++ positional_tokens P toks2) ∧
    (∀ h, (P.params h).is_set = true → (P1.params h).is_set = true) ∧
    (∀ h, (P1.params h).is_set = true → (P2.params h).is_set = true) ∧
    (∀ h, (P1.params h).is_set = true → ∀ (prog : Str) (toks : List Str),
      ((P1.scan toks).2.params h).is_set = true ∧
      ((P1.parse (prog :: toks)).2.params h).is_set = true ∧
      ∀ R, ParamsOnly (P1.scan toks).2 R →
        ((R.params h).is_required && !(R.params h).is_set) = false) := by
  have hm : (!P.m_is_cmd_mode || P.m_bypass) = true := by simp [hmode]
  have hq := parse_ok_exh P P1 _ h1
  rw [parse_scanning P prog1 toks1 hq hm] at h1
  obtain ⟨hw1, hd1, Ps1, hscan1, hpos1⟩ := parse_args_ok_fields P P1 toks1 h1
  have hm1 : (!P1.m_is_cmd_mode || P1.m_bypass) = true := by
    rw [hd1.cmd_mode, hd1.bypass]; exact hm
  have hq1 : P1.exh = [] := by rw [hd1.exh]; exact hq
  rw [parse_scanning P1 prog2 toks2 hq1 hm1] at h2
  obtain ⟨hw2, hd2, Ps2, hscan2, hpos2⟩ := parse_args_ok_fields P1 P2 toks2 h2
  have hp2 : P2.get_positionals = P1.get_positionals ++ positional_tokens P toks2 := by
    rw [hpos2, scan_positionals_from P1 toks2 P1 Ps2 none (sameDecl_refl P1) hw1 hscan2]
    unfold positional_tokens
    rw [positional_tokens_from_congr hd1]
  have hp1 : P.m_is_param = false →
      P1.get_positionals = P.get_positionals ++ positional_tokens P toks1 := by
    intro hw
    rw [hpos1, scan_positionals_from P toks1 P Ps1 none (sameDecl_refl P) hw hscan1]
    rfl
  have hset1 : ∀ h, (P.params h).is_set = true → (P1.params h).is_set = true := by
    intro h hs
    have := parse_args_set_mono P toks1 h hs
    rw [h1] at this
    exact this
  have hset2 : ∀ h, (P1.params h).is_set = true → (P2.params h).is_set = true := by
    intro h hs
    have := parse_args_set_mono P1 toks2 h hs
    rw [h2] at this
    exact this
  refine ⟨hp2, hp1, ?_, hset1, hset2, ?_⟩
  · intro hw hpos
    rw [hp2, hp1 hw, hpos, List.nil_append]
  · intro h hs prog toks
    have hscan := scan_set_mono P1 toks h hs
    refine ⟨hscan, ?_, ?_⟩
    · rw [parse_scanning P1 prog toks hq1 hm1]
      exact parse_args_set_mono P1 toks h hs
    · intro R hR
      have : (R.params h).is_set = true := hR.set_mono h hscan
      rw [this]
      simp

/-- Witness of C39: the parser of `TEST(Parser, simple)`, where `-p` and `-t`
are required.  A first call on `-p 10 pos1 -t strvalue -f pos2 pos3`, then a
second one on `pos4` alone: the second call returns although it supplies
neither `-p` nor `-t` (on the fresh parser that command line raises
`RequiredParamError`), and the positional list is then that of the first call
followed by "pos4". -/
theorem parse_state_is_kept_witness :
    (Scenario.simple.params 0).is_required = true ∧
    (thrown (Scenario.simple.parse ["cmd".toList, "pos4".toList]).1).map (fun e => e.name) =
      some "RequiredParamError".toList ∧
    ((Scenario.simple.parse ("cmd".toList :: Scenario.simple_args)).2.parse
      ["cmd".toList, "pos4".toList]).1 = .ok () ∧
    ((Scenario.simple.parse ("cmd".toList :: Scenario.simple_args)).2.parse
      ["cmd".toList, "pos4".toList]).2.get_positionals =
      ["pos1".toList, "pos2".toList, "pos3".toList, "pos4".toList] ∧
    (((Scenario.simple.parse ("cmd".toList :: Scenario.simple_args)).2.parse
      ["cmd".toList, "pos4".toList]).2.params 0).is_set = true :=
  have h := parse_state_is_kept Scenario.simple
    (Scenario.simple.parse ("cmd".toList :: Scenario.simple_args)).2
    ((Scenario.simple.parse ("cmd".toList :: Scenario.simple_args)).2.parse
      ["cmd".toList, "pos4".toList]).2
    "cmd".toList "cmd".toList Scenario.simple_args ["pos4".toList] (by decide)
    (Prod.ext rfl rfl) (Prod.ext rfl rfl)
  ⟨by decide, by decide, rfl, (h.2.2.1 (by decide) (by decide)).trans (by decide),
    h.2.2.2.2.1 0 (by decide)⟩

/-- C34: let `parse`, called on `P0` with the command line `argv`, scan the
tokens `pre ++ name :: value :: post` from the state `P` (the parser itself in
simple mode or once a command is selected; in multi-command mode, the parser
after the command named by the first token has been selected); let `name` be
the only token that names `p`, a parameter that is not a flag, has a
non-empty default and is visited once by the pass; let the scan of `pre`
complete with no value awaited and `value` not look like a parameter.  When
the parse returns, the string value of `p` is the value taken from `value`
(its default is unchanged) and `p` is set.  The pass has processed that
value again: the object it leaves is the one `process_def` leaves on the
object the scan left, so the checkers, which accept the value, have run once
more, the setter, if any, has been called twice with the value, the trigger
callback has not been called by the pass (on a fresh parameter with an armed
callback it has been called once, by the scan), and the parameter is marked
as applied from its default. -/
theorem supplied_value_survives_pass (P0 P P1 P' : Parser) (argv pre post : List Str)
    (l1 l2 : List Nat) (name value : Str) (p : Nat)
    (hb : (P = P0 ∧ (!P0.m_is_cmd_mode || P0.m_bypass) = true ∧
        ∃ prog, argv = prog :: (pre ++ name :: value :: post)) ∨
      (∃ c cname prog, P = select P0 c ∧ P0.m_is_cmd_mode = true ∧ P0.m_bypass = false ∧
        P0.m_cmds.get cname = some c ∧
        argv = prog :: cname :: (pre ++ name :: value :: post)))
    (hA : P.m_is_param = true → P.get_current_param P.m_current ≠ some p)
    (hT : ∀ t ∈ pre ++ post, utils.is_param t = true → P.get_current_param t ≠ some p)
    (hpre : P.scan pre = (.ok (), P1)) (hw : P1.m_is_param = false)
    (hn : utils.is_param name = true) (hcp : P.get_current_param name = some p)
    (hv : utils.is_param value = false)
    (hflag : (P.params p).is_flag = false) (hne : (P.params p).get_def ≠ [])
    (horder : params_in_order P P.cur_groups = l1 ++ p :: l2) (h1 : p ∉ l1) (h2 : p ∉ l2)
    (hparse : P0.parse argv = (.ok (), P')) :
    (P'.params p).m_str_value = unwrapped value ∧
    (P'.params p).get_def = (P.params p).get_def ∧
    (P'.params p).is_set = true ∧
    P'.params p = (((P.params p).process (unwrapped value)).2.process_def).2 ∧
    Param.run_checkers (P.params p).m_raw_name (unwrapped value) (P.params p).c_checkers
      = .ok () ∧
    (∀ f, (P.params p).c_setter = some f →
      f (unwrapped value) = .ok () ∧
      (P'.params p).setter_trace =
        (P.params p).setter_trace ++ [unwrapped value, unwrapped value]) ∧
    ((P.params p).c_setter = none → (P'.params p).setter_trace = (P.params p).setter_trace) ∧
    (P'.params p).callback_trace =
      ((P.params p).process (unwrapped value)).2.callback_trace ∧
    ((P.params p).c_callback.isSome = true → (P.params p).m_callback_trigger = true →
      (P.params p).m_as_default = false →
      (P'.params p).callback_trace = (P.params p).callback_trace + 1) ∧
    (P'.params p).m_as_default = true := by
  have hq := parse_ok_exh P0 P' argv hparse
  have hparse' : P.parse_args (pre ++ name :: value :: post) = (.ok (), P') := by
    rw [← hparse]
    rcases hb with ⟨h, hm, prog, hargv⟩ | ⟨c, cname, prog, h, hmode, hbp, hc, hargv⟩
    · rw [h, hargv]
      exact (parse_scanning P0 prog _ hq hm).symm
    · rw [h, hargv, parse_select P0 prog cname _ c hq hmode hbp hc]
      exact (parse_scanning (select P0 c) cname _ hq (select_scanning P0 c)).symm
  obtain ⟨hproc, hdef, hfin⟩ := parse_args_supplied_default P P1 P' pre post l1 l2 name value p
    hA hT hpre hw hn hcp hv hflag hne horder h1 h2 hparse'
  have hok := Param.process_ok (P.params p) (unwrapped value) hproc
  have hval1 := Param.process_str_value (P.params p) (unwrapped value)
  have hconf1 := Param.process_sameConf (P.params p) (unwrapped value)
  have hres := Param.process_def_ok _ hdef
  have hconf2 := Param.process_def_sameConf ((P.params p).process (unwrapped value)).2
  have htr1 := Param.process_setter_trace (P.params p) (unwrapped value) hproc
  have hcb2 := Param.process_def_callback_trace ((P.params p).process (unwrapped value)).2
  rw [hfin]
  refine ⟨by rw [hres.1, hval1], ?_, hres.2.1, rfl, hok.1, ?_, ?_, hcb2, ?_,
    Param.process_def_as_default _ hdef⟩
  · unfold Param.get_def
    rw [hconf2.default, hconf1.default]
  · intro f hf
    refine ⟨hok.2.2 f hf, ?_⟩
    rw [hres.2.2, hconf1.setter, hf, hval1, htr1, hf]
    simp
  · intro hnone
    rw [hres.2.2, hconf1.setter, hnone, htr1, hnone]
    rfl
  · intro hcb htrig hfresh
    obtain ⟨cb, hcb'⟩ := Option.isSome_iff_exists.mp hcb
    rw [hcb2]
    exact Param.process_fires (P.params p) (unwrapped value) cb hcb' htrig hfresh hok.1 hok.2.2

/-- Witness of C34, on `with_callback`: the parameter `-s` has the default
"20", the checker `is_number` and a trigger callback.  After the parse of
`-s 5 pos`, which returns, its value is "5", it is marked as applied from its
default and its callback has been called once. -/
theorem supplied_value_survives_pass_witness :
    (Scenario.with_callback.params 0).get_def = "20".toList ∧
    (Scenario.with_callback.parse ["cmd".toList, "-s".toList, "5".toList, "pos".toList]).1 =
      .ok () ∧
    ((Scenario.with_callback.parse
      ["cmd".toList, "-s".toList, "5".toList, "pos".toList]).2.params 0).m_str_value =
      "5".toList ∧
    ((Scenario.with_callback.parse
      ["cmd".toList, "-s".toList, "5".toList, "pos".toList]).2.params 0).m_as_default = true ∧
    ((Scenario.with_callback.parse
      ["cmd".toList, "-s".toList, "5".toList, "pos".toList]).2.params 0).callback_trace =
      (Scenario.with_callback.params 0).callback_trace + 1 :=
  have h := supplied_value_survives_pass Scenario.with_callback Scenario.with_callback
    Scenario.with_callback
    (Scenario.with_callback.parse ["cmd".toList, "-s".toList, "5".toList, "pos".toList]).2
    ["cmd".toList, "-s".toList, "5".toList, "pos".toList] [] ["pos".toList] [] []
    "-s".toList "5".toList 0 (Or.inl ⟨rfl, by decide, "cmd".toList, rfl⟩)
    (fun h => absurd h (by decide)) (by decide) rfl (by decide) (by decide) (by decide)
    (by decide) (by decide) (by decide) (by decide) (by decide) (by decide)
    (Prod.ext rfl rfl)
  ⟨by decide, rfl, h.1.trans (by decide), h.2.2.2.2.2.2.2.2.2,
    h.2.2.2.2.2.2.2.2.1 (by decide) (by decide) (by decide)⟩

/-- C35: let `parse`, called on `P0` with the command line `argv`, scan the
tokens `toks` from the state `P` (the parser itself in simple mode or once a
command is selected; in multi-command mode, the parser after the command
named by the first token has been selected), and let it return.  Every
parameter the pass visits (the parameters of the groups of the active
command) that is not a flag and has a non-empty default is set afterwards,
so that `as<bool>()` returns true, whether or not a token names it.  A flag,
and a parameter with an empty default, that was not set before the call, is
not awaited and is named by no token is not set afterwards: its object is
the one before the call. -/
theorem defaults_set_after_parse (P0 P P' : Parser) (argv toks : List Str)
    (hb : (P = P0 ∧ (!P0.m_is_cmd_mode || P0.m_bypass) = true ∧ ∃ prog, argv = prog :: toks) ∨
      (∃ c cname prog, P = select P0 c ∧ P0.m_is_cmd_mode = true ∧ P0.m_bypass = false ∧
        P0.m_cmds.get cname = some c ∧ argv = prog :: cname :: toks))
    (hparse : P0.parse argv = (.ok (), P')) :
    (∀ p ∈ params_in_order P P.cur_groups,
      (P.params p).is_flag = false → (P.params p).get_def ≠ [] →
      (P'.params p).is_set = true ∧ (P'.params p).as_bool = true) ∧
    (∀ f, ((P.params f).is_flag = true ∨ (P.params f).get_def = []) →
      (P.params f).is_set = false →
      (P.m_is_param = true → P.get_current_param P.m_current ≠ some f) →
      (∀ t ∈ toks, utils.is_param t = true → P.get_current_param t ≠ some f) →
      (P'.params f).is_set = false ∧ (P'.params f).as_bool = false ∧
      P'.params f = P.params f) := by
  have hq := parse_ok_exh P0 P' argv hparse
  have hparse' : P.parse_args toks = (.ok (), P') := by
    rw [← hparse]
    rcases hb with ⟨h, hm, prog, hargv⟩ | ⟨c, cname, prog, h, hmode, hbp, hc, hargv⟩
    · rw [h, hargv]
      exact (parse_scanning P0 prog _ hq hm).symm
    · rw [h, hargv, parse_select P0 prog cname _ c hq hmode hbp hc]
      exact (parse_scanning (select P0 c) cname _ hq (select_scanning P0 c)).symm
  refine ⟨?_, ?_⟩
  · intro p hin hflag hne
    obtain ⟨Ps, hscan, _, hpass⟩ := parse_args_ok P P' _ hparse'
    have hds : SameDecl P Ps := by
      have := scan_sameDecl P toks
      rw [hscan] at this
      exact this
    have hconf := hds.conf p
    have hloop := check_consistency_ok Ps P' hpass
    rw [hds.cur_groups, params_in_order_congr hds.groups] at hloop
    have := check_params_sets_default p _ Ps P' hin hloop
      (by unfold Param.is_flag; rw [hconf.is_flag]; exact hflag)
      (by unfold Param.get_def; rw [hconf.default]; exact hne)
    exact ⟨this, this⟩
  · intro f hf hunset hA hT
    have := parse_args_keeps_skipped P toks f hf hA hT
    rw [hparse'] at this
    simp only at this
    rw [this]
    exact ⟨hunset, hunset, rfl⟩

/-- Witness of C35.  In `with_callback` the parameter `-s` has the default "20":
it is set after the parse of the empty command line and after the parse of
`-s 5`.  In the parser of `TEST(Parser, simple)` the flag `-f` is not set
after the parse of `-p 1 -t 2`.  In `with_default ""`, the parameter `-o`,
declared with the empty default, is not set after the parse of the empty
command line. -/
theorem defaults_set_after_parse_witness :
    (Scenario.with_callback.parse ["cmd".toList]).1 = .ok () ∧
    ((Scenario.with_callback.parse ["cmd".toList]).2.params 0).is_set = true ∧
    ((Scenario.with_callback.parse ["cmd".toList, "-s".toList, "5".toList]).2.params 0).as_bool
      = true ∧
    (Scenario.simple.parse
      ["cmd".toList, "-p".toList, "1".toList, "-t".toList, "2".toList]).1 = .ok () ∧
    ((Scenario.simple.parse
      ["cmd".toList, "-p".toList, "1".toList, "-t".toList, "2".toList]).2.params 2).is_set
      = false ∧
    ((Scenario.with_default []).parse ["cmd".toList]).1 = .ok () ∧
    (((Scenario.with_default []).parse ["cmd".toList]).2.params 0).is_set = false :=
  have hc := defaults_set_after_parse Scenario.with_callback Scenario.with_callback
    (Scenario.with_callback.parse ["cmd".toList]).2 ["cmd".toList] []
    (Or.inl ⟨rfl, by decide, "cmd".toList, rfl⟩) (Prod.ext rfl rfl)
  have hc5 := defaults_set_after_parse Scenario.with_callback Scenario.with_callback
    (Scenario.with_callback.parse ["cmd".toList, "-s".toList, "5".toList]).2
    ["cmd".toList, "-s".toList, "5".toList] ["-s".toList, "5".toList]
    (Or.inl ⟨rfl, by decide, "cmd".toList, rfl⟩) (Prod.ext rfl rfl)
  have hs := defaults_set_after_parse Scenario.simple Scenario.simple
    (Scenario.simple.parse
      ["cmd".toList, "-p".toList, "1".toList, "-t".toList, "2".toList]).2
    ["cmd".toList, "-p".toList, "1".toList, "-t".toList, "2".toList]
    ["-p".toList, "1".toList, "-t".toList, "2".toList]
    (Or.inl ⟨rfl, by decide, "cmd".toList, rfl⟩) (Prod.ext rfl rfl)
  have h0 := defaults_set_after_parse (Scenario.with_default []) (Scenario.with_default [])
    ((Scenario.with_default []).parse ["cmd".toList]).2 ["cmd".toList] []
    (Or.inl ⟨rfl, by decide, "cmd".toList, rfl⟩) (Prod.ext rfl rfl)
  ⟨rfl, (hc.1 0 (by decide) (by decide) (by decide)).1,
    (hc5.1 0 (by decide) (by decide) (by decide)).2, rfl,
    (hs.2 2 (Or.inl (by decide)) (by decide) (fun hh => absurd hh (by decide)) (by decide)).1,
    rfl,
    (h0.2 0 (Or.inr (by decide)) (by decide) (fun hh => absurd hh (by decide))
      (fun t ht => absurd ht (List.not_mem_nil t))).1⟩

/-- C36: a rule without checker for the other parameter, in the pass.  Let the
scan of the tokens complete, let the other parameter `d` be not a flag, have
a non-empty default, be unset when `parse` is called and be named by no
token, and let the loop of the pass get to the owner `p` (the parameters
`l1` visited before it pass), where the self checker `c` returns true on the
owner once its own default step is done.  If `d` is among the parameters
visited before `p`, its default has been applied and it is set: the
dependency rule passes and the ban rule throws `BannedError`.  If `d` is not
among them (it is visited after `p`, and is not `p`), it is still unset: the
dependency rule throws `DependsError` and the ban rule passes.  A rule of the
owner that throws makes the step of the pass on the owner, and the parse,
fail. -/
theorem rule_outcome_follows_order (P Ps Q : Parser) (toks : List Str) (l1 l2 : List Nat)
    (p d : Nat) (c : check.checker_fn_t) (msg : Str)
    (hscan : P.scan toks = (.ok (), Ps))
    (hA : P.m_is_param = true → P.get_current_param P.m_current ≠ some d)
    (hT : ∀ t ∈ toks, utils.is_param t = true → P.get_current_param t ≠ some d)
    (hflag : (P.params d).is_flag = false) (hne : (P.params d).get_def ≠ [])
    (hunset : (P.params d).is_set = false) (hpd : d ≠ p)
    (horder : params_in_order P P.cur_groups = l1 ++ p :: l2)
    (hloop : Ps.check_params l1 = (.ok (), Q))
    (hc : c ((default_step Q p).2.params p).raw ((default_step Q p).2.params p).value =
      .ok (true, msg)) :
    (d ∈ l1 →
      ((default_step Q p).2.params d).is_set = true ∧
      (default_step Q p).2.check_depends p (c, d, none) = .ok () ∧
      (default_step Q p).2.check_banned p (c, d, none) =
        .error (BannedError (utils.format_banned_errors ((default_step Q p).2.params p)
          ((default_step Q p).2.params d) msg)) ∧
      ((c, d, none) ∈ ((default_step Q p).2.params p).get_banned →
        (Q.check_param p).1 ≠ .ok () ∧ (P.parse_args toks).1 ≠ .ok ())) ∧
    (d ∉ l1 →
      ((default_step Q p).2.params d).is_set = false ∧
      (default_step Q p).2.check_depends p (c, d, none) =
        .error (DependsError (utils.format_depend_errors ((default_step Q p).2.params p)
          ((default_step Q p).2.params d) msg)) ∧
      (default_step Q p).2.check_banned p (c, d, none) = .ok () ∧
      ((c, d, none) ∈ ((default_step Q p).2.params p).get_dependency →
        (Q.check_param p).1 ≠ .ok () ∧ (P.parse_args toks).1 ≠ .ok ())) := by
  have hkeep := scan_keeps_param P d (P.params d) toks P hT ⟨sameDecl_refl P, rfl, hA⟩
  rw [hscan] at hkeep
  obtain ⟨hds, hpsd, _⟩ := hkeep
  simp only at hds hpsd
  have hstep_other : (default_step Q p).2.params d = Q.params d := by
    unfold default_step
    split
    · simp only [store_other _ _ _ _ hpd]
    · rfl
  have hfail : (Q.check_param p).1 ≠ .ok () → (P.parse_args toks).1 ≠ .ok () := by
    intro hq hok
    have hpa : P.parse_args toks = (.ok (), (P.parse_args toks).2) := Prod.ext hok rfl
    obtain ⟨Ps2, hs2, _, hpass⟩ := parse_args_ok P _ toks hpa
    rw [hscan] at hs2
    have hPs := (Prod.mk.inj hs2).2
    subst hPs
    have hl := check_consistency_ok Ps _ hpass
    rw [hds.cur_groups, params_in_order_congr hds.groups, horder] at hl
    obtain ⟨Qa, ha, hrest⟩ := check_params_append_ok l1 (p :: l2) Ps _ hl
    rw [hloop] at ha
    have hQ := (Prod.mk.inj ha).2
    subst hQ
    rw [check_params] at hrest
    cases hr : Q.check_param p with
    | mk r Pb =>
      rw [hr] at hrest hq
      cases r with
      | error e => simp at hrest
      | ok u => exact hq rfl
  refine ⟨?_, ?_⟩
  · intro hin
    have hset : ((default_step Q p).2.params d).is_set = true := by
      rw [hstep_other]
      exact check_params_sets_default d l1 Ps Q hin hloop (by rw [hpsd]; exact hflag)
        (by rw [hpsd]; exact hne)
    have hdep : (default_step Q p).2.check_depends p (c, d, none) = .ok () := by
      unfold check_depends
      simp only [hc, hset]
      rfl
    have hban : (default_step Q p).2.check_banned p (c, d, none) =
        .error (BannedError (utils.format_banned_errors ((default_step Q p).2.params p)
          ((default_step Q p).2.params d) msg)) := by
      unfold check_banned
      simp only [hc, hset]
      rfl
    refine ⟨hset, hdep, hban, ?_⟩
    intro hmem
    have hq : (Q.check_param p).1 ≠ .ok () := by
      intro hok
      have h := (check_param_ok_iff Q p).mp hok
      have := h.2.2.2 _ hmem
      rw [hban] at this
      simp at this
    exact ⟨hq, hfail hq⟩
  · intro hnin
    have hunset' : ((default_step Q p).2.params d).is_set = false := by
      rw [hstep_other]
      have := check_params_other l1 d hnin Ps
      rw [hloop] at this
      simp only at this
      rw [this, hpsd]
      exact hunset
    have hdep : (default_step Q p).2.check_depends p (c, d, none) =
        .error (DependsError (utils.format_depend_errors ((default_step Q p).2.params p)
          ((default_step Q p).2.params d) msg)) := by
      unfold check_depends
      simp only [hc, hunset']
      rfl
    have hban : (default_step Q p).2.check_banned p (c, d, none) = .ok () := by
      unfold check_banned
      simp only [hc, hunset']
      rfl
    refine ⟨hunset', hdep, hban, ?_⟩
    intro hmem
    have hq : (Q.check_param p).1 ≠ .ok () := by
      intro hok
      have h := (check_param_ok_iff Q p).mp hok
      have := h.2.2.1 _ hmem
      rw [hdep] at this
      simp at this
    exact ⟨hq, hfail hq⟩

/-- Witness of C36: the parameter `-a` depends on `-d`, which has the default
"1" and is not supplied by the command line `-a x`.  When `-d` is declared
before `-a` (`default_declared_before`) the rule passes and the parse returns;
when it is declared after `-a` (`default_declared_after`) the rule throws
`DependsError`, and taken as a ban rule it passes. -/
theorem rule_outcome_follows_order_witness :
    (Scenario.default_declared_before.parse ["cmd".toList, "-a".toList, "x".toList]).1 =
      .ok () ∧
    thrown (Scenario.default_declared_after.parse ["cmd".toList, "-a".toList, "x".toList]).1 =
      some (DependsError "-a x depends on -d ~ Check returns -> A true checker.".toList) ∧
    (default_step
      ((Scenario.default_declared_before.scan ["-a".toList, "x".toList]).2.check_params [0]).2
      1).2.check_depends 1 (check.always_true, 0, none) = .ok () ∧
    (default_step (Scenario.default_declared_after.scan ["-a".toList, "x".toList]).2
      0).2.check_banned 0 (check.always_true, 1, none) = .ok () ∧
    (Scenario.default_declared_after.parse_args ["-a".toList, "x".toList]).1 ≠ .ok () :=
  have hb := rule_outcome_follows_order Scenario.default_declared_before
    (Scenario.default_declared_before.scan ["-a".toList, "x".toList]).2
    ((Scenario.default_declared_before.scan ["-a".toList, "x".toList]).2.check_params [0]).2
    ["-a".toList, "x".toList] [0] [] 1 0 check.always_true "A true checker.".toList
    (Prod.ext rfl rfl) (fun h => absurd h (by decide)) (by decide) (by decide) (by decide)
    (by decide) (by decide) (by decide) (Prod.ext rfl rfl) rfl
  have ha := rule_outcome_follows_order Scenario.default_declared_after
    (Scenario.default_declared_after.scan ["-a".toList, "x".toList]).2
    (Scenario.default_declared_after.scan ["-a".toList, "x".toList]).2
    ["-a".toList, "x".toList] [] [1] 0 1 check.always_true "A true checker.".toList
    (Prod.ext rfl rfl) (fun h => absurd h (by decide)) (by decide) (by decide) (by decide)
    (by decide) (by decide) (by decide) rfl rfl
  ⟨rfl, rfl, (hb.1 (by decide)).2.1, (ha.2 (by decide)).2.2.1,
    ((ha.2 (by decide)).2.2.2 (List.Mem.head [])).2⟩

end Parser

end bc
